import Mathlib

/-!
# Partial-assembly diffusion and mass kernels (`fem/obilininteg.cpp`)

A shallow embedding of the sum-factorised operator-action kernels
`MultSeg`, `MultQuad`, `MultHex` of `PADiffusionIntegrator` and `PAMassIntegrator`,
of their dispatcher `AssembleVector`, of the set-up routines `ComputeBasis1d` and `ComputePA`
that build the basis tables and the D-tensor, of the constructors of `PADiffusionIntegrator`,
and of the launch abstraction `wrap` of `general/kernels.hpp`; then of the block look-ups
`findGlobalRow` and `findGlobalCol` of `linalg/blockMatrix.hpp` and of the dense kernels
`kLSolve`, `kUSolve`, `kFactor`, `DenseMatrixTranspose`, `kDet3` and `kCalcInverse3D` of
`linalg/kernels/densemat.cpp`.

* `double` is replaced by an arbitrary commutative ring `R` ("exact arithmetic").
* A buffer (`double *`) is a function `Nat → R` from flat index to content; every
  access is written with the index arithmetic the C++ performs
  (`DenseMatrix`: `data[i + j*height]`, `DenseTensor`: `tdata[i + ni*(j + nj*k)]`).
* A counted `for` loop is `forLoop`; the state it threads is made of the variables
  its body assigns.
* Local scratch buffers start zeroed; `X = 0.` clears exactly the allocated extent.
* What the code obtains from classes that are not among the sources (element transformations,
  coefficients, integration rules, the 1D basis) is a parameter: a function of the element
  index `e` and the point index `k`.
* `kFactor` compares magnitudes, so it is stated over a linearly ordered field, and `kUSolve`
  divides, so it is stated over a field; a failed `assert` ends the run without a result
  (`none`).
-/

open Finset

namespace mfem

/-- The counted loop `for (int i = 0; i < n; ++i) body`, threading the state `s`:
the body runs for `i = 0, 1, ..., n-1` in ascending order. -/
def forLoop {σ : Type} (n : Nat) (body : Nat → σ → σ) (s : σ) : σ :=
  match n with
  | 0 => s
  | m + 1 => body m (forLoop m body s)

section Defs

variable {R : Type} [CommRing R]

/-- The statement `a[i] += v`. -/
def addAt (a : Nat → R) (i : Nat) (v : R) : Nat → R :=
  fun p => if p = i then a p + v else a p

/-- The statement `a[i] = v`. -/
def setAt (a : Nat → R) (i : Nat) (v : R) : Nat → R :=
  fun p => if p = i then v else a p

/-- The statement `a[i] *= v`. -/
def mulAt (a : Nat → R) (i : Nat) (v : R) : Nat → R :=
  fun p => if p = i then a p * v else a p

/-- The assignment `X = 0.` to a vector, matrix or tensor view of `n` entries whose first
entry sits at flat index `off` of the buffer `a`. -/
def zeroFill (off n : Nat) (a : Nat → R) : Nat → R :=
  fun p => if off ≤ p ∧ p < off + n then 0 else a p

/-- A column-major dense matrix view: `data` is the buffer seen from the matrix's first
entry (`GetData()`), `height = Height()`, `width = Width()`. -/
structure DenseMatrix (R : Type) where
  data : Nat → R
  height : Nat
  width : Nat

/-- Entry access `A(i, j) = data[i + j*height]`. -/
def DenseMatrix.get (A : DenseMatrix R) (i j : Nat) : R :=
  A.data (i + j * A.height)

/-- Modelled from the spec: `DenseMatrix::MultTranspose(x, y)` of `linalg/densemat.cpp`, which is
not among the sources; it computes `y = Aᵀ·x` ("compute `Q = dshape^T · V`"), writing the
`Width()` entries of `y`. -/
def DenseMatrix.MultTranspose (A : DenseMatrix R) (x y : Nat → R) : Nat → R :=
  fun p => if p < A.width then ∑ j in range A.height, A.get j p * x j else y p

/-- Modelled from the spec: `DenseMatrix::AddMult(x, y)` of `linalg/densemat.cpp`, which is not
among the sources; it performs `y += A·x` ("compute `U += dshape · Q`") on the `Height()`
entries of the vector view `y` that starts at flat index `off` of the buffer `dst`. -/
def DenseMatrix.AddMult (A : DenseMatrix R) (x dst : Nat → R) (off : Nat) : Nat → R :=
  fun p => if off ≤ p ∧ p < off + A.height then
    dst p + ∑ k in range A.width, A.get (p - off) k * x k else dst p

/-- Modelled from the spec: `MultAtB(A, B, AtB)` of `linalg/densemat.cpp`, which is not among
the sources; it computes `AtB = Aᵀ·B` (contraction over the row index of both tables), a
`A.Width() × B.Width()` column-major matrix written at flat index `off` of the buffer `dst`. -/
def MultAtB (A B : DenseMatrix R) (dst : Nat → R) (off : Nat) : Nat → R :=
  fun p => if off ≤ p ∧ p < off + A.width * B.width then
    ∑ k in range A.height, A.get k ((p - off) % A.width) * B.get k ((p - off) / A.width)
    else dst p

/-- Modelled from the spec: `MultABt(A, B, ABt)` of `linalg/densemat.cpp`, which is not among
the sources; it computes `ABt = A·Bᵀ` (contraction over the column index of both tables), a
`A.Height() × B.Height()` column-major matrix written at flat index `off` of the buffer `dst`. -/
def MultABt (A B : DenseMatrix R) (dst : Nat → R) (off : Nat) : Nat → R :=
  fun p => if off ≤ p ∧ p < off + A.height * B.height then
    ∑ k in range A.width, A.get ((p - off) % A.height) k * B.get ((p - off) / A.height) k
    else dst p

/-- Modelled from the spec: `AddMultABt(A, B, ABt)` of `linalg/densemat.cpp`, which is not among
the sources; it performs `ABt += A·Bᵀ` ("accumulating into the output with `+=` semantics") on
the `A.Height() × B.Height()` column-major view at flat index `off` of the buffer `dst`. -/
def AddMultABt (A B : DenseMatrix R) (dst : Nat → R) (off : Nat) : Nat → R :=
  fun p => if off ≤ p ∧ p < off + A.height * B.height then
    dst p + ∑ k in range A.width, A.get ((p - off) % A.height) k * B.get ((p - off) / A.height) k
    else dst p

/-- The members of `PADiffusionIntegrator` the kernels read. `NE = fes->GetNE()`,
`dofs = fe->GetDof()`, `quads = IntRule->GetNPoints()`, and `Dtensor e` is the flat data
`Dtensor(e).GetData()` of the `entries × quads` matrix of element `e`. -/
structure PADiffusionIntegrator (R : Type) where
  NE : Nat
  vdim : Nat
  dim : Int
  dofs : Nat
  quads : Nat
  shape1d : DenseMatrix R
  dshape1d : DenseMatrix R
  Dtensor : Nat → Nat → R

/-- The members of `PAMassIntegrator` the kernels read; `Dmat` is the `quads × NE`
column-major matrix of per-point scalars, `Dmat.GetColumn(e)[k] = Dmat(k, e)`. -/
structure PAMassIntegrator (R : Type) where
  NE : Nat
  vdim : Nat
  dim : Int
  dofs : Nat
  quads : Nat
  shape1d : DenseMatrix R
  Dmat : DenseMatrix R

/-- Modelled from the spec: `DenseMatrix::GetColumn(e)` of `linalg/densemat.hpp`, which is not
among the sources: the buffer seen from the first entry of column `e`. -/
def DenseMatrix.GetColumn (A : DenseMatrix R) (e : Nat) : Nat → R :=
  fun k => A.data (k + e * A.height)

/-- Variables of `MultSeg`: the running `offset`, the scratch vector `Q(quads1d)` and the
output E-vector `U`. -/
structure SegState (R : Type) where
  offset : Nat
  Q : Nat → R
  U : Nat → R

/-- Variables of `MultQuad`: the running `offset`, the scratch `QQ` (a `quads1d × quads1d × dim`
tensor for diffusion, a `quads1d × quads1d` matrix for mass), the scratch matrix
`DQ(dofs1d, quads1d)` and the output E-vector `U`. -/
structure QuadState (R : Type) where
  offset : Nat
  QQ : Nat → R
  DQ : Nat → R
  U : Nat → R

/-- Variables of `MultHex`: the running `offset`, the scratch arrays `Q`, `QQ`, `QQQ`
(`QQQmem` for diffusion) and the output E-vector `U`. -/
structure HexState (R : Type) where
  offset : Nat
  Q : Nat → R
  QQ : Nat → R
  QQQ : Nat → R
  U : Nat → R

/-! ### `PADiffusionIntegrator::MultSeg` (lines 171-204) -/

/-- One `(e, vd)` unit of work of `PADiffusionIntegrator::MultSeg` (the body of the two outer
loops, lines 184-201). -/
def PADiffusionIntegrator.MultSegUnit (I : PADiffusionIntegrator R) (V : Nat → R) (e : Nat)
    (s : SegState R) : SegState R :=
  let dofs1d := I.shape1d.height
  let quads1d := I.shape1d.width
  let quads := quads1d
  -- Vmat(V.GetData() + offset, dofs1d); dshape1d.MultTranspose(Vmat, Q)
  let Q := I.dshape1d.MultTranspose (fun j => V (s.offset + j)) s.Q
  -- for k < quads: data_q[k] *= data_d[k]
  let Q := forLoop quads (fun k Q => mulAt Q k (I.Dtensor e k)) Q
  -- Umat(U.GetData() + offset, dofs1d); dshape1d.AddMult(Q, Umat)
  let U := I.dshape1d.AddMult Q s.U s.offset
  { offset := s.offset + dofs1d, Q := Q, U := U }

/-- The kernel `PADiffusionIntegrator::MultSeg(V, U)`; the result is the final content of `U`. -/
def PADiffusionIntegrator.MultSeg (I : PADiffusionIntegrator R) (V U : Nat → R) : Nat → R :=
  (forLoop I.NE (fun e s => forLoop I.vdim (fun _ s => I.MultSegUnit V e s) s)
    { offset := 0, Q := fun _ => 0, U := U }).U

/-! ### `PADiffusionIntegrator::MultQuad` (lines 207-270) -/

/-- The body of the loop of lines 243-254 at point `k`: the symmetric 2×2 tensor
`(D00, D01, D11)` is applied to the pair `(data_qq[0*quads + k], data_qq[1*quads + k])`. -/
def PADiffusionIntegrator.applyD2Step (quads : Nat) (data_d : Nat → R) (k : Nat)
    (data_qq : Nat → R) : Nat → R :=
  let dim := 2
  let terms := dim * (dim + 1) / 2
  let D00 := data_d (terms * k + 0)
  let D01 := data_d (terms * k + 1)
  let D11 := data_d (terms * k + 2)
  let q0 := data_qq (0 * quads + k)
  let q1 := data_qq (1 * quads + k)
  let data_qq := setAt data_qq (0 * quads + k) (D00 * q0 + D01 * q1)
  setAt data_qq (1 * quads + k) (D01 * q0 + D11 * q1)

/-- The loop `for (int k = 0; k < quads; ++k)` of lines 243-254. -/
def PADiffusionIntegrator.applyD2 (quads : Nat) (data_d : Nat → R) (QQ : Nat → R) : Nat → R :=
  forLoop quads (PADiffusionIntegrator.applyD2Step quads data_d) QQ

/-- Lines 226-237 of `PADiffusionIntegrator::MultQuad`: the forward contractions
`V -> QQ(0), QQ(1)`. `QQ(c)` is the `quads1d × quads1d` matrix at flat index
`c * quads1d * quads1d` of the tensor `QQ`. -/
def PADiffusionIntegrator.quadForward (I : PADiffusionIntegrator R) (V : Nat → R)
    (s : QuadState R) : QuadState R :=
  let dofs1d := I.shape1d.height
  let quads1d := I.shape1d.width
  let Vmat : DenseMatrix R := ⟨fun p => V (s.offset + p), dofs1d, dofs1d⟩
  -- MultAtB(Vmat, dshape1d, DQ); MultAtB(DQ, shape1d, QQ(0))
  let DQ := MultAtB Vmat I.dshape1d s.DQ 0
  let QQ := MultAtB ⟨DQ, dofs1d, quads1d⟩ I.shape1d s.QQ (0 * (quads1d * quads1d))
  -- MultAtB(Vmat, shape1d, DQ); MultAtB(DQ, dshape1d, QQ(1))
  let DQ := MultAtB Vmat I.shape1d DQ 0
  let QQ := MultAtB ⟨DQ, dofs1d, quads1d⟩ I.dshape1d QQ (1 * (quads1d * quads1d))
  { s with QQ := QQ, DQ := DQ }

/-- Lines 256-264 of `PADiffusionIntegrator::MultQuad`: the backward contractions
`QQ(0), QQ(1) -> U`, both accumulated into `Umat`. -/
def PADiffusionIntegrator.quadBackward (I : PADiffusionIntegrator R) (s : QuadState R) :
    QuadState R :=
  let dofs1d := I.shape1d.height
  let quads1d := I.shape1d.width
  let QQat (c : Nat) : DenseMatrix R :=
    ⟨fun p => s.QQ (c * (quads1d * quads1d) + p), quads1d, quads1d⟩
  -- MultABt(shape1d, QQ(0), DQ); AddMultABt(dshape1d, DQ, Umat)
  let DQ := MultABt I.shape1d (QQat 0) s.DQ 0
  let U := AddMultABt I.dshape1d ⟨DQ, dofs1d, quads1d⟩ s.U s.offset
  -- MultABt(dshape1d, QQ(1), DQ); AddMultABt(shape1d, DQ, Umat)
  let DQ := MultABt I.dshape1d (QQat 1) DQ 0
  let U := AddMultABt I.shape1d ⟨DQ, dofs1d, quads1d⟩ U s.offset
  { s with DQ := DQ, U := U }

/-- One `(e, vd)` unit of work of `PADiffusionIntegrator::MultQuad` (lines 226-267). -/
def PADiffusionIntegrator.MultQuadUnit (I : PADiffusionIntegrator R) (V : Nat → R) (e : Nat)
    (s : QuadState R) : QuadState R :=
  let dofs := I.dofs
  let quads := I.quads
  let s := I.quadForward V s
  -- data_qq = QQ(0).GetData(); data_d = Dtensor(e).GetData(); for k < quads ...
  let s := { s with QQ := PADiffusionIntegrator.applyD2 quads (I.Dtensor e) s.QQ }
  let s := I.quadBackward s
  { s with offset := s.offset + dofs }

/-- The kernel `PADiffusionIntegrator::MultQuad(V, U)`; the result is the final content of `U`. -/
def PADiffusionIntegrator.MultQuad (I : PADiffusionIntegrator R) (V U : Nat → R) : Nat → R :=
  (forLoop I.NE (fun e s => forLoop I.vdim (fun _ s => I.MultQuadUnit V e s) s)
    { offset := 0, QQ := fun _ => 0, DQ := fun _ => 0, U := U }).U

/-! ### `PADiffusionIntegrator::MultHex` (lines 272-396)

`Q` is `DenseMatrix Q(quads1d, dim)`, `QQ` is `DenseTensor QQ(quads1d, quads1d, dim)` and `QQQ`
is the buffer `QQQmem`, in which `QQQc` is the `quads1d³` tensor view at flat index
`c * quads`. -/

/-- Lines 310-317: `Q(k1,0) += Vmat(j1,j2,j3)*dshape1d(j1,k1)`,
`Q(k1,1) += Vmat(j1,j2,j3)*shape1d(j1,k1)` for all `j1`, `k1`. -/
def PADiffusionIntegrator.hexForwardQ (I : PADiffusionIntegrator R) (V : Nat → R)
    (offset j2 j3 : Nat) (Q : Nat → R) : Nat → R :=
  let dofs1d := I.shape1d.height
  let quads1d := I.shape1d.width
  forLoop dofs1d (fun j1 Q =>
    forLoop quads1d (fun k1 Q =>
      let Vmat := V (offset + (j1 + dofs1d * (j2 + dofs1d * j3)))
      let Q := addAt Q (k1 + 0 * quads1d) (Vmat * I.dshape1d.get j1 k1)
      addAt Q (k1 + 1 * quads1d) (Vmat * I.shape1d.get j1 k1)) Q) Q

/-- Lines 318-324: the contraction of `Q` along the second axis into `QQ`. -/
def PADiffusionIntegrator.hexForwardQQ (I : PADiffusionIntegrator R) (j2 : Nat)
    (Q QQ : Nat → R) : Nat → R :=
  let quads1d := I.shape1d.width
  forLoop quads1d (fun k2 QQ =>
    forLoop quads1d (fun k1 QQ =>
      let QQ := addAt QQ (k1 + quads1d * (k2 + quads1d * 0))
        (Q (k1 + 0 * quads1d) * I.shape1d.get j2 k2)
      let QQ := addAt QQ (k1 + quads1d * (k2 + quads1d * 1))
        (Q (k1 + 1 * quads1d) * I.dshape1d.get j2 k2)
      addAt QQ (k1 + quads1d * (k2 + quads1d * 2))
        (Q (k1 + 1 * quads1d) * I.shape1d.get j2 k2)) QQ) QQ

/-- Lines 326-333: the contraction of `QQ` along the third axis into `QQQ0`, `QQQ1`, `QQQ2`. -/
def PADiffusionIntegrator.hexForwardQQQ (I : PADiffusionIntegrator R) (j3 : Nat)
    (QQ QQQ : Nat → R) : Nat → R :=
  let quads := I.quads
  let quads1d := I.shape1d.width
  forLoop quads1d (fun k3 QQQ =>
    forLoop quads1d (fun k2 QQQ =>
      forLoop quads1d (fun k1 QQQ =>
        let QQQ := addAt QQQ (0 * quads + (k1 + quads1d * (k2 + quads1d * k3)))
          (QQ (k1 + quads1d * (k2 + quads1d * 0)) * I.shape1d.get j3 k3)
        let QQQ := addAt QQQ (1 * quads + (k1 + quads1d * (k2 + quads1d * k3)))
          (QQ (k1 + quads1d * (k2 + quads1d * 1)) * I.shape1d.get j3 k3)
        addAt QQQ (2 * quads + (k1 + quads1d * (k2 + quads1d * k3)))
          (QQ (k1 + quads1d * (k2 + quads1d * 2)) * I.dshape1d.get j3 k3)) QQQ) QQQ) QQQ

/-- The body of the `j2` loop of the forward pass (lines 309-324). -/
def PADiffusionIntegrator.hexForwardJ2 (I : PADiffusionIntegrator R) (V : Nat → R)
    (j3 j2 : Nat) (s : HexState R) : HexState R :=
  let quads1d := I.shape1d.width
  let dim := 3
  -- Q = 0.;
  let Q := zeroFill 0 (quads1d * dim) s.Q
  let Q := I.hexForwardQ V s.offset j2 j3 Q
  let QQ := I.hexForwardQQ j2 Q s.QQ
  { s with Q := Q, QQ := QQ }

/-- The body of the `j3` loop of the forward pass (lines 306-333). -/
def PADiffusionIntegrator.hexForwardJ3 (I : PADiffusionIntegrator R) (V : Nat → R)
    (j3 : Nat) (s : HexState R) : HexState R :=
  let dofs1d := I.shape1d.height
  let quads1d := I.shape1d.width
  let dim := 3
  -- QQ = 0.;
  let s := { s with QQ := zeroFill 0 (quads1d * quads1d * dim) s.QQ }
  let s := forLoop dofs1d (I.hexForwardJ2 V j3) s
  { s with QQQ := I.hexForwardQQQ j3 s.QQ s.QQQ }

/-- Lines 303-334: the forward pass `V -> QQQ0, QQQ1, QQQ2`. -/
def PADiffusionIntegrator.hexForward (I : PADiffusionIntegrator R) (V : Nat → R)
    (s : HexState R) : HexState R :=
  let quads := I.quads
  let dofs1d := I.shape1d.height
  let quads1d := I.shape1d.width
  -- QQQ0 = 0.; QQQ1 = 0.; QQQ2 = 0.;
  let QQQ := zeroFill (0 * quads) (quads1d * quads1d * quads1d) s.QQQ
  let QQQ := zeroFill (1 * quads) (quads1d * quads1d * quads1d) QQQ
  let QQQ := zeroFill (2 * quads) (quads1d * quads1d * quads1d) QQQ
  forLoop dofs1d (I.hexForwardJ3 V) { s with QQQ := QQQ }

/-- The body of the loop of lines 339-355 at point `k`: the symmetric 3×3 tensor with stored
entries `(D00, D01, D02, D11, D12, D22)` is applied to the triple
`(data_qqq[0*quads + k], data_qqq[1*quads + k], data_qqq[2*quads + k])`. -/
def PADiffusionIntegrator.applyD3Step (quads : Nat) (data_d : Nat → R) (k : Nat)
    (data_qqq : Nat → R) : Nat → R :=
  let dim := 3
  let terms := dim * (dim + 1) / 2
  let D00 := data_d (terms * k + 0)
  let D01 := data_d (terms * k + 1)
  let D02 := data_d (terms * k + 2)
  let D11 := data_d (terms * k + 3)
  let D12 := data_d (terms * k + 4)
  let D22 := data_d (terms * k + 5)
  let q0 := data_qqq (0 * quads + k)
  let q1 := data_qqq (1 * quads + k)
  let q2 := data_qqq (2 * quads + k)
  let data_qqq := setAt data_qqq (0 * quads + k) (D00 * q0 + D01 * q1 + D02 * q2)
  let data_qqq := setAt data_qqq (1 * quads + k) (D01 * q0 + D11 * q1 + D12 * q2)
  setAt data_qqq (2 * quads + k) (D02 * q0 + D12 * q1 + D22 * q2)

/-- The loop `for (int k = 0; k < quads; ++k)` of lines 339-355. -/
def PADiffusionIntegrator.applyD3 (quads : Nat) (data_d : Nat → R) (QQQ : Nat → R) : Nat → R :=
  forLoop quads (PADiffusionIntegrator.applyD3Step quads data_d) QQQ

/-- Lines 364-372: `Q(i1,0) += QQQ0(k1,k2,k3)*dshape1d(i1,k1)`,
`Q(i1,1) += QQQ1(k1,k2,k3)*shape1d(i1,k1)`, `Q(i1,2) += QQQ2(k1,k2,k3)*shape1d(i1,k1)`. -/
def PADiffusionIntegrator.hexBackwardQ (I : PADiffusionIntegrator R) (k2 k3 : Nat)
    (QQQ Q : Nat → R) : Nat → R :=
  let quads := I.quads
  let dofs1d := I.shape1d.height
  let quads1d := I.shape1d.width
  forLoop quads1d (fun k1 Q =>
    forLoop dofs1d (fun i1 Q =>
      let Q := addAt Q (i1 + 0 * quads1d)
        (QQQ (0 * quads + (k1 + quads1d * (k2 + quads1d * k3))) * I.dshape1d.get i1 k1)
      let Q := addAt Q (i1 + 1 * quads1d)
        (QQQ (1 * quads + (k1 + quads1d * (k2 + quads1d * k3))) * I.shape1d.get i1 k1)
      addAt Q (i1 + 2 * quads1d)
        (QQQ (2 * quads + (k1 + quads1d * (k2 + quads1d * k3))) * I.shape1d.get i1 k1)) Q) Q

/-- Lines 373-379: the contraction of `Q` back along the second axis into `QQ`. -/
def PADiffusionIntegrator.hexBackwardQQ (I : PADiffusionIntegrator R) (k2 : Nat)
    (Q QQ : Nat → R) : Nat → R :=
  let dofs1d := I.shape1d.height
  let quads1d := I.shape1d.width
  forLoop dofs1d (fun i2 QQ =>
    forLoop dofs1d (fun i1 QQ =>
      let QQ := addAt QQ (i1 + quads1d * (i2 + quads1d * 0))
        (Q (i1 + 0 * quads1d) * I.shape1d.get i2 k2)
      let QQ := addAt QQ (i1 + quads1d * (i2 + quads1d * 1))
        (Q (i1 + 1 * quads1d) * I.dshape1d.get i2 k2)
      addAt QQ (i1 + quads1d * (i2 + quads1d * 2))
        (Q (i1 + 2 * quads1d) * I.shape1d.get i2 k2)) QQ) QQ

/-- Lines 381-389: `Umat(i1,i2,i3) += QQ(i1,i2,0)*shape1d(i3,k3) + QQ(i1,i2,1)*shape1d(i3,k3)
+ QQ(i1,i2,2)*dshape1d(i3,k3)`. -/
def PADiffusionIntegrator.hexBackwardU (I : PADiffusionIntegrator R) (offset k3 : Nat)
    (QQ U : Nat → R) : Nat → R :=
  let dofs1d := I.shape1d.height
  let quads1d := I.shape1d.width
  forLoop dofs1d (fun i3 U =>
    forLoop dofs1d (fun i2 U =>
      forLoop dofs1d (fun i1 U =>
        addAt U (offset + (i1 + dofs1d * (i2 + dofs1d * i3)))
          (QQ (i1 + quads1d * (i2 + quads1d * 0)) * I.shape1d.get i3 k3 +
           QQ (i1 + quads1d * (i2 + quads1d * 1)) * I.shape1d.get i3 k3 +
           QQ (i1 + quads1d * (i2 + quads1d * 2)) * I.dshape1d.get i3 k3)) U) U) U

/-- The body of the `k2` loop of the backward pass (lines 363-379). -/
def PADiffusionIntegrator.hexBackwardK2 (I : PADiffusionIntegrator R) (k3 k2 : Nat)
    (s : HexState R) : HexState R :=
  let quads1d := I.shape1d.width
  let dim := 3
  -- Q = 0.;
  let Q := zeroFill 0 (quads1d * dim) s.Q
  let Q := I.hexBackwardQ k2 k3 s.QQQ Q
  let QQ := I.hexBackwardQQ k2 Q s.QQ
  { s with Q := Q, QQ := QQ }

/-- The body of the `k3` loop of the backward pass (lines 360-389). -/
def PADiffusionIntegrator.hexBackwardK3 (I : PADiffusionIntegrator R) (k3 : Nat)
    (s : HexState R) : HexState R :=
  let quads1d := I.shape1d.width
  let dim := 3
  -- QQ = 0.;
  let s := { s with QQ := zeroFill 0 (quads1d * quads1d * dim) s.QQ }
  let s := forLoop quads1d (I.hexBackwardK2 k3) s
  { s with U := I.hexBackwardU s.offset k3 s.QQ s.U }

/-- Lines 358-390: the backward pass `QQQ0, QQQ1, QQQ2 -> U`. -/
def PADiffusionIntegrator.hexBackward (I : PADiffusionIntegrator R) (s : HexState R) :
    HexState R :=
  let quads1d := I.shape1d.width
  forLoop quads1d I.hexBackwardK3 s

/-- One `(e, vd)` unit of work of `PADiffusionIntegrator::MultHex` (lines 297-393). -/
def PADiffusionIntegrator.MultHexUnit (I : PADiffusionIntegrator R) (V : Nat → R) (e : Nat)
    (s : HexState R) : HexState R :=
  let dofs := I.dofs
  let quads := I.quads
  let s := I.hexForward V s
  -- data_d = Dtensor(e).GetData(); for k < quads ...
  let s := { s with QQQ := PADiffusionIntegrator.applyD3 quads (I.Dtensor e) s.QQQ }
  let s := I.hexBackward s
  { s with offset := s.offset + dofs }

/-- The kernel `PADiffusionIntegrator::MultHex(V, U)`; the result is the final content of `U`. -/
def PADiffusionIntegrator.MultHex (I : PADiffusionIntegrator R) (V U : Nat → R) : Nat → R :=
  (forLoop I.NE (fun e s => forLoop I.vdim (fun _ s => I.MultHexUnit V e s) s)
    { offset := 0, Q := fun _ => 0, QQ := fun _ => 0, QQQ := fun _ => 0, U := U }).U

/-! ### `PAMassIntegrator::MultSeg` (lines 457-487) -/

/-- One `(e, vd)` unit of work of `PAMassIntegrator::MultSeg` (lines 470-484). -/
def PAMassIntegrator.MultSegUnit (I : PAMassIntegrator R) (V : Nat → R) (e : Nat)
    (s : SegState R) : SegState R :=
  let dofs1d := I.shape1d.height
  let quads1d := I.shape1d.width
  let quads := quads1d
  -- Vmat(V.GetData() + offset, dofs1d); shape1d.MultTranspose(Vmat, Q)
  let Q := I.shape1d.MultTranspose (fun j => V (s.offset + j)) s.Q
  -- data_d = Dmat.GetColumn(e); for k < quads: data_q[k] *= data_d[k]
  let data_d := I.Dmat.GetColumn e
  let Q := forLoop quads (fun k Q => mulAt Q k (data_d k)) Q
  -- Umat(U.GetData() + offset, dofs1d); shape1d.AddMult(Q, Umat)
  let U := I.shape1d.AddMult Q s.U s.offset
  { offset := s.offset + dofs1d, Q := Q, U := U }

/-- The kernel `PAMassIntegrator::MultSeg(V, U)`; the result is the final content of `U`. -/
def PAMassIntegrator.MultSeg (I : PAMassIntegrator R) (V U : Nat → R) : Nat → R :=
  (forLoop I.NE (fun e s => forLoop I.vdim (fun _ s => I.MultSegUnit V e s) s)
    { offset := 0, Q := fun _ => 0, U := U }).U

/-! ### `PAMassIntegrator::MultQuad` (lines 489-528) -/

/-- Lines 505-511 of `PAMassIntegrator::MultQuad`: the forward contraction `V -> QQ`. -/
def PAMassIntegrator.quadForward (I : PAMassIntegrator R) (V : Nat → R)
    (s : QuadState R) : QuadState R :=
  let dofs1d := I.shape1d.height
  let quads1d := I.shape1d.width
  let Vmat : DenseMatrix R := ⟨fun p => V (s.offset + p), dofs1d, dofs1d⟩
  -- MultAtB(Vmat, shape1d, DQ); MultAtB(DQ, shape1d, QQ)
  let DQ := MultAtB Vmat I.shape1d s.DQ 0
  let QQ := MultAtB ⟨DQ, dofs1d, quads1d⟩ I.shape1d s.QQ 0
  { s with QQ := QQ, DQ := DQ }

/-- Lines 519-522 of `PAMassIntegrator::MultQuad`: the backward contraction `QQ -> U`. -/
def PAMassIntegrator.quadBackward (I : PAMassIntegrator R) (s : QuadState R) : QuadState R :=
  let dofs1d := I.shape1d.height
  let quads1d := I.shape1d.width
  -- MultABt(shape1d, QQ, DQ); AddMultABt(shape1d, DQ, Umat)
  let DQ := MultABt I.shape1d ⟨s.QQ, quads1d, quads1d⟩ s.DQ 0
  let U := AddMultABt I.shape1d ⟨DQ, dofs1d, quads1d⟩ s.U s.offset
  { s with DQ := DQ, U := U }

/-- One `(e, vd)` unit of work of `PAMassIntegrator::MultQuad` (lines 505-525). -/
def PAMassIntegrator.MultQuadUnit (I : PAMassIntegrator R) (V : Nat → R) (e : Nat)
    (s : QuadState R) : QuadState R :=
  let dofs := I.dofs
  let quads := I.quads
  let s := I.quadForward V s
  -- data_qq = QQ.GetData(); data_d = Dmat.GetColumn(e); for k < quads: data_qq[k] *= data_d[k]
  let data_d := I.Dmat.GetColumn e
  let s := { s with QQ := forLoop quads (fun k data_qq => mulAt data_qq k (data_d k)) s.QQ }
  let s := I.quadBackward s
  { s with offset := s.offset + dofs }

/-- The kernel `PAMassIntegrator::MultQuad(V, U)`; the result is the final content of `U`. -/
def PAMassIntegrator.MultQuad (I : PAMassIntegrator R) (V U : Nat → R) : Nat → R :=
  (forLoop I.NE (fun e s => forLoop I.vdim (fun _ s => I.MultQuadUnit V e s) s)
    { offset := 0, QQ := fun _ => 0, DQ := fun _ => 0, U := U }).U

/-! ### `PAMassIntegrator::MultHex` (lines 530-617)

`Q` is `Vector Q(quads1d)`, `QQ` is `DenseMatrix QQ(quads1d, quads1d)` and `QQQ` is
`DenseTensor QQQ(quads1d, quads1d, quads1d)`. -/

/-- Lines 558-564: `Q(k1) += Vmat(j1,j2,j3)*shape1d(j1,k1)` for all `j1`, `k1`. -/
def PAMassIntegrator.hexForwardQ (I : PAMassIntegrator R) (V : Nat → R)
    (offset j2 j3 : Nat) (Q : Nat → R) : Nat → R :=
  let dofs1d := I.shape1d.height
  let quads1d := I.shape1d.width
  forLoop dofs1d (fun j1 Q =>
    forLoop quads1d (fun k1 Q =>
      addAt Q k1 (V (offset + (j1 + dofs1d * (j2 + dofs1d * j3))) * I.shape1d.get j1 k1)) Q) Q

/-- Lines 565-569: `QQ(k1,k2) += Q(k1)*shape1d(j2,k2)`. -/
def PAMassIntegrator.hexForwardQQ (I : PAMassIntegrator R) (j2 : Nat)
    (Q QQ : Nat → R) : Nat → R :=
  let quads1d := I.shape1d.width
  forLoop quads1d (fun k2 QQ =>
    forLoop quads1d (fun k1 QQ =>
      addAt QQ (k1 + k2 * quads1d) (Q k1 * I.shape1d.get j2 k2)) QQ) QQ

/-- Lines 571-576: `QQQ(k1,k2,k3) += QQ(k1,k2)*shape1d(j3,k3)`. -/
def PAMassIntegrator.hexForwardQQQ (I : PAMassIntegrator R) (j3 : Nat)
    (QQ QQQ : Nat → R) : Nat → R :=
  let quads1d := I.shape1d.width
  forLoop quads1d (fun k3 QQQ =>
    forLoop quads1d (fun k2 QQQ =>
      forLoop quads1d (fun k1 QQQ =>
        addAt QQQ (k1 + quads1d * (k2 + quads1d * k3))
          (QQ (k1 + k2 * quads1d) * I.shape1d.get j3 k3)) QQQ) QQQ) QQQ

/-- The body of the `j2` loop of the forward pass (lines 557-569). -/
def PAMassIntegrator.hexForwardJ2 (I : PAMassIntegrator R) (V : Nat → R)
    (j3 j2 : Nat) (s : HexState R) : HexState R :=
  let quads1d := I.shape1d.width
  -- Q = 0.;
  let Q := zeroFill 0 quads1d s.Q
  let Q := I.hexForwardQ V s.offset j2 j3 Q
  let QQ := I.hexForwardQQ j2 Q s.QQ
  { s with Q := Q, QQ := QQ }

/-- The body of the `j3` loop of the forward pass (lines 554-576). -/
def PAMassIntegrator.hexForwardJ3 (I : PAMassIntegrator R) (V : Nat → R)
    (j3 : Nat) (s : HexState R) : HexState R :=
  let dofs1d := I.shape1d.height
  let quads1d := I.shape1d.width
  -- QQ = 0.;
  let s := { s with QQ := zeroFill 0 (quads1d * quads1d) s.QQ }
  let s := forLoop dofs1d (I.hexForwardJ2 V j3) s
  { s with QQQ := I.hexForwardQQQ j3 s.QQ s.QQQ }

/-- Lines 551-577: the forward pass `V -> QQQ`. -/
def PAMassIntegrator.hexForward (I : PAMassIntegrator R) (V : Nat → R)
    (s : HexState R) : HexState R :=
  let dofs1d := I.shape1d.height
  let quads1d := I.shape1d.width
  -- QQQ = 0.;
  let QQQ := zeroFill 0 (quads1d * quads1d * quads1d) s.QQQ
  forLoop dofs1d (I.hexForwardJ3 V) { s with QQQ := QQQ }

/-- Lines 592-598: `Q(i1) += QQQ(k1,k2,k3)*shape1d(i1,k1)`. -/
def PAMassIntegrator.hexBackwardQ (I : PAMassIntegrator R) (k2 k3 : Nat)
    (QQQ Q : Nat → R) : Nat → R :=
  let dofs1d := I.shape1d.height
  let quads1d := I.shape1d.width
  forLoop quads1d (fun k1 Q =>
    forLoop dofs1d (fun i1 Q =>
      addAt Q i1 (QQQ (k1 + quads1d * (k2 + quads1d * k3)) * I.shape1d.get i1 k1)) Q) Q

/-- Lines 599-603: `QQ(i1,i2) += Q(i1)*shape1d(i2,k2)`. -/
def PAMassIntegrator.hexBackwardQQ (I : PAMassIntegrator R) (k2 : Nat)
    (Q QQ : Nat → R) : Nat → R :=
  let dofs1d := I.shape1d.height
  let quads1d := I.shape1d.width
  forLoop dofs1d (fun i2 QQ =>
    forLoop dofs1d (fun i1 QQ =>
      addAt QQ (i1 + i2 * quads1d) (Q i1 * I.shape1d.get i2 k2)) QQ) QQ

/-- Lines 605-610: `Umat(i1,i2,i3) += shape1d(i3,k3)*QQ(i1,i2)`. -/
def PAMassIntegrator.hexBackwardU (I : PAMassIntegrator R) (offset k3 : Nat)
    (QQ U : Nat → R) : Nat → R :=
  let dofs1d := I.shape1d.height
  let quads1d := I.shape1d.width
  forLoop dofs1d (fun i3 U =>
    forLoop dofs1d (fun i2 U =>
      forLoop dofs1d (fun i1 U =>
        addAt U (offset + (i1 + dofs1d * (i2 + dofs1d * i3)))
          (I.shape1d.get i3 k3 * QQ (i1 + i2 * quads1d))) U) U) U

/-- The body of the `k2` loop of the backward pass (lines 591-603). -/
def PAMassIntegrator.hexBackwardK2 (I : PAMassIntegrator R) (k3 k2 : Nat)
    (s : HexState R) : HexState R :=
  let quads1d := I.shape1d.width
  -- Q = 0.;
  let Q := zeroFill 0 quads1d s.Q
  let Q := I.hexBackwardQ k2 k3 s.QQQ Q
  let QQ := I.hexBackwardQQ k2 Q s.QQ
  { s with Q := Q, QQ := QQ }

/-- The body of the `k3` loop of the backward pass (lines 588-610). -/
def PAMassIntegrator.hexBackwardK3 (I : PAMassIntegrator R) (k3 : Nat)
    (s : HexState R) : HexState R :=
  let quads1d := I.shape1d.width
  -- QQ = 0.;
  let s := { s with QQ := zeroFill 0 (quads1d * quads1d) s.QQ }
  let s := forLoop quads1d (I.hexBackwardK2 k3) s
  { s with U := I.hexBackwardU s.offset k3 s.QQ s.U }

/-- Lines 586-611: the backward pass `QQQ -> U`. -/
def PAMassIntegrator.hexBackward (I : PAMassIntegrator R) (s : HexState R) : HexState R :=
  let quads1d := I.shape1d.width
  forLoop quads1d I.hexBackwardK3 s

/-- One `(e, vd)` unit of work of `PAMassIntegrator::MultHex` (lines 547-614). -/
def PAMassIntegrator.MultHexUnit (I : PAMassIntegrator R) (V : Nat → R) (e : Nat)
    (s : HexState R) : HexState R :=
  let dofs := I.dofs
  let quads := I.quads
  let s := I.hexForward V s
  -- data_qqq = QQQ.GetData(0); data_d = Dmat.GetColumn(e); for k < quads: data_qqq[k] *= data_d[k]
  let data_d := I.Dmat.GetColumn e
  let s := { s with QQQ := forLoop quads (fun k data_qqq => mulAt data_qqq k (data_d k)) s.QQQ }
  let s := I.hexBackward s
  { s with offset := s.offset + dofs }

/-- The kernel `PAMassIntegrator::MultHex(V, U)`; the result is the final content of `U`. -/
def PAMassIntegrator.MultHex (I : PAMassIntegrator R) (V U : Nat → R) : Nat → R :=
  (forLoop I.NE (fun e s => forLoop I.vdim (fun _ s => I.MultHexUnit V e s) s)
    { offset := 0, Q := fun _ => 0, QQ := fun _ => 0, QQQ := fun _ => 0, U := U }).U

/-! ### Brute-force element operators, as the specification states them -/

namespace Dense

/-- The 1D operator `T · diag(D) · Tᵀ · V` at dof `i`:
`∑ k, T(i,k) * D(k) * (∑ j, T(j,k) * V(j))`, for a `dofs1d × quads1d` table `T`
(`T = dshape` for diffusion, `T = shape` for mass). -/
def seg (dofs1d quads1d : Nat) (T : Nat → Nat → R) (D V : Nat → R) (i : Nat) : R :=
  ∑ k in range quads1d, T i k * D k * ∑ j in range dofs1d, T j k * V j

/-- The 2D diffusion operator `Gᵀ D G · V` at dof `(i1, i2)`, with point `k = k1 + quads1d*k2`:
`∑ (k1,k2), [dshape(i1,k1)*shape(i2,k2)*(D00*g0 + D01*g1)
            + shape(i1,k1)*dshape(i2,k2)*(D01*g0 + D11*g1)]`, where
`g0(k1,k2) = ∑ (j1,j2), V(j1,j2)*dshape(j1,k1)*shape(j2,k2)` and
`g1(k1,k2) = ∑ (j1,j2), V(j1,j2)*shape(j1,k1)*dshape(j2,k2)`. -/
def diffusionQuad (dofs1d quads1d : Nat) (shape dshape : Nat → Nat → R)
    (D00 D01 D11 : Nat → R) (V : Nat → Nat → R) (i1 i2 : Nat) : R :=
  let g0 := fun k1 k2 =>
    ∑ j1 in range dofs1d, ∑ j2 in range dofs1d, V j1 j2 * dshape j1 k1 * shape j2 k2
  let g1 := fun k1 k2 =>
    ∑ j1 in range dofs1d, ∑ j2 in range dofs1d, V j1 j2 * shape j1 k1 * dshape j2 k2
  ∑ k1 in range quads1d, ∑ k2 in range quads1d,
    (dshape i1 k1 * shape i2 k2 *
        (D00 (k1 + quads1d * k2) * g0 k1 k2 + D01 (k1 + quads1d * k2) * g1 k1 k2) +
      shape i1 k1 * dshape i2 k2 *
        (D01 (k1 + quads1d * k2) * g0 k1 k2 + D11 (k1 + quads1d * k2) * g1 k1 k2))

/-- The 2D mass operator `Bᵀ diag(D) B · V` at dof `(i1, i2)`, with point `k = k1 + quads1d*k2`:
`∑ (k1,k2), shape(i1,k1)*shape(i2,k2)*D(k1,k2) * (∑ (j1,j2), V(j1,j2)*shape(j1,k1)*shape(j2,k2))`. -/
def massQuad (dofs1d quads1d : Nat) (shape : Nat → Nat → R) (D : Nat → R)
    (V : Nat → Nat → R) (i1 i2 : Nat) : R :=
  ∑ k1 in range quads1d, ∑ k2 in range quads1d,
    shape i1 k1 * shape i2 k2 * D (k1 + quads1d * k2) *
      ∑ j1 in range dofs1d, ∑ j2 in range dofs1d, V j1 j2 * shape j1 k1 * shape j2 k2

/-- The tensor-product gradient tables: `G_0 = dshape(i1,k1)*shape(i2,k2)*shape(i3,k3)`,
`G_1 = shape*dshape*shape`, `G_2 = shape*shape*dshape`. -/
def G3 (shape dshape : Nat → Nat → R) (c i1 i2 i3 k1 k2 k3 : Nat) : R :=
  match c with
  | 0 => dshape i1 k1 * shape i2 k2 * shape i3 k3
  | 1 => shape i1 k1 * dshape i2 k2 * shape i3 k3
  | _ => shape i1 k1 * shape i2 k2 * dshape i3 k3

/-- The symmetric 3×3 matrix with the six stored entries `D00, D01, D02, D11, D12, D22`
(`D l k` is stored entry `l` at point `k`). -/
def Dsym (D : Nat → Nat → R) (c d k : Nat) : R :=
  match c, d with
  | 0, 0 => D 0 k
  | 0, 1 => D 1 k
  | 1, 0 => D 1 k
  | 0, _ => D 2 k
  | 1, 1 => D 3 k
  | 1, _ => D 4 k
  | _, 0 => D 2 k
  | _, 1 => D 4 k
  | _, _ => D 5 k

/-- The 3D diffusion operator `Gᵀ D G · V` at dof `(i1, i2, i3)`, with point
`k = k1 + quads1d*(k2 + quads1d*k3)`:
`∑ k, ∑ c ∈ {0,1,2}, G_c(i,k) * (∑ d, Dsym(c,d,k) * g_d(k))`, where
`g_d(k) = ∑ j, G_d(j,k) * V(j)`. -/
def diffusionHex (dofs1d quads1d : Nat) (shape dshape : Nat → Nat → R)
    (D : Nat → Nat → R) (V : Nat → Nat → Nat → R) (i1 i2 i3 : Nat) : R :=
  let g := fun d k1 k2 k3 =>
    ∑ j1 in range dofs1d, ∑ j2 in range dofs1d, ∑ j3 in range dofs1d,
      G3 shape dshape d j1 j2 j3 k1 k2 k3 * V j1 j2 j3
  ∑ k1 in range quads1d, ∑ k2 in range quads1d, ∑ k3 in range quads1d,
    ∑ c in range 3, G3 shape dshape c i1 i2 i3 k1 k2 k3 *
      ∑ d in range 3, Dsym D c d (k1 + quads1d * (k2 + quads1d * k3)) * g d k1 k2 k3

/-- The 3D mass operator at dof `(i1, i2, i3)`, with point `k = k1 + quads1d*(k2 + quads1d*k3)`:
`∑ (k1,k2,k3), shape(i1,k1)*shape(i2,k2)*shape(i3,k3)*D(k) *
  (∑ (j1,j2,j3), V(j1,j2,j3)*shape(j1,k1)*shape(j2,k2)*shape(j3,k3))`. -/
def massHex (dofs1d quads1d : Nat) (shape : Nat → Nat → R) (D : Nat → R)
    (V : Nat → Nat → Nat → R) (i1 i2 i3 : Nat) : R :=
  ∑ k1 in range quads1d, ∑ k2 in range quads1d, ∑ k3 in range quads1d,
    shape i1 k1 * shape i2 k2 * shape i3 k3 * D (k1 + quads1d * (k2 + quads1d * k3)) *
      ∑ j1 in range dofs1d, ∑ j2 in range dofs1d, ∑ j3 in range dofs1d,
        V j1 j2 j3 * shape j1 k1 * shape j2 k2 * shape j3 k3

end Dense

/-! ### `AssembleVector` (lines 398-407 and 619-632) -/

/-- The members of `FiniteElementSpace` that `AssembleVector` reads:
`feDim = GetFE(0)->GetDim()`. -/
structure FiniteElementSpace where
  feDim : Int

/-- The outcome of a call that may end in `mfem_error`: `error` is the reported message, if any,
and `vect` the content of the output E-vector when the call ends. -/
structure Outcome (R : Type) where
  error : Option String
  vect : Nat → R

/-- `PADiffusionIntegrator::AssembleVector(fes, fun, vect)`: the `switch (dim)`, whose `default`
branch calls `mfem_error("Not yet supported")` and runs no kernel. The argument `fes` is not
read. -/
def PADiffusionIntegrator.AssembleVector (I : PADiffusionIntegrator R)
    (_fes : FiniteElementSpace) (fn vect : Nat → R) : Outcome R :=
  if I.dim = 1 then ⟨none, I.MultSeg fn vect⟩
  else if I.dim = 2 then ⟨none, I.MultQuad fn vect⟩
  else if I.dim = 3 then ⟨none, I.MultHex fn vect⟩
  else ⟨some "Not yet supported", vect⟩

/-- `PAMassIntegrator::AssembleVector(fespace, fun, vect)`. The macro `MFEM_ASSERT` is not among
the sources; it is taken as a parameter: `MFEM_DEBUG` tells whether the check
`MFEM_ASSERT(fespace.GetFE(0)->GetDim() == dim, "")` is compiled in, and a failed check ends the
call with its (empty) message before the `switch (dim)`. -/
def PAMassIntegrator.AssembleVector (I : PAMassIntegrator R) (MFEM_DEBUG : Bool)
    (fespace : FiniteElementSpace) (fn vect : Nat → R) : Outcome R :=
  if MFEM_DEBUG = true ∧ ¬ (fespace.feDim = I.dim) then ⟨some "", vect⟩
  else if I.dim = 1 then ⟨none, I.MultSeg fn vect⟩
  else if I.dim = 2 then ⟨none, I.MultQuad fn vect⟩
  else if I.dim = 3 then ⟨none, I.MultHex fn vect⟩
  else ⟨some "Not yet supported", vect⟩

/-! ### Relations between runs, used to state linearity and accumulation -/

/-- `x = a·x1 + b·x2` entrywise: the buffer of the run on the combined input against the
buffers of the two separate runs. -/
def Lin (a b : R) (x1 x2 x : Nat → R) : Prop := ∀ p, x p = a * x1 p + b * x2 p

/-- `x = a·x1 + b·x2 + W` entrywise, for a fixed shift `W` of the output buffer. -/
def Aff (a b : R) (W x1 x2 x : Nat → R) : Prop := ∀ p, x p = a * x1 p + b * x2 p + W p

/-- The three runs are at the same offset, their scratch is in relation `Lin` and their output
in relation `Aff`. -/
def SegState.Rel (a b : R) (W : Nat → R) (s1 s2 s : SegState R) : Prop :=
  s1.offset = s.offset ∧ s2.offset = s.offset ∧ Lin a b s1.Q s2.Q s.Q ∧ Aff a b W s1.U s2.U s.U

/-- The three runs are at the same offset, their scratch is in relation `Lin` and their output
in relation `Aff`. -/
def QuadState.Rel (a b : R) (W : Nat → R) (s1 s2 s : QuadState R) : Prop :=
  s1.offset = s.offset ∧ s2.offset = s.offset ∧ Lin a b s1.QQ s2.QQ s.QQ ∧
    Lin a b s1.DQ s2.DQ s.DQ ∧ Aff a b W s1.U s2.U s.U

/-- The three runs are at the same offset, their scratch is in relation `Lin` and their output
in relation `Aff`. -/
def HexState.Rel (a b : R) (W : Nat → R) (s1 s2 s : HexState R) : Prop :=
  s1.offset = s.offset ∧ s2.offset = s.offset ∧ Lin a b s1.Q s2.Q s.Q ∧
    Lin a b s1.QQ s2.QQ s.QQ ∧ Lin a b s1.QQQ s2.QQQ s.QQQ ∧ Aff a b W s1.U s2.U s.U

end Defs

section Examples

/-- A `2 × 2` shape table used to instantiate the theorems. -/
def exShape : DenseMatrix Int := ⟨fun p => (p : Int) + 1, 2, 2⟩

/-- A `2 × 2` derivative table used to instantiate the theorems. -/
def exDshape : DenseMatrix Int := ⟨fun p => 2 * (p : Int) - 3, 2, 2⟩

/-- An input E-vector used to instantiate the theorems. -/
def exV : Nat → Int := fun p => (p : Int) - 5

/-- An initial output E-vector used to instantiate the theorems. -/
def exU : Nat → Int := fun p => 3 * (p : Int) + 1

/-- A diffusion integrator on two segments with two components. -/
def exDiffSeg : PADiffusionIntegrator Int :=
  { NE := 2, vdim := 2, dim := 1, dofs := 2, quads := 2, shape1d := exShape,
    dshape1d := exDshape, Dtensor := fun e k => (e : Int) + 2 * (k : Int) + 1 }

/-- A diffusion integrator on two quadrilaterals with two components. -/
def exDiffQuad : PADiffusionIntegrator Int :=
  { NE := 2, vdim := 2, dim := 2, dofs := 4, quads := 4, shape1d := exShape,
    dshape1d := exDshape, Dtensor := fun e k => (e : Int) + 2 * (k : Int) + 1 }

/-- A diffusion integrator on two hexahedra with two components. -/
def exDiffHex : PADiffusionIntegrator Int :=
  { NE := 2, vdim := 2, dim := 3, dofs := 8, quads := 8, shape1d := exShape,
    dshape1d := exDshape, Dtensor := fun e k => (e : Int) + 2 * (k : Int) + 1 }

/-- A mass integrator on two segments with two components. -/
def exMassSeg : PAMassIntegrator Int :=
  { NE := 2, vdim := 2, dim := 1, dofs := 2, quads := 2, shape1d := exShape,
    Dmat := ⟨fun p => (p : Int) + 1, 2, 2⟩ }

/-- A mass integrator on two quadrilaterals with two components. -/
def exMassQuad : PAMassIntegrator Int :=
  { NE := 2, vdim := 2, dim := 2, dofs := 4, quads := 4, shape1d := exShape,
    Dmat := ⟨fun p => (p : Int) + 1, 4, 2⟩ }

/-- A mass integrator on two hexahedra with two components. -/
def exMassHex : PAMassIntegrator Int :=
  { NE := 2, vdim := 2, dim := 3, dofs := 8, quads := 8, shape1d := exShape,
    Dmat := ⟨fun p => (p : Int) + 1, 8, 2⟩ }

/-- A mass integrator whose dimension no kernel supports. -/
def exMassBad : PAMassIntegrator Int :=
  { NE := 2, vdim := 2, dim := 4, dofs := 16, quads := 16, shape1d := exShape,
    Dmat := ⟨fun p => (p : Int) + 1, 16, 2⟩ }

end Examples

/-! ## Operator set-up: `ComputeBasis1d` and `ComputePA` (lines 22-137 and 409-435) -/

section SetupDefs

variable {R : Type} [CommRing R]

/-- The members of `IntegrationRule` that are read: `NPoints = GetNPoints()`,
`x k = IntPoint(k).x` and `weight k = IntPoint(k).weight`. -/
structure IntegrationRule (R : Type) where
  NPoints : Nat
  x : Nat → R
  weight : Nat → R

/-- The 1D basis `Poly_1D::Basis`, whose class is not among the sources, taken as a parameter:
`Eval x i` is the entry `u(i)` that the call `Eval(x, u)` leaves in `u`, and `EvalD x` is the
pair of vectors `(u, d)` that the call `Eval(x, u, d)` leaves in `u` and `d`. -/
structure Poly_1D.Basis (R : Type) where
  Eval : R → Nat → R
  EvalD : R → (Nat → R) × (Nat → R)

/-- The members of `FiniteElement` that are read: `GetDim()` and `GetOrder()`. -/
structure FiniteElement where
  GetDim : Nat
  GetOrder : Nat

/-- The one-table `ComputeBasis1d(fe, tfe, ir_order, shape1d)` (lines 22-45). `basis1d` is
`tfe->GetBasis1D()` and `IntRules` is `IntRules.Get(Geometry::SEGMENT, ·)`. `SetSize` gives the
table `dofs` rows and `quads1d` columns; its buffer is the one of the argument `shape1d`. -/
def ComputeBasis1d (fe : FiniteElement) (basis1d : Poly_1D.Basis R)
    (IntRules : Int → IntegrationRule R) (ir_order : Int) (shape1d : DenseMatrix R) :
    DenseMatrix R :=
  let ir1d := IntRules ir_order
  let quads1d := ir1d.NPoints
  let dofs := fe.GetOrder + 1
  { data := forLoop quads1d (fun k data =>
      let u := basis1d.Eval (ir1d.x k)
      forLoop dofs (fun i data => setAt data (i + k * dofs) (u i)) data) shape1d.data
    height := dofs
    width := quads1d }

/-- The two-table `ComputeBasis1d(fe, tfe, ir_order, shape1d, dshape1d)` (lines 47-73); the
result is the pair `(shape1d, dshape1d)`. -/
def ComputeBasis1d2 (fe : FiniteElement) (basis1d : Poly_1D.Basis R)
    (IntRules : Int → IntegrationRule R) (ir_order : Int) (shape1d dshape1d : DenseMatrix R) :
    DenseMatrix R × DenseMatrix R :=
  let ir1d := IntRules ir_order
  let quads1d := ir1d.NPoints
  let dofs := fe.GetOrder + 1
  let data := forLoop quads1d (fun k (data : (Nat → R) × (Nat → R)) =>
      let ud := basis1d.EvalD (ir1d.x k)
      forLoop dofs (fun i (data : (Nat → R) × (Nat → R)) =>
        (setAt data.1 (i + k * dofs) (ud.1 i), setAt data.2 (i + k * dofs) (ud.2 i))) data)
    (shape1d.data, dshape1d.data)
  (⟨data.1, dofs, quads1d⟩, ⟨data.2, dofs, quads1d⟩)

/-- A column-major rank-3 tensor `DenseTensor` of extents `SizeI × SizeJ × SizeK` over the
buffer `tdata`. -/
structure DenseTensor (R : Type) where
  tdata : Nat → R
  SizeI : Nat
  SizeJ : Nat
  SizeK : Nat

/-- Entry access `T(i, j, k) = tdata[i + SizeI*(j + SizeJ*k)]`. -/
def DenseTensor.get (T : DenseTensor R) (i j k : Nat) : R :=
  T.tdata (i + T.SizeI * (j + T.SizeJ * k))

/-- The matrix view `T(k)` of slab `k`: `SizeI × SizeJ`, its data starting at
`tdata + k*SizeI*SizeJ`. -/
def DenseTensor.slab (T : DenseTensor R) (k : Nat) : DenseMatrix R :=
  ⟨fun p => T.tdata (k * (T.SizeI * T.SizeJ) + p), T.SizeI, T.SizeJ⟩

/-- The element transformation `fes->GetElementTransformation(e)` once `SetIntPoint(&ip)` has
been called, as far as it is read: `AdjugateJacobian()` and `Weight()`. -/
structure ElementTransformation (R : Type) where
  AdjugateJacobian : DenseMatrix R
  Weight : R

/-- Modelled from the spec: `DenseMatrix::operator*=(double c)` of `linalg/densemat.cpp`, which
is not among the sources; it multiplies each of the `Height()*Width()` entries by `c` (the
scalar factor of "`D = w(q) / |J(q)| * (J⁻¹ J⁻ᵗ)`" applies to the whole matrix). -/
def DenseMatrix.scale (A : DenseMatrix R) (c : R) : Nat → R :=
  fun p => if p < A.height * A.width then A.data p * c else A.data p

/-- The packing loop nest
`for (int j = 0, l = 0; j < dim; j++) for (int i = j; i < dim; i++, l++) body(l, i, j)`,
threading the state that `body` assigns. -/
def packLoop {σ : Type} (dim : Nat) (body : Nat → Nat → Nat → σ → σ) (s : σ) : σ :=
  (forLoop dim (fun j (ls : Nat × σ) =>
    forLoop (dim - j) (fun t (ls : Nat × σ) => (ls.1 + 1, body ls.1 (j + t) j ls.2)) ls)
    (0, s)).2

/-- Variables assigned inside the loops of `PADiffusionIntegrator::ComputePA`: the scratch
matrix `mat(dim, dim)` and the data of `Dtensor`. -/
structure PAState (R : Type) where
  mat : Nat → R
  tdata : Nat → R

/-- The mass set-up `PAMassIntegrator::ComputePA(ir_order)` (lines 409-435). `fe` is the
member `fe`, `ipw k` is `IntRule->IntPoint(k).weight`, `Tr e k` the transformation of element
`e` set to point `k`, and `coeff`, when present, gives `coeff->Eval(*Tr, ip)` at `(e, k)`.
The result is the integrator with the members `shape1d` and `Dmat` assigned. -/
def PAMassIntegrator.ComputePA (I : PAMassIntegrator R) (fe : FiniteElement)
    (basis1d : Poly_1D.Basis R) (IntRules : Int → IntegrationRule R) (ir_order : Int)
    (ipw : Nat → R) (Tr : Nat → Nat → ElementTransformation R)
    (coeff : Option (Nat → Nat → R)) : PAMassIntegrator R :=
  let shape1d := ComputeBasis1d fe basis1d IntRules ir_order I.shape1d
  let nelem := I.NE
  let quads := I.quads
  let data := forLoop I.NE (fun e data =>
    forLoop quads (fun k data =>
      let weight := ipw k * (Tr e k).Weight
      setAt data (k + e * quads)
        (match coeff with
          | none => weight
          | some c => c e k * weight)) data) I.Dmat.data
  { I with shape1d := shape1d, Dmat := ⟨data, quads, nelem⟩ }

end SetupDefs

section SetupDefsField

variable {K : Type} [Field K]

/-- The statements `MultABt(temp, temp, mat); mat *= ip.weight / Tr->Weight();` (lines 102-104)
on the buffer of the scratch matrix `mat(dim, dim)`. -/
def PADiffusionIntegrator.pointMat (dim : Nat) (w : K) (Tr : ElementTransformation K)
    (mat : Nat → K) : DenseMatrix K :=
  let temp := Tr.AdjugateJacobian
  let mat1 : DenseMatrix K := ⟨MultABt temp temp mat 0, dim, dim⟩
  ⟨mat1.scale (w / Tr.Weight), dim, dim⟩

/-- The body of the loop over quadrature points of `PADiffusionIntegrator::ComputePA` (lines
100-133) for element `e` and point `k`; `Dmat(l, k)` is entry `l + k*entries` of slab `e` of
`Dtensor`. The scalar coefficient is tested first, then the matrix coefficient. -/
def PADiffusionIntegrator.ComputePAPoint (dim entries quads : Nat) (ipw : Nat → K)
    (Tr : Nat → Nat → ElementTransformation K) (coeff : Option (Nat → Nat → K))
    (mcoeff : Option (Nat → Nat → DenseMatrix K)) (e k : Nat) (s : PAState K) : PAState K :=
  let mat := PADiffusionIntegrator.pointMat dim (ipw k) (Tr e k) s.mat
  let Dmat := fun (l k : Nat) => e * (entries * quads) + (l + k * entries)
  match coeff with
  | some cf =>
    let c := cf e k
    { mat := mat.data
      tdata := packLoop dim (fun l i j D => setAt D (Dmat l k) (c * mat.get i j)) s.tdata }
  | none =>
    match mcoeff with
    | some mc =>
      let cmat := mc e k
      { mat := mat.data
        tdata := packLoop dim
          (fun l i j D => setAt D (Dmat l k) (cmat.get i j * mat.get i j)) s.tdata }
    | none =>
      { mat := mat.data
        tdata := packLoop dim (fun l i j D => setAt D (Dmat l k) (mat.get i j)) s.tdata }

/-- The D-tensor that `PADiffusionIntegrator::ComputePA` builds (lines 84-136):
`Dtensor.SetSize(entries, quads, elems)` on the buffer `tdata0`, then the loops over elements
and quadrature points. -/
def PADiffusionIntegrator.ComputeDtensor (I : PADiffusionIntegrator K) (fe : FiniteElement)
    (ipw : Nat → K) (Tr : Nat → Nat → ElementTransformation K)
    (coeff : Option (Nat → Nat → K)) (mcoeff : Option (Nat → Nat → DenseMatrix K))
    (tdata0 : Nat → K) : DenseTensor K :=
  let elems := I.NE
  let dim := fe.GetDim
  let quads := I.quads
  let entries := dim * (dim + 1) / 2
  let s := forLoop I.NE (fun e s =>
    forLoop quads (fun k s =>
      PADiffusionIntegrator.ComputePAPoint dim entries quads ipw Tr coeff mcoeff e k s) s)
    { mat := fun _ => 0, tdata := tdata0 }
  ⟨s.tdata, entries, quads, elems⟩

/-- The diffusion set-up `PADiffusionIntegrator::ComputePA(ir_order)` (lines 75-137): the
integrator with the members `shape1d`, `dshape1d` and `Dtensor` assigned; `Dtensor e` is the
data of the slab `Dtensor(e)`. -/
def PADiffusionIntegrator.ComputePA (I : PADiffusionIntegrator K) (fe : FiniteElement)
    (basis1d : Poly_1D.Basis K) (IntRules : Int → IntegrationRule K) (ir_order : Int)
    (ipw : Nat → K) (Tr : Nat → Nat → ElementTransformation K)
    (coeff : Option (Nat → Nat → K)) (mcoeff : Option (Nat → Nat → DenseMatrix K))
    (tdata0 : Nat → K) : PADiffusionIntegrator K :=
  let tables := ComputeBasis1d2 fe basis1d IntRules ir_order I.shape1d I.dshape1d
  let T := I.ComputeDtensor fe ipw Tr coeff mcoeff tdata0
  { I with shape1d := tables.1, dshape1d := tables.2, Dtensor := fun e => (T.slab e).data }

end SetupDefsField

/-! ## The kernel-launch abstraction `wrap` (`general/kernels.hpp`) -/

section WrapDefs

/-- The device function `kernel(N, body)` run by the thread with index `k`. -/
def kernel {σ : Type} (N : Nat) (body : Nat → σ → σ) (k : Nat) (s : σ) : σ :=
  if k ≥ N then s else body k s

/-- `wrap(N, d_body, h_body)`. The flag `gpu` tells whether the `__NVCC__` block is compiled
in and `config::Get().Cuda()` holds; then the `gridSize * blockSize` device threads run
`kernel`, here one after the other in the order of their index. Otherwise the host loop
`for (size_t k = 0; k < N; k += 1) h_body(k)` runs. -/
def wrap {σ : Type} (gpu : Bool) (N : Nat) (d_body h_body : Nat → σ → σ) (s : σ) : σ :=
  if gpu then
    let blockSize := 256
    let gridSize := (N + blockSize - 1) % 2 ^ 64 / blockSize
    forLoop (gridSize * blockSize) (fun k s => kernel N d_body k s) s
  else forLoop N h_body s

/-- A call of one of the two bodies that `wrap` receives, with the index it is given. -/
inductive BodyCall where
  | device (k : Nat)
  | host (k : Nat)
  deriving DecidableEq

end WrapDefs

/-! ### The slot order of the packing loop -/

section PackDefs

/-- The value of the counter `l` of the packing loop when column `j` starts: columns
`0, ..., j-1` have used `dim - c` slots each. -/
def packStart (dim : Nat) : Nat → Nat
  | 0 => 0
  | j + 1 => packStart dim j + (dim - j)

/-- The value of the counter `l` when the body of the packing loop runs for `(i, j)`,
`j ≤ i < dim`. -/
def packIndex (dim i j : Nat) : Nat := packStart dim j + (i - j)

/-- The calls `body(l, i, j)` the packing loop makes, in the order it makes them. -/
def packTriples (dim : Nat) : List (Nat × Nat × Nat) :=
  packLoop dim (fun l i j tr => tr ++ [(l, i, j)]) []

/-- The symmetric `dim × dim` matrix that the packed entries of point `k` of element `e`
stand for: entry `(i, j)` and entry `(j, i)` are both the slot of the pair with the larger
index first. -/
def DenseTensor.sym {R : Type} (T : DenseTensor R) (dim k e i j : Nat) : R :=
  T.get (packIndex dim (max i j) (min i j)) k e

end PackDefs

section SetupExamples

/-- A first-order segment element. -/
def exFE1 : FiniteElement := ⟨1, 1⟩

/-- A first-order quadrilateral element. -/
def exFE2 : FiniteElement := ⟨2, 1⟩

/-- The Jacobian `J = (2)` of a segment of length 2 over the reference segment. -/
def exJ : Matrix (Fin 1) (Fin 1) ℚ := fun _ _ => 2

/-- The transformation with Jacobian `exJ`: adjugate `(1)`, weight `det J = 2`. -/
def exTrSeg : Nat → Nat → ElementTransformation ℚ :=
  fun _ _ => ⟨⟨fun _ => 1, 1, 1⟩, 2⟩

/-- A transformation with adjugate `A = (1 1; 0 1)` (column-major data `1, 0, 1, 1`) and
weight `1`. -/
def exTrQuad : Nat → Nat → ElementTransformation ℚ :=
  fun _ _ => ⟨⟨fun p => if p = 1 then 0 else 1, 2, 2⟩, 1⟩

/-- A diffusion integrator on one segment with one quadrature point, before `ComputePA`. -/
def exSetupSeg : PADiffusionIntegrator ℚ :=
  { NE := 1, vdim := 1, dim := 1, dofs := 2, quads := 1,
    shape1d := ⟨fun _ => 0, 0, 0⟩, dshape1d := ⟨fun _ => 0, 0, 0⟩, Dtensor := fun _ _ => 0 }

/-- A diffusion integrator on one quadrilateral with one quadrature point, before
`ComputePA`. -/
def exSetupQuad : PADiffusionIntegrator ℚ :=
  { NE := 1, vdim := 1, dim := 2, dofs := 4, quads := 1,
    shape1d := ⟨fun _ => 0, 0, 0⟩, dshape1d := ⟨fun _ => 0, 0, 0⟩, Dtensor := fun _ _ => 0 }

/-- The matrix coefficient with all entries `1`. -/
def exC : Nat → Nat → DenseMatrix ℚ := fun _ _ => ⟨fun _ => 1, 2, 2⟩

/-- The matrix coefficient with entry `(1, 0)` equal to `5` and all other entries `1`: it has
the upper triangle of `exC`. -/
def exC' : Nat → Nat → DenseMatrix ℚ := fun _ _ => ⟨fun p => if p = 1 then 5 else 1, 2, 2⟩

/-- A 1D basis with values `u(i) = x + i` and derivatives `d(i) = i·x`. -/
def exBasis : Poly_1D.Basis Int :=
  { Eval := fun x i => x + i, EvalD := fun x => (fun i => x + i, fun i => i * x) }

/-- A registry of 1D rules: every order gives the three points `x = 0, 10, 20` with weights
`1, 2, 3`. -/
def exIntRules : Int → IntegrationRule Int :=
  fun _ => ⟨3, fun k => 10 * (k : Int), fun k => (k : Int) + 1⟩

/-- Transformations with weight `W(e, k) = 2e + k + 1` (the adjugate is not read by the mass
set-up). -/
def exTrMass : Nat → Nat → ElementTransformation Int :=
  fun e k => ⟨⟨fun _ => 1, 1, 1⟩, 2 * (e : Int) + k + 1⟩

end SetupExamples

/-! ## The frame contract of the kernels -/

section FrameDefs

variable {R : Type}

/-- The buffers `f` and `g` agree on the index range `[lo, hi)`. -/
def AgreeOn (lo hi : Nat) (f g : Nat → R) : Prop := ∀ p, lo ≤ p → p < hi → f p = g p

/-- Index `p` lies in the E-vector slice `[(e*vdim + vd)*dofs, (e*vdim + vd + 1)*dofs)` of
the unit of work of element `e` and component `vd`. -/
def inSlice (vdim dofs e vd p : Nat) : Prop :=
  (e * vdim + vd) * dofs ≤ p ∧ p < (e * vdim + vd + 1) * dofs

/-- The frame contract of a kernel at the unit of work `(e, vd)`, stated against a second run.
`unit V` and `unit' V'` are the unit of work of element `e` in the two runs, on states with
running offset `off s` and output buffer `out s`; `kern` and `kern'` are the two kernels,
from input and initial output to final output.
1. A unit of work leaves the output outside `[offset, offset + dofs)` as it was.
2. On that range the output of a unit of work is the same in two runs that agree there on the
   input and on the output before the unit, whatever the rest of the two states.
3. The final output on the slice of `(e, vd)` is the same in two runs that agree on that slice
   on the input and on the initial output.
4. The final output from `NE*vdim*dofs` on is the initial output. -/
def FrameContract {σ : Type} (off : σ → Nat) (out : σ → Nat → R) (NE vdim dofs e vd : Nat)
    (unit unit' : (Nat → R) → σ → σ) (kern kern' : (Nat → R) → (Nat → R) → Nat → R) : Prop :=
  (∀ V s p, ¬ (off s ≤ p ∧ p < off s + dofs) → out (unit V s) p = out s p) ∧
  (∀ V V' s s', off s' = off s → AgreeOn (off s) (off s + dofs) V V' →
    AgreeOn (off s) (off s + dofs) (out s) (out s') →
    AgreeOn (off s) (off s + dofs) (out (unit V s)) (out (unit' V' s'))) ∧
  (∀ V V' U U', AgreeOn ((e * vdim + vd) * dofs) ((e * vdim + vd + 1) * dofs) V V' →
    AgreeOn ((e * vdim + vd) * dofs) ((e * vdim + vd + 1) * dofs) U U' →
    AgreeOn ((e * vdim + vd) * dofs) ((e * vdim + vd + 1) * dofs) (kern V U) (kern' V' U')) ∧
  (∀ V U p, NE * vdim * dofs ≤ p → kern V U p = U p)

end FrameDefs

section FrameExamples

/-- An under-integrated mass integrator on one hexahedron with two components:
`dofs1d = 2 > quads1d = 1`, `dofs = 2³`, `quads = 1³`, all table entries and `D` equal to 1. -/
def exMassHexUnder : PAMassIntegrator Int :=
  { NE := 1, vdim := 2, dim := 3, dofs := 8, quads := 1,
    shape1d := ⟨fun _ => 1, 2, 1⟩, Dmat := ⟨fun _ => 1, 1, 1⟩ }

end FrameExamples

section MassExamples

/-- The mass integrator of one first-order element on the unit square with unit coefficient:
nodal basis `1 - x, x` tabulated at the two points `x = 0, 1` of the trapezoid rule (weights
`1/2, 1/2`, exact for first-degree integrands), `D(k1, k2) = w(k1)·w(k2)·1 = 1/4`. -/
def exUnitSquare : PAMassIntegrator ℚ :=
  { NE := 1, vdim := 1, dim := 2, dofs := 4, quads := 4,
    shape1d := ⟨fun p => if p = 0 ∨ p = 3 then 1 else 0, 2, 2⟩,
    Dmat := ⟨fun _ => 1 / 4, 4, 1⟩ }

end MassExamples

/-! ## `BlockMatrix::findGlobalRow` and `findGlobalCol` (`linalg/blockMatrix.hpp`, lines 109-133) -/

section BlockDefs

/-- The members of `BlockMatrix` that `findGlobalRow` and `findGlobalCol` read: the block counts,
the offset arrays (of length `nRowBlocks + 1` and `nColBlocks + 1`, entries of type `int`) and
the flag `is_filled` that `Finalize()` sets. -/
structure BlockMatrix where
  nRowBlocks : Nat
  nColBlocks : Nat
  row_offsets : Nat → Int
  col_offsets : Nat → Int
  is_filled : Bool

/-- The search loop `for (iblock = 0; iblock < nBlocks; ++iblock) if (offsets[iblock+1] >
iglobal) break;` started at `iblock` with `left = nBlocks - iblock` iterations to go; the
result is the value of `iblock` when the loop ends. -/
def BlockMatrix.scanBlocks (offsets : Nat → Int) (iglobal : Int) : Nat → Nat → Nat
  | 0, iblock => iblock
  | left + 1, iblock =>
    if offsets (iblock + 1) > iglobal then iblock
    else BlockMatrix.scanBlocks offsets iglobal left (iblock + 1)

/-- `BlockMatrix::findGlobalRow(iglobal, iblock, iloc)`: the guard ends the call with the
message of `mfem_error`; otherwise the pair `(iblock, iloc)` left in the two reference
arguments. -/
def BlockMatrix.findGlobalRow (B : BlockMatrix) (iglobal : Int) : Except String (Nat × Int) :=
  if !B.is_filled || iglobal > B.row_offsets B.nRowBlocks then
    Except.error "BlockMatrix::findGlobalRow"
  else
    let iblock := BlockMatrix.scanBlocks B.row_offsets iglobal B.nRowBlocks 0
    let iloc := iglobal - B.row_offsets iblock
    Except.ok (iblock, iloc)

/-- `BlockMatrix::findGlobalCol(jglobal, jblock, jloc)`, the same code over `col_offsets`. -/
def BlockMatrix.findGlobalCol (B : BlockMatrix) (jglobal : Int) : Except String (Nat × Int) :=
  if !B.is_filled || jglobal > B.col_offsets B.nColBlocks then
    Except.error "BlockMatrix::findGlobalCol"
  else
    let jblock := BlockMatrix.scanBlocks B.col_offsets jglobal B.nColBlocks 0
    let jloc := jglobal - B.col_offsets jblock
    Except.ok (jblock, jloc)

/-- A finalized 3 × 2 block matrix whose middle row block is empty: row blocks of sizes
2, 0, 3 and column blocks of sizes 4, 1. -/
def exBlock : BlockMatrix :=
  { nRowBlocks := 3, nColBlocks := 2,
    row_offsets := fun b => if b = 0 then 0 else if b ≤ 2 then 2 else 5,
    col_offsets := fun b => if b = 0 then 0 else if b = 1 then 4 else 5,
    is_filled := true }

end BlockDefs

/-! ## The constructors of `PADiffusionIntegrator` (lines 139-169) -/

section CtorDefs

variable {K : Type} [Field K]

/-- The members of the `FiniteElementSpace` argument `_fes` that the constructors and
`ComputePA` read; the class is not among the sources and is taken as a parameter. `GetFE` is
`GetFE(0)`, `GetGeomType`, `GetDof` and `GetBasis1D` belong to that element, and `Tr e k` is
`GetElementTransformation(e)` after `SetIntPoint` at point `k` of the integration rule. -/
structure SpaceView (K : Type) where
  GetNE : Nat
  GetVDim : Nat
  GetFE : FiniteElement
  GetGeomType : Nat
  GetDof : Nat
  GetBasis1D : Poly_1D.Basis K
  Tr : Nat → Nat → ElementTransformation K

/-- A `PADiffusionIntegrator` object with the members that only the set-up reads: the rule
`IntRule` of the base class `BilinearFormIntegrator` and the two nullable coefficient pointers
`coeff` and `mcoeff` (`none` is `NULL`). -/
structure PADiffusionInstance (K : Type) extends PADiffusionIntegrator K where
  IntRule : IntegrationRule K
  coeff : Option (Nat → Nat → K)
  mcoeff : Option (Nat → Nat → DenseMatrix K)

/-- The call `ComputePA(ir_order)` in the body of each constructor: `ComputePA` run on the
members of the object, with its own fields `coeff` and `mcoeff`; `IntRules g` is
`IntRules.Get(g, ·)`, `SEGMENT` the constant `Geometry::SEGMENT`, and `tdata0` the content of
the memory that `Dtensor.SetSize` allocates. -/
def PADiffusionInstance.ComputePA (J : PADiffusionInstance K) (fes : SpaceView K)
    (IntRules : Nat → Int → IntegrationRule K) (SEGMENT : Nat) (ir_order : Int)
    (tdata0 : Nat → K) : PADiffusionInstance K :=
  { J with
    toPADiffusionIntegrator :=
      J.toPADiffusionIntegrator.ComputePA fes.GetFE fes.GetBasis1D (IntRules SEGMENT) ir_order
        J.IntRule.weight fes.Tr J.coeff J.mcoeff tdata0 }

/-- The constructor `PADiffusionIntegrator(_fes, ir_order)` (lines 139-147): the member
initialisers with `coeff(NULL)`, `mcoeff(NULL)`, then `ComputePA(ir_order)`. The tables and the
D-tensor are default-constructed (empty) before `ComputePA`. -/
def PADiffusionIntegrator.create (fes : SpaceView K) (IntRules : Nat → Int → IntegrationRule K)
    (SEGMENT : Nat) (ir_order : Int) (tdata0 : Nat → K) : PADiffusionInstance K :=
  let IntRule := IntRules fes.GetGeomType ir_order
  let J : PADiffusionInstance K :=
    { NE := fes.GetNE, vdim := fes.GetVDim, dim := fes.GetFE.GetDim, dofs := fes.GetDof,
      quads := IntRule.NPoints, shape1d := ⟨fun _ => 0, 0, 0⟩, dshape1d := ⟨fun _ => 0, 0, 0⟩,
      Dtensor := fun _ _ => 0, IntRule := IntRule, coeff := none, mcoeff := none }
  J.ComputePA fes IntRules SEGMENT ir_order tdata0

/-- The constructor `PADiffusionIntegrator(_fes, ir_order, _coeff)` (lines 150-158):
`coeff(&_coeff)`, `mcoeff(NULL)`. -/
def PADiffusionIntegrator.createCoeff (fes : SpaceView K)
    (IntRules : Nat → Int → IntegrationRule K) (SEGMENT : Nat) (ir_order : Int)
    (_coeff : Nat → Nat → K) (tdata0 : Nat → K) : PADiffusionInstance K :=
  let IntRule := IntRules fes.GetGeomType ir_order
  let J : PADiffusionInstance K :=
    { NE := fes.GetNE, vdim := fes.GetVDim, dim := fes.GetFE.GetDim, dofs := fes.GetDof,
      quads := IntRule.NPoints, shape1d := ⟨fun _ => 0, 0, 0⟩, dshape1d := ⟨fun _ => 0, 0, 0⟩,
      Dtensor := fun _ _ => 0, IntRule := IntRule, coeff := some _coeff, mcoeff := none }
  J.ComputePA fes IntRules SEGMENT ir_order tdata0

/-- The constructor `PADiffusionIntegrator(_fes, ir_order, _mcoeff)` (lines 161-169):
`coeff(NULL)`, `mcoeff(&_mcoeff)`. -/
def PADiffusionIntegrator.createMCoeff (fes : SpaceView K)
    (IntRules : Nat → Int → IntegrationRule K) (SEGMENT : Nat) (ir_order : Int)
    (_mcoeff : Nat → Nat → DenseMatrix K) (tdata0 : Nat → K) : PADiffusionInstance K :=
  let IntRule := IntRules fes.GetGeomType ir_order
  let J : PADiffusionInstance K :=
    { NE := fes.GetNE, vdim := fes.GetVDim, dim := fes.GetFE.GetDim, dofs := fes.GetDof,
      quads := IntRule.NPoints, shape1d := ⟨fun _ => 0, 0, 0⟩, dshape1d := ⟨fun _ => 0, 0, 0⟩,
      Dtensor := fun _ _ => 0, IntRule := IntRule, coeff := none, mcoeff := some _mcoeff }
  J.ComputePA fes IntRules SEGMENT ir_order tdata0

end CtorDefs

section CtorExamples

/-- A space of one first-order quadrilateral with one component, with the transformation
`exTrQuad`; its 1D basis has values `u(i) = x + i` and derivatives `d(i) = i·x`. -/
def exSpace : SpaceView ℚ :=
  { GetNE := 1, GetVDim := 1, GetFE := exFE2, GetGeomType := 3, GetDof := 4,
    GetBasis1D := ⟨fun x i => x + i, fun x => (fun i => x + i, fun i => i * x)⟩,
    Tr := exTrQuad }

/-- A rule registry whose rules all have the single point `0` with weight `1`. -/
def exRules : Nat → Int → IntegrationRule ℚ := fun _ _ => ⟨1, fun _ => 0, fun _ => 1⟩

end CtorExamples

section SlotExamples

/-- A first-order hexahedral element. -/
def exFE3 : FiniteElement := ⟨3, 1⟩

/-- A transformation with the 3 × 3 adjugate `A(i,j) = 1` for `i ≤ j`, `0` below the diagonal
(column-major data `1,0,0, 1,1,0, 1,1,1`), and weight `1`. -/
def exTrHex : Nat → Nat → ElementTransformation ℚ :=
  fun _ _ => ⟨⟨fun p => if p = 1 ∨ p = 2 ∨ p = 5 then 0 else 1, 3, 3⟩, 1⟩

/-- A diffusion integrator on one hexahedron with one quadrature point, before `ComputePA`. -/
def exSetupHex : PADiffusionIntegrator ℚ :=
  { NE := 1, vdim := 1, dim := 3, dofs := 8, quads := 1,
    shape1d := ⟨fun _ => 0, 0, 0⟩, dshape1d := ⟨fun _ => 0, 0, 0⟩, Dtensor := fun _ _ => 0 }

end SlotExamples

/-! ## Scratch accesses and operation count of the `MultHex` kernels -/

section ExtentDefs

variable {R : Type}

/-- Whether the access `A(i, j)` to a `DenseMatrix` allocated with extents `h × w` lies within
the allocation: with `perAxis` each index is below its extent, otherwise the flat index
`i + j*h` is below the `h*w` allocated entries. -/
def DenseMatrix.inExtent (perAxis : Bool) (h w i j : Nat) : Prop :=
  if perAxis = true then i < h ∧ j < w else i + j * h < h * w

/-- Whether the access `T(i, j, k)` to a `DenseTensor` allocated with extents `ni × nj × nk`
lies within the allocation: per axis, or by the flat index `i + ni*(j + nj*k)`. -/
def DenseTensor.inExtent (perAxis : Bool) (ni nj nk i j k : Nat) : Prop :=
  if perAxis = true then i < ni ∧ j < nj ∧ k < nk else i + ni * (j + nj * k) < ni * nj * nk

instance DenseMatrix.inExtent.decidable (perAxis : Bool) (h w i j : Nat) :
    Decidable (DenseMatrix.inExtent perAxis h w i j) := by
  unfold DenseMatrix.inExtent
  infer_instance

instance DenseTensor.inExtent.decidable (perAxis : Bool) (ni nj nk i j k : Nat) :
    Decidable (DenseTensor.inExtent perAxis ni nj nk i j k) := by
  unfold DenseTensor.inExtent
  infer_instance

/-- Every access of `PADiffusionIntegrator::MultHex` (lines 283-390) to its scratch arrays
`Q(quads1d, dim)`, `QQ(quads1d, quads1d, dim)` and `QQQmem(quads1d³·dim)` lies within the
allocation. The accesses are listed along the loop nest of one `(e, vd)` unit; `QQQc` is the
`quads1d³` view of `QQQmem` that starts at `c*quads`, so an access to it must be within the view
and within `QQQmem`. -/
def PADiffusionIntegrator.hexScratchInExtent (perAxis : Bool) (I : PADiffusionIntegrator R) :
    Prop :=
  (∀ c, c < 3 → c * I.quads + I.shape1d.width * I.shape1d.width * I.shape1d.width ≤
    I.shape1d.width * I.shape1d.width * I.shape1d.width * 3) ∧
  (∀ j3, j3 < I.shape1d.height →
    (∀ j2, j2 < I.shape1d.height →
      (∀ j1, j1 < I.shape1d.height → ∀ k1, k1 < I.shape1d.width →
        DenseMatrix.inExtent perAxis I.shape1d.width 3 k1 0 ∧
        DenseMatrix.inExtent perAxis I.shape1d.width 3 k1 1) ∧
      (∀ k2, k2 < I.shape1d.width → ∀ k1, k1 < I.shape1d.width → ∀ c, c < 3 →
        DenseTensor.inExtent perAxis I.shape1d.width I.shape1d.width 3 k1 k2 c ∧
        DenseMatrix.inExtent perAxis I.shape1d.width 3 k1 0 ∧
        DenseMatrix.inExtent perAxis I.shape1d.width 3 k1 1)) ∧
    (∀ k3, k3 < I.shape1d.width → ∀ k2, k2 < I.shape1d.width → ∀ k1, k1 < I.shape1d.width →
      ∀ c, c < 3 →
        (DenseTensor.inExtent perAxis I.shape1d.width I.shape1d.width I.shape1d.width k1 k2 k3 ∧
          c * I.quads + (k1 + I.shape1d.width * (k2 + I.shape1d.width * k3)) <
            I.shape1d.width * I.shape1d.width * I.shape1d.width * 3) ∧
        DenseTensor.inExtent perAxis I.shape1d.width I.shape1d.width 3 k1 k2 c)) ∧
  (∀ k, k < I.quads → ∀ c, c < 3 →
    c * I.quads + k < I.shape1d.width * I.shape1d.width * I.shape1d.width * 3) ∧
  (∀ k3, k3 < I.shape1d.width →
    (∀ k2, k2 < I.shape1d.width →
      (∀ k1, k1 < I.shape1d.width → ∀ i1, i1 < I.shape1d.height → ∀ c, c < 3 →
        DenseMatrix.inExtent perAxis I.shape1d.width 3 i1 c ∧
        (DenseTensor.inExtent perAxis I.shape1d.width I.shape1d.width I.shape1d.width k1 k2 k3 ∧
          c * I.quads + (k1 + I.shape1d.width * (k2 + I.shape1d.width * k3)) <
            I.shape1d.width * I.shape1d.width * I.shape1d.width * 3)) ∧
      (∀ i2, i2 < I.shape1d.height → ∀ i1, i1 < I.shape1d.height → ∀ c, c < 3 →
        DenseTensor.inExtent perAxis I.shape1d.width I.shape1d.width 3 i1 i2 c ∧
        DenseMatrix.inExtent perAxis I.shape1d.width 3 i1 c)) ∧
    (∀ i3, i3 < I.shape1d.height → ∀ i2, i2 < I.shape1d.height → ∀ i1, i1 < I.shape1d.height →
      ∀ c, c < 3 → DenseTensor.inExtent perAxis I.shape1d.width I.shape1d.width 3 i1 i2 c))

set_option synthInstance.maxSize 2000 in
set_option synthInstance.maxHeartbeats 200000 in
instance PADiffusionIntegrator.hexScratchInExtent.decidable (perAxis : Bool)
    (I : PADiffusionIntegrator R) : Decidable (I.hexScratchInExtent perAxis) := by
  unfold PADiffusionIntegrator.hexScratchInExtent
  infer_instance

/-- Every access of `PAMassIntegrator::MultHex` (lines 538-611) to its scratch arrays
`Q(quads1d)`, `QQ(quads1d, quads1d)` and `QQQ(quads1d, quads1d, quads1d)` lies within the
allocation; `data_qqq[k]` is entry `k` of the buffer of `QQQ`. -/
def PAMassIntegrator.hexScratchInExtent (perAxis : Bool) (I : PAMassIntegrator R) : Prop :=
  (∀ j3, j3 < I.shape1d.height →
    (∀ j2, j2 < I.shape1d.height →
      (∀ j1, j1 < I.shape1d.height → ∀ k1, k1 < I.shape1d.width →
        DenseMatrix.inExtent perAxis I.shape1d.width 1 k1 0) ∧
      (∀ k2, k2 < I.shape1d.width → ∀ k1, k1 < I.shape1d.width →
        DenseMatrix.inExtent perAxis I.shape1d.width I.shape1d.width k1 k2 ∧
        DenseMatrix.inExtent perAxis I.shape1d.width 1 k1 0)) ∧
    (∀ k3, k3 < I.shape1d.width → ∀ k2, k2 < I.shape1d.width → ∀ k1, k1 < I.shape1d.width →
      DenseTensor.inExtent perAxis I.shape1d.width I.shape1d.width I.shape1d.width k1 k2 k3 ∧
      DenseMatrix.inExtent perAxis I.shape1d.width I.shape1d.width k1 k2)) ∧
  (∀ k, k < I.quads → k < I.shape1d.width * I.shape1d.width * I.shape1d.width) ∧
  (∀ k3, k3 < I.shape1d.width →
    (∀ k2, k2 < I.shape1d.width →
      (∀ k1, k1 < I.shape1d.width → ∀ i1, i1 < I.shape1d.height →
        DenseMatrix.inExtent perAxis I.shape1d.width 1 i1 0 ∧
        DenseTensor.inExtent perAxis I.shape1d.width I.shape1d.width I.shape1d.width k1 k2 k3) ∧
      (∀ i2, i2 < I.shape1d.height → ∀ i1, i1 < I.shape1d.height →
        DenseMatrix.inExtent perAxis I.shape1d.width I.shape1d.width i1 i2 ∧
        DenseMatrix.inExtent perAxis I.shape1d.width 1 i1 0)) ∧
    (∀ i3, i3 < I.shape1d.height → ∀ i2, i2 < I.shape1d.height → ∀ i1, i1 < I.shape1d.height →
      DenseMatrix.inExtent perAxis I.shape1d.width I.shape1d.width i1 i2))

set_option synthInstance.maxSize 2000 in
set_option synthInstance.maxHeartbeats 200000 in
instance PAMassIntegrator.hexScratchInExtent.decidable (perAxis : Bool)
    (I : PAMassIntegrator R) : Decidable (I.hexScratchInExtent perAxis) := by
  unfold PAMassIntegrator.hexScratchInExtent
  infer_instance

/-- The number of scalar multiply-add operations of one `(e, vd)` unit of
`PADiffusionIntegrator::MultHex` (lines 303-390), counted along its loop nest: one for each
statement `x += a * b`, three for each of the three assignments of the loop over the points
(three products each), and three for `Umat(i1,i2,i3) += a*b + c*d + e*f`. -/
def PADiffusionIntegrator.MultHexUnitOps (I : PADiffusionIntegrator R) : Nat :=
  let quads := I.quads
  let dofs1d := I.shape1d.height
  let quads1d := I.shape1d.width
  let n := forLoop dofs1d (fun _ n =>
    let n := forLoop dofs1d (fun _ n =>
      let n := forLoop dofs1d (fun _ n => forLoop quads1d (fun _ n => n + 2) n) n
      forLoop quads1d (fun _ n => forLoop quads1d (fun _ n => n + 3) n) n) n
    forLoop quads1d (fun _ n =>
      forLoop quads1d (fun _ n => forLoop quads1d (fun _ n => n + 3) n) n) n) 0
  let n := forLoop quads (fun _ n => n + 9) n
  forLoop quads1d (fun _ n =>
    let n := forLoop quads1d (fun _ n =>
      let n := forLoop quads1d (fun _ n => forLoop dofs1d (fun _ n => n + 3) n) n
      forLoop dofs1d (fun _ n => forLoop dofs1d (fun _ n => n + 3) n) n) n
    forLoop dofs1d (fun _ n =>
      forLoop dofs1d (fun _ n => forLoop dofs1d (fun _ n => n + 3) n) n) n) n

end ExtentDefs

section ExtentExamples

/-- A family of diffusion integrators on one hexahedron with `dofs1d = 1` and `quads1d = q`:
`dofs = 1`, `quads = q³`, all table and tensor entries zero. -/
def exThinHex (q : Nat) : PADiffusionIntegrator Int :=
  { NE := 1, vdim := 1, dim := 3, dofs := 1, quads := q * q * q,
    shape1d := ⟨fun _ => 0, 1, q⟩, dshape1d := ⟨fun _ => 0, 1, q⟩, Dtensor := fun _ _ => 0 }

end ExtentExamples

/-! ## The LU kernels of `linalg/kernels/densemat.cpp` -/

section DenseKernelDefs

/-- Modelled from the spec: the macro `MFEM_FORALL(i, N, body)` of `general/okina.hpp`, which
is not among the sources. The iterations `i = 0, ..., N-1` run one after the other on the
shared state, as on the host path of `wrap`. -/
def MFEM_FORALL {σ : Type} (N : Nat) (body : Nat → σ → σ) (s : σ) : σ :=
  forLoop N body s

variable {R : Type} [CommRing R]

/-- The first loop of `kLSolve` (lines 33-39) on the column that starts at `x[base]`: for
`i = 0 .. m-1` the entries `mx[i]` and `mx[ipiv[i]]` are exchanged. -/
def kLSolveSwaps (m : Nat) (ipiv : Nat → Nat) (base : Nat) (x : Nat → R) : Nat → R :=
  forLoop m (fun i x =>
    let tmp := x (base + i)
    let x := setAt x (base + i) (x (base + ipiv i))
    setAt x (base + ipiv i) tmp) x

/-- The second loop of `kLSolve` (lines 41-48) on the column that starts at `x[base]`: for
`j = 0 .. m-1`, with `mx_j = mx[j]`, `mx[i] -= data[i+j*m] * mx_j` for `i = j+1 .. m-1`. -/
def kLSolveForward (m : Nat) (data : Nat → R) (base : Nat) (x : Nat → R) : Nat → R :=
  forLoop m (fun j x =>
    let mx_j := x (base + j)
    forLoop (m - (j + 1)) (fun t x =>
      let i := j + 1 + t
      setAt x (base + i) (x (base + i) - data (i + j * m) * mx_j)) x) x

/-- The kernel `kLSolve(m, n, data, ipiv, x)` (lines 27-51); `mx = &x[k*m]` is the column `k`
of the right-hand side. The result is the final content of `x`. -/
def kLSolve (m n : Nat) (data : Nat → R) (ipiv : Nat → Nat) (x : Nat → R) : Nat → R :=
  MFEM_FORALL n (fun k x =>
    let mx := k * m
    let x := kLSolveSwaps m ipiv mx x
    kLSolveForward m data mx x) x

/-- The unit lower triangular factor `L` stored in `data`: the strictly lower part of the
`m × m` column-major array, ones on the diagonal, zeros above. -/
def unitLower (m : Nat) (data : Nat → R) (r c : Nat) : R :=
  if c < r then data (r + c * m) else if c = r then 1 else 0

/-- The upper triangular factor `U` stored in `data`: the upper part of the array including
the diagonal, zeros below. -/
def upperPart (m : Nat) (data : Nat → R) (r c : Nat) : R :=
  if r ≤ c then data (r + c * m) else 0

/-- The row permutation of the interchanges `(i ↔ ipiv[i])` applied in the order
`i = 0, ..., n-1`: row `r` of `P·A` is row `pivotPerm n ipiv r` of `A`. -/
def pivotPerm : Nat → (Nat → Nat) → Nat → Nat
  | 0, _, r => r
  | n + 1, ipiv, r =>
    pivotPerm n ipiv (if r = n then ipiv n else if r = ipiv n then n else r)

end DenseKernelDefs

section FactorDefs

variable {K : Type} [LinearOrderedField K]

/-- The variables `ipiv` and `data` of `kFactor`. -/
structure LUState (K : Type) where
  ipiv : Nat → Nat
  data : Nat → K

/-- The pivot search of step `i` of `kFactor` (lines 96-106): the pair `(a, piv)` after the
loop `for (j = i+1; j < m; j++) if (fabs(data[j+i*m]) > a) { a = b; piv = j; }`. -/
def kFactorPivot (m i : Nat) (data : Nat → K) : K × Nat :=
  let piv := i
  let a := |data (piv + i * m)|
  forLoop (m - (i + 1)) (fun t (ap : K × Nat) =>
    let j := i + 1 + t
    let b := |data (j + i * m)|
    if b > ap.1 then (b, j) else ap) (a, piv)

/-- The row interchange of step `i` of `kFactor` (lines 108-118): if `piv != i`, rows `i` and
`piv` are exchanged in all `m` columns. -/
def kFactorSwap (m i piv : Nat) (data : Nat → K) : Nat → K :=
  if piv ≠ i then
    forLoop m (fun j data =>
      let tmp := data (i + j * m)
      let data := setAt data (i + j * m) (data (piv + j * m))
      setAt data (piv + j * m) tmp) data
  else data

/-- The elimination of step `i` of `kFactor` (lines 122-134) after the interchange: column `i`
below the diagonal is scaled by `1/data[i+i*m]`, then the trailing block is updated,
`data[j+k*m] -= data[i+k*m] * data[j+i*m]` for `j, k = i+1 .. m-1`. -/
def kFactorEliminate (m i : Nat) (data : Nat → K) : Nat → K :=
  let a_ii_inv := 1 / data (i + i * m)
  let data := forLoop (m - (i + 1)) (fun t data =>
    let j := i + 1 + t
    mulAt data (j + i * m) a_ii_inv) data
  forLoop (m - (i + 1)) (fun t data =>
    let k := i + 1 + t
    let a_ik := data (i + k * m)
    forLoop (m - (i + 1)) (fun t data =>
      let j := i + 1 + t
      setAt data (j + k * m) (data (j + k * m) - a_ik * data (j + i * m))) data) data

/-- The pivot met at step `i` in the state `s`: the entry `data[i+i*m]` after the pivot search
and the row interchange, the `diim` of line 120. -/
def kFactorDiag (m i : Nat) (s : LUState K) : K :=
  kFactorSwap m i (kFactorPivot m i s.data).2 s.data (i + i * m)

/-- The body of `kFactor` for the index `i` (lines 94-134); `assert(diim != 0.0)` ends the run
without a result when the pivot is zero. -/
def kFactorStep (m i : Nat) (s : LUState K) : Option (LUState K) :=
  let piv := (kFactorPivot m i s.data).2
  let ipiv := setAt s.ipiv i piv
  let data := kFactorSwap m i piv s.data
  let diim := data (i + i * m)
  if diim = 0 then none
  else some ⟨ipiv, kFactorEliminate m i data⟩

/-- The steps `0, ..., n-1` of `kFactor` run one after the other from the state `s`. -/
def kFactorSteps (m n : Nat) (s : LUState K) : Option (LUState K) :=
  MFEM_FORALL n (fun i (s : Option (LUState K)) => s.bind (kFactorStep m i)) (some s)

/-- The kernel `kFactor(m, ipiv, data)` (lines 90-136) run sequentially: the final `ipiv` and
`data`, or no result when an `assert` failed. -/
def kFactor (m : Nat) (ipiv : Nat → Nat) (data : Nat → K) : Option (LUState K) :=
  kFactorSteps m m ⟨ipiv, data⟩

/-- The loop invariant of `kFactor` after `n` steps, `A` being the initial array: entry
`(r, c)` of the row-permuted `A` is the product of the multipliers of row `r` in the first
`min n r` columns with the rows above, plus the entry `(r, c)` itself where it still holds an
entry of `U` or of the trailing block. -/
def LUInvariant (m : Nat) (A : Nat → K) (n : Nat) (s : LUState K) : Prop :=
  ∀ r c, r < m → c < m →
    A (pivotPerm n s.ipiv r + c * m) =
      ∑ j in range (min (min n r) (c + 1)), s.data (r + j * m) * s.data (j + c * m) +
        (if min n r ≤ c then s.data (r + c * m) else 0)

end FactorDefs

section DenseKernelExamples

/-- The 2 × 2 matrix `(1 2; 3 4)` in column-major order, zero beyond its four entries. -/
def exA2 : Nat → ℚ := fun p => if p = 0 then 1 else if p = 1 then 3 else if p = 2 then 2
  else if p = 3 then 4 else 0

/-- LU data of a 3 × 3 system over the integers: `data[p] = p + 1`. -/
def exLU : Nat → Int := fun p => (p : Int) + 1

/-- Pivots `ipiv = (1, 2, 2)` of a 3 × 3 system. -/
def exPiv : Nat → Nat := fun i => if i = 0 then 1 else 2

/-- A right-hand side with two columns of length 3: `x[p] = p² - 4`. -/
def exX : Nat → Int := fun p => (p : Int) * (p : Int) - 4

end DenseKernelExamples

/-! ## The forward-contracted fields of the dense formulas -/

namespace Dense

section FieldDefs

variable {R : Type} [CommRing R]

/-- The 1D forward-contracted field `g(k) = ∑ j, T(j,k) * V(j)` of the formula `seg`. -/
def gSeg (dofs1d : Nat) (T : Nat → Nat → R) (V : Nat → R) (k : Nat) : R :=
  ∑ j in range dofs1d, T j k * V j

/-- The 2D forward-contracted field `g(k1,k2) = ∑ (j1,j2), V(j1,j2) * T1(j1,k1) * T2(j2,k2)`
of the formulas `massQuad` (`T1 = T2 = shape`) and `diffusionQuad`. -/
def gQuad (dofs1d : Nat) (T1 T2 : Nat → Nat → R) (V : Nat → Nat → R) (k1 k2 : Nat) : R :=
  ∑ j1 in range dofs1d, ∑ j2 in range dofs1d, V j1 j2 * T1 j1 k1 * T2 j2 k2

/-- The 3D forward-contracted field of the formula `massHex`:
`g(k) = ∑ (j1,j2,j3), V(j1,j2,j3) * shape(j1,k1) * shape(j2,k2) * shape(j3,k3)`. -/
def gHex (dofs1d : Nat) (shape : Nat → Nat → R) (V : Nat → Nat → Nat → R)
    (k1 k2 k3 : Nat) : R :=
  ∑ j1 in range dofs1d, ∑ j2 in range dofs1d, ∑ j3 in range dofs1d,
    V j1 j2 j3 * shape j1 k1 * shape j2 k2 * shape j3 k3

/-- The 3D forward-contracted gradient field of the formula `diffusionHex`:
`g_d(k) = ∑ j, G_d(j,k) * V(j)`. -/
def gGrad (dofs1d : Nat) (shape dshape : Nat → Nat → R) (V : Nat → Nat → Nat → R)
    (d k1 k2 k3 : Nat) : R :=
  ∑ j1 in range dofs1d, ∑ j2 in range dofs1d, ∑ j3 in range dofs1d,
    G3 shape dshape d j1 j2 j3 k1 k2 k3 * V j1 j2 j3

end FieldDefs

end Dense

section AdjointExamples

/-- A state of `MultHex` at offset 8 with non-zero scratch content and output `exU`. -/
def exHexState : HexState Int := ⟨8, exV, exV, exV, exU⟩

end AdjointExamples

/-! ## More kernels of `linalg/kernels/densemat.cpp` -/

section USolveDefs

variable {K : Type} [Field K]

/-- The body of `kUSolve` (lines 60-67) on the column that starts at `x[base]`: for
`j = m-1` down to `0`, `x_j = (mx[j] /= data[j+j*m])`, then `mx[i] -= data[i+j*m] * x_j` for
`i = 0 .. j-1`. Iteration `t` of the counted loop has `j = m-1-t`. -/
def kUSolveColumn (m : Nat) (data : Nat → K) (base : Nat) (x : Nat → K) : Nat → K :=
  forLoop m (fun t x =>
    let j := m - 1 - t
    let x := setAt x (base + j) (x (base + j) / data (j + j * m))
    let x_j := x (base + j)
    forLoop j (fun i x => setAt x (base + i) (x (base + i) - data (i + j * m) * x_j)) x) x

/-- The kernel `kUSolve(m, n, data, x)` (lines 54-69); `mx = &x[k*m]` is the column `k` of
the right-hand side. The result is the final content of `x`. -/
def kUSolve (m n : Nat) (data : Nat → K) (x : Nat → K) : Nat → K :=
  MFEM_FORALL n (fun k x =>
    let mx := k * m
    kUSolveColumn m data mx x) x

end USolveDefs

section TransposeDefs

variable {R : Type} [CommRing R]

/-- The kernel `DenseMatrixTranspose(height, width, data, mdata)` (lines 147-159):
`data[i+j*height] = mdata[j+i*height]` for `i < height`, `j < width`. The result is the final
content of `data`. -/
def DenseMatrixTranspose (height width : Nat) (data mdata : Nat → R) : Nat → R :=
  MFEM_FORALL height (fun i data =>
    forLoop width (fun j data => setAt data (i + j * height) (mdata (j + i * height))) data)
    data

/-- The indices of `mdata` that `DenseMatrixTranspose(height, width, ·, mdata)` reads, in the
order of the reads. -/
def DenseMatrixTransposeReads (height width : Nat) : List Nat :=
  MFEM_FORALL height (fun i (reads : List Nat) =>
    forLoop width (fun j reads => reads ++ [j + i * height]) reads) []

/-- The function `kDet3(data)` (lines 263-271). The macros `MFEM_GPU_CANNOT_PASS` and
`GET_ADRS(data)` are not among the sources: the first is a guard of the host path and computes
nothing, the second names the buffer `d_data`, taken as the buffer `data` itself. -/
def kDet3 (data : Nat → R) : R :=
  let d_data := data
  d_data 0 * (d_data 4 * d_data 8 - d_data 5 * d_data 7) +
  d_data 3 * (d_data 2 * d_data 7 - d_data 1 * d_data 8) +
  d_data 6 * (d_data 1 * d_data 5 - d_data 2 * d_data 4)

/-- The kernel `kCalcInverse3D(t, a, inva)` (lines 315-329): nine stores to `inva`, each a
2 × 2 minor of `a` times `t`. The result is the final content of `inva`. -/
def kCalcInverse3D (t : R) (a inva : Nat → R) : Nat → R :=
  let inva := setAt inva (0 + 3 * 0)
    ((a (1 + 3 * 1) * a (2 + 3 * 2) - a (1 + 3 * 2) * a (2 + 3 * 1)) * t)
  let inva := setAt inva (0 + 3 * 1)
    ((a (0 + 3 * 2) * a (2 + 3 * 1) - a (0 + 3 * 1) * a (2 + 3 * 2)) * t)
  let inva := setAt inva (0 + 3 * 2)
    ((a (0 + 3 * 1) * a (1 + 3 * 2) - a (0 + 3 * 2) * a (1 + 3 * 1)) * t)
  let inva := setAt inva (1 + 3 * 0)
    ((a (1 + 3 * 2) * a (2 + 3 * 0) - a (1 + 3 * 0) * a (2 + 3 * 2)) * t)
  let inva := setAt inva (1 + 3 * 1)
    ((a (0 + 3 * 0) * a (2 + 3 * 2) - a (0 + 3 * 2) * a (2 + 3 * 0)) * t)
  let inva := setAt inva (1 + 3 * 2)
    ((a (0 + 3 * 2) * a (1 + 3 * 0) - a (0 + 3 * 0) * a (1 + 3 * 2)) * t)
  let inva := setAt inva (2 + 3 * 0)
    ((a (1 + 3 * 0) * a (2 + 3 * 1) - a (1 + 3 * 1) * a (2 + 3 * 0)) * t)
  let inva := setAt inva (2 + 3 * 1)
    ((a (0 + 3 * 1) * a (2 + 3 * 0) - a (0 + 3 * 0) * a (2 + 3 * 1)) * t)
  setAt inva (2 + 3 * 2)
    ((a (0 + 3 * 0) * a (1 + 3 * 1) - a (0 + 3 * 1) * a (1 + 3 * 0)) * t)

end TransposeDefs

section MoreKernelExamples

/-- The buffer with `mdata[p] = p`. -/
def exRamp : Nat → Int := fun p => (p : Int)

/-- The 3 × 3 matrix with column-major data `2,0,1, 1,3,0, 0,1,4`. -/
def exA3 : Nat → Int := fun p =>
  if p = 0 then 2 else if p = 2 then 1 else if p = 3 then 1 else if p = 4 then 3
  else if p = 7 then 1 else if p = 8 then 4 else 0

/-- Upper triangular data of a 2 × 2 system over the rationals: `U = (2 1; · 4)`, with the
entry below the diagonal set to `7`. -/
def exU2 : Nat → ℚ := fun p => if p = 0 then 2 else if p = 1 then 7 else if p = 2 then 1 else 4

/-- A right-hand side with two columns of length 2 over the rationals: `x[p] = p + 1`. -/
def exXq : Nat → ℚ := fun p => (p : ℚ) + 1

end MoreKernelExamples

/-! ## The stores of the diffusion set-up -/

section SetupStoreDefs

variable {K : Type}

/-- The stores to the data of `Dtensor` that the body of the loop over quadrature points of
`PADiffusionIntegrator::ComputePA` makes for element `e` and point `k` (lines 106-131), in the
order it makes them: the flat index of `Dmat(l, k)` for each statement `Dmat(l, k) = ...` that
runs, in the branch that the coefficients select. -/
def PADiffusionIntegrator.ComputePAPointStores (dim entries quads : Nat)
    (coeff : Option (Nat → Nat → K)) (mcoeff : Option (Nat → Nat → DenseMatrix K))
    (e k : Nat) : List Nat :=
  let Dmat := fun (l k : Nat) => e * (entries * quads) + (l + k * entries)
  match coeff with
  | some _ => packLoop dim (fun l _ _ stores => stores ++ [Dmat l k]) []
  | none =>
    match mcoeff with
    | some _ => packLoop dim (fun l _ _ stores => stores ++ [Dmat l k]) []
    | none => packLoop dim (fun l _ _ stores => stores ++ [Dmat l k]) []

end SetupStoreDefs

/-! ## Lemmas -/


/-! ## Loop and index lemmas -/

section Loops

variable {σ : Type}

@[simp] lemma forLoop_zero (body : Nat → σ → σ) (s : σ) : forLoop 0 body s = s := rfl

@[simp] lemma forLoop_succ (n : Nat) (body : Nat → σ → σ) (s : σ) :
    forLoop (n + 1) body s = body n (forLoop n body s) := rfl

/-- A property preserved by every iteration holds after the loop. -/
lemma forLoop_inv (P : σ → Prop) (n : Nat) (body : Nat → σ → σ)
    (h : ∀ i s, i < n → P s → P (body i s)) (s : σ) (hs : P s) : P (forLoop n body s) := by
  induction n with
  | zero => exact hs
  | succ m ih =>
    exact h m _ (Nat.lt_succ_self m) (ih (fun i s hi => h i s (Nat.lt_succ_of_lt hi)))

/-- Two loops whose bodies agree on the iterations that run compute the same state. -/
lemma forLoop_congr (n : Nat) (f g : Nat → σ → σ) (h : ∀ i s, i < n → f i s = g i s) (s : σ) :
    forLoop n f s = forLoop n g s := by
  induction n with
  | zero => rfl
  | succ m ih =>
    rw [forLoop_succ, forLoop_succ, ih (fun i s hi => h i s (Nat.lt_succ_of_lt hi)),
      h m _ (Nat.lt_succ_self m)]

/-- An accumulation loop: if, under an invariant, iteration `i` adds `g i p` to entry `p` of the
observed buffer, the loop adds `∑ i < n, g i p`. -/
lemma forLoop_acc {R : Type} [AddCommMonoid R] (Inv : σ → Prop) (get : σ → Nat → R)
    (g : Nat → Nat → R) (n : Nat) (body : Nat → σ → σ)
    (hInv : ∀ i s, i < n → Inv s → Inv (body i s))
    (hacc : ∀ i s, i < n → Inv s → ∀ p, get (body i s) p = get s p + g i p)
    (s : σ) (hs : Inv s) (p : Nat) :
    get (forLoop n body s) p = get s p + ∑ i in range n, g i p := by
  induction n with
  | zero => simp
  | succ m ih =>
    have hI : Inv (forLoop m body s) :=
      forLoop_inv Inv m body (fun i s hi => hInv i s (Nat.lt_succ_of_lt hi)) s hs
    rw [forLoop_succ, hacc m _ (Nat.lt_succ_self m) hI p,
      ih (fun i s hi => hInv i s (Nat.lt_succ_of_lt hi))
        (fun i s hi => hacc i s (Nat.lt_succ_of_lt hi)),
      Finset.sum_range_succ, add_assoc]

/-- The buffer-only case of `forLoop_acc`. -/
lemma forLoop_add {R : Type} [AddCommMonoid R] (g : Nat → Nat → R) (n : Nat)
    (body : Nat → (Nat → R) → Nat → R)
    (hacc : ∀ i a, i < n → ∀ p, body i a p = a p + g i p) (a : Nat → R) (p : Nat) :
    forLoop n body a p = a p + ∑ i in range n, g i p :=
  forLoop_acc (fun _ => True) (fun a => a) g n body (fun _ _ _ _ => trivial)
    (fun i a hi _ => hacc i a hi) a trivial p

/-- A relation between the states of two runs that every pair of iterations preserves holds
after the loops. -/
lemma forLoop_rel {τ : Type} (Rel : σ → τ → Prop) (n : Nat) (f : Nat → σ → σ)
    (g : Nat → τ → τ) (h : ∀ i s t, i < n → Rel s t → Rel (f i s) (g i t)) (s : σ) (t : τ)
    (hst : Rel s t) : Rel (forLoop n f s) (forLoop n g t) := by
  induction n with
  | zero => exact hst
  | succ m ih =>
    exact h m _ _ (Nat.lt_succ_self m) (ih (fun i s t hi => h i s t (Nat.lt_succ_of_lt hi)))

end Loops

section Index

/-- Column-major flat indices determine their coordinates. -/
lemma flat_inj (q a a' b b' : Nat) (ha : a < q) (ha' : a' < q) :
    a + q * b = a' + q * b' ↔ a = a' ∧ b = b' := by
  constructor
  · intro h
    have h1 : (a + q * b) % q = (a' + q * b') % q := by rw [h]
    rw [Nat.add_mul_mod_self_left, Nat.add_mul_mod_self_left, Nat.mod_eq_of_lt ha,
      Nat.mod_eq_of_lt ha'] at h1
    subst h1
    have h2 : q * b = q * b' := by omega
    exact ⟨rfl, Nat.eq_of_mul_eq_mul_left (by omega) h2⟩
  · rintro ⟨rfl, rfl⟩; rfl

variable {R : Type} [AddCommMonoid R]

/-- Summing the increments scattered to column-major slots `a' + q*b'`, `a' < n ≤ q`, as seen
from slot `a + q*b`: only `a' = a` contributes, and only when `b' = b`. -/
lemma sum_flat (q n a b b' : Nat) (hn : n ≤ q) (ha : a < n) (f : Nat → R) :
    ∑ a' in range n, (if a + q * b = a' + q * b' then f a' else 0) =
      if b = b' then f a else 0 := by
  have h : ∀ a' ∈ range n, (if a + q * b = a' + q * b' then f a' else 0) =
      if a = a' then (if b = b' then f a' else 0) else 0 := by
    intro a' ha'
    rw [Finset.mem_range] at ha'
    simp only [flat_inj q a a' b b' (by omega) (by omega)]
    by_cases h1 : a = a' <;> by_cases h2 : b = b' <;> simp [h1, h2]
  rw [Finset.sum_congr rfl h, Finset.sum_ite_eq]
  simp [ha]

end Index


section Units

variable {R : Type} [CommRing R]

lemma addAt_apply (a : Nat → R) (i : Nat) (v : R) (p : Nat) :
    addAt a i v p = a p + if p = i then v else 0 := by
  unfold addAt; split <;> simp

lemma mulAt_apply (a : Nat → R) (i : Nat) (v : R) (p : Nat) :
    mulAt a i v p = if p = i then a p * v else a p := rfl

omit [CommRing R] in
lemma setAt_apply (a : Nat → R) (i : Nat) (v : R) (p : Nat) :
    setAt a i v p = if p = i then v else a p := rfl

/-- The scaling loop `for k < n: a[k] *= d[k]`. -/
lemma forLoop_mulAt (n : Nat) (d a : Nat → R) (p : Nat) :
    forLoop n (fun k a => mulAt a k (d k)) a p = if p < n then a p * d p else a p := by
  induction n with
  | zero => simp
  | succ m ih =>
    rw [forLoop_succ, mulAt_apply, ih]
    by_cases h : p = m
    · subst h; simp
    · have : p < m + 1 ↔ p < m := by omega
      simp [h, this]

/-- Slices `[n*step, (n+1)*step)` of distinct units `n = e*vdim + vd` are disjoint. -/
lemma slice_iff (vdim step e vd e' vd' i : Nat) (hi : i < step) (hvd : vd < vdim)
    (hvd' : vd' < vdim) :
    ((e' * vdim + vd') * step ≤ (e * vdim + vd) * step + i ∧
      (e * vdim + vd) * step + i < (e' * vdim + vd') * step + step) ↔ e' = e ∧ vd' = vd := by
  constructor
  · rintro ⟨h1, h2⟩
    have hn : e' * vdim + vd' = e * vdim + vd := by
      rcases Nat.lt_trichotomy (e' * vdim + vd') (e * vdim + vd) with h | h | h
      · exfalso
        have : (e' * vdim + vd' + 1) * step ≤ (e * vdim + vd) * step :=
          Nat.mul_le_mul_right step h
        rw [Nat.add_mul, Nat.one_mul] at this
        omega
      · exact h
      · exfalso
        have : (e * vdim + vd + 1) * step ≤ (e' * vdim + vd') * step :=
          Nat.mul_le_mul_right step h
        rw [Nat.add_mul, Nat.one_mul] at this
        omega
    have := (flat_inj vdim vd' vd e' e hvd' hvd).1 (by rw [Nat.mul_comm vdim, Nat.mul_comm vdim]; omega)
    exact ⟨this.2, this.1⟩
  · rintro ⟨rfl, rfl⟩
    constructor <;> omega

/-- The two outer loops `for e < NE, for vd < vdim` of every kernel: when each unit of work
advances `offset` by `step` and adds `G e offset p` to `U[p]`, the kernel adds the sum over all
units, unit `(e, vd)` starting at `offset₀ + (e*vdim + vd)*step`. -/
lemma unitLoops {σ : Type} (off : σ → Nat) (U : σ → Nat → R) (step : Nat)
    (G : Nat → Nat → Nat → R) (body : Nat → σ → σ) (NE vdim : Nat)
    (hoff : ∀ e s, e < NE → off (body e s) = off s + step)
    (hU : ∀ e s p, e < NE → U (body e s) p = U s p + G e (off s) p) (s : σ) :
    off (forLoop NE (fun e s => forLoop vdim (fun _ s => body e s) s) s)
        = off s + NE * vdim * step ∧
    ∀ p, U (forLoop NE (fun e s => forLoop vdim (fun _ s => body e s) s) s) p
        = U s p + ∑ e in range NE, ∑ vd in range vdim, G e (off s + (e * vdim + vd) * step) p := by
  have inner : ∀ e, e < NE → ∀ (m : Nat) (s : σ),
      off (forLoop m (fun _ s => body e s) s) = off s + m * step ∧
      ∀ p, U (forLoop m (fun _ s => body e s) s) p
        = U s p + ∑ vd in range m, G e (off s + vd * step) p := by
    intro e he m s
    induction m with
    | zero => simp
    | succ m ih =>
      refine ⟨?_, fun p => ?_⟩
      · rw [forLoop_succ, hoff e _ he, ih.1]; ring
      · rw [forLoop_succ, hU e _ p he, ih.2 p, ih.1, Finset.sum_range_succ, add_assoc]
  induction NE with
  | zero => simp
  | succ n ih =>
    have ih' := ih (fun e s he => hoff e s (Nat.lt_succ_of_lt he))
      (fun e s p he => hU e s p (Nat.lt_succ_of_lt he))
      (fun e he => inner e (Nat.lt_succ_of_lt he))
    have hin := inner n (Nat.lt_succ_self n) vdim
      (forLoop n (fun e s => forLoop vdim (fun _ s => body e s) s) s)
    refine ⟨?_, fun p => ?_⟩
    · rw [forLoop_succ, hin.1, ih'.1]; ring
    · rw [forLoop_succ, hin.2 p, ih'.2 p, ih'.1, Finset.sum_range_succ, add_assoc]
      congr 2
      apply Finset.sum_congr rfl
      intro vd _
      congr 1
      ring

/-- Reading the sum over all units of slice-local increments at entry `i` of the slice of unit
`(e, vd)`: only that unit contributes. -/
lemma sum_units (NE vdim step e vd i : Nat) (he : e < NE) (hvd : vd < vdim) (hi : i < step)
    (F : Nat → Nat → R) :
    ∑ e' in range NE, ∑ vd' in range vdim,
      (if (e' * vdim + vd') * step ≤ (e * vdim + vd) * step + i ∧
          (e * vdim + vd) * step + i < (e' * vdim + vd') * step + step
        then F e' ((e' * vdim + vd') * step) else 0) = F e ((e * vdim + vd) * step) := by
  rw [Finset.sum_eq_single e, Finset.sum_eq_single vd]
  · simp [hi]
  · intro vd' hvd' hne
    rw [Finset.mem_range] at hvd'
    rw [if_neg]
    rw [slice_iff vdim step e vd e vd' i hi hvd hvd']
    simp [hne]
  · intro h; exact absurd (Finset.mem_range.2 hvd) h
  · intro e' _ hne
    apply Finset.sum_eq_zero
    intro vd' hvd'
    rw [Finset.mem_range] at hvd'
    rw [if_neg]
    rw [slice_iff vdim step e vd e' vd' i hi hvd hvd']
    simp [hne]
  · intro h; exact absurd (Finset.mem_range.2 he) h

end Units

section Seg
variable {R : Type} [CommRing R]

lemma PADiffusionIntegrator.MultSegUnit_U_diff (I : PADiffusionIntegrator R) (V : Nat → R) (e : Nat)
    (s : SegState R) (hw : I.dshape1d.width = I.shape1d.width) (p : Nat) :
    (I.MultSegUnit V e s).U p = s.U p +
      if s.offset ≤ p ∧ p < s.offset + I.dshape1d.height then
        Dense.seg I.dshape1d.height I.dshape1d.width I.dshape1d.get (I.Dtensor e)
          (fun j => V (s.offset + j)) (p - s.offset)
      else 0 := by
  unfold PADiffusionIntegrator.MultSegUnit DenseMatrix.AddMult Dense.seg
  simp only
  split
  · congr 1
    apply Finset.sum_congr rfl
    intro k hk
    rw [Finset.mem_range] at hk
    rw [forLoop_mulAt, if_pos (hw ▸ hk)]
    unfold DenseMatrix.MultTranspose
    rw [if_pos hk]
    ring
  · simp

lemma PADiffusionIntegrator.MultSeg_closed_diff (I : PADiffusionIntegrator R) (V U : Nat → R)
    (hh : I.dshape1d.height = I.shape1d.height) (hw : I.dshape1d.width = I.shape1d.width)
    (e vd i : Nat) (he : e < I.NE) (hvd : vd < I.vdim) (hi : i < I.shape1d.height) :
    I.MultSeg V U ((e * I.vdim + vd) * I.shape1d.height + i) =
      U ((e * I.vdim + vd) * I.shape1d.height + i) +
      Dense.seg I.shape1d.height I.shape1d.width I.dshape1d.get (I.Dtensor e)
        (fun j => V ((e * I.vdim + vd) * I.shape1d.height + j)) i := by
  unfold PADiffusionIntegrator.MultSeg
  have h := (unitLoops SegState.offset SegState.U I.shape1d.height
    (fun e off p => if off ≤ p ∧ p < off + I.dshape1d.height then
        Dense.seg I.dshape1d.height I.dshape1d.width I.dshape1d.get (I.Dtensor e)
          (fun j => V (off + j)) (p - off) else 0)
    (fun e s => I.MultSegUnit V e s) I.NE I.vdim (fun _ _ _ => rfl)
    (fun e s p _ => I.MultSegUnit_U_diff V e s hw p)
    { offset := 0, Q := fun _ => 0, U := U }).2 ((e * I.vdim + vd) * I.shape1d.height + i)
  rw [h]
  simp only [zero_add, hh, hw]
  rw [sum_units I.NE I.vdim I.shape1d.height e vd i he hvd hi
    (fun e' off => Dense.seg I.shape1d.height I.shape1d.width I.dshape1d.get (I.Dtensor e')
          (fun j => V (off + j)) ((e * I.vdim + vd) * I.shape1d.height + i - off))]
  simp

end Seg

section Seg2
variable {R : Type} [CommRing R]

lemma PAMassIntegrator.MultSegUnit_U_mass (I : PAMassIntegrator R) (V : Nat → R) (e : Nat)
    (s : SegState R) (p : Nat) :
    (I.MultSegUnit V e s).U p = s.U p +
      if s.offset ≤ p ∧ p < s.offset + I.shape1d.height then
        Dense.seg I.shape1d.height I.shape1d.width I.shape1d.get (fun k => I.Dmat.get k e)
          (fun j => V (s.offset + j)) (p - s.offset)
      else 0 := by
  unfold PAMassIntegrator.MultSegUnit DenseMatrix.AddMult Dense.seg
  simp only
  split
  · congr 1
    apply Finset.sum_congr rfl
    intro k hk
    rw [Finset.mem_range] at hk
    rw [forLoop_mulAt, if_pos hk]
    unfold DenseMatrix.MultTranspose DenseMatrix.GetColumn DenseMatrix.get
    rw [if_pos hk]
    ring
  · simp

lemma PAMassIntegrator.MultSeg_closed_mass (I : PAMassIntegrator R) (V U : Nat → R)
    (e vd i : Nat) (he : e < I.NE) (hvd : vd < I.vdim) (hi : i < I.shape1d.height) :
    I.MultSeg V U ((e * I.vdim + vd) * I.shape1d.height + i) =
      U ((e * I.vdim + vd) * I.shape1d.height + i) +
      Dense.seg I.shape1d.height I.shape1d.width I.shape1d.get (fun k => I.Dmat.get k e)
        (fun j => V ((e * I.vdim + vd) * I.shape1d.height + j)) i := by
  unfold PAMassIntegrator.MultSeg
  have h := (unitLoops SegState.offset SegState.U I.shape1d.height
    (fun e off p => if off ≤ p ∧ p < off + I.shape1d.height then
        Dense.seg I.shape1d.height I.shape1d.width I.shape1d.get (fun k => I.Dmat.get k e)
          (fun j => V (off + j)) (p - off) else 0)
    (fun e s => I.MultSegUnit V e s) I.NE I.vdim (fun _ _ _ => rfl)
    (fun e s p _ => I.MultSegUnit_U_mass V e s p)
    { offset := 0, Q := fun _ => 0, U := U }).2 ((e * I.vdim + vd) * I.shape1d.height + i)
  rw [h]
  simp only [zero_add]
  rw [sum_units I.NE I.vdim I.shape1d.height e vd i he hvd hi
    (fun e' off => Dense.seg I.shape1d.height I.shape1d.width I.shape1d.get
          (fun k => I.Dmat.get k e')
          (fun j => V (off + j)) ((e * I.vdim + vd) * I.shape1d.height + i - off))]
  simp

/-! ### The dense matrix products -/

lemma flat_lt (h w i j : Nat) (hi : i < h) (hj : j < w) : i + j * h < h * w := by
  calc i + j * h < h + j * h := by omega
    _ = (j + 1) * h := by ring
    _ ≤ w * h := Nat.mul_le_mul_right h hj
    _ = h * w := Nat.mul_comm w h

lemma flat_mod (h i j : Nat) (hi : i < h) : (i + j * h) % h = i := by
  rw [Nat.add_mul_mod_self_right, Nat.mod_eq_of_lt hi]

lemma flat_div (h i j : Nat) (hi : i < h) : (i + j * h) / h = j := by
  rw [Nat.add_mul_div_right _ _ (by omega : 0 < h), Nat.div_eq_of_lt hi, Nat.zero_add]

lemma MultAtB_get (A B : DenseMatrix R) (dst : Nat → R) (off i j : Nat) (hi : i < A.width)
    (hj : j < B.width) :
    MultAtB A B dst off (off + (i + j * A.width)) =
      ∑ k in range A.height, A.get k i * B.get k j := by
  unfold MultAtB
  rw [if_pos ⟨by omega, by have := flat_lt _ _ i j hi hj; omega⟩, Nat.add_sub_cancel_left,
    flat_mod _ _ _ hi, flat_div _ _ _ hi]

lemma MultAtB_out (A B : DenseMatrix R) (dst : Nat → R) (off p : Nat)
    (hp : p < off ∨ off + A.width * B.width ≤ p) : MultAtB A B dst off p = dst p := by
  unfold MultAtB
  rw [if_neg (by omega)]

lemma MultABt_get (A B : DenseMatrix R) (dst : Nat → R) (off i j : Nat) (hi : i < A.height)
    (hj : j < B.height) :
    MultABt A B dst off (off + (i + j * A.height)) =
      ∑ k in range A.width, A.get i k * B.get j k := by
  unfold MultABt
  rw [if_pos ⟨by omega, by have := flat_lt _ _ i j hi hj; omega⟩, Nat.add_sub_cancel_left,
    flat_mod _ _ _ hi, flat_div _ _ _ hi]

lemma AddMultABt_apply (A B : DenseMatrix R) (dst : Nat → R) (off p : Nat) :
    AddMultABt A B dst off p = dst p +
      if off ≤ p ∧ p < off + A.height * B.height then
        ∑ k in range A.width, A.get ((p - off) % A.height) k * B.get ((p - off) / A.height) k
      else 0 := by
  unfold AddMultABt
  split <;> simp

lemma applyD2Step_apply (quads : Nat) (D a : Nat → R) (k p : Nat) :
    PADiffusionIntegrator.applyD2Step quads D k a p =
      if p = quads + k then D (3 * k + 1) * a k + D (3 * k + 2) * a (quads + k)
      else if p = k then D (3 * k + 0) * a k + D (3 * k + 1) * a (quads + k)
      else a p := by
  unfold PADiffusionIntegrator.applyD2Step
  simp only [setAt_apply, Nat.zero_mul, Nat.one_mul, Nat.zero_add]

/-- The loop of lines 243-254 run for the first `n ≤ quads` points. -/
lemma applyD2_first (quads : Nat) (D QQ : Nat → R) (n : Nat) (hn : n ≤ quads) (p : Nat) :
    forLoop n (PADiffusionIntegrator.applyD2Step quads D) QQ p =
      if p < n then D (3 * p + 0) * QQ p + D (3 * p + 1) * QQ (quads + p)
      else if quads ≤ p ∧ p < quads + n then
        D (3 * (p - quads) + 1) * QQ (p - quads) + D (3 * (p - quads) + 2) * QQ p
      else QQ p := by
  induction n generalizing p with
  | zero =>
    rw [forLoop_zero, if_neg (by omega), if_neg (by omega)]
  | succ m ih =>
    have hm : forLoop m (PADiffusionIntegrator.applyD2Step quads D) QQ m = QQ m := by
      rw [ih (by omega) m, if_neg (by omega), if_neg (by omega)]
    have hqm : forLoop m (PADiffusionIntegrator.applyD2Step quads D) QQ (quads + m)
        = QQ (quads + m) := by
      rw [ih (by omega) (quads + m), if_neg (by omega), if_neg (by omega)]
    rw [forLoop_succ, applyD2Step_apply, hm, hqm, ih (by omega) p]
    split_ifs <;> first
      | rfl
      | (exfalso; omega)
      | (subst_vars; simp only [Nat.add_sub_cancel_left])

lemma applyD2_apply (quads : Nat) (D QQ : Nat → R) (p : Nat) :
    PADiffusionIntegrator.applyD2 quads D QQ p =
      if p < quads then D (3 * p + 0) * QQ p + D (3 * p + 1) * QQ (quads + p)
      else if quads ≤ p ∧ p < quads + quads then
        D (3 * (p - quads) + 1) * QQ (p - quads) + D (3 * (p - quads) + 2) * QQ p
      else QQ p :=
  applyD2_first quads D QQ quads (le_refl _) p

end Seg2

section Quad
variable {R : Type} [CommRing R]

lemma PADiffusionIntegrator.quadForward_QQ0_diff (I : PADiffusionIntegrator R) (V : Nat → R)
    (s : QuadState R)
    (hw : I.dshape1d.width = I.shape1d.width) (k1 k2 : Nat) (h1 : k1 < I.shape1d.width)
    (h2 : k2 < I.shape1d.width) :
    (I.quadForward V s).QQ (k1 + k2 * I.shape1d.width) =
      ∑ j2 in range I.shape1d.height, (∑ j1 in range I.shape1d.height,
        V (s.offset + (j1 + j2 * I.shape1d.height)) * I.dshape1d.get j1 k1) *
          I.shape1d.get j2 k2 := by
  unfold PADiffusionIntegrator.quadForward
  simp only
  rw [MultAtB_out _ _ _ _ _ (Or.inl (by
    have := flat_lt _ _ k1 k2 h1 h2
    simp only [Nat.one_mul]; omega))]
  have := MultAtB_get (⟨MultAtB ⟨fun p => V (s.offset + p), I.shape1d.height, I.shape1d.height⟩
    I.dshape1d s.DQ 0, I.shape1d.height, I.shape1d.width⟩ : DenseMatrix R) I.shape1d s.QQ
    (0 * (I.shape1d.width * I.shape1d.width)) k1 k2 h1 h2
  simp only [Nat.zero_mul, Nat.zero_add] at this ⊢
  rw [this]
  apply Finset.sum_congr rfl
  intro j2 hj2
  rw [Finset.mem_range] at hj2
  congr 1
  have h3 := MultAtB_get (⟨fun p => V (s.offset + p), I.shape1d.height, I.shape1d.height⟩ :
    DenseMatrix R) I.dshape1d s.DQ 0 j2 k1 hj2 (hw ▸ h1)
  simp only [Nat.zero_add] at h3
  simp only [DenseMatrix.get] at h3 ⊢
  rw [h3]


lemma PADiffusionIntegrator.quadForward_QQ1_diff (I : PADiffusionIntegrator R) (V : Nat → R)
    (s : QuadState R)
    (hw : I.dshape1d.width = I.shape1d.width) (k1 k2 : Nat) (h1 : k1 < I.shape1d.width)
    (h2 : k2 < I.shape1d.width) :
    (I.quadForward V s).QQ (I.shape1d.width * I.shape1d.width + (k1 + k2 * I.shape1d.width)) =
      ∑ j2 in range I.shape1d.height, (∑ j1 in range I.shape1d.height,
        V (s.offset + (j1 + j2 * I.shape1d.height)) * I.shape1d.get j1 k1) *
          I.dshape1d.get j2 k2 := by
  unfold PADiffusionIntegrator.quadForward
  simp only
  have := MultAtB_get (⟨MultAtB ⟨fun p => V (s.offset + p), I.shape1d.height, I.shape1d.height⟩
    I.shape1d (MultAtB ⟨fun p => V (s.offset + p), I.shape1d.height, I.shape1d.height⟩
    I.dshape1d s.DQ 0) 0, I.shape1d.height, I.shape1d.width⟩ : DenseMatrix R) I.dshape1d
    (MultAtB (⟨MultAtB ⟨fun p => V (s.offset + p), I.shape1d.height, I.shape1d.height⟩
    I.dshape1d s.DQ 0, I.shape1d.height, I.shape1d.width⟩ : DenseMatrix R) I.shape1d s.QQ
    (0 * (I.shape1d.width * I.shape1d.width)))
    (1 * (I.shape1d.width * I.shape1d.width)) k1 k2 h1 (hw ▸ h2)
  simp only [Nat.one_mul] at this ⊢
  rw [this]
  apply Finset.sum_congr rfl
  intro j2 hj2
  rw [Finset.mem_range] at hj2
  congr 1
  have h3 := MultAtB_get (⟨fun p => V (s.offset + p), I.shape1d.height, I.shape1d.height⟩ :
    DenseMatrix R) I.shape1d (MultAtB ⟨fun p => V (s.offset + p), I.shape1d.height,
    I.shape1d.height⟩ I.dshape1d s.DQ 0) 0 j2 k1 hj2 h1
  simp only [Nat.zero_add] at h3
  simp only [DenseMatrix.get] at h3 ⊢
  rw [h3]

lemma slice_coords (d x : Nat) (hx : x < d * d) : x % d < d ∧ x / d < d := by
  have hd : 0 < d := by
    rcases Nat.eq_zero_or_pos d with h | h
    · subst h; simp at hx
    · exact h
  exact ⟨Nat.mod_lt _ hd, Nat.div_lt_of_lt_mul hx⟩

lemma PADiffusionIntegrator.quadBackward_U_diff (I : PADiffusionIntegrator R)
    (s : QuadState R) (hh : I.dshape1d.height = I.shape1d.height)
    (hw : I.dshape1d.width = I.shape1d.width) (p : Nat) :
    (I.quadBackward s).U p = s.U p +
      if s.offset ≤ p ∧ p < s.offset + I.shape1d.height * I.shape1d.height then
        ∑ k1 in range I.shape1d.width, I.dshape1d.get ((p - s.offset) % I.shape1d.height) k1 *
          (∑ k2 in range I.shape1d.width, I.shape1d.get ((p - s.offset) / I.shape1d.height) k2 *
            s.QQ (k1 + k2 * I.shape1d.width)) +
        ∑ k1 in range I.shape1d.width, I.shape1d.get ((p - s.offset) % I.shape1d.height) k1 *
          (∑ k2 in range I.shape1d.width, I.dshape1d.get ((p - s.offset) / I.shape1d.height) k2 *
            s.QQ (I.shape1d.width * I.shape1d.width + (k1 + k2 * I.shape1d.width)))
      else 0 := by
  unfold PADiffusionIntegrator.quadBackward
  simp only
  rw [AddMultABt_apply, AddMultABt_apply]
  simp only [hh, hw]
  by_cases hp : s.offset ≤ p ∧ p < s.offset + I.shape1d.height * I.shape1d.height
  · rw [if_pos hp, if_pos hp, if_pos hp, add_assoc]
    obtain ⟨hi1, hi2⟩ := slice_coords I.shape1d.height (p - s.offset) (by omega)
    congr 2
    · apply Finset.sum_congr rfl
      intro k1 hk1
      rw [Finset.mem_range] at hk1
      congr 1
      have := MultABt_get I.shape1d (⟨fun p => s.QQ (0 * (I.shape1d.width * I.shape1d.width) + p),
        I.shape1d.width, I.shape1d.width⟩ : DenseMatrix R) s.DQ 0
        ((p - s.offset) / I.shape1d.height) k1 hi2 hk1
      simp only [Nat.zero_add, Nat.zero_mul] at this
      simp only [DenseMatrix.get, Nat.zero_add, Nat.zero_mul] at this ⊢
      rw [this]
    · apply Finset.sum_congr rfl
      intro k1 hk1
      rw [Finset.mem_range] at hk1
      congr 1
      have := MultABt_get I.dshape1d (⟨fun p => s.QQ (1 * (I.shape1d.width * I.shape1d.width) + p),
        I.shape1d.width, I.shape1d.width⟩ : DenseMatrix R)
        (MultABt I.shape1d (⟨fun p => s.QQ (0 * (I.shape1d.width * I.shape1d.width) + p),
        I.shape1d.width, I.shape1d.width⟩ : DenseMatrix R) s.DQ 0) 0
        ((p - s.offset) / I.shape1d.height) k1 (hh ▸ hi2) hk1
      simp only [Nat.zero_add, Nat.one_mul, hh, hw] at this
      simp only [DenseMatrix.get, Nat.zero_add, Nat.one_mul, Nat.zero_mul] at this ⊢
      rw [this]
  · rw [if_neg hp, if_neg hp, if_neg hp, add_zero, add_zero]

end Quad

section Quad3
variable {R : Type} [CommRing R]

lemma PADiffusionIntegrator.MultQuadUnit_U_diff (I : PADiffusionIntegrator R) (V : Nat → R)
    (e : Nat) (s : QuadState R) (hh : I.dshape1d.height = I.shape1d.height)
    (hw : I.dshape1d.width = I.shape1d.width)
    (hq : I.quads = I.shape1d.width * I.shape1d.width) (p : Nat) :
    (I.MultQuadUnit V e s).U p = s.U p +
      if s.offset ≤ p ∧ p < s.offset + I.shape1d.height * I.shape1d.height then
        Dense.diffusionQuad I.shape1d.height I.shape1d.width I.shape1d.get I.dshape1d.get
          (fun k => I.Dtensor e (3 * k + 0)) (fun k => I.Dtensor e (3 * k + 1))
          (fun k => I.Dtensor e (3 * k + 2))
          (fun j1 j2 => V (s.offset + (j1 + j2 * I.shape1d.height)))
          ((p - s.offset) % I.shape1d.height) ((p - s.offset) / I.shape1d.height)
      else 0 := by
  unfold PADiffusionIntegrator.MultQuadUnit
  simp only
  rw [PADiffusionIntegrator.quadBackward_U_diff I _ hh hw p]
  have hoff : (I.quadForward V s).offset = s.offset := rfl
  have hU : (I.quadForward V s).U = s.U := rfl
  simp only [hoff, hU]
  by_cases hp : s.offset ≤ p ∧ p < s.offset + I.shape1d.height * I.shape1d.height
  · rw [if_pos hp, if_pos hp]
    congr 1
    have g0 : ∀ k1 k2, k1 < I.shape1d.width → k2 < I.shape1d.width →
        (I.quadForward V s).QQ (k1 + k2 * I.shape1d.width) =
        ∑ j1 in range I.shape1d.height, ∑ j2 in range I.shape1d.height,
          V (s.offset + (j1 + j2 * I.shape1d.height)) * I.dshape1d.get j1 k1 *
            I.shape1d.get j2 k2 := by
      intro k1 k2 h1 h2
      rw [I.quadForward_QQ0_diff V s hw k1 k2 h1 h2, Finset.sum_comm]
      simp only [Finset.sum_mul]
    have g1 : ∀ k1 k2, k1 < I.shape1d.width → k2 < I.shape1d.width →
        (I.quadForward V s).QQ (I.shape1d.width * I.shape1d.width + (k1 + k2 * I.shape1d.width)) =
        ∑ j1 in range I.shape1d.height, ∑ j2 in range I.shape1d.height,
          V (s.offset + (j1 + j2 * I.shape1d.height)) * I.shape1d.get j1 k1 *
            I.dshape1d.get j2 k2 := by
      intro k1 k2 h1 h2
      rw [I.quadForward_QQ1_diff V s hw k1 k2 h1 h2, Finset.sum_comm]
      simp only [Finset.sum_mul]
    unfold Dense.diffusionQuad
    simp only [Finset.mul_sum, ← Finset.sum_add_distrib]
    apply Finset.sum_congr rfl
    intro k1 hk1
    apply Finset.sum_congr rfl
    intro k2 hk2
    rw [Finset.mem_range] at hk1 hk2
    have hk := flat_lt _ _ k1 k2 hk1 hk2
    rw [applyD2_apply, if_pos (by omega), applyD2_apply, if_neg (by omega), if_pos (by omega),
      hq, Nat.add_sub_cancel_left, g0 k1 k2 hk1 hk2, g1 k1 k2 hk1 hk2,
      Nat.mul_comm k2 I.shape1d.width]
    simp only [Finset.mul_sum, ← Finset.sum_add_distrib]
    apply Finset.sum_congr rfl
    intro j1 _
    apply Finset.sum_congr rfl
    intro j2 _
    ring
  · rw [if_neg hp, if_neg hp]


lemma sq_eq (d : Nat) : d ^ 2 = d * d := by ring

lemma PADiffusionIntegrator.MultQuad_closed_diff (I : PADiffusionIntegrator R) (V U : Nat → R)
    (hh : I.dshape1d.height = I.shape1d.height) (hw : I.dshape1d.width = I.shape1d.width)
    (hd : I.dofs = I.shape1d.height ^ 2) (hq : I.quads = I.shape1d.width ^ 2)
    (e vd i1 i2 : Nat) (he : e < I.NE) (hvd : vd < I.vdim) (h1 : i1 < I.shape1d.height)
    (h2 : i2 < I.shape1d.height) :
    I.MultQuad V U ((e * I.vdim + vd) * I.dofs + (i1 + i2 * I.shape1d.height)) =
      U ((e * I.vdim + vd) * I.dofs + (i1 + i2 * I.shape1d.height)) +
      Dense.diffusionQuad I.shape1d.height I.shape1d.width I.shape1d.get I.dshape1d.get
        (fun k => I.Dtensor e (3 * k + 0)) (fun k => I.Dtensor e (3 * k + 1))
        (fun k => I.Dtensor e (3 * k + 2))
        (fun j1 j2 => V ((e * I.vdim + vd) * I.dofs + (j1 + j2 * I.shape1d.height))) i1 i2 := by
  rw [sq_eq] at hd hq
  unfold PADiffusionIntegrator.MultQuad
  have hi := flat_lt _ _ i1 i2 h1 h2
  have h := (unitLoops QuadState.offset QuadState.U I.dofs
    (fun e off p => if off ≤ p ∧ p < off + I.shape1d.height * I.shape1d.height then
        Dense.diffusionQuad I.shape1d.height I.shape1d.width I.shape1d.get I.dshape1d.get
          (fun k => I.Dtensor e (3 * k + 0)) (fun k => I.Dtensor e (3 * k + 1))
          (fun k => I.Dtensor e (3 * k + 2))
          (fun j1 j2 => V (off + (j1 + j2 * I.shape1d.height)))
          ((p - off) % I.shape1d.height) ((p - off) / I.shape1d.height) else 0)
    (fun e s => I.MultQuadUnit V e s) I.NE I.vdim (fun _ _ _ => rfl)
    (fun e s p _ => I.MultQuadUnit_U_diff V e s hh hw hq p)
    { offset := 0, QQ := fun _ => 0, DQ := fun _ => 0, U := U }).2
      ((e * I.vdim + vd) * I.dofs + (i1 + i2 * I.shape1d.height))
  rw [h]
  simp only [zero_add, ← hd]
  rw [sum_units I.NE I.vdim I.dofs e vd (i1 + i2 * I.shape1d.height) he hvd (hd ▸ hi)
    (fun e' off => Dense.diffusionQuad I.shape1d.height I.shape1d.width I.shape1d.get
          I.dshape1d.get
          (fun k => I.Dtensor e' (3 * k + 0)) (fun k => I.Dtensor e' (3 * k + 1))
          (fun k => I.Dtensor e' (3 * k + 2))
          (fun j1 j2 => V (off + (j1 + j2 * I.shape1d.height)))
          (((e * I.vdim + vd) * I.dofs + (i1 + i2 * I.shape1d.height) - off) % I.shape1d.height)
          (((e * I.vdim + vd) * I.dofs + (i1 + i2 * I.shape1d.height) - off) / I.shape1d.height))]
  simp only [Nat.add_sub_cancel_left, flat_mod _ _ _ h1, flat_div _ _ _ h1]

end Quad3

section QuadMass
variable {R : Type} [CommRing R]

lemma PAMassIntegrator.quadForward_QQ_mass (I : PAMassIntegrator R) (V : Nat → R)
    (s : QuadState R) (k1 k2 : Nat) (h1 : k1 < I.shape1d.width) (h2 : k2 < I.shape1d.width) :
    (I.quadForward V s).QQ (k1 + k2 * I.shape1d.width) =
      ∑ j2 in range I.shape1d.height, (∑ j1 in range I.shape1d.height,
        V (s.offset + (j1 + j2 * I.shape1d.height)) * I.shape1d.get j1 k1) *
          I.shape1d.get j2 k2 := by
  unfold PAMassIntegrator.quadForward
  simp only
  have := MultAtB_get (⟨MultAtB ⟨fun p => V (s.offset + p), I.shape1d.height, I.shape1d.height⟩
    I.shape1d s.DQ 0, I.shape1d.height, I.shape1d.width⟩ : DenseMatrix R) I.shape1d s.QQ
    0 k1 k2 h1 h2
  simp only [Nat.zero_add] at this ⊢
  rw [this]
  apply Finset.sum_congr rfl
  intro j2 hj2
  rw [Finset.mem_range] at hj2
  congr 1
  have h3 := MultAtB_get (⟨fun p => V (s.offset + p), I.shape1d.height, I.shape1d.height⟩ :
    DenseMatrix R) I.shape1d s.DQ 0 j2 k1 hj2 h1
  simp only [Nat.zero_add] at h3
  simp only [DenseMatrix.get] at h3 ⊢
  rw [h3]

lemma PAMassIntegrator.quadBackward_U_mass (I : PAMassIntegrator R) (s : QuadState R) (p : Nat) :
    (I.quadBackward s).U p = s.U p +
      if s.offset ≤ p ∧ p < s.offset + I.shape1d.height * I.shape1d.height then
        ∑ k1 in range I.shape1d.width, I.shape1d.get ((p - s.offset) % I.shape1d.height) k1 *
          (∑ k2 in range I.shape1d.width, I.shape1d.get ((p - s.offset) / I.shape1d.height) k2 *
            s.QQ (k1 + k2 * I.shape1d.width))
      else 0 := by
  unfold PAMassIntegrator.quadBackward
  simp only
  rw [AddMultABt_apply]
  by_cases hp : s.offset ≤ p ∧ p < s.offset + I.shape1d.height * I.shape1d.height
  · rw [if_pos hp, if_pos hp]
    obtain ⟨_, hi2⟩ := slice_coords I.shape1d.height (p - s.offset) (by omega)
    congr 1
    apply Finset.sum_congr rfl
    intro k1 hk1
    rw [Finset.mem_range] at hk1
    congr 1
    have := MultABt_get I.shape1d (⟨s.QQ, I.shape1d.width, I.shape1d.width⟩ : DenseMatrix R)
      s.DQ 0 ((p - s.offset) / I.shape1d.height) k1 hi2 hk1
    simp only [Nat.zero_add] at this
    simp only [DenseMatrix.get] at this ⊢
    rw [this]
  · rw [if_neg hp, if_neg hp]

lemma PAMassIntegrator.MultQuadUnit_U_mass (I : PAMassIntegrator R) (V : Nat → R)
    (e : Nat) (s : QuadState R)
    (hq : I.quads = I.shape1d.width * I.shape1d.width) (p : Nat) :
    (I.MultQuadUnit V e s).U p = s.U p +
      if s.offset ≤ p ∧ p < s.offset + I.shape1d.height * I.shape1d.height then
        Dense.massQuad I.shape1d.height I.shape1d.width I.shape1d.get
          (fun k => I.Dmat.get k e)
          (fun j1 j2 => V (s.offset + (j1 + j2 * I.shape1d.height)))
          ((p - s.offset) % I.shape1d.height) ((p - s.offset) / I.shape1d.height)
      else 0 := by
  unfold PAMassIntegrator.MultQuadUnit
  simp only
  rw [PAMassIntegrator.quadBackward_U_mass I _ p]
  have hoff : (I.quadForward V s).offset = s.offset := rfl
  have hU : (I.quadForward V s).U = s.U := rfl
  simp only [hoff, hU]
  by_cases hp : s.offset ≤ p ∧ p < s.offset + I.shape1d.height * I.shape1d.height
  · rw [if_pos hp, if_pos hp]
    congr 1
    unfold Dense.massQuad
    simp only [Finset.mul_sum]
    apply Finset.sum_congr rfl
    intro k1 hk1
    apply Finset.sum_congr rfl
    intro k2 hk2
    rw [Finset.mem_range] at hk1 hk2
    have hk := flat_lt _ _ k1 k2 hk1 hk2
    rw [forLoop_mulAt, if_pos (by omega), I.quadForward_QQ_mass V s k1 k2 hk1 hk2, Finset.sum_comm,
      Nat.mul_comm k2 I.shape1d.width]
    simp only [Finset.mul_sum, Finset.sum_mul]
    apply Finset.sum_congr rfl
    intro j1 _
    apply Finset.sum_congr rfl
    intro j2 _
    unfold DenseMatrix.GetColumn DenseMatrix.get
    ring
  · rw [if_neg hp, if_neg hp]

lemma PAMassIntegrator.MultQuad_closed_mass (I : PAMassIntegrator R) (V U : Nat → R)
    (hd : I.dofs = I.shape1d.height ^ 2) (hq : I.quads = I.shape1d.width ^ 2)
    (e vd i1 i2 : Nat) (he : e < I.NE) (hvd : vd < I.vdim) (h1 : i1 < I.shape1d.height)
    (h2 : i2 < I.shape1d.height) :
    I.MultQuad V U ((e * I.vdim + vd) * I.dofs + (i1 + i2 * I.shape1d.height)) =
      U ((e * I.vdim + vd) * I.dofs + (i1 + i2 * I.shape1d.height)) +
      Dense.massQuad I.shape1d.height I.shape1d.width I.shape1d.get (fun k => I.Dmat.get k e)
        (fun j1 j2 => V ((e * I.vdim + vd) * I.dofs + (j1 + j2 * I.shape1d.height))) i1 i2 := by
  rw [sq_eq] at hd hq
  unfold PAMassIntegrator.MultQuad
  have hi := flat_lt _ _ i1 i2 h1 h2
  have h := (unitLoops QuadState.offset QuadState.U I.dofs
    (fun e off p => if off ≤ p ∧ p < off + I.shape1d.height * I.shape1d.height then
        Dense.massQuad I.shape1d.height I.shape1d.width I.shape1d.get (fun k => I.Dmat.get k e)
          (fun j1 j2 => V (off + (j1 + j2 * I.shape1d.height)))
          ((p - off) % I.shape1d.height) ((p - off) / I.shape1d.height) else 0)
    (fun e s => I.MultQuadUnit V e s) I.NE I.vdim (fun _ _ _ => rfl)
    (fun e s p _ => I.MultQuadUnit_U_mass V e s hq p)
    { offset := 0, QQ := fun _ => 0, DQ := fun _ => 0, U := U }).2
      ((e * I.vdim + vd) * I.dofs + (i1 + i2 * I.shape1d.height))
  rw [h]
  simp only [zero_add, ← hd]
  rw [sum_units I.NE I.vdim I.dofs e vd (i1 + i2 * I.shape1d.height) he hvd (hd ▸ hi)
    (fun e' off => Dense.massQuad I.shape1d.height I.shape1d.width I.shape1d.get
          (fun k => I.Dmat.get k e')
          (fun j1 j2 => V (off + (j1 + j2 * I.shape1d.height)))
          (((e * I.vdim + vd) * I.dofs + (i1 + i2 * I.shape1d.height) - off) % I.shape1d.height)
          (((e * I.vdim + vd) * I.dofs + (i1 + i2 * I.shape1d.height) - off) / I.shape1d.height))]
  simp only [Nat.add_sub_cancel_left, flat_mod _ _ _ h1, flat_div _ _ _ h1]

end QuadMass

section HexMassFwd
variable {R : Type} [CommRing R]

lemma zeroFill_in (off n : Nat) (a : Nat → R) (p : Nat) (h : off ≤ p ∧ p < off + n) :
    zeroFill off n a p = 0 := by
  unfold zeroFill; rw [if_pos h]

lemma PAMassIntegrator.hexForwardQ_apply_mass (I : PAMassIntegrator R) (V : Nat → R)
    (off j2 j3 : Nat) (Q : Nat → R) (p : Nat) :
    I.hexForwardQ V off j2 j3 Q p = Q p +
      ∑ j1 in range I.shape1d.height, ∑ k1 in range I.shape1d.width,
        (if p = k1 then
          V (off + (j1 + I.shape1d.height * (j2 + I.shape1d.height * j3))) * I.shape1d.get j1 k1
        else 0) := by
  unfold PAMassIntegrator.hexForwardQ
  rw [forLoop_add (fun j1 p => ∑ k1 in range I.shape1d.width,
        (if p = k1 then
          V (off + (j1 + I.shape1d.height * (j2 + I.shape1d.height * j3))) * I.shape1d.get j1 k1
        else 0))]
  intro j1 a _ p
  rw [forLoop_add (fun k1 p => if p = k1 then
          V (off + (j1 + I.shape1d.height * (j2 + I.shape1d.height * j3))) * I.shape1d.get j1 k1
        else 0)]
  intro k1 a _ p
  rw [addAt_apply]

lemma PAMassIntegrator.hexForwardQQ_apply_mass (I : PAMassIntegrator R) (j2 : Nat)
    (Q QQ : Nat → R) (p : Nat) :
    I.hexForwardQQ j2 Q QQ p = QQ p +
      ∑ k2 in range I.shape1d.width, ∑ k1 in range I.shape1d.width,
        (if p = k1 + I.shape1d.width * k2 then Q k1 * I.shape1d.get j2 k2 else 0) := by
  unfold PAMassIntegrator.hexForwardQQ
  rw [forLoop_add (fun k2 p => ∑ k1 in range I.shape1d.width,
        (if p = k1 + I.shape1d.width * k2 then Q k1 * I.shape1d.get j2 k2 else 0))]
  intro k2 a _ p
  rw [forLoop_add (fun k1 p =>
        if p = k1 + I.shape1d.width * k2 then Q k1 * I.shape1d.get j2 k2 else 0)]
  intro k1 a _ p
  rw [addAt_apply, Nat.mul_comm k2]

lemma PAMassIntegrator.hexForwardQQQ_apply_mass (I : PAMassIntegrator R) (j3 : Nat)
    (QQ QQQ : Nat → R) (p : Nat) :
    I.hexForwardQQQ j3 QQ QQQ p = QQQ p +
      ∑ k3 in range I.shape1d.width, ∑ k2 in range I.shape1d.width,
        ∑ k1 in range I.shape1d.width,
        (if p = k1 + I.shape1d.width * (k2 + I.shape1d.width * k3) then
          QQ (k1 + I.shape1d.width * k2) * I.shape1d.get j3 k3 else 0) := by
  unfold PAMassIntegrator.hexForwardQQQ
  rw [forLoop_add (fun k3 p => ∑ k2 in range I.shape1d.width,
        ∑ k1 in range I.shape1d.width,
        (if p = k1 + I.shape1d.width * (k2 + I.shape1d.width * k3) then
          QQ (k1 + I.shape1d.width * k2) * I.shape1d.get j3 k3 else 0))]
  intro k3 a _ p
  rw [forLoop_add (fun k2 p => ∑ k1 in range I.shape1d.width,
        (if p = k1 + I.shape1d.width * (k2 + I.shape1d.width * k3) then
          QQ (k1 + I.shape1d.width * k2) * I.shape1d.get j3 k3 else 0))]
  intro k2 a _ p
  rw [forLoop_add (fun k1 p =>
        (if p = k1 + I.shape1d.width * (k2 + I.shape1d.width * k3) then
          QQ (k1 + I.shape1d.width * k2) * I.shape1d.get j3 k3 else 0))]
  intro k1 a _ p
  rw [addAt_apply, Nat.mul_comm k2]

/-- The value of `Q(k1)` the forward pass builds for the dof row `(j2, j3)`. -/
lemma PAMassIntegrator.hexForwardQ_get_mass (I : PAMassIntegrator R) (V : Nat → R)
    (off j2 j3 : Nat) (Q : Nat → R) (k1 : Nat) (hk : k1 < I.shape1d.width) :
    I.hexForwardQ V off j2 j3 (zeroFill 0 I.shape1d.width Q) k1 =
      ∑ j1 in range I.shape1d.height,
        V (off + (j1 + I.shape1d.height * (j2 + I.shape1d.height * j3))) *
          I.shape1d.get j1 k1 := by
  rw [I.hexForwardQ_apply_mass, zeroFill_in _ _ _ _ (by omega), zero_add]
  apply Finset.sum_congr rfl
  intro j1 _
  rw [Finset.sum_ite_eq, if_pos (Finset.mem_range.2 hk)]

lemma PAMassIntegrator.hexForwardJ2_QQ_mass (I : PAMassIntegrator R) (V : Nat → R)
    (j3 j2 : Nat) (s : HexState R) (p : Nat) :
    (I.hexForwardJ2 V j3 j2 s).QQ p = s.QQ p +
      ∑ k2 in range I.shape1d.width, ∑ k1 in range I.shape1d.width,
        (if p = k1 + I.shape1d.width * k2 then
          (∑ j1 in range I.shape1d.height,
            V (s.offset + (j1 + I.shape1d.height * (j2 + I.shape1d.height * j3))) *
              I.shape1d.get j1 k1) * I.shape1d.get j2 k2 else 0) := by
  unfold PAMassIntegrator.hexForwardJ2
  simp only
  rw [I.hexForwardQQ_apply_mass]
  congr 1
  apply Finset.sum_congr rfl
  intro k2 _
  apply Finset.sum_congr rfl
  intro k1 hk1
  rw [Finset.mem_range] at hk1
  rw [I.hexForwardQ_get_mass V _ j2 j3 s.Q k1 hk1]

lemma PAMassIntegrator.hexForwardJ2_loop_mass (I : PAMassIntegrator R) (V : Nat → R)
    (j3 n : Nat) (s : HexState R) :
    (forLoop n (I.hexForwardJ2 V j3) s).offset = s.offset ∧
    (forLoop n (I.hexForwardJ2 V j3) s).QQQ = s.QQQ ∧
    (forLoop n (I.hexForwardJ2 V j3) s).U = s.U ∧
    ∀ p, (forLoop n (I.hexForwardJ2 V j3) s).QQ p = s.QQ p +
      ∑ j2 in range n, ∑ k2 in range I.shape1d.width, ∑ k1 in range I.shape1d.width,
        (if p = k1 + I.shape1d.width * k2 then
          (∑ j1 in range I.shape1d.height,
            V (s.offset + (j1 + I.shape1d.height * (j2 + I.shape1d.height * j3))) *
              I.shape1d.get j1 k1) * I.shape1d.get j2 k2 else 0) := by
  have hinv := forLoop_inv (fun t : HexState R => t.offset = s.offset ∧ t.QQQ = s.QQQ ∧ t.U = s.U)
    n (I.hexForwardJ2 V j3) (fun _ t _ ht => ht) s ⟨rfl, rfl, rfl⟩
  refine ⟨hinv.1, hinv.2.1, hinv.2.2, fun p => ?_⟩
  exact forLoop_acc (fun t : HexState R => t.offset = s.offset) HexState.QQ _ n
    (I.hexForwardJ2 V j3) (fun _ t _ ht => ht)
    (fun j2 t _ ht p => by rw [I.hexForwardJ2_QQ_mass V j3 j2 t p, ht]) s rfl p

end HexMassFwd

section HexMassFwd2
variable {R : Type} [CommRing R]

lemma flat_lt3 (d i1 i2 i3 : Nat) (h1 : i1 < d) (h2 : i2 < d) (h3 : i3 < d) :
    i1 + d * (i2 + d * i3) < d * d * d := by
  have h4 : i2 + d * i3 < d * d := by
    have := flat_lt d d i2 i3 h2 h3
    rw [Nat.mul_comm i3 d] at this
    exact this
  have := flat_lt d (d * d) i1 (i2 + d * i3) h1 h4
  rw [Nat.mul_comm (i2 + d * i3) d, ← Nat.mul_assoc] at this
  exact this

lemma flat_lt2 (d i1 i2 : Nat) (h1 : i1 < d) (h2 : i2 < d) : i1 + d * i2 < d * d := by
  have := flat_lt d d i1 i2 h1 h2
  rw [Nat.mul_comm i2 d] at this
  exact this

lemma PAMassIntegrator.hexForwardJ3_QQQ_mass (I : PAMassIntegrator R) (V : Nat → R)
    (j3 : Nat) (s : HexState R) (p : Nat) :
    (I.hexForwardJ3 V j3 s).QQQ p = s.QQQ p +
      ∑ k3 in range I.shape1d.width, ∑ k2 in range I.shape1d.width,
        ∑ k1 in range I.shape1d.width,
        (if p = k1 + I.shape1d.width * (k2 + I.shape1d.width * k3) then
          (∑ j2 in range I.shape1d.height, (∑ j1 in range I.shape1d.height,
            V (s.offset + (j1 + I.shape1d.height * (j2 + I.shape1d.height * j3))) *
              I.shape1d.get j1 k1) * I.shape1d.get j2 k2) * I.shape1d.get j3 k3 else 0) := by
  unfold PAMassIntegrator.hexForwardJ3
  simp only
  obtain ⟨_, h2, _, h4⟩ := I.hexForwardJ2_loop_mass V j3 I.shape1d.height
    { s with QQ := zeroFill 0 (I.shape1d.width * I.shape1d.width) s.QQ }
  dsimp only at h2 h4
  rw [I.hexForwardQQQ_apply_mass, h2]
  congr 1
  apply Finset.sum_congr rfl
  intro k3 _
  apply Finset.sum_congr rfl
  intro k2 hk2
  apply Finset.sum_congr rfl
  intro k1 hk1
  rw [Finset.mem_range] at hk1 hk2
  rw [h4, zeroFill_in _ _ _ _ (by have := flat_lt2 _ k1 k2 hk1 hk2; omega), zero_add]
  simp only [fun b' f => sum_flat (R := R) I.shape1d.width I.shape1d.width k1 k2 b' le_rfl hk1 f,
    Finset.sum_ite_eq, Finset.mem_range, hk2, if_true]

lemma PAMassIntegrator.hexForward_spec_mass (I : PAMassIntegrator R) (V : Nat → R)
    (s : HexState R) :
    (I.hexForward V s).offset = s.offset ∧ (I.hexForward V s).U = s.U ∧
    ∀ k1 k2 k3, k1 < I.shape1d.width → k2 < I.shape1d.width → k3 < I.shape1d.width →
      (I.hexForward V s).QQQ (k1 + I.shape1d.width * (k2 + I.shape1d.width * k3)) =
        ∑ j3 in range I.shape1d.height, (∑ j2 in range I.shape1d.height,
          (∑ j1 in range I.shape1d.height,
            V (s.offset + (j1 + I.shape1d.height * (j2 + I.shape1d.height * j3))) *
              I.shape1d.get j1 k1) * I.shape1d.get j2 k2) * I.shape1d.get j3 k3 := by
  unfold PAMassIntegrator.hexForward
  simp only
  have hJ3 : ∀ j3 (t : HexState R), (I.hexForwardJ3 V j3 t).offset = t.offset ∧
      (I.hexForwardJ3 V j3 t).U = t.U := by
    intro j3 t
    obtain ⟨h1, _, h3, _⟩ := I.hexForwardJ2_loop_mass V j3 I.shape1d.height
      { t with QQ := zeroFill 0 (I.shape1d.width * I.shape1d.width) t.QQ }
    dsimp only at h1 h3
    exact ⟨h1, h3⟩
  have hinv := forLoop_inv (fun t : HexState R => t.offset = s.offset ∧ t.U = s.U)
    I.shape1d.height (I.hexForwardJ3 V)
    (fun j3 t _ ht => ⟨(hJ3 j3 t).1.trans ht.1, (hJ3 j3 t).2.trans ht.2⟩)
    { s with QQQ := zeroFill 0 (I.shape1d.width * I.shape1d.width * I.shape1d.width) s.QQQ }
    ⟨rfl, rfl⟩
  refine ⟨hinv.1, hinv.2, fun k1 k2 k3 h1 h2 h3 => ?_⟩
  rw [forLoop_acc (fun t : HexState R => t.offset = s.offset) HexState.QQQ _ I.shape1d.height
    (I.hexForwardJ3 V) (fun j3 t _ ht => (hJ3 j3 t).1.trans ht)
    (fun j3 t _ ht p => by rw [I.hexForwardJ3_QQQ_mass V j3 t p, ht])
    { s with QQQ := zeroFill 0 (I.shape1d.width * I.shape1d.width * I.shape1d.width) s.QQQ } rfl]
  simp only
  rw [zeroFill_in _ _ _ _ (by have := flat_lt3 _ k1 k2 k3 h1 h2 h3; omega), zero_add]
  apply Finset.sum_congr rfl
  intro j3 _
  simp only [fun b' f => sum_flat (R := R) I.shape1d.width I.shape1d.width k1
      (k2 + I.shape1d.width * k3) b' le_rfl h1 f,
    fun b' f => sum_flat (R := R) I.shape1d.width I.shape1d.width k2 k3 b' le_rfl h2 f,
    Finset.sum_ite_eq, Finset.mem_range, h3, if_true]

end HexMassFwd2

section HexMassBwd
variable {R : Type} [CommRing R]

lemma PAMassIntegrator.hexBackwardQ_apply_mass (I : PAMassIntegrator R) (k2 k3 : Nat)
    (QQQ Q : Nat → R) (p : Nat) :
    I.hexBackwardQ k2 k3 QQQ Q p = Q p +
      ∑ k1 in range I.shape1d.width, ∑ i1 in range I.shape1d.height,
        (if p = i1 then
          QQQ (k1 + I.shape1d.width * (k2 + I.shape1d.width * k3)) * I.shape1d.get i1 k1
        else 0) := by
  unfold PAMassIntegrator.hexBackwardQ
  rw [forLoop_add (fun k1 p => ∑ i1 in range I.shape1d.height,
        (if p = i1 then
          QQQ (k1 + I.shape1d.width * (k2 + I.shape1d.width * k3)) * I.shape1d.get i1 k1
        else 0))]
  intro k1 a _ p
  rw [forLoop_add (fun i1 p => if p = i1 then
          QQQ (k1 + I.shape1d.width * (k2 + I.shape1d.width * k3)) * I.shape1d.get i1 k1
        else 0)]
  intro i1 a _ p
  rw [addAt_apply]

lemma PAMassIntegrator.hexBackwardQQ_apply_mass (I : PAMassIntegrator R) (k2 : Nat)
    (Q QQ : Nat → R) (p : Nat) :
    I.hexBackwardQQ k2 Q QQ p = QQ p +
      ∑ i2 in range I.shape1d.height, ∑ i1 in range I.shape1d.height,
        (if p = i1 + I.shape1d.width * i2 then Q i1 * I.shape1d.get i2 k2 else 0) := by
  unfold PAMassIntegrator.hexBackwardQQ
  rw [forLoop_add (fun i2 p => ∑ i1 in range I.shape1d.height,
        (if p = i1 + I.shape1d.width * i2 then Q i1 * I.shape1d.get i2 k2 else 0))]
  intro i2 a _ p
  rw [forLoop_add (fun i1 p =>
        if p = i1 + I.shape1d.width * i2 then Q i1 * I.shape1d.get i2 k2 else 0)]
  intro i1 a _ p
  rw [addAt_apply, Nat.mul_comm i2]

lemma PAMassIntegrator.hexBackwardU_apply_mass (I : PAMassIntegrator R) (off k3 : Nat)
    (QQ U : Nat → R) (p : Nat) :
    I.hexBackwardU off k3 QQ U p = U p +
      ∑ i3 in range I.shape1d.height, ∑ i2 in range I.shape1d.height,
        ∑ i1 in range I.shape1d.height,
        (if p = off + (i1 + I.shape1d.height * (i2 + I.shape1d.height * i3)) then
          I.shape1d.get i3 k3 * QQ (i1 + I.shape1d.width * i2) else 0) := by
  unfold PAMassIntegrator.hexBackwardU
  rw [forLoop_add (fun i3 p => ∑ i2 in range I.shape1d.height,
        ∑ i1 in range I.shape1d.height,
        (if p = off + (i1 + I.shape1d.height * (i2 + I.shape1d.height * i3)) then
          I.shape1d.get i3 k3 * QQ (i1 + I.shape1d.width * i2) else 0))]
  intro i3 a _ p
  rw [forLoop_add (fun i2 p => ∑ i1 in range I.shape1d.height,
        (if p = off + (i1 + I.shape1d.height * (i2 + I.shape1d.height * i3)) then
          I.shape1d.get i3 k3 * QQ (i1 + I.shape1d.width * i2) else 0))]
  intro i2 a _ p
  rw [forLoop_add (fun i1 p =>
        (if p = off + (i1 + I.shape1d.height * (i2 + I.shape1d.height * i3)) then
          I.shape1d.get i3 k3 * QQ (i1 + I.shape1d.width * i2) else 0))]
  intro i1 a _ p
  rw [addAt_apply, Nat.mul_comm i2]

lemma PAMassIntegrator.hexBackwardQ_get_mass (I : PAMassIntegrator R) (k2 k3 : Nat)
    (QQQ Q : Nat → R) (hdq : I.shape1d.height ≤ I.shape1d.width) (i1 : Nat)
    (hi : i1 < I.shape1d.height) :
    I.hexBackwardQ k2 k3 QQQ (zeroFill 0 I.shape1d.width Q) i1 =
      ∑ k1 in range I.shape1d.width,
        QQQ (k1 + I.shape1d.width * (k2 + I.shape1d.width * k3)) * I.shape1d.get i1 k1 := by
  rw [I.hexBackwardQ_apply_mass, zeroFill_in _ _ _ _ (by omega), zero_add]
  apply Finset.sum_congr rfl
  intro k1 _
  rw [Finset.sum_ite_eq, if_pos (Finset.mem_range.2 hi)]

lemma PAMassIntegrator.hexBackwardK2_QQ_mass (I : PAMassIntegrator R) (k3 k2 : Nat)
    (s : HexState R) (hdq : I.shape1d.height ≤ I.shape1d.width) (p : Nat) :
    (I.hexBackwardK2 k3 k2 s).QQ p = s.QQ p +
      ∑ i2 in range I.shape1d.height, ∑ i1 in range I.shape1d.height,
        (if p = i1 + I.shape1d.width * i2 then
          (∑ k1 in range I.shape1d.width,
            s.QQQ (k1 + I.shape1d.width * (k2 + I.shape1d.width * k3)) * I.shape1d.get i1 k1) *
              I.shape1d.get i2 k2 else 0) := by
  unfold PAMassIntegrator.hexBackwardK2
  simp only
  rw [I.hexBackwardQQ_apply_mass]
  congr 1
  apply Finset.sum_congr rfl
  intro i2 _
  apply Finset.sum_congr rfl
  intro i1 hi1
  rw [Finset.mem_range] at hi1
  rw [I.hexBackwardQ_get_mass k2 k3 s.QQQ s.Q hdq i1 hi1]

lemma PAMassIntegrator.hexBackwardK2_loop_mass (I : PAMassIntegrator R) (k3 n : Nat)
    (s : HexState R) (hdq : I.shape1d.height ≤ I.shape1d.width) :
    (forLoop n (I.hexBackwardK2 k3) s).offset = s.offset ∧
    (forLoop n (I.hexBackwardK2 k3) s).QQQ = s.QQQ ∧
    (forLoop n (I.hexBackwardK2 k3) s).U = s.U ∧
    ∀ p, (forLoop n (I.hexBackwardK2 k3) s).QQ p = s.QQ p +
      ∑ k2 in range n, ∑ i2 in range I.shape1d.height, ∑ i1 in range I.shape1d.height,
        (if p = i1 + I.shape1d.width * i2 then
          (∑ k1 in range I.shape1d.width,
            s.QQQ (k1 + I.shape1d.width * (k2 + I.shape1d.width * k3)) * I.shape1d.get i1 k1) *
              I.shape1d.get i2 k2 else 0) := by
  have hinv := forLoop_inv (fun t : HexState R => t.offset = s.offset ∧ t.QQQ = s.QQQ ∧ t.U = s.U)
    n (I.hexBackwardK2 k3) (fun _ t _ ht => ht) s ⟨rfl, rfl, rfl⟩
  refine ⟨hinv.1, hinv.2.1, hinv.2.2, fun p => ?_⟩
  exact forLoop_acc (fun t : HexState R => t.QQQ = s.QQQ) HexState.QQ _ n
    (I.hexBackwardK2 k3) (fun _ t _ ht => ht)
    (fun k2 t _ ht p => by rw [I.hexBackwardK2_QQ_mass k3 k2 t hdq p, ht]) s rfl p

lemma PAMassIntegrator.hexBackwardK3_U_mass (I : PAMassIntegrator R) (k3 : Nat)
    (s : HexState R) (hdq : I.shape1d.height ≤ I.shape1d.width) (p : Nat) :
    (I.hexBackwardK3 k3 s).U p = s.U p +
      ∑ i3 in range I.shape1d.height, ∑ i2 in range I.shape1d.height,
        ∑ i1 in range I.shape1d.height,
        (if p = s.offset + (i1 + I.shape1d.height * (i2 + I.shape1d.height * i3)) then
          I.shape1d.get i3 k3 * ∑ k2 in range I.shape1d.width,
            (∑ k1 in range I.shape1d.width,
              s.QQQ (k1 + I.shape1d.width * (k2 + I.shape1d.width * k3)) * I.shape1d.get i1 k1) *
                I.shape1d.get i2 k2 else 0) := by
  unfold PAMassIntegrator.hexBackwardK3
  simp only
  obtain ⟨h1, _, h3, h4⟩ := I.hexBackwardK2_loop_mass k3 I.shape1d.width
    { s with QQ := zeroFill 0 (I.shape1d.width * I.shape1d.width) s.QQ } hdq
  dsimp only at h1 h3 h4
  rw [I.hexBackwardU_apply_mass, h1, h3]
  congr 1
  apply Finset.sum_congr rfl
  intro i3 _
  apply Finset.sum_congr rfl
  intro i2 hi2
  apply Finset.sum_congr rfl
  intro i1 hi1
  rw [Finset.mem_range] at hi1 hi2
  rw [h4, zeroFill_in _ _ _ _ (by
    have := flat_lt2 _ i1 i2 (show i1 < I.shape1d.width by omega)
      (show i2 < I.shape1d.width by omega)
    omega), zero_add]
  simp only [fun b' f => sum_flat (R := R) I.shape1d.width I.shape1d.height i1 i2 b' hdq hi1 f,
    Finset.sum_ite_eq, Finset.mem_range, hi2, if_true]

lemma PAMassIntegrator.hexBackward_spec_mass (I : PAMassIntegrator R) (s : HexState R)
    (hdq : I.shape1d.height ≤ I.shape1d.width) :
    (I.hexBackward s).offset = s.offset ∧
    ∀ p, (I.hexBackward s).U p = s.U p +
      ∑ k3 in range I.shape1d.width, ∑ i3 in range I.shape1d.height,
        ∑ i2 in range I.shape1d.height, ∑ i1 in range I.shape1d.height,
        (if p = s.offset + (i1 + I.shape1d.height * (i2 + I.shape1d.height * i3)) then
          I.shape1d.get i3 k3 * ∑ k2 in range I.shape1d.width,
            (∑ k1 in range I.shape1d.width,
              s.QQQ (k1 + I.shape1d.width * (k2 + I.shape1d.width * k3)) * I.shape1d.get i1 k1) *
                I.shape1d.get i2 k2 else 0) := by
  unfold PAMassIntegrator.hexBackward
  simp only
  have hK3 : ∀ k3 (t : HexState R), (I.hexBackwardK3 k3 t).offset = t.offset ∧
      (I.hexBackwardK3 k3 t).QQQ = t.QQQ := by
    intro k3 t
    obtain ⟨h1, h2, _, _⟩ := I.hexBackwardK2_loop_mass k3 I.shape1d.width
      { t with QQ := zeroFill 0 (I.shape1d.width * I.shape1d.width) t.QQ } hdq
    dsimp only at h1 h2
    exact ⟨h1, h2⟩
  have hinv := forLoop_inv (fun t : HexState R => t.offset = s.offset ∧ t.QQQ = s.QQQ)
    I.shape1d.width I.hexBackwardK3
    (fun k3 t _ ht => ⟨(hK3 k3 t).1.trans ht.1, (hK3 k3 t).2.trans ht.2⟩) s ⟨rfl, rfl⟩
  refine ⟨hinv.1, fun p => ?_⟩
  exact forLoop_acc (fun t : HexState R => t.offset = s.offset ∧ t.QQQ = s.QQQ) HexState.U _
    I.shape1d.width I.hexBackwardK3
    (fun k3 t _ ht => ⟨(hK3 k3 t).1.trans ht.1, (hK3 k3 t).2.trans ht.2⟩)
    (fun k3 t _ ht p => by rw [I.hexBackwardK3_U_mass k3 t hdq p, ht.1, ht.2]) s ⟨rfl, rfl⟩ p

end HexMassBwd

section HexMassUnit
variable {R : Type} [CommRing R]

omit [CommRing R] in
lemma sum_comm3 {R : Type} [AddCommMonoid R] (n m l : Nat) (f : Nat → Nat → Nat → R) :
    ∑ a in range n, ∑ b in range m, ∑ c in range l, f a b c =
      ∑ c in range l, ∑ b in range m, ∑ a in range n, f a b c := by
  rw [Finset.sum_comm]
  conv_lhs => arg 2; ext b; rw [Finset.sum_comm]
  rw [Finset.sum_comm]

/-- Decoding a flat index below `d³` into its three coordinates. -/
lemma decode3 (d x : Nat) (hx : x < d * d * d) :
    x % d < d ∧ x / d % d < d ∧ x / d / d < d ∧ x = x % d + d * (x / d % d + d * (x / d / d)) := by
  have hd : 0 < d := by
    rcases Nat.eq_zero_or_pos d with h | h
    · subst h; simp at hx
    · exact h
  refine ⟨Nat.mod_lt _ hd, Nat.mod_lt _ hd, ?_, ?_⟩
  · rw [Nat.div_div_eq_div_mul]
    exact Nat.div_lt_of_lt_mul hx
  · rw [Nat.mod_add_div, Nat.mod_add_div]

lemma flat3_decode (d i1 i2 i3 : Nat) (h1 : i1 < d) (h2 : i2 < d) :
    (i1 + d * (i2 + d * i3)) % d = i1 ∧ (i1 + d * (i2 + d * i3)) / d % d = i2 ∧
      (i1 + d * (i2 + d * i3)) / d / d = i3 := by
  have hd : 0 < d := by omega
  have e1 : (i1 + d * (i2 + d * i3)) / d = i2 + d * i3 := by
    rw [Nat.add_mul_div_left _ _ hd, Nat.div_eq_of_lt h1, Nat.zero_add]
  refine ⟨?_, ?_, ?_⟩
  · rw [Nat.add_mul_mod_self_left, Nat.mod_eq_of_lt h1]
  · rw [e1, Nat.add_mul_mod_self_left, Nat.mod_eq_of_lt h2]
  · rw [e1, Nat.add_mul_div_left _ _ hd, Nat.div_eq_of_lt h2, Nat.zero_add]

/-- A scatter over the `d³` slots of a slice contributes nothing outside the slice. -/
lemma scatter3_out (d off p : Nat) (hp : ¬ (off ≤ p ∧ p < off + d * d * d))
    (F : Nat → Nat → Nat → R) :
    ∑ i3 in range d, ∑ i2 in range d, ∑ i1 in range d,
      (if p = off + (i1 + d * (i2 + d * i3)) then F i1 i2 i3 else 0) = 0 := by
  apply Finset.sum_eq_zero
  intro i3 h3
  apply Finset.sum_eq_zero
  intro i2 h2
  apply Finset.sum_eq_zero
  intro i1 h1
  rw [Finset.mem_range] at h1 h2 h3
  rw [if_neg]
  intro h
  have := flat_lt3 d i1 i2 i3 h1 h2 h3
  omega

/-- A scatter over the `d³` slots of a slice, read at slot `(i1, i2, i3)`. -/
lemma scatter3_in (d off i1 i2 i3 : Nat) (h1 : i1 < d) (h2 : i2 < d) (h3 : i3 < d)
    (F : Nat → Nat → Nat → R) :
    ∑ j3 in range d, ∑ j2 in range d, ∑ j1 in range d,
      (if off + (i1 + d * (i2 + d * i3)) = off + (j1 + d * (j2 + d * j3)) then F j1 j2 j3
        else 0) = F i1 i2 i3 := by
  simp only [Nat.add_left_cancel_iff,
    fun b' f => sum_flat (R := R) d d i1 (i2 + d * i3) b' le_rfl h1 f,
    fun b' f => sum_flat (R := R) d d i2 i3 b' le_rfl h2 f,
    Finset.sum_ite_eq, Finset.mem_range, h3, if_true]

lemma PAMassIntegrator.MultHexUnit_in_mass (I : PAMassIntegrator R) (V : Nat → R) (e : Nat)
    (s : HexState R) (hdq : I.shape1d.height ≤ I.shape1d.width)
    (hq : I.quads = I.shape1d.width * I.shape1d.width * I.shape1d.width)
    (i1 i2 i3 : Nat) (h1 : i1 < I.shape1d.height) (h2 : i2 < I.shape1d.height)
    (h3 : i3 < I.shape1d.height) :
    (I.MultHexUnit V e s).U
        (s.offset + (i1 + I.shape1d.height * (i2 + I.shape1d.height * i3))) =
      s.U (s.offset + (i1 + I.shape1d.height * (i2 + I.shape1d.height * i3))) +
      Dense.massHex I.shape1d.height I.shape1d.width I.shape1d.get (fun k => I.Dmat.get k e)
        (fun j1 j2 j3 =>
          V (s.offset + (j1 + I.shape1d.height * (j2 + I.shape1d.height * j3)))) i1 i2 i3 := by
  unfold PAMassIntegrator.MultHexUnit
  simp only
  obtain ⟨f1, f2, f3⟩ := I.hexForward_spec_mass V s
  rw [(I.hexBackward_spec_mass _ hdq).2]
  simp only [f1, f2]
  congr 1
  simp only [fun k3 => scatter3_in I.shape1d.height s.offset i1 i2 i3 h1 h2 h3
    (fun j1 j2 j3 => I.shape1d.get j3 k3 * ∑ k2 in range I.shape1d.width,
      (∑ k1 in range I.shape1d.width,
        forLoop I.quads (fun k data_qqq => mulAt data_qqq k (I.Dmat.GetColumn e k))
            (I.hexForward V s).QQQ (k1 + I.shape1d.width * (k2 + I.shape1d.width * k3)) *
          I.shape1d.get j1 k1) * I.shape1d.get j2 k2)]
  unfold Dense.massHex
  rw [sum_comm3]
  simp only [Finset.mul_sum, Finset.sum_mul]
  apply Finset.sum_congr rfl
  intro k3 hk3
  apply Finset.sum_congr rfl
  intro k2 hk2
  apply Finset.sum_congr rfl
  intro k1 hk1
  rw [Finset.mem_range] at hk1 hk2 hk3
  rw [forLoop_mulAt, if_pos (by have := flat_lt3 _ k1 k2 k3 hk1 hk2 hk3; omega),
    f3 k1 k2 k3 hk1 hk2 hk3]
  simp only [Finset.mul_sum, Finset.sum_mul]
  rw [sum_comm3]
  apply Finset.sum_congr rfl
  intro j1 _
  apply Finset.sum_congr rfl
  intro j2 _
  apply Finset.sum_congr rfl
  intro j3 _
  unfold DenseMatrix.GetColumn DenseMatrix.get
  ring

lemma PAMassIntegrator.MultHexUnit_out_mass (I : PAMassIntegrator R) (V : Nat → R) (e : Nat)
    (s : HexState R) (hdq : I.shape1d.height ≤ I.shape1d.width) (p : Nat)
    (hp : ¬ (s.offset ≤ p ∧
      p < s.offset + I.shape1d.height * I.shape1d.height * I.shape1d.height)) :
    (I.MultHexUnit V e s).U p = s.U p := by
  unfold PAMassIntegrator.MultHexUnit
  simp only
  obtain ⟨f1, f2, _⟩ := I.hexForward_spec_mass V s
  rw [(I.hexBackward_spec_mass _ hdq).2]
  simp only [f1, f2]
  rw [Finset.sum_eq_zero, add_zero]
  intro k3 _
  exact scatter3_out _ _ _ hp _

lemma PAMassIntegrator.MultHexUnit_offset_mass (I : PAMassIntegrator R) (V : Nat → R) (e : Nat)
    (s : HexState R) (hdq : I.shape1d.height ≤ I.shape1d.width) :
    (I.MultHexUnit V e s).offset = s.offset + I.dofs := by
  unfold PAMassIntegrator.MultHexUnit
  simp only
  rw [(I.hexBackward_spec_mass _ hdq).1]
  simp only [(I.hexForward_spec_mass V s).1]

end HexMassUnit

section HexMassClosed
variable {R : Type} [CommRing R]

lemma cube_eq (d : Nat) : d ^ 3 = d * d * d := by ring

lemma PAMassIntegrator.MultHexUnit_U_mass (I : PAMassIntegrator R) (V : Nat → R) (e : Nat)
    (s : HexState R) (hdq : I.shape1d.height ≤ I.shape1d.width)
    (hq : I.quads = I.shape1d.width * I.shape1d.width * I.shape1d.width) (p : Nat) :
    (I.MultHexUnit V e s).U p = s.U p +
      if s.offset ≤ p ∧ p < s.offset + I.shape1d.height * I.shape1d.height * I.shape1d.height
      then
        Dense.massHex I.shape1d.height I.shape1d.width I.shape1d.get (fun k => I.Dmat.get k e)
          (fun j1 j2 j3 =>
            V (s.offset + (j1 + I.shape1d.height * (j2 + I.shape1d.height * j3))))
          ((p - s.offset) % I.shape1d.height) ((p - s.offset) / I.shape1d.height % I.shape1d.height)
          ((p - s.offset) / I.shape1d.height / I.shape1d.height)
      else 0 := by
  by_cases hp : s.offset ≤ p ∧
      p < s.offset + I.shape1d.height * I.shape1d.height * I.shape1d.height
  · rw [if_pos hp]
    obtain ⟨h1, h2, h3, h4⟩ := decode3 I.shape1d.height (p - s.offset) (by omega)
    have hp' : p = s.offset + ((p - s.offset) % I.shape1d.height + I.shape1d.height *
        ((p - s.offset) / I.shape1d.height % I.shape1d.height +
          I.shape1d.height * ((p - s.offset) / I.shape1d.height / I.shape1d.height))) := by
      omega
    have := I.MultHexUnit_in_mass V e s hdq hq _ _ _ h1 h2 h3
    rw [← hp'] at this
    exact this
  · rw [if_neg hp, add_zero]
    exact I.MultHexUnit_out_mass V e s hdq p hp

lemma PAMassIntegrator.MultHex_closed_mass (I : PAMassIntegrator R) (V U : Nat → R)
    (hdq : I.shape1d.height ≤ I.shape1d.width)
    (hd : I.dofs = I.shape1d.height ^ 3) (hq : I.quads = I.shape1d.width ^ 3)
    (e vd i1 i2 i3 : Nat) (he : e < I.NE) (hvd : vd < I.vdim) (h1 : i1 < I.shape1d.height)
    (h2 : i2 < I.shape1d.height) (h3 : i3 < I.shape1d.height) :
    I.MultHex V U ((e * I.vdim + vd) * I.dofs +
        (i1 + I.shape1d.height * (i2 + I.shape1d.height * i3))) =
      U ((e * I.vdim + vd) * I.dofs + (i1 + I.shape1d.height * (i2 + I.shape1d.height * i3))) +
      Dense.massHex I.shape1d.height I.shape1d.width I.shape1d.get (fun k => I.Dmat.get k e)
        (fun j1 j2 j3 => V ((e * I.vdim + vd) * I.dofs +
          (j1 + I.shape1d.height * (j2 + I.shape1d.height * j3)))) i1 i2 i3 := by
  rw [cube_eq] at hd hq
  unfold PAMassIntegrator.MultHex
  have hi := flat_lt3 _ i1 i2 i3 h1 h2 h3
  have h := (unitLoops HexState.offset HexState.U I.dofs
    (fun e off p =>
      if off ≤ p ∧ p < off + I.shape1d.height * I.shape1d.height * I.shape1d.height then
        Dense.massHex I.shape1d.height I.shape1d.width I.shape1d.get (fun k => I.Dmat.get k e)
          (fun j1 j2 j3 => V (off + (j1 + I.shape1d.height * (j2 + I.shape1d.height * j3))))
          ((p - off) % I.shape1d.height) ((p - off) / I.shape1d.height % I.shape1d.height)
          ((p - off) / I.shape1d.height / I.shape1d.height) else 0)
    (fun e s => I.MultHexUnit V e s) I.NE I.vdim (fun e s _ => I.MultHexUnit_offset_mass V e s hdq)
    (fun e s p _ => I.MultHexUnit_U_mass V e s hdq hq p)
    { offset := 0, Q := fun _ => 0, QQ := fun _ => 0, QQQ := fun _ => 0, U := U }).2
      ((e * I.vdim + vd) * I.dofs + (i1 + I.shape1d.height * (i2 + I.shape1d.height * i3)))
  rw [h]
  simp only [zero_add, ← hd]
  rw [sum_units I.NE I.vdim I.dofs e vd _ he hvd (hd ▸ hi)
    (fun e' off =>
        Dense.massHex I.shape1d.height I.shape1d.width I.shape1d.get (fun k => I.Dmat.get k e')
          (fun j1 j2 j3 => V (off + (j1 + I.shape1d.height * (j2 + I.shape1d.height * j3))))
          (((e * I.vdim + vd) * I.dofs +
            (i1 + I.shape1d.height * (i2 + I.shape1d.height * i3)) - off) % I.shape1d.height)
          (((e * I.vdim + vd) * I.dofs +
            (i1 + I.shape1d.height * (i2 + I.shape1d.height * i3)) - off) / I.shape1d.height
              % I.shape1d.height)
          (((e * I.vdim + vd) * I.dofs +
            (i1 + I.shape1d.height * (i2 + I.shape1d.height * i3)) - off) / I.shape1d.height
              / I.shape1d.height))]
  obtain ⟨e1, e2, e3⟩ := flat3_decode I.shape1d.height i1 i2 i3 h1 h2
  simp only [Nat.add_sub_cancel_left, e1, e2, e3]

end HexMassClosed

section HexDiffFwd
variable {R : Type} [CommRing R]

lemma PADiffusionIntegrator.hexForwardQ_apply_diff (I : PADiffusionIntegrator R) (V : Nat → R)
    (off j2 j3 : Nat) (Q : Nat → R) (p : Nat) :
    I.hexForwardQ V off j2 j3 Q p = Q p +
      ∑ j1 in range I.shape1d.height, ∑ k1 in range I.shape1d.width,
        ((if p = k1 + I.shape1d.width * 0 then
          V (off + (j1 + I.shape1d.height * (j2 + I.shape1d.height * j3))) * I.dshape1d.get j1 k1
          else 0) +
        (if p = k1 + I.shape1d.width * 1 then
          V (off + (j1 + I.shape1d.height * (j2 + I.shape1d.height * j3))) * I.shape1d.get j1 k1
          else 0)) := by
  unfold PADiffusionIntegrator.hexForwardQ
  rw [forLoop_add (fun j1 p => ∑ k1 in range I.shape1d.width,
        ((if p = k1 + I.shape1d.width * 0 then
          V (off + (j1 + I.shape1d.height * (j2 + I.shape1d.height * j3))) * I.dshape1d.get j1 k1
          else 0) +
        (if p = k1 + I.shape1d.width * 1 then
          V (off + (j1 + I.shape1d.height * (j2 + I.shape1d.height * j3))) * I.shape1d.get j1 k1
          else 0)))]
  intro j1 a _ p
  rw [forLoop_add (fun k1 p =>
        ((if p = k1 + I.shape1d.width * 0 then
          V (off + (j1 + I.shape1d.height * (j2 + I.shape1d.height * j3))) * I.dshape1d.get j1 k1
          else 0) +
        (if p = k1 + I.shape1d.width * 1 then
          V (off + (j1 + I.shape1d.height * (j2 + I.shape1d.height * j3))) * I.shape1d.get j1 k1
          else 0)))]
  intro k1 a _ p
  simp only [addAt_apply, Nat.mul_comm 0, Nat.mul_comm 1, add_assoc]

lemma PADiffusionIntegrator.hexForwardQ_get_diff (I : PADiffusionIntegrator R) (V : Nat → R)
    (off j2 j3 : Nat) (Q : Nat → R) (k1 : Nat) (hk : k1 < I.shape1d.width) :
    I.hexForwardQ V off j2 j3 (zeroFill 0 (I.shape1d.width * 3) Q) (k1 + I.shape1d.width * 0) =
      ∑ j1 in range I.shape1d.height,
        V (off + (j1 + I.shape1d.height * (j2 + I.shape1d.height * j3))) *
          I.dshape1d.get j1 k1 ∧
    I.hexForwardQ V off j2 j3 (zeroFill 0 (I.shape1d.width * 3) Q) (k1 + I.shape1d.width * 1) =
      ∑ j1 in range I.shape1d.height,
        V (off + (j1 + I.shape1d.height * (j2 + I.shape1d.height * j3))) *
          I.shape1d.get j1 k1 := by
  constructor
  · rw [I.hexForwardQ_apply_diff, zeroFill_in _ _ _ _ (by omega), zero_add]
    apply Finset.sum_congr rfl
    intro j1 _
    simp only [Finset.sum_add_distrib,
      fun b' f => sum_flat (R := R) I.shape1d.width I.shape1d.width k1 0 b' le_rfl hk f]
    simp
  · rw [I.hexForwardQ_apply_diff, zeroFill_in _ _ _ _ (by omega), zero_add]
    apply Finset.sum_congr rfl
    intro j1 _
    simp only [Finset.sum_add_distrib,
      fun b' f => sum_flat (R := R) I.shape1d.width I.shape1d.width k1 1 b' le_rfl hk f]
    simp

lemma PADiffusionIntegrator.hexForwardQQ_apply_diff (I : PADiffusionIntegrator R) (j2 : Nat)
    (Q QQ : Nat → R) (p : Nat) :
    I.hexForwardQQ j2 Q QQ p = QQ p +
      ∑ k2 in range I.shape1d.width, ∑ k1 in range I.shape1d.width,
        ((if p = k1 + I.shape1d.width * (k2 + I.shape1d.width * 0) then
            Q (k1 + I.shape1d.width * 0) * I.shape1d.get j2 k2 else 0) +
         (if p = k1 + I.shape1d.width * (k2 + I.shape1d.width * 1) then
            Q (k1 + I.shape1d.width * 1) * I.dshape1d.get j2 k2 else 0) +
         (if p = k1 + I.shape1d.width * (k2 + I.shape1d.width * 2) then
            Q (k1 + I.shape1d.width * 1) * I.shape1d.get j2 k2 else 0)) := by
  unfold PADiffusionIntegrator.hexForwardQQ
  rw [forLoop_add (fun k2 p => ∑ k1 in range I.shape1d.width,
        ((if p = k1 + I.shape1d.width * (k2 + I.shape1d.width * 0) then
            Q (k1 + I.shape1d.width * 0) * I.shape1d.get j2 k2 else 0) +
         (if p = k1 + I.shape1d.width * (k2 + I.shape1d.width * 1) then
            Q (k1 + I.shape1d.width * 1) * I.dshape1d.get j2 k2 else 0) +
         (if p = k1 + I.shape1d.width * (k2 + I.shape1d.width * 2) then
            Q (k1 + I.shape1d.width * 1) * I.shape1d.get j2 k2 else 0)))]
  intro k2 a _ p
  rw [forLoop_add (fun k1 p =>
        ((if p = k1 + I.shape1d.width * (k2 + I.shape1d.width * 0) then
            Q (k1 + I.shape1d.width * 0) * I.shape1d.get j2 k2 else 0) +
         (if p = k1 + I.shape1d.width * (k2 + I.shape1d.width * 1) then
            Q (k1 + I.shape1d.width * 1) * I.dshape1d.get j2 k2 else 0) +
         (if p = k1 + I.shape1d.width * (k2 + I.shape1d.width * 2) then
            Q (k1 + I.shape1d.width * 1) * I.shape1d.get j2 k2 else 0)))]
  intro k1 a _ p
  simp only [addAt_apply, Nat.mul_comm 0, Nat.mul_comm 1, add_assoc]

lemma PADiffusionIntegrator.hexForwardJ2_QQ_diff (I : PADiffusionIntegrator R) (V : Nat → R)
    (j3 j2 : Nat) (s : HexState R) (p : Nat) :
    (I.hexForwardJ2 V j3 j2 s).QQ p = s.QQ p +
      ∑ k2 in range I.shape1d.width, ∑ k1 in range I.shape1d.width,
        ((if p = k1 + I.shape1d.width * (k2 + I.shape1d.width * 0) then
            (∑ j1 in range I.shape1d.height,
              V (s.offset + (j1 + I.shape1d.height * (j2 + I.shape1d.height * j3))) *
                I.dshape1d.get j1 k1) * I.shape1d.get j2 k2 else 0) +
         (if p = k1 + I.shape1d.width * (k2 + I.shape1d.width * 1) then
            (∑ j1 in range I.shape1d.height,
              V (s.offset + (j1 + I.shape1d.height * (j2 + I.shape1d.height * j3))) *
                I.shape1d.get j1 k1) * I.dshape1d.get j2 k2 else 0) +
         (if p = k1 + I.shape1d.width * (k2 + I.shape1d.width * 2) then
            (∑ j1 in range I.shape1d.height,
              V (s.offset + (j1 + I.shape1d.height * (j2 + I.shape1d.height * j3))) *
                I.shape1d.get j1 k1) * I.shape1d.get j2 k2 else 0)) := by
  unfold PADiffusionIntegrator.hexForwardJ2
  simp only
  rw [I.hexForwardQQ_apply_diff]
  congr 1
  apply Finset.sum_congr rfl
  intro k2 _
  apply Finset.sum_congr rfl
  intro k1 hk1
  rw [Finset.mem_range] at hk1
  rw [(I.hexForwardQ_get_diff V _ j2 j3 s.Q k1 hk1).1, (I.hexForwardQ_get_diff V _ j2 j3 s.Q k1 hk1).2]

lemma PADiffusionIntegrator.hexForwardJ2_loop_diff (I : PADiffusionIntegrator R) (V : Nat → R)
    (j3 n : Nat) (s : HexState R) :
    (forLoop n (I.hexForwardJ2 V j3) s).offset = s.offset ∧
    (forLoop n (I.hexForwardJ2 V j3) s).QQQ = s.QQQ ∧
    (forLoop n (I.hexForwardJ2 V j3) s).U = s.U ∧
    ∀ p, (forLoop n (I.hexForwardJ2 V j3) s).QQ p = s.QQ p +
      ∑ j2 in range n, ∑ k2 in range I.shape1d.width, ∑ k1 in range I.shape1d.width,
        ((if p = k1 + I.shape1d.width * (k2 + I.shape1d.width * 0) then
            (∑ j1 in range I.shape1d.height,
              V (s.offset + (j1 + I.shape1d.height * (j2 + I.shape1d.height * j3))) *
                I.dshape1d.get j1 k1) * I.shape1d.get j2 k2 else 0) +
         (if p = k1 + I.shape1d.width * (k2 + I.shape1d.width * 1) then
            (∑ j1 in range I.shape1d.height,
              V (s.offset + (j1 + I.shape1d.height * (j2 + I.shape1d.height * j3))) *
                I.shape1d.get j1 k1) * I.dshape1d.get j2 k2 else 0) +
         (if p = k1 + I.shape1d.width * (k2 + I.shape1d.width * 2) then
            (∑ j1 in range I.shape1d.height,
              V (s.offset + (j1 + I.shape1d.height * (j2 + I.shape1d.height * j3))) *
                I.shape1d.get j1 k1) * I.shape1d.get j2 k2 else 0)) := by
  have hinv := forLoop_inv (fun t : HexState R => t.offset = s.offset ∧ t.QQQ = s.QQQ ∧ t.U = s.U)
    n (I.hexForwardJ2 V j3) (fun _ t _ ht => ht) s ⟨rfl, rfl, rfl⟩
  refine ⟨hinv.1, hinv.2.1, hinv.2.2, fun p => ?_⟩
  exact forLoop_acc (fun t : HexState R => t.offset = s.offset) HexState.QQ _ n
    (I.hexForwardJ2 V j3) (fun _ t _ ht => ht)
    (fun j2 t _ ht p => by rw [I.hexForwardJ2_QQ_diff V j3 j2 t p, ht]) s rfl p

/-- The three slabs `QQ(.,.,c)` the forward pass builds for the dof slab `j3`. -/
lemma PADiffusionIntegrator.hexForwardJ2_get_diff (I : PADiffusionIntegrator R) (V : Nat → R)
    (j3 : Nat) (s : HexState R) (k1 k2 : Nat) (h1 : k1 < I.shape1d.width)
    (h2 : k2 < I.shape1d.width) :
    (forLoop I.shape1d.height (I.hexForwardJ2 V j3)
        { s with QQ := zeroFill 0 (I.shape1d.width * I.shape1d.width * 3) s.QQ }).QQ
        (k1 + I.shape1d.width * (k2 + I.shape1d.width * 0)) =
      ∑ j2 in range I.shape1d.height, (∑ j1 in range I.shape1d.height,
        V (s.offset + (j1 + I.shape1d.height * (j2 + I.shape1d.height * j3))) *
          I.dshape1d.get j1 k1) * I.shape1d.get j2 k2 ∧
    (forLoop I.shape1d.height (I.hexForwardJ2 V j3)
        { s with QQ := zeroFill 0 (I.shape1d.width * I.shape1d.width * 3) s.QQ }).QQ
        (k1 + I.shape1d.width * (k2 + I.shape1d.width * 1)) =
      ∑ j2 in range I.shape1d.height, (∑ j1 in range I.shape1d.height,
        V (s.offset + (j1 + I.shape1d.height * (j2 + I.shape1d.height * j3))) *
          I.shape1d.get j1 k1) * I.dshape1d.get j2 k2 ∧
    (forLoop I.shape1d.height (I.hexForwardJ2 V j3)
        { s with QQ := zeroFill 0 (I.shape1d.width * I.shape1d.width * 3) s.QQ }).QQ
        (k1 + I.shape1d.width * (k2 + I.shape1d.width * 2)) =
      ∑ j2 in range I.shape1d.height, (∑ j1 in range I.shape1d.height,
        V (s.offset + (j1 + I.shape1d.height * (j2 + I.shape1d.height * j3))) *
          I.shape1d.get j1 k1) * I.shape1d.get j2 k2 := by
  have h4 := (I.hexForwardJ2_loop_diff V j3 I.shape1d.height
    { s with QQ := zeroFill 0 (I.shape1d.width * I.shape1d.width * 3) s.QQ }).2.2.2
  dsimp only at h4
  have hz : ∀ c, c < 3 → zeroFill 0 (I.shape1d.width * I.shape1d.width * 3) s.QQ
      (k1 + I.shape1d.width * (k2 + I.shape1d.width * c)) = 0 := by
    intro c hc
    apply zeroFill_in
    have h5 := flat_lt2 _ k1 k2 h1 h2
    have h6 : I.shape1d.width * I.shape1d.width * (c + 1) ≤ I.shape1d.width * I.shape1d.width * 3 :=
      Nat.mul_le_mul_left _ hc
    have h7 : k1 + I.shape1d.width * (k2 + I.shape1d.width * c) =
      (k1 + I.shape1d.width * k2) + I.shape1d.width * I.shape1d.width * c := by ring
    have h8 : I.shape1d.width * I.shape1d.width * (c + 1) =
      I.shape1d.width * I.shape1d.width * c + I.shape1d.width * I.shape1d.width := by ring
    omega
  refine ⟨?_, ?_, ?_⟩
  · rw [h4, hz 0 (by omega), zero_add]
    apply Finset.sum_congr rfl
    intro j2 _
    simp only [Finset.sum_add_distrib,
      fun b' f => sum_flat (R := R) I.shape1d.width I.shape1d.width k1
        (k2 + I.shape1d.width * 0) b' le_rfl h1 f,
      fun b' f => sum_flat (R := R) I.shape1d.width I.shape1d.width k2 0 b' le_rfl h2 f]
    simp
  · rw [h4, hz 1 (by omega), zero_add]
    apply Finset.sum_congr rfl
    intro j2 _
    simp only [Finset.sum_add_distrib,
      fun b' f => sum_flat (R := R) I.shape1d.width I.shape1d.width k1
        (k2 + I.shape1d.width * 1) b' le_rfl h1 f,
      fun b' f => sum_flat (R := R) I.shape1d.width I.shape1d.width k2 1 b' le_rfl h2 f]
    simp
  · rw [h4, hz 2 (by omega), zero_add]
    apply Finset.sum_congr rfl
    intro j2 _
    simp only [Finset.sum_add_distrib,
      fun b' f => sum_flat (R := R) I.shape1d.width I.shape1d.width k1
        (k2 + I.shape1d.width * 2) b' le_rfl h1 f,
      fun b' f => sum_flat (R := R) I.shape1d.width I.shape1d.width k2 2 b' le_rfl h2 f]
    simp

end HexDiffFwd

section HexDiffFwd2
variable {R : Type} [CommRing R]

lemma PADiffusionIntegrator.hexForwardQQQ_apply_diff (I : PADiffusionIntegrator R) (j3 : Nat)
    (QQ QQQ : Nat → R) (hq : I.quads = I.shape1d.width * I.shape1d.width * I.shape1d.width) (p : Nat) :
    I.hexForwardQQQ j3 QQ QQQ p = QQQ p +
      ∑ k3 in range I.shape1d.width, ∑ k2 in range I.shape1d.width, ∑ k1 in range I.shape1d.width,
        ((if p = k1 + I.shape1d.width * (k2 + I.shape1d.width * (k3 + I.shape1d.width * 0)) then
            QQ (k1 + I.shape1d.width * (k2 + I.shape1d.width * 0)) * I.shape1d.get j3 k3 else 0) +
         (if p = k1 + I.shape1d.width * (k2 + I.shape1d.width * (k3 + I.shape1d.width * 1)) then
            QQ (k1 + I.shape1d.width * (k2 + I.shape1d.width * 1)) * I.shape1d.get j3 k3 else 0) +
         (if p = k1 + I.shape1d.width * (k2 + I.shape1d.width * (k3 + I.shape1d.width * 2)) then
            QQ (k1 + I.shape1d.width * (k2 + I.shape1d.width * 2)) * I.dshape1d.get j3 k3 else 0)) := by
  unfold PADiffusionIntegrator.hexForwardQQQ
  rw [forLoop_add (fun k3 p => ∑ k2 in range I.shape1d.width, ∑ k1 in range I.shape1d.width,
        ((if p = k1 + I.shape1d.width * (k2 + I.shape1d.width * (k3 + I.shape1d.width * 0)) then
            QQ (k1 + I.shape1d.width * (k2 + I.shape1d.width * 0)) * I.shape1d.get j3 k3 else 0) +
         (if p = k1 + I.shape1d.width * (k2 + I.shape1d.width * (k3 + I.shape1d.width * 1)) then
            QQ (k1 + I.shape1d.width * (k2 + I.shape1d.width * 1)) * I.shape1d.get j3 k3 else 0) +
         (if p = k1 + I.shape1d.width * (k2 + I.shape1d.width * (k3 + I.shape1d.width * 2)) then
            QQ (k1 + I.shape1d.width * (k2 + I.shape1d.width * 2)) * I.dshape1d.get j3 k3 else 0)))]
  intro k3 a _ p
  rw [forLoop_add (fun k2 p => ∑ k1 in range I.shape1d.width,
        ((if p = k1 + I.shape1d.width * (k2 + I.shape1d.width * (k3 + I.shape1d.width * 0)) then
            QQ (k1 + I.shape1d.width * (k2 + I.shape1d.width * 0)) * I.shape1d.get j3 k3 else 0) +
         (if p = k1 + I.shape1d.width * (k2 + I.shape1d.width * (k3 + I.shape1d.width * 1)) then
            QQ (k1 + I.shape1d.width * (k2 + I.shape1d.width * 1)) * I.shape1d.get j3 k3 else 0) +
         (if p = k1 + I.shape1d.width * (k2 + I.shape1d.width * (k3 + I.shape1d.width * 2)) then
            QQ (k1 + I.shape1d.width * (k2 + I.shape1d.width * 2)) * I.dshape1d.get j3 k3 else 0)))]
  intro k2 a _ p
  rw [forLoop_add (fun k1 p =>
        ((if p = k1 + I.shape1d.width * (k2 + I.shape1d.width * (k3 + I.shape1d.width * 0)) then
            QQ (k1 + I.shape1d.width * (k2 + I.shape1d.width * 0)) * I.shape1d.get j3 k3 else 0) +
         (if p = k1 + I.shape1d.width * (k2 + I.shape1d.width * (k3 + I.shape1d.width * 1)) then
            QQ (k1 + I.shape1d.width * (k2 + I.shape1d.width * 1)) * I.shape1d.get j3 k3 else 0) +
         (if p = k1 + I.shape1d.width * (k2 + I.shape1d.width * (k3 + I.shape1d.width * 2)) then
            QQ (k1 + I.shape1d.width * (k2 + I.shape1d.width * 2)) * I.dshape1d.get j3 k3 else 0)))]
  intro k1 a _ p
  have e0 : 0 * I.quads + (k1 + I.shape1d.width * (k2 + I.shape1d.width * k3)) = k1 + I.shape1d.width * (k2 + I.shape1d.width * (k3 + I.shape1d.width * 0)) := by rw [hq]; ring
  have e1 : 1 * I.quads + (k1 + I.shape1d.width * (k2 + I.shape1d.width * k3)) = k1 + I.shape1d.width * (k2 + I.shape1d.width * (k3 + I.shape1d.width * 1)) := by rw [hq]; ring
  have e2 : 2 * I.quads + (k1 + I.shape1d.width * (k2 + I.shape1d.width * k3)) = k1 + I.shape1d.width * (k2 + I.shape1d.width * (k3 + I.shape1d.width * 2)) := by rw [hq]; ring
  simp only [addAt_apply, e0, e1, e2, add_assoc]

lemma PADiffusionIntegrator.hexForwardJ3_QQQ_diff (I : PADiffusionIntegrator R) (V : Nat → R)
    (j3 : Nat) (s : HexState R) (hq : I.quads = I.shape1d.width * I.shape1d.width * I.shape1d.width) (p : Nat) :
    (I.hexForwardJ3 V j3 s).QQQ p = s.QQQ p +
      ∑ k3 in range I.shape1d.width, ∑ k2 in range I.shape1d.width, ∑ k1 in range I.shape1d.width,
        ((if p = k1 + I.shape1d.width * (k2 + I.shape1d.width * (k3 + I.shape1d.width * 0)) then
            (∑ j2 in range I.shape1d.height, (∑ j1 in range I.shape1d.height, V (s.offset + (j1 + I.shape1d.height * (j2 + I.shape1d.height * j3))) * I.dshape1d.get j1 k1) * I.shape1d.get j2 k2) * I.shape1d.get j3 k3 else 0) +
         (if p = k1 + I.shape1d.width * (k2 + I.shape1d.width * (k3 + I.shape1d.width * 1)) then
            (∑ j2 in range I.shape1d.height, (∑ j1 in range I.shape1d.height, V (s.offset + (j1 + I.shape1d.height * (j2 + I.shape1d.height * j3))) * I.shape1d.get j1 k1) * I.dshape1d.get j2 k2) * I.shape1d.get j3 k3 else 0) +
         (if p = k1 + I.shape1d.width * (k2 + I.shape1d.width * (k3 + I.shape1d.width * 2)) then
            (∑ j2 in range I.shape1d.height, (∑ j1 in range I.shape1d.height, V (s.offset + (j1 + I.shape1d.height * (j2 + I.shape1d.height * j3))) * I.shape1d.get j1 k1) * I.shape1d.get j2 k2) * I.dshape1d.get j3 k3 else 0)) := by
  unfold PADiffusionIntegrator.hexForwardJ3
  simp only
  have h2 := (I.hexForwardJ2_loop_diff V j3 I.shape1d.height
    { s with QQ := zeroFill 0 (I.shape1d.width * I.shape1d.width * 3) s.QQ }).2.1
  dsimp only at h2
  rw [I.hexForwardQQQ_apply_diff _ _ _ hq, h2]
  congr 1
  apply Finset.sum_congr rfl
  intro k3 _
  apply Finset.sum_congr rfl
  intro k2 hk2
  apply Finset.sum_congr rfl
  intro k1 hk1
  rw [Finset.mem_range] at hk1 hk2
  obtain ⟨g0, g1, g2⟩ := I.hexForwardJ2_get_diff V j3 s k1 k2 hk1 hk2
  rw [g0, g1, g2]

lemma PADiffusionIntegrator.hexForwardJ3_frame_diff (I : PADiffusionIntegrator R) (V : Nat → R)
    (j3 : Nat) (t : HexState R) :
    (I.hexForwardJ3 V j3 t).offset = t.offset ∧ (I.hexForwardJ3 V j3 t).U = t.U := by
  obtain ⟨h1, _, h3, _⟩ := I.hexForwardJ2_loop_diff V j3 I.shape1d.height
    { t with QQ := zeroFill 0 (I.shape1d.width * I.shape1d.width * 3) t.QQ }
  dsimp only at h1 h3
  exact ⟨h1, h3⟩

lemma zeroFill3_in (n quads : Nat) (a : Nat → R) (p : Nat)
    (hp : (0 * quads ≤ p ∧ p < 0 * quads + n) ∨ (1 * quads ≤ p ∧ p < 1 * quads + n) ∨
      (2 * quads ≤ p ∧ p < 2 * quads + n)) :
    zeroFill (2 * quads) n (zeroFill (1 * quads) n (zeroFill (0 * quads) n a)) p = 0 := by
  unfold zeroFill
  split_ifs <;> first | rfl | (exfalso; omega)

lemma canon_bounds (q k1 k2 k3 c : Nat) (h1 : k1 < q) (h2 : k2 < q) (h3 : k3 < q) :
    c * (q * q * q) ≤ k1 + q * (k2 + q * (k3 + q * c)) ∧
      k1 + q * (k2 + q * (k3 + q * c)) < c * (q * q * q) + q * q * q := by
  have h := flat_lt3 q k1 k2 k3 h1 h2 h3
  have e : k1 + q * (k2 + q * (k3 + q * c)) = c * (q * q * q) + (k1 + q * (k2 + q * k3)) := by
    ring
  omega

/-- The three quadrature-point tensors `QQQ0`, `QQQ1`, `QQQ2` the forward pass builds; `QQQc` at
point `(k1,k2,k3)` sits at flat index `k1 + q*(k2 + q*(k3 + q*c)) = c*quads + k`. -/
lemma PADiffusionIntegrator.hexForward_spec_diff (I : PADiffusionIntegrator R) (V : Nat → R)
    (s : HexState R) (hq : I.quads = I.shape1d.width * I.shape1d.width * I.shape1d.width) :
    (I.hexForward V s).offset = s.offset ∧ (I.hexForward V s).U = s.U ∧
    ∀ k1 k2 k3, k1 < I.shape1d.width → k2 < I.shape1d.width → k3 < I.shape1d.width →
      (I.hexForward V s).QQQ (k1 + I.shape1d.width * (k2 + I.shape1d.width * (k3 + I.shape1d.width * 0))) =
        ∑ j3 in range I.shape1d.height, (∑ j2 in range I.shape1d.height, (∑ j1 in range I.shape1d.height, V (s.offset + (j1 + I.shape1d.height * (j2 + I.shape1d.height * j3))) * I.dshape1d.get j1 k1) * I.shape1d.get j2 k2) * I.shape1d.get j3 k3 ∧
      (I.hexForward V s).QQQ (k1 + I.shape1d.width * (k2 + I.shape1d.width * (k3 + I.shape1d.width * 1))) =
        ∑ j3 in range I.shape1d.height, (∑ j2 in range I.shape1d.height, (∑ j1 in range I.shape1d.height, V (s.offset + (j1 + I.shape1d.height * (j2 + I.shape1d.height * j3))) * I.shape1d.get j1 k1) * I.dshape1d.get j2 k2) * I.shape1d.get j3 k3 ∧
      (I.hexForward V s).QQQ (k1 + I.shape1d.width * (k2 + I.shape1d.width * (k3 + I.shape1d.width * 2))) =
        ∑ j3 in range I.shape1d.height, (∑ j2 in range I.shape1d.height, (∑ j1 in range I.shape1d.height, V (s.offset + (j1 + I.shape1d.height * (j2 + I.shape1d.height * j3))) * I.shape1d.get j1 k1) * I.shape1d.get j2 k2) * I.dshape1d.get j3 k3 := by
  unfold PADiffusionIntegrator.hexForward
  simp only
  have hinv := forLoop_inv (fun t : HexState R => t.offset = s.offset ∧ t.U = s.U)
    I.shape1d.height (I.hexForwardJ3 V)
    (fun j3 t _ ht => ⟨(I.hexForwardJ3_frame_diff V j3 t).1.trans ht.1,
      (I.hexForwardJ3_frame_diff V j3 t).2.trans ht.2⟩)
    { s with QQQ := (zeroFill (2 * I.quads) (I.shape1d.width * I.shape1d.width * I.shape1d.width)
        (zeroFill (1 * I.quads) (I.shape1d.width * I.shape1d.width * I.shape1d.width)
          (zeroFill (0 * I.quads) (I.shape1d.width * I.shape1d.width * I.shape1d.width) s.QQQ))) }
    ⟨rfl, rfl⟩
  refine ⟨hinv.1, hinv.2, fun k1 k2 k3 h1 h2 h3 => ?_⟩
  have hacc := forLoop_acc (fun t : HexState R => t.offset = s.offset) HexState.QQQ _ I.shape1d.height
    (I.hexForwardJ3 V) (fun j3 t _ ht => (I.hexForwardJ3_frame_diff V j3 t).1.trans ht)
    (fun j3 t _ ht p => by rw [I.hexForwardJ3_QQQ_diff V j3 t hq p, ht])
    { s with QQQ := (zeroFill (2 * I.quads) (I.shape1d.width * I.shape1d.width * I.shape1d.width)
        (zeroFill (1 * I.quads) (I.shape1d.width * I.shape1d.width * I.shape1d.width)
          (zeroFill (0 * I.quads) (I.shape1d.width * I.shape1d.width * I.shape1d.width) s.QQQ))) } rfl
  dsimp only at hacc
  have hz : ∀ c, c < 3 → zeroFill (2 * I.quads) (I.shape1d.width * I.shape1d.width * I.shape1d.width)
      (zeroFill (1 * I.quads) (I.shape1d.width * I.shape1d.width * I.shape1d.width)
        (zeroFill (0 * I.quads) (I.shape1d.width * I.shape1d.width * I.shape1d.width) s.QQQ)) (k1 + I.shape1d.width * (k2 + I.shape1d.width * (k3 + I.shape1d.width * c))) = 0 := by
    intro c hc
    apply zeroFill3_in
    have := canon_bounds I.shape1d.width k1 k2 k3 c h1 h2 h3
    rw [hq]
    interval_cases c <;> omega
  refine ⟨?_, ?_, ?_⟩
  · rw [hacc, hz 0 (by omega), zero_add]
    apply Finset.sum_congr rfl
    intro j3 _
    simp only [Finset.sum_add_distrib,
      fun b' f => sum_flat (R := R) I.shape1d.width I.shape1d.width k1 (k2 + I.shape1d.width * (k3 + I.shape1d.width * 0)) b' le_rfl h1 f,
      fun b' f => sum_flat (R := R) I.shape1d.width I.shape1d.width k2 (k3 + I.shape1d.width * 0) b' le_rfl h2 f,
      fun b' f => sum_flat (R := R) I.shape1d.width I.shape1d.width k3 0 b' le_rfl h3 f]
    simp
  · rw [hacc, hz 1 (by omega), zero_add]
    apply Finset.sum_congr rfl
    intro j3 _
    simp only [Finset.sum_add_distrib,
      fun b' f => sum_flat (R := R) I.shape1d.width I.shape1d.width k1 (k2 + I.shape1d.width * (k3 + I.shape1d.width * 1)) b' le_rfl h1 f,
      fun b' f => sum_flat (R := R) I.shape1d.width I.shape1d.width k2 (k3 + I.shape1d.width * 1) b' le_rfl h2 f,
      fun b' f => sum_flat (R := R) I.shape1d.width I.shape1d.width k3 1 b' le_rfl h3 f]
    simp
  · rw [hacc, hz 2 (by omega), zero_add]
    apply Finset.sum_congr rfl
    intro j3 _
    simp only [Finset.sum_add_distrib,
      fun b' f => sum_flat (R := R) I.shape1d.width I.shape1d.width k1 (k2 + I.shape1d.width * (k3 + I.shape1d.width * 2)) b' le_rfl h1 f,
      fun b' f => sum_flat (R := R) I.shape1d.width I.shape1d.width k2 (k3 + I.shape1d.width * 2) b' le_rfl h2 f,
      fun b' f => sum_flat (R := R) I.shape1d.width I.shape1d.width k3 2 b' le_rfl h3 f]
    simp

end HexDiffFwd2

section ApplyD3
variable {R : Type} [CommRing R]

lemma applyD3Step_apply (quads : Nat) (D a : Nat → R) (k p : Nat) :
    PADiffusionIntegrator.applyD3Step quads D k a p =
      if p = 2 * quads + k then
        D (6 * k + 2) * a k + D (6 * k + 4) * a (quads + k) + D (6 * k + 5) * a (2 * quads + k)
      else if p = quads + k then
        D (6 * k + 1) * a k + D (6 * k + 3) * a (quads + k) + D (6 * k + 4) * a (2 * quads + k)
      else if p = k then
        D (6 * k + 0) * a k + D (6 * k + 1) * a (quads + k) + D (6 * k + 2) * a (2 * quads + k)
      else a p := by
  unfold PADiffusionIntegrator.applyD3Step
  simp only [setAt_apply, Nat.zero_mul, Nat.one_mul, Nat.zero_add]

/-- The loop of lines 339-355 run for the first `n ≤ quads` points. -/
lemma applyD3_first (quads : Nat) (D A : Nat → R) (n : Nat) (hn : n ≤ quads) (p : Nat) :
    forLoop n (PADiffusionIntegrator.applyD3Step quads D) A p =
      if p < n then
        D (6 * p + 0) * A p + D (6 * p + 1) * A (quads + p) + D (6 * p + 2) * A (2 * quads + p)
      else if quads ≤ p ∧ p < quads + n then
        D (6 * (p - quads) + 1) * A (p - quads) + D (6 * (p - quads) + 3) * A p +
          D (6 * (p - quads) + 4) * A (quads + p)
      else if 2 * quads ≤ p ∧ p < 2 * quads + n then
        D (6 * (p - 2 * quads) + 2) * A (p - 2 * quads) +
          D (6 * (p - 2 * quads) + 4) * A (p - quads) + D (6 * (p - 2 * quads) + 5) * A p
      else A p := by
  induction n generalizing p with
  | zero =>
    rw [forLoop_zero, if_neg (by omega), if_neg (by omega), if_neg (by omega)]
  | succ m ih =>
    have hm : forLoop m (PADiffusionIntegrator.applyD3Step quads D) A m = A m := by
      rw [ih (by omega) m, if_neg (by omega), if_neg (by omega), if_neg (by omega)]
    have hqm : forLoop m (PADiffusionIntegrator.applyD3Step quads D) A (quads + m)
        = A (quads + m) := by
      rw [ih (by omega) (quads + m), if_neg (by omega), if_neg (by omega), if_neg (by omega)]
    have hqqm : forLoop m (PADiffusionIntegrator.applyD3Step quads D) A (2 * quads + m)
        = A (2 * quads + m) := by
      rw [ih (by omega) (2 * quads + m), if_neg (by omega), if_neg (by omega), if_neg (by omega)]
    rw [forLoop_succ, applyD3Step_apply, hm, hqm, hqqm, ih (by omega) p]
    have e1 : 2 * quads + m - 2 * quads = m := by omega
    have e2 : 2 * quads + m - quads = quads + m := by omega
    have e3 : quads + (quads + m) = 2 * quads + m := by omega
    split_ifs <;> first
      | rfl
      | (exfalso; omega)
      | (subst_vars; simp only [Nat.add_sub_cancel_left, e1, e2, e3])

lemma applyD3_get (quads : Nat) (D A : Nat → R) (k : Nat) (hk : k < quads) :
    PADiffusionIntegrator.applyD3 quads D A (0 * quads + k) =
      D (6 * k + 0) * A (0 * quads + k) + D (6 * k + 1) * A (1 * quads + k) +
        D (6 * k + 2) * A (2 * quads + k) ∧
    PADiffusionIntegrator.applyD3 quads D A (1 * quads + k) =
      D (6 * k + 1) * A (0 * quads + k) + D (6 * k + 3) * A (1 * quads + k) +
        D (6 * k + 4) * A (2 * quads + k) ∧
    PADiffusionIntegrator.applyD3 quads D A (2 * quads + k) =
      D (6 * k + 2) * A (0 * quads + k) + D (6 * k + 4) * A (1 * quads + k) +
        D (6 * k + 5) * A (2 * quads + k) := by
  unfold PADiffusionIntegrator.applyD3
  have e1 : 2 * quads + k - 2 * quads = k := by omega
  have e2 : 2 * quads + k - quads = quads + k := by omega
  have e3 : quads + (quads + k) = 2 * quads + k := by omega
  refine ⟨?_, ?_, ?_⟩
  · rw [applyD3_first quads D A quads le_rfl, if_pos (by omega)]
    simp only [Nat.zero_mul, Nat.zero_add, Nat.one_mul]
  · rw [applyD3_first quads D A quads le_rfl, if_neg (by omega), if_pos (by omega)]
    simp only [Nat.zero_mul, Nat.zero_add, Nat.one_mul, Nat.add_sub_cancel_left, e3]
  · rw [applyD3_first quads D A quads le_rfl, if_neg (by omega), if_neg (by omega),
      if_pos (by omega)]
    simp only [Nat.zero_mul, Nat.zero_add, Nat.one_mul, e1, e2]

end ApplyD3

section HexDiffBwd
variable {R : Type} [CommRing R]

lemma PADiffusionIntegrator.hexBackwardQ_apply_diff (I : PADiffusionIntegrator R) (k2 k3 : Nat)
    (QQQ Q : Nat → R) (p : Nat) :
    I.hexBackwardQ k2 k3 QQQ Q p = Q p +
      ∑ k1 in range I.shape1d.width, ∑ i1 in range I.shape1d.height,
        ((if p = i1 + I.shape1d.width * 0 then
            QQQ (0 * I.quads + (k1 + I.shape1d.width * (k2 + I.shape1d.width * k3))) * I.dshape1d.get i1 k1 else 0) +
         (if p = i1 + I.shape1d.width * 1 then
            QQQ (1 * I.quads + (k1 + I.shape1d.width * (k2 + I.shape1d.width * k3))) * I.shape1d.get i1 k1 else 0) +
         (if p = i1 + I.shape1d.width * 2 then
            QQQ (2 * I.quads + (k1 + I.shape1d.width * (k2 + I.shape1d.width * k3))) * I.shape1d.get i1 k1 else 0)) := by
  unfold PADiffusionIntegrator.hexBackwardQ
  rw [forLoop_add (fun k1 p => ∑ i1 in range I.shape1d.height,
        ((if p = i1 + I.shape1d.width * 0 then
            QQQ (0 * I.quads + (k1 + I.shape1d.width * (k2 + I.shape1d.width * k3))) * I.dshape1d.get i1 k1 else 0) +
         (if p = i1 + I.shape1d.width * 1 then
            QQQ (1 * I.quads + (k1 + I.shape1d.width * (k2 + I.shape1d.width * k3))) * I.shape1d.get i1 k1 else 0) +
         (if p = i1 + I.shape1d.width * 2 then
            QQQ (2 * I.quads + (k1 + I.shape1d.width * (k2 + I.shape1d.width * k3))) * I.shape1d.get i1 k1 else 0)))]
  intro k1 a _ p
  rw [forLoop_add (fun i1 p =>
        ((if p = i1 + I.shape1d.width * 0 then
            QQQ (0 * I.quads + (k1 + I.shape1d.width * (k2 + I.shape1d.width * k3))) * I.dshape1d.get i1 k1 else 0) +
         (if p = i1 + I.shape1d.width * 1 then
            QQQ (1 * I.quads + (k1 + I.shape1d.width * (k2 + I.shape1d.width * k3))) * I.shape1d.get i1 k1 else 0) +
         (if p = i1 + I.shape1d.width * 2 then
            QQQ (2 * I.quads + (k1 + I.shape1d.width * (k2 + I.shape1d.width * k3))) * I.shape1d.get i1 k1 else 0)))]
  intro i1 a _ p
  simp only [addAt_apply, Nat.mul_comm 0 I.shape1d.width, Nat.mul_comm 1 I.shape1d.width,
    Nat.mul_comm 2 I.shape1d.width, add_assoc]

lemma PADiffusionIntegrator.hexBackwardQ_get_diff (I : PADiffusionIntegrator R) (k2 k3 : Nat)
    (QQQ Q : Nat → R) (hdq : I.shape1d.height ≤ I.shape1d.width) (i1 : Nat) (hi : i1 < I.shape1d.height) :
    I.hexBackwardQ k2 k3 QQQ (zeroFill 0 (I.shape1d.width * 3) Q) (i1 + I.shape1d.width * 0) = (∑ k1 in range I.shape1d.width, QQQ (0 * I.quads + (k1 + I.shape1d.width * (k2 + I.shape1d.width * k3))) * I.dshape1d.get i1 k1) ∧
    I.hexBackwardQ k2 k3 QQQ (zeroFill 0 (I.shape1d.width * 3) Q) (i1 + I.shape1d.width * 1) = (∑ k1 in range I.shape1d.width, QQQ (1 * I.quads + (k1 + I.shape1d.width * (k2 + I.shape1d.width * k3))) * I.shape1d.get i1 k1) ∧
    I.hexBackwardQ k2 k3 QQQ (zeroFill 0 (I.shape1d.width * 3) Q) (i1 + I.shape1d.width * 2) = (∑ k1 in range I.shape1d.width, QQQ (2 * I.quads + (k1 + I.shape1d.width * (k2 + I.shape1d.width * k3))) * I.shape1d.get i1 k1) := by
  refine ⟨?_, ?_, ?_⟩
  · rw [I.hexBackwardQ_apply_diff, zeroFill_in _ _ _ _ (by omega), zero_add]
    apply Finset.sum_congr rfl
    intro k1 _
    simp only [Finset.sum_add_distrib,
      fun b' f => sum_flat (R := R) I.shape1d.width I.shape1d.height i1 0 b' hdq hi f]
    simp
  · rw [I.hexBackwardQ_apply_diff, zeroFill_in _ _ _ _ (by omega), zero_add]
    apply Finset.sum_congr rfl
    intro k1 _
    simp only [Finset.sum_add_distrib,
      fun b' f => sum_flat (R := R) I.shape1d.width I.shape1d.height i1 1 b' hdq hi f]
    simp
  · rw [I.hexBackwardQ_apply_diff, zeroFill_in _ _ _ _ (by omega), zero_add]
    apply Finset.sum_congr rfl
    intro k1 _
    simp only [Finset.sum_add_distrib,
      fun b' f => sum_flat (R := R) I.shape1d.width I.shape1d.height i1 2 b' hdq hi f]
    simp

lemma PADiffusionIntegrator.hexBackwardQQ_apply_diff (I : PADiffusionIntegrator R) (k2 : Nat)
    (Q QQ : Nat → R) (p : Nat) :
    I.hexBackwardQQ k2 Q QQ p = QQ p +
      ∑ i2 in range I.shape1d.height, ∑ i1 in range I.shape1d.height,
        ((if p = i1 + I.shape1d.width * (i2 + I.shape1d.width * 0) then
            Q (i1 + I.shape1d.width * 0) * I.shape1d.get i2 k2 else 0) +
         (if p = i1 + I.shape1d.width * (i2 + I.shape1d.width * 1) then
            Q (i1 + I.shape1d.width * 1) * I.dshape1d.get i2 k2 else 0) +
         (if p = i1 + I.shape1d.width * (i2 + I.shape1d.width * 2) then
            Q (i1 + I.shape1d.width * 2) * I.shape1d.get i2 k2 else 0)) := by
  unfold PADiffusionIntegrator.hexBackwardQQ
  rw [forLoop_add (fun i2 p => ∑ i1 in range I.shape1d.height,
        ((if p = i1 + I.shape1d.width * (i2 + I.shape1d.width * 0) then
            Q (i1 + I.shape1d.width * 0) * I.shape1d.get i2 k2 else 0) +
         (if p = i1 + I.shape1d.width * (i2 + I.shape1d.width * 1) then
            Q (i1 + I.shape1d.width * 1) * I.dshape1d.get i2 k2 else 0) +
         (if p = i1 + I.shape1d.width * (i2 + I.shape1d.width * 2) then
            Q (i1 + I.shape1d.width * 2) * I.shape1d.get i2 k2 else 0)))]
  intro i2 a _ p
  rw [forLoop_add (fun i1 p =>
        ((if p = i1 + I.shape1d.width * (i2 + I.shape1d.width * 0) then
            Q (i1 + I.shape1d.width * 0) * I.shape1d.get i2 k2 else 0) +
         (if p = i1 + I.shape1d.width * (i2 + I.shape1d.width * 1) then
            Q (i1 + I.shape1d.width * 1) * I.dshape1d.get i2 k2 else 0) +
         (if p = i1 + I.shape1d.width * (i2 + I.shape1d.width * 2) then
            Q (i1 + I.shape1d.width * 2) * I.shape1d.get i2 k2 else 0)))]
  intro i1 a _ p
  simp only [addAt_apply, Nat.mul_comm 0 I.shape1d.width, Nat.mul_comm 1 I.shape1d.width,
    Nat.mul_comm 2 I.shape1d.width, add_assoc]

lemma PADiffusionIntegrator.hexBackwardK2_QQ_diff (I : PADiffusionIntegrator R) (k3 k2 : Nat)
    (s : HexState R) (hdq : I.shape1d.height ≤ I.shape1d.width) (p : Nat) :
    (I.hexBackwardK2 k3 k2 s).QQ p = s.QQ p +
      ∑ i2 in range I.shape1d.height, ∑ i1 in range I.shape1d.height,
        ((if p = i1 + I.shape1d.width * (i2 + I.shape1d.width * 0) then
            (∑ k1 in range I.shape1d.width, s.QQQ (0 * I.quads + (k1 + I.shape1d.width * (k2 + I.shape1d.width * k3))) * I.dshape1d.get i1 k1) * I.shape1d.get i2 k2 else 0) +
         (if p = i1 + I.shape1d.width * (i2 + I.shape1d.width * 1) then
            (∑ k1 in range I.shape1d.width, s.QQQ (1 * I.quads + (k1 + I.shape1d.width * (k2 + I.shape1d.width * k3))) * I.shape1d.get i1 k1) * I.dshape1d.get i2 k2 else 0) +
         (if p = i1 + I.shape1d.width * (i2 + I.shape1d.width * 2) then
            (∑ k1 in range I.shape1d.width, s.QQQ (2 * I.quads + (k1 + I.shape1d.width * (k2 + I.shape1d.width * k3))) * I.shape1d.get i1 k1) * I.shape1d.get i2 k2 else 0)) := by
  unfold PADiffusionIntegrator.hexBackwardK2
  simp only
  rw [I.hexBackwardQQ_apply_diff]
  congr 1
  apply Finset.sum_congr rfl
  intro i2 _
  apply Finset.sum_congr rfl
  intro i1 hi1
  rw [Finset.mem_range] at hi1
  obtain ⟨g0, g1, g2⟩ := I.hexBackwardQ_get_diff k2 k3 s.QQQ s.Q hdq i1 hi1
  rw [g0, g1, g2]

lemma PADiffusionIntegrator.hexBackwardK2_loop_diff (I : PADiffusionIntegrator R) (k3 n : Nat)
    (s : HexState R) (hdq : I.shape1d.height ≤ I.shape1d.width) :
    (forLoop n (I.hexBackwardK2 k3) s).offset = s.offset ∧
    (forLoop n (I.hexBackwardK2 k3) s).QQQ = s.QQQ ∧
    (forLoop n (I.hexBackwardK2 k3) s).U = s.U ∧
    ∀ p, (forLoop n (I.hexBackwardK2 k3) s).QQ p = s.QQ p +
      ∑ k2 in range n, ∑ i2 in range I.shape1d.height, ∑ i1 in range I.shape1d.height,
        ((if p = i1 + I.shape1d.width * (i2 + I.shape1d.width * 0) then
            (∑ k1 in range I.shape1d.width, s.QQQ (0 * I.quads + (k1 + I.shape1d.width * (k2 + I.shape1d.width * k3))) * I.dshape1d.get i1 k1) * I.shape1d.get i2 k2 else 0) +
         (if p = i1 + I.shape1d.width * (i2 + I.shape1d.width * 1) then
            (∑ k1 in range I.shape1d.width, s.QQQ (1 * I.quads + (k1 + I.shape1d.width * (k2 + I.shape1d.width * k3))) * I.shape1d.get i1 k1) * I.dshape1d.get i2 k2 else 0) +
         (if p = i1 + I.shape1d.width * (i2 + I.shape1d.width * 2) then
            (∑ k1 in range I.shape1d.width, s.QQQ (2 * I.quads + (k1 + I.shape1d.width * (k2 + I.shape1d.width * k3))) * I.shape1d.get i1 k1) * I.shape1d.get i2 k2 else 0)) := by
  have hinv := forLoop_inv (fun t : HexState R => t.offset = s.offset ∧ t.QQQ = s.QQQ ∧ t.U = s.U)
    n (I.hexBackwardK2 k3) (fun _ t _ ht => ht) s ⟨rfl, rfl, rfl⟩
  refine ⟨hinv.1, hinv.2.1, hinv.2.2, fun p => ?_⟩
  exact forLoop_acc (fun t : HexState R => t.QQQ = s.QQQ) HexState.QQ _ n
    (I.hexBackwardK2 k3) (fun _ t _ ht => ht)
    (fun k2 t _ ht p => by rw [I.hexBackwardK2_QQ_diff k3 k2 t hdq p, ht]) s rfl p

lemma PADiffusionIntegrator.hexBackwardK2_get_diff (I : PADiffusionIntegrator R) (k3 : Nat)
    (s : HexState R) (hdq : I.shape1d.height ≤ I.shape1d.width) (i1 i2 : Nat) (h1 : i1 < I.shape1d.height) (h2 : i2 < I.shape1d.height) :
    (forLoop I.shape1d.width (I.hexBackwardK2 k3)
        { s with QQ := zeroFill 0 (I.shape1d.width * I.shape1d.width * 3) s.QQ }).QQ (i1 + I.shape1d.width * (i2 + I.shape1d.width * 0)) =
      (∑ k2 in range I.shape1d.width, (∑ k1 in range I.shape1d.width, s.QQQ (0 * I.quads + (k1 + I.shape1d.width * (k2 + I.shape1d.width * k3))) * I.dshape1d.get i1 k1) * I.shape1d.get i2 k2) ∧
    (forLoop I.shape1d.width (I.hexBackwardK2 k3)
        { s with QQ := zeroFill 0 (I.shape1d.width * I.shape1d.width * 3) s.QQ }).QQ (i1 + I.shape1d.width * (i2 + I.shape1d.width * 1)) =
      (∑ k2 in range I.shape1d.width, (∑ k1 in range I.shape1d.width, s.QQQ (1 * I.quads + (k1 + I.shape1d.width * (k2 + I.shape1d.width * k3))) * I.shape1d.get i1 k1) * I.dshape1d.get i2 k2) ∧
    (forLoop I.shape1d.width (I.hexBackwardK2 k3)
        { s with QQ := zeroFill 0 (I.shape1d.width * I.shape1d.width * 3) s.QQ }).QQ (i1 + I.shape1d.width * (i2 + I.shape1d.width * 2)) =
      (∑ k2 in range I.shape1d.width, (∑ k1 in range I.shape1d.width, s.QQQ (2 * I.quads + (k1 + I.shape1d.width * (k2 + I.shape1d.width * k3))) * I.shape1d.get i1 k1) * I.shape1d.get i2 k2) := by
  have h4 := (I.hexBackwardK2_loop_diff k3 I.shape1d.width
    { s with QQ := zeroFill 0 (I.shape1d.width * I.shape1d.width * 3) s.QQ } hdq).2.2.2
  dsimp only at h4
  have hz : ∀ c, c < 3 → zeroFill 0 (I.shape1d.width * I.shape1d.width * 3) s.QQ
      (i1 + I.shape1d.width * (i2 + I.shape1d.width * c)) = 0 := by
    intro c hc
    apply zeroFill_in
    have h5 := flat_lt2 _ i1 i2 (show i1 < I.shape1d.width by omega) (show i2 < I.shape1d.width by omega)
    have h6 : I.shape1d.width * I.shape1d.width * (c + 1) ≤ I.shape1d.width * I.shape1d.width * 3 :=
      Nat.mul_le_mul_left _ hc
    have h7 : i1 + I.shape1d.width * (i2 + I.shape1d.width * c) =
      (i1 + I.shape1d.width * i2) + I.shape1d.width * I.shape1d.width * c := by ring
    have h8 : I.shape1d.width * I.shape1d.width * (c + 1) =
      I.shape1d.width * I.shape1d.width * c + I.shape1d.width * I.shape1d.width := by ring
    omega
  refine ⟨?_, ?_, ?_⟩
  · rw [h4, hz 0 (by omega), zero_add]
    apply Finset.sum_congr rfl
    intro k2 _
    simp only [Finset.sum_add_distrib,
      fun b' f => sum_flat (R := R) I.shape1d.width I.shape1d.height i1 (i2 + I.shape1d.width * 0) b' hdq h1 f,
      fun b' f => sum_flat (R := R) I.shape1d.width I.shape1d.height i2 0 b' hdq h2 f]
    simp
  · rw [h4, hz 1 (by omega), zero_add]
    apply Finset.sum_congr rfl
    intro k2 _
    simp only [Finset.sum_add_distrib,
      fun b' f => sum_flat (R := R) I.shape1d.width I.shape1d.height i1 (i2 + I.shape1d.width * 1) b' hdq h1 f,
      fun b' f => sum_flat (R := R) I.shape1d.width I.shape1d.height i2 1 b' hdq h2 f]
    simp
  · rw [h4, hz 2 (by omega), zero_add]
    apply Finset.sum_congr rfl
    intro k2 _
    simp only [Finset.sum_add_distrib,
      fun b' f => sum_flat (R := R) I.shape1d.width I.shape1d.height i1 (i2 + I.shape1d.width * 2) b' hdq h1 f,
      fun b' f => sum_flat (R := R) I.shape1d.width I.shape1d.height i2 2 b' hdq h2 f]
    simp

lemma PADiffusionIntegrator.hexBackwardU_apply_diff (I : PADiffusionIntegrator R) (off k3 : Nat)
    (QQ U : Nat → R) (p : Nat) :
    I.hexBackwardU off k3 QQ U p = U p +
      ∑ i3 in range I.shape1d.height, ∑ i2 in range I.shape1d.height, ∑ i1 in range I.shape1d.height,
        (if p = off + (i1 + I.shape1d.height * (i2 + I.shape1d.height * i3)) then
          (QQ (i1 + I.shape1d.width * (i2 + I.shape1d.width * 0)) * I.shape1d.get i3 k3 +
           QQ (i1 + I.shape1d.width * (i2 + I.shape1d.width * 1)) * I.shape1d.get i3 k3 +
           QQ (i1 + I.shape1d.width * (i2 + I.shape1d.width * 2)) * I.dshape1d.get i3 k3) else 0) := by
  unfold PADiffusionIntegrator.hexBackwardU
  rw [forLoop_add (fun i3 p => ∑ i2 in range I.shape1d.height, ∑ i1 in range I.shape1d.height,
        (if p = off + (i1 + I.shape1d.height * (i2 + I.shape1d.height * i3)) then
          (QQ (i1 + I.shape1d.width * (i2 + I.shape1d.width * 0)) * I.shape1d.get i3 k3 +
           QQ (i1 + I.shape1d.width * (i2 + I.shape1d.width * 1)) * I.shape1d.get i3 k3 +
           QQ (i1 + I.shape1d.width * (i2 + I.shape1d.width * 2)) * I.dshape1d.get i3 k3) else 0))]
  intro i3 a _ p
  rw [forLoop_add (fun i2 p => ∑ i1 in range I.shape1d.height,
        (if p = off + (i1 + I.shape1d.height * (i2 + I.shape1d.height * i3)) then
          (QQ (i1 + I.shape1d.width * (i2 + I.shape1d.width * 0)) * I.shape1d.get i3 k3 +
           QQ (i1 + I.shape1d.width * (i2 + I.shape1d.width * 1)) * I.shape1d.get i3 k3 +
           QQ (i1 + I.shape1d.width * (i2 + I.shape1d.width * 2)) * I.dshape1d.get i3 k3) else 0))]
  intro i2 a _ p
  rw [forLoop_add (fun i1 p =>
        (if p = off + (i1 + I.shape1d.height * (i2 + I.shape1d.height * i3)) then
          (QQ (i1 + I.shape1d.width * (i2 + I.shape1d.width * 0)) * I.shape1d.get i3 k3 +
           QQ (i1 + I.shape1d.width * (i2 + I.shape1d.width * 1)) * I.shape1d.get i3 k3 +
           QQ (i1 + I.shape1d.width * (i2 + I.shape1d.width * 2)) * I.dshape1d.get i3 k3) else 0))]
  intro i1 a _ p
  rw [addAt_apply]

lemma PADiffusionIntegrator.hexBackwardK3_U_diff (I : PADiffusionIntegrator R) (k3 : Nat)
    (s : HexState R) (hdq : I.shape1d.height ≤ I.shape1d.width) (p : Nat) :
    (I.hexBackwardK3 k3 s).U p = s.U p +
      ∑ i3 in range I.shape1d.height, ∑ i2 in range I.shape1d.height, ∑ i1 in range I.shape1d.height,
        (if p = s.offset + (i1 + I.shape1d.height * (i2 + I.shape1d.height * i3)) then
          ((∑ k2 in range I.shape1d.width, (∑ k1 in range I.shape1d.width, s.QQQ (0 * I.quads + (k1 + I.shape1d.width * (k2 + I.shape1d.width * k3))) * I.dshape1d.get i1 k1) * I.shape1d.get i2 k2) * I.shape1d.get i3 k3 +
           (∑ k2 in range I.shape1d.width, (∑ k1 in range I.shape1d.width, s.QQQ (1 * I.quads + (k1 + I.shape1d.width * (k2 + I.shape1d.width * k3))) * I.shape1d.get i1 k1) * I.dshape1d.get i2 k2) * I.shape1d.get i3 k3 +
           (∑ k2 in range I.shape1d.width, (∑ k1 in range I.shape1d.width, s.QQQ (2 * I.quads + (k1 + I.shape1d.width * (k2 + I.shape1d.width * k3))) * I.shape1d.get i1 k1) * I.shape1d.get i2 k2) * I.dshape1d.get i3 k3) else 0) := by
  unfold PADiffusionIntegrator.hexBackwardK3
  simp only
  obtain ⟨h1, _, h3, _⟩ := I.hexBackwardK2_loop_diff k3 I.shape1d.width
    { s with QQ := zeroFill 0 (I.shape1d.width * I.shape1d.width * 3) s.QQ } hdq
  dsimp only at h1 h3
  rw [I.hexBackwardU_apply_diff, h1, h3]
  congr 1
  apply Finset.sum_congr rfl
  intro i3 _
  apply Finset.sum_congr rfl
  intro i2 hi2
  apply Finset.sum_congr rfl
  intro i1 hi1
  rw [Finset.mem_range] at hi1 hi2
  obtain ⟨g0, g1, g2⟩ := I.hexBackwardK2_get_diff k3 s hdq i1 i2 hi1 hi2
  rw [g0, g1, g2]

lemma PADiffusionIntegrator.hexBackwardK3_frame_diff (I : PADiffusionIntegrator R) (k3 : Nat)
    (t : HexState R) (hdq : I.shape1d.height ≤ I.shape1d.width) :
    (I.hexBackwardK3 k3 t).offset = t.offset ∧ (I.hexBackwardK3 k3 t).QQQ = t.QQQ := by
  obtain ⟨h1, h2, _, _⟩ := I.hexBackwardK2_loop_diff k3 I.shape1d.width
    { t with QQ := zeroFill 0 (I.shape1d.width * I.shape1d.width * 3) t.QQ } hdq
  dsimp only at h1 h2
  exact ⟨h1, h2⟩

lemma PADiffusionIntegrator.hexBackward_spec_diff (I : PADiffusionIntegrator R) (s : HexState R)
    (hdq : I.shape1d.height ≤ I.shape1d.width) :
    (I.hexBackward s).offset = s.offset ∧
    ∀ p, (I.hexBackward s).U p = s.U p +
      ∑ k3 in range I.shape1d.width, ∑ i3 in range I.shape1d.height, ∑ i2 in range I.shape1d.height, ∑ i1 in range I.shape1d.height,
        (if p = s.offset + (i1 + I.shape1d.height * (i2 + I.shape1d.height * i3)) then
          ((∑ k2 in range I.shape1d.width, (∑ k1 in range I.shape1d.width, s.QQQ (0 * I.quads + (k1 + I.shape1d.width * (k2 + I.shape1d.width * k3))) * I.dshape1d.get i1 k1) * I.shape1d.get i2 k2) * I.shape1d.get i3 k3 +
           (∑ k2 in range I.shape1d.width, (∑ k1 in range I.shape1d.width, s.QQQ (1 * I.quads + (k1 + I.shape1d.width * (k2 + I.shape1d.width * k3))) * I.shape1d.get i1 k1) * I.dshape1d.get i2 k2) * I.shape1d.get i3 k3 +
           (∑ k2 in range I.shape1d.width, (∑ k1 in range I.shape1d.width, s.QQQ (2 * I.quads + (k1 + I.shape1d.width * (k2 + I.shape1d.width * k3))) * I.shape1d.get i1 k1) * I.shape1d.get i2 k2) * I.dshape1d.get i3 k3) else 0) := by
  unfold PADiffusionIntegrator.hexBackward
  simp only
  have hinv := forLoop_inv (fun t : HexState R => t.offset = s.offset ∧ t.QQQ = s.QQQ)
    I.shape1d.width I.hexBackwardK3
    (fun k3 t _ ht => ⟨(I.hexBackwardK3_frame_diff k3 t hdq).1.trans ht.1,
      (I.hexBackwardK3_frame_diff k3 t hdq).2.trans ht.2⟩) s ⟨rfl, rfl⟩
  refine ⟨hinv.1, fun p => ?_⟩
  exact forLoop_acc (fun t : HexState R => t.offset = s.offset ∧ t.QQQ = s.QQQ) HexState.U _
    I.shape1d.width I.hexBackwardK3
    (fun k3 t _ ht => ⟨(I.hexBackwardK3_frame_diff k3 t hdq).1.trans ht.1,
      (I.hexBackwardK3_frame_diff k3 t hdq).2.trans ht.2⟩)
    (fun k3 t _ ht p => by rw [I.hexBackwardK3_U_diff k3 t hdq p, ht.1, ht.2]) s ⟨rfl, rfl⟩ p

end HexDiffBwd

section HexDiffUnit
variable {R : Type} [CommRing R]

omit [CommRing R] in
lemma sum_range_three {R : Type} [AddCommMonoid R] (f : Nat → R) :
    ∑ c in range 3, f c = f 0 + f 1 + f 2 := by
  simp [Finset.sum_range_succ]

/-- The forward contraction written as the claim's `g_d(k) = ∑ j, G_d(j,k) * V(j)`. -/
lemma contract3 (n : Nat) (a : Nat → Nat → Nat → R) (b c e : Nat → R) :
    ∑ j3 in range n, (∑ j2 in range n, (∑ j1 in range n, a j1 j2 j3 * b j1) * c j2) * e j3 =
      ∑ j1 in range n, ∑ j2 in range n, ∑ j3 in range n, b j1 * c j2 * e j3 * a j1 j2 j3 := by
  rw [sum_comm3]
  simp only [Finset.sum_mul]
  apply Finset.sum_congr rfl
  intro j3 _
  apply Finset.sum_congr rfl
  intro j2 _
  apply Finset.sum_congr rfl
  intro j1 _
  ring

lemma PADiffusionIntegrator.MultHexUnit_in_diff (I : PADiffusionIntegrator R) (V : Nat → R) (e : Nat)
    (s : HexState R) (hdq : I.shape1d.height ≤ I.shape1d.width)
    (hq : I.quads = I.shape1d.width * I.shape1d.width * I.shape1d.width)
    (i1 i2 i3 : Nat) (h1 : i1 < I.shape1d.height) (h2 : i2 < I.shape1d.height) (h3 : i3 < I.shape1d.height) :
    (I.MultHexUnit V e s).U (s.offset + (i1 + I.shape1d.height * (i2 + I.shape1d.height * i3))) =
      s.U (s.offset + (i1 + I.shape1d.height * (i2 + I.shape1d.height * i3))) +
      Dense.diffusionHex I.shape1d.height I.shape1d.width I.shape1d.get I.dshape1d.get
        (fun l k => I.Dtensor e (6 * k + l))
        (fun j1 j2 j3 => V (s.offset + (j1 + I.shape1d.height * (j2 + I.shape1d.height * j3)))) i1 i2 i3 := by
  unfold PADiffusionIntegrator.MultHexUnit
  simp only
  obtain ⟨f1, f2, f3⟩ := I.hexForward_spec_diff V s hq
  rw [(I.hexBackward_spec_diff _ hdq).2]
  simp only [f1, f2]
  congr 1
  simp only [fun k3 => scatter3_in I.shape1d.height s.offset i1 i2 i3 h1 h2 h3
    (fun i1 i2 i3 =>
      (∑ k2 in range I.shape1d.width, (∑ k1 in range I.shape1d.width,
        PADiffusionIntegrator.applyD3 I.quads (I.Dtensor e) (I.hexForward V s).QQQ
          (0 * I.quads + (k1 + I.shape1d.width * (k2 + I.shape1d.width * k3))) * I.dshape1d.get i1 k1) *
            I.shape1d.get i2 k2) * I.shape1d.get i3 k3 +
      (∑ k2 in range I.shape1d.width, (∑ k1 in range I.shape1d.width,
        PADiffusionIntegrator.applyD3 I.quads (I.Dtensor e) (I.hexForward V s).QQQ
          (1 * I.quads + (k1 + I.shape1d.width * (k2 + I.shape1d.width * k3))) * I.shape1d.get i1 k1) *
            I.dshape1d.get i2 k2) * I.shape1d.get i3 k3 +
      (∑ k2 in range I.shape1d.width, (∑ k1 in range I.shape1d.width,
        PADiffusionIntegrator.applyD3 I.quads (I.Dtensor e) (I.hexForward V s).QQQ
          (2 * I.quads + (k1 + I.shape1d.width * (k2 + I.shape1d.width * k3))) * I.shape1d.get i1 k1) *
            I.shape1d.get i2 k2) * I.dshape1d.get i3 k3)]
  unfold Dense.diffusionHex
  rw [sum_comm3]
  simp only [Finset.sum_mul, ← Finset.sum_add_distrib]
  apply Finset.sum_congr rfl
  intro k3 hk3
  apply Finset.sum_congr rfl
  intro k2 hk2
  apply Finset.sum_congr rfl
  intro k1 hk1
  rw [Finset.mem_range] at hk1 hk2 hk3
  have hk : k1 + I.shape1d.width * (k2 + I.shape1d.width * k3) < I.quads := by
    rw [hq]; exact flat_lt3 _ k1 k2 k3 hk1 hk2 hk3
  obtain ⟨a0, a1, a2⟩ := applyD3_get I.quads (I.Dtensor e) (I.hexForward V s).QQQ _ hk
  have c0 : 0 * I.quads + (k1 + I.shape1d.width * (k2 + I.shape1d.width * k3)) =
      k1 + I.shape1d.width * (k2 + I.shape1d.width * (k3 + I.shape1d.width * 0)) := by rw [hq]; ring
  have c1 : 1 * I.quads + (k1 + I.shape1d.width * (k2 + I.shape1d.width * k3)) =
      k1 + I.shape1d.width * (k2 + I.shape1d.width * (k3 + I.shape1d.width * 1)) := by rw [hq]; ring
  have c2 : 2 * I.quads + (k1 + I.shape1d.width * (k2 + I.shape1d.width * k3)) =
      k1 + I.shape1d.width * (k2 + I.shape1d.width * (k3 + I.shape1d.width * 2)) := by rw [hq]; ring
  obtain ⟨g0, g1, g2⟩ := f3 k1 k2 k3 hk1 hk2 hk3
  rw [← c0, contract3] at g0
  rw [← c1, contract3] at g1
  rw [← c2, contract3] at g2
  rw [a0, a1, a2, g0, g1, g2, sum_range_three]
  simp only [sum_range_three, Dense.G3, Dense.Dsym]
  ring

lemma PADiffusionIntegrator.MultHexUnit_out_diff (I : PADiffusionIntegrator R) (V : Nat → R)
    (e : Nat) (s : HexState R) (hdq : I.shape1d.height ≤ I.shape1d.width)
    (hq : I.quads = I.shape1d.width * I.shape1d.width * I.shape1d.width) (p : Nat)
    (hp : ¬ (s.offset ≤ p ∧ p < s.offset + I.shape1d.height * I.shape1d.height * I.shape1d.height)) :
    (I.MultHexUnit V e s).U p = s.U p := by
  unfold PADiffusionIntegrator.MultHexUnit
  simp only
  obtain ⟨f1, f2, _⟩ := I.hexForward_spec_diff V s hq
  rw [(I.hexBackward_spec_diff _ hdq).2]
  simp only [f1, f2]
  rw [Finset.sum_eq_zero, add_zero]
  intro k3 _
  exact scatter3_out _ _ _ hp _

lemma PADiffusionIntegrator.MultHexUnit_offset_diff (I : PADiffusionIntegrator R) (V : Nat → R)
    (e : Nat) (s : HexState R) (hdq : I.shape1d.height ≤ I.shape1d.width)
    (hq : I.quads = I.shape1d.width * I.shape1d.width * I.shape1d.width) :
    (I.MultHexUnit V e s).offset = s.offset + I.dofs := by
  unfold PADiffusionIntegrator.MultHexUnit
  simp only
  rw [(I.hexBackward_spec_diff _ hdq).1]
  simp only [(I.hexForward_spec_diff V s hq).1]

lemma PADiffusionIntegrator.MultHexUnit_U_diff (I : PADiffusionIntegrator R) (V : Nat → R) (e : Nat)
    (s : HexState R) (hdq : I.shape1d.height ≤ I.shape1d.width)
    (hq : I.quads = I.shape1d.width * I.shape1d.width * I.shape1d.width) (p : Nat) :
    (I.MultHexUnit V e s).U p = s.U p +
      if s.offset ≤ p ∧ p < s.offset + I.shape1d.height * I.shape1d.height * I.shape1d.height
      then
        Dense.diffusionHex I.shape1d.height I.shape1d.width I.shape1d.get I.dshape1d.get
          (fun l k => I.Dtensor e (6 * k + l))
          (fun j1 j2 j3 => V (s.offset + (j1 + I.shape1d.height * (j2 + I.shape1d.height * j3))))
          ((p - s.offset) % I.shape1d.height) ((p - s.offset) / I.shape1d.height % I.shape1d.height)
          ((p - s.offset) / I.shape1d.height / I.shape1d.height)
      else 0 := by
  by_cases hp : s.offset ≤ p ∧ p < s.offset + I.shape1d.height * I.shape1d.height * I.shape1d.height
  · rw [if_pos hp]
    obtain ⟨h1, h2, h3, h4⟩ := decode3 I.shape1d.height (p - s.offset) (by omega)
    have hp' : p = s.offset + ((p - s.offset) % I.shape1d.height + I.shape1d.height *
        ((p - s.offset) / I.shape1d.height % I.shape1d.height +
          I.shape1d.height * ((p - s.offset) / I.shape1d.height / I.shape1d.height))) := by
      omega
    have := I.MultHexUnit_in_diff V e s hdq hq _ _ _ h1 h2 h3
    rw [← hp'] at this
    exact this
  · rw [if_neg hp, add_zero]
    exact I.MultHexUnit_out_diff V e s hdq hq p hp

lemma PADiffusionIntegrator.MultHex_closed_diff (I : PADiffusionIntegrator R) (V U : Nat → R)
    (hdq : I.shape1d.height ≤ I.shape1d.width)
    (hd : I.dofs = I.shape1d.height ^ 3) (hq : I.quads = I.shape1d.width ^ 3)
    (e vd i1 i2 i3 : Nat) (he : e < I.NE) (hvd : vd < I.vdim) (h1 : i1 < I.shape1d.height)
    (h2 : i2 < I.shape1d.height) (h3 : i3 < I.shape1d.height) :
    I.MultHex V U ((e * I.vdim + vd) * I.dofs + (i1 + I.shape1d.height * (i2 + I.shape1d.height * i3))) =
      U ((e * I.vdim + vd) * I.dofs + (i1 + I.shape1d.height * (i2 + I.shape1d.height * i3))) +
      Dense.diffusionHex I.shape1d.height I.shape1d.width I.shape1d.get I.dshape1d.get
        (fun l k => I.Dtensor e (6 * k + l))
        (fun j1 j2 j3 => V ((e * I.vdim + vd) * I.dofs +
          (j1 + I.shape1d.height * (j2 + I.shape1d.height * j3)))) i1 i2 i3 := by
  rw [cube_eq] at hd hq
  unfold PADiffusionIntegrator.MultHex
  have hi := flat_lt3 _ i1 i2 i3 h1 h2 h3
  have h := (unitLoops HexState.offset HexState.U I.dofs
    (fun e off p =>
      if off ≤ p ∧ p < off + I.shape1d.height * I.shape1d.height * I.shape1d.height then
        Dense.diffusionHex I.shape1d.height I.shape1d.width I.shape1d.get I.dshape1d.get
          (fun l k => I.Dtensor e (6 * k + l))
          (fun j1 j2 j3 => V (off + (j1 + I.shape1d.height * (j2 + I.shape1d.height * j3))))
          ((p - off) % I.shape1d.height) ((p - off) / I.shape1d.height % I.shape1d.height)
          ((p - off) / I.shape1d.height / I.shape1d.height) else 0)
    (fun e s => I.MultHexUnit V e s) I.NE I.vdim
    (fun e s _ => I.MultHexUnit_offset_diff V e s hdq hq)
    (fun e s p _ => I.MultHexUnit_U_diff V e s hdq hq p)
    { offset := 0, Q := fun _ => 0, QQ := fun _ => 0, QQQ := fun _ => 0, U := U }).2
      ((e * I.vdim + vd) * I.dofs + (i1 + I.shape1d.height * (i2 + I.shape1d.height * i3)))
  rw [h]
  simp only [zero_add, ← hd]
  rw [sum_units I.NE I.vdim I.dofs e vd _ he hvd (hd ▸ hi)
    (fun e' off =>
        Dense.diffusionHex I.shape1d.height I.shape1d.width I.shape1d.get I.dshape1d.get
          (fun l k => I.Dtensor e' (6 * k + l))
          (fun j1 j2 j3 => V (off + (j1 + I.shape1d.height * (j2 + I.shape1d.height * j3))))
          (((e * I.vdim + vd) * I.dofs +
            (i1 + I.shape1d.height * (i2 + I.shape1d.height * i3)) - off) % I.shape1d.height)
          (((e * I.vdim + vd) * I.dofs +
            (i1 + I.shape1d.height * (i2 + I.shape1d.height * i3)) - off) / I.shape1d.height
              % I.shape1d.height)
          (((e * I.vdim + vd) * I.dofs +
            (i1 + I.shape1d.height * (i2 + I.shape1d.height * i3)) - off) / I.shape1d.height
              / I.shape1d.height))]
  obtain ⟨e1, e2, e3⟩ := flat3_decode I.shape1d.height i1 i2 i3 h1 h2
  simp only [Nat.add_sub_cancel_left, e1, e2, e3]

end HexDiffUnit

section Linear
variable {R : Type} [CommRing R]

/-- The relation between three runs of a loop is preserved when every iteration preserves
it. -/
lemma forLoop_rel3 {σ : Type} (Rel : σ → σ → σ → Prop) (n : Nat) (f1 f2 f : Nat → σ → σ)
    (h : ∀ i s1 s2 s, i < n → Rel s1 s2 s → Rel (f1 i s1) (f2 i s2) (f i s))
    (s1 s2 s : σ) (hs : Rel s1 s2 s) :
    Rel (forLoop n f1 s1) (forLoop n f2 s2) (forLoop n f s) := by
  induction n with
  | zero => exact hs
  | succ m ih =>
    exact h m _ _ _ (Nat.lt_succ_self m) (ih (fun i s1 s2 s hi => h i s1 s2 s (Nat.lt_succ_of_lt hi)))

lemma Lin.zero (a b : R) : Lin a b (fun _ => 0) (fun _ => 0) (fun _ => 0) := by
  intro p; simp

lemma Lin.addAt {a b : R} {x1 x2 x : Nat → R} (h : Lin a b x1 x2 x) (i : Nat) {v1 v2 v : R}
    (hv : v = a * v1 + b * v2) : Lin a b (addAt x1 i v1) (addAt x2 i v2) (addAt x i v) := by
  intro p
  unfold mfem.addAt
  split
  · rw [h p, hv]; ring
  · exact h p

lemma Aff.addAt_shift {a b : R} {W x1 x2 x : Nat → R} (h : Aff a b W x1 x2 x) (i : Nat) {v1 v2 v : R}
    (hv : v = a * v1 + b * v2) : Aff a b W (addAt x1 i v1) (addAt x2 i v2) (addAt x i v) := by
  intro p
  unfold mfem.addAt
  split
  · rw [h p, hv]; ring
  · exact h p

lemma Lin.setAt {a b : R} {x1 x2 x : Nat → R} (h : Lin a b x1 x2 x) (i : Nat) {v1 v2 v : R}
    (hv : v = a * v1 + b * v2) : Lin a b (setAt x1 i v1) (setAt x2 i v2) (setAt x i v) := by
  intro p
  unfold mfem.setAt
  split
  · exact hv
  · exact h p

lemma Lin.mulAt {a b : R} {x1 x2 x : Nat → R} (h : Lin a b x1 x2 x) (i : Nat) (d : R) :
    Lin a b (mulAt x1 i d) (mulAt x2 i d) (mulAt x i d) := by
  intro p
  unfold mfem.mulAt
  split
  · rw [h p]; ring
  · exact h p

lemma Lin.zeroFill {a b : R} {x1 x2 x : Nat → R} (h : Lin a b x1 x2 x) (off n : Nat) :
    Lin a b (zeroFill off n x1) (zeroFill off n x2) (zeroFill off n x) := by
  intro p
  unfold mfem.zeroFill
  split
  · simp
  · exact h p

lemma Lin.scale {a b : R} {x1 x2 x : Nat → R} (h : Lin a b x1 x2 x) (n : Nat) (d : Nat → R) :
    Lin a b (forLoop n (fun k a => mfem.mulAt a k (d k)) x1)
      (forLoop n (fun k a => mfem.mulAt a k (d k)) x2)
      (forLoop n (fun k a => mfem.mulAt a k (d k)) x) :=
  forLoop_rel3 (Lin a b) n _ _ _ (fun k _ _ _ _ hx => hx.mulAt k (d k)) _ _ _ h

lemma lin_sum (a b : R) (n : Nat) (f1 f2 f : Nat → R)
    (h : ∀ k, k < n → f k = a * f1 k + b * f2 k) :
    ∑ k in range n, f k = a * ∑ k in range n, f1 k + b * ∑ k in range n, f2 k := by
  rw [Finset.mul_sum, Finset.mul_sum, ← Finset.sum_add_distrib]
  exact Finset.sum_congr rfl (fun k hk => h k (Finset.mem_range.1 hk))

/-! #### The dense products are linear in their data argument -/

lemma Lin.MultTranspose {a b : R} (A : DenseMatrix R) {x1 x2 x y1 y2 y : Nat → R}
    (hx : Lin a b x1 x2 x) (hy : Lin a b y1 y2 y) :
    Lin a b (A.MultTranspose x1 y1) (A.MultTranspose x2 y2) (A.MultTranspose x y) := by
  intro p
  unfold DenseMatrix.MultTranspose
  split
  · exact lin_sum a b _ _ _ _ (fun j _ => by rw [hx j]; ring)
  · exact hy p

lemma Aff.AddMult {a b : R} (A : DenseMatrix R) {W x1 x2 x y1 y2 y : Nat → R}
    (hx : Lin a b x1 x2 x) (hy : Aff a b W y1 y2 y) (off : Nat) :
    Aff a b W (A.AddMult x1 y1 off) (A.AddMult x2 y2 off) (A.AddMult x y off) := by
  intro p
  unfold DenseMatrix.AddMult
  split
  · rw [hy p, lin_sum a b _ (fun k => A.get (p - off) k * x1 k)
      (fun k => A.get (p - off) k * x2 k) _ (fun k _ => by rw [hx k]; ring)]
    ring
  · exact hy p

/-- `MultAtB` with the data in its first argument. -/
lemma Lin.MultAtB_left {a b : R} (h w : Nat) (B : DenseMatrix R)
    {x1 x2 x y1 y2 y : Nat → R} (hx : Lin a b x1 x2 x) (hy : Lin a b y1 y2 y) (off : Nat) :
    Lin a b (MultAtB ⟨x1, h, w⟩ B y1 off) (MultAtB ⟨x2, h, w⟩ B y2 off)
      (MultAtB ⟨x, h, w⟩ B y off) := by
  intro p
  unfold mfem.MultAtB DenseMatrix.get
  simp only
  split
  · exact lin_sum a b _ _ _ _ (fun k _ => by rw [hx _]; ring)
  · exact hy p

/-- `MultABt` with the data in its second argument. -/
lemma Lin.MultABt_right {a b : R} (A : DenseMatrix R) (h w : Nat)
    {x1 x2 x y1 y2 y : Nat → R} (hx : Lin a b x1 x2 x) (hy : Lin a b y1 y2 y) (off : Nat) :
    Lin a b (MultABt A ⟨x1, h, w⟩ y1 off) (MultABt A ⟨x2, h, w⟩ y2 off)
      (MultABt A ⟨x, h, w⟩ y off) := by
  intro p
  unfold mfem.MultABt DenseMatrix.get
  simp only
  split
  · exact lin_sum a b _ _ _ _ (fun k _ => by rw [hx _]; ring)
  · exact hy p

/-- `AddMultABt` with the data in its second argument. -/
lemma Aff.AddMultABt_right {a b : R} (A : DenseMatrix R) (h w : Nat)
    {W x1 x2 x y1 y2 y : Nat → R} (hx : Lin a b x1 x2 x) (hy : Aff a b W y1 y2 y) (off : Nat) :
    Aff a b W (AddMultABt A ⟨x1, h, w⟩ y1 off) (AddMultABt A ⟨x2, h, w⟩ y2 off)
      (AddMultABt A ⟨x, h, w⟩ y off) := by
  intro p
  unfold mfem.AddMultABt DenseMatrix.get
  simp only
  split
  · rw [hy p, lin_sum a b _
      (fun k => A.data ((p - off) % A.height + k * A.height) * x1 ((p - off) / A.height + k * h))
      (fun k => A.data ((p - off) % A.height + k * A.height) * x2 ((p - off) / A.height + k * h))
      _ (fun k _ => by rw [hx _]; ring)]
    ring
  · exact hy p

lemma Lin.shift {a b : R} {x1 x2 x : Nat → R} (h : Lin a b x1 x2 x) (off : Nat) :
    Lin a b (fun p => x1 (off + p)) (fun p => x2 (off + p)) (fun p => x (off + p)) :=
  fun p => h (off + p)

end Linear

section LinearSegQuad
variable {R : Type} [CommRing R]

variable {a b : R} {W V1 V2 V : Nat → R}

lemma PADiffusionIntegrator.MultSegUnit_rel_diff (I : PADiffusionIntegrator R)
    (hV : Lin a b V1 V2 V) (e : Nat) {s1 s2 s : SegState R} (h : SegState.Rel a b W s1 s2 s) :
    SegState.Rel a b W (I.MultSegUnit V1 e s1) (I.MultSegUnit V2 e s2) (I.MultSegUnit V e s) := by
  obtain ⟨h1, h2, hQ, hU⟩ := h
  unfold PADiffusionIntegrator.MultSegUnit
  simp only [h1, h2]
  have hQ' := Lin.scale (Lin.MultTranspose I.dshape1d (hV.shift s.offset) hQ) I.shape1d.width
    (I.Dtensor e)
  exact ⟨rfl, rfl, hQ', Aff.AddMult I.dshape1d hQ' hU s.offset⟩

lemma PADiffusionIntegrator.MultSeg_aff_diff (I : PADiffusionIntegrator R)
    (hV : Lin a b V1 V2 V) {U1 U2 U : Nat → R} (hU : Aff a b W U1 U2 U) :
    Aff a b W (I.MultSeg V1 U1) (I.MultSeg V2 U2) (I.MultSeg V U) := by
  unfold PADiffusionIntegrator.MultSeg
  exact (forLoop_rel3 (SegState.Rel a b W) I.NE
    (fun e s => forLoop I.vdim (fun _ s => I.MultSegUnit V1 e s) s)
    (fun e s => forLoop I.vdim (fun _ s => I.MultSegUnit V2 e s) s)
    (fun e s => forLoop I.vdim (fun _ s => I.MultSegUnit V e s) s)
    (fun e _ _ _ _ h => forLoop_rel3 (SegState.Rel a b W) I.vdim _ _ _
      (fun _ _ _ _ _ h => I.MultSegUnit_rel_diff hV e h) _ _ _ h)
    ⟨0, fun _ => 0, U1⟩ ⟨0, fun _ => 0, U2⟩ ⟨0, fun _ => 0, U⟩
    ⟨rfl, rfl, Lin.zero a b, hU⟩).2.2.2

lemma PAMassIntegrator.MultSegUnit_rel_mass (I : PAMassIntegrator R)
    (hV : Lin a b V1 V2 V) (e : Nat) {s1 s2 s : SegState R} (h : SegState.Rel a b W s1 s2 s) :
    SegState.Rel a b W (I.MultSegUnit V1 e s1) (I.MultSegUnit V2 e s2) (I.MultSegUnit V e s) := by
  obtain ⟨h1, h2, hQ, hU⟩ := h
  unfold PAMassIntegrator.MultSegUnit
  simp only [h1, h2]
  have hQ' := Lin.scale (Lin.MultTranspose I.shape1d (hV.shift s.offset) hQ) I.shape1d.width
    (I.Dmat.GetColumn e)
  exact ⟨rfl, rfl, hQ', Aff.AddMult I.shape1d hQ' hU s.offset⟩

lemma PAMassIntegrator.MultSeg_aff_mass (I : PAMassIntegrator R)
    (hV : Lin a b V1 V2 V) {U1 U2 U : Nat → R} (hU : Aff a b W U1 U2 U) :
    Aff a b W (I.MultSeg V1 U1) (I.MultSeg V2 U2) (I.MultSeg V U) := by
  unfold PAMassIntegrator.MultSeg
  exact (forLoop_rel3 (SegState.Rel a b W) I.NE
    (fun e s => forLoop I.vdim (fun _ s => I.MultSegUnit V1 e s) s)
    (fun e s => forLoop I.vdim (fun _ s => I.MultSegUnit V2 e s) s)
    (fun e s => forLoop I.vdim (fun _ s => I.MultSegUnit V e s) s)
    (fun e _ _ _ _ h => forLoop_rel3 (SegState.Rel a b W) I.vdim _ _ _
      (fun _ _ _ _ _ h => I.MultSegUnit_rel_mass hV e h) _ _ _ h)
    ⟨0, fun _ => 0, U1⟩ ⟨0, fun _ => 0, U2⟩ ⟨0, fun _ => 0, U⟩
    ⟨rfl, rfl, Lin.zero a b, hU⟩).2.2.2

lemma Lin.applyD2 {x1 x2 x : Nat → R} (h : Lin a b x1 x2 x) (quads : Nat) (D : Nat → R) :
    Lin a b (PADiffusionIntegrator.applyD2 quads D x1) (PADiffusionIntegrator.applyD2 quads D x2)
      (PADiffusionIntegrator.applyD2 quads D x) := by
  unfold PADiffusionIntegrator.applyD2
  apply forLoop_rel3 (Lin a b) quads _ _ _ _ _ _ _ h
  intro k y1 y2 y _ hy
  unfold PADiffusionIntegrator.applyD2Step
  exact (hy.setAt _ (by rw [hy _, hy _]; ring)).setAt _ (by rw [hy _, hy _]; ring)

lemma PADiffusionIntegrator.MultQuadUnit_rel_diff (I : PADiffusionIntegrator R)
    (hV : Lin a b V1 V2 V) (e : Nat) {s1 s2 s : QuadState R} (h : QuadState.Rel a b W s1 s2 s) :
    QuadState.Rel a b W (I.MultQuadUnit V1 e s1) (I.MultQuadUnit V2 e s2)
      (I.MultQuadUnit V e s) := by
  obtain ⟨h1, h2, hQQ, hDQ, hU⟩ := h
  unfold PADiffusionIntegrator.MultQuadUnit PADiffusionIntegrator.quadBackward
    PADiffusionIntegrator.quadForward
  simp only [h1, h2]
  have d1 := Lin.MultAtB_left I.shape1d.height I.shape1d.height I.dshape1d
    (hV.shift s.offset) hDQ 0
  have q1 := Lin.MultAtB_left I.shape1d.height I.shape1d.width I.shape1d d1 hQQ
    (0 * (I.shape1d.width * I.shape1d.width))
  have d2 := Lin.MultAtB_left I.shape1d.height I.shape1d.height I.shape1d
    (hV.shift s.offset) d1 0
  have q2 := Lin.MultAtB_left I.shape1d.height I.shape1d.width I.dshape1d d2 q1
    (1 * (I.shape1d.width * I.shape1d.width))
  have q3 := q2.applyD2 I.quads (I.Dtensor e)
  have d3 := Lin.MultABt_right I.shape1d I.shape1d.width I.shape1d.width
    (q3.shift (0 * (I.shape1d.width * I.shape1d.width))) d2 0
  have u1 := Aff.AddMultABt_right I.dshape1d I.shape1d.height I.shape1d.width d3 hU s.offset
  have d4 := Lin.MultABt_right I.dshape1d I.shape1d.width I.shape1d.width
    (q3.shift (1 * (I.shape1d.width * I.shape1d.width))) d3 0
  have u2 := Aff.AddMultABt_right I.shape1d I.shape1d.height I.shape1d.width d4 u1 s.offset
  exact ⟨rfl, rfl, q3, d4, u2⟩

lemma PADiffusionIntegrator.MultQuad_aff_diff (I : PADiffusionIntegrator R)
    (hV : Lin a b V1 V2 V) {U1 U2 U : Nat → R} (hU : Aff a b W U1 U2 U) :
    Aff a b W (I.MultQuad V1 U1) (I.MultQuad V2 U2) (I.MultQuad V U) := by
  unfold PADiffusionIntegrator.MultQuad
  exact (forLoop_rel3 (QuadState.Rel a b W) I.NE
    (fun e s => forLoop I.vdim (fun _ s => I.MultQuadUnit V1 e s) s)
    (fun e s => forLoop I.vdim (fun _ s => I.MultQuadUnit V2 e s) s)
    (fun e s => forLoop I.vdim (fun _ s => I.MultQuadUnit V e s) s)
    (fun e _ _ _ _ h => forLoop_rel3 (QuadState.Rel a b W) I.vdim _ _ _
      (fun _ _ _ _ _ h => I.MultQuadUnit_rel_diff hV e h) _ _ _ h)
    ⟨0, fun _ => 0, fun _ => 0, U1⟩ ⟨0, fun _ => 0, fun _ => 0, U2⟩ ⟨0, fun _ => 0, fun _ => 0, U⟩
    ⟨rfl, rfl, Lin.zero a b, Lin.zero a b, hU⟩).2.2.2.2

lemma PAMassIntegrator.MultQuadUnit_rel_mass (I : PAMassIntegrator R)
    (hV : Lin a b V1 V2 V) (e : Nat) {s1 s2 s : QuadState R} (h : QuadState.Rel a b W s1 s2 s) :
    QuadState.Rel a b W (I.MultQuadUnit V1 e s1) (I.MultQuadUnit V2 e s2)
      (I.MultQuadUnit V e s) := by
  obtain ⟨h1, h2, hQQ, hDQ, hU⟩ := h
  unfold PAMassIntegrator.MultQuadUnit PAMassIntegrator.quadBackward
    PAMassIntegrator.quadForward
  simp only [h1, h2]
  have d1 := Lin.MultAtB_left I.shape1d.height I.shape1d.height I.shape1d
    (hV.shift s.offset) hDQ 0
  have q1 := Lin.MultAtB_left I.shape1d.height I.shape1d.width I.shape1d d1 hQQ 0
  have q3 := q1.scale I.quads (I.Dmat.GetColumn e)
  have d3 := Lin.MultABt_right I.shape1d I.shape1d.width I.shape1d.width q3 d1 0
  have u1 := Aff.AddMultABt_right I.shape1d I.shape1d.height I.shape1d.width d3 hU s.offset
  exact ⟨rfl, rfl, q3, d3, u1⟩

lemma PAMassIntegrator.MultQuad_aff_mass (I : PAMassIntegrator R)
    (hV : Lin a b V1 V2 V) {U1 U2 U : Nat → R} (hU : Aff a b W U1 U2 U) :
    Aff a b W (I.MultQuad V1 U1) (I.MultQuad V2 U2) (I.MultQuad V U) := by
  unfold PAMassIntegrator.MultQuad
  exact (forLoop_rel3 (QuadState.Rel a b W) I.NE
    (fun e s => forLoop I.vdim (fun _ s => I.MultQuadUnit V1 e s) s)
    (fun e s => forLoop I.vdim (fun _ s => I.MultQuadUnit V2 e s) s)
    (fun e s => forLoop I.vdim (fun _ s => I.MultQuadUnit V e s) s)
    (fun e _ _ _ _ h => forLoop_rel3 (QuadState.Rel a b W) I.vdim _ _ _
      (fun _ _ _ _ _ h => I.MultQuadUnit_rel_mass hV e h) _ _ _ h)
    ⟨0, fun _ => 0, fun _ => 0, U1⟩ ⟨0, fun _ => 0, fun _ => 0, U2⟩ ⟨0, fun _ => 0, fun _ => 0, U⟩
    ⟨rfl, rfl, Lin.zero a b, Lin.zero a b, hU⟩).2.2.2.2

end LinearSegQuad

section LinearHex
variable {R : Type} [CommRing R]
variable {a b : R} {W V1 V2 V : Nat → R}

lemma Lin.applyD3 {x1 x2 x : Nat → R} (h : Lin a b x1 x2 x) (quads : Nat) (D : Nat → R) :
    Lin a b (PADiffusionIntegrator.applyD3 quads D x1) (PADiffusionIntegrator.applyD3 quads D x2)
      (PADiffusionIntegrator.applyD3 quads D x) := by
  unfold PADiffusionIntegrator.applyD3
  apply forLoop_rel3 (Lin a b) quads _ _ _ _ _ _ _ h
  intro k y1 y2 y _ hy
  unfold PADiffusionIntegrator.applyD3Step
  exact ((hy.setAt _ (by rw [hy _, hy _, hy _]; ring)).setAt _
    (by rw [hy _, hy _, hy _]; ring)).setAt _ (by rw [hy _, hy _, hy _]; ring)

lemma PAMassIntegrator.hexForwardQ_lin_mass (I : PAMassIntegrator R) (hV : Lin a b V1 V2 V) (off j2 j3 : Nat)
    {Q1 Q2 Q : Nat → R} (hQ : Lin a b Q1 Q2 Q) :
    Lin a b (I.hexForwardQ V1 off j2 j3 Q1) (I.hexForwardQ V2 off j2 j3 Q2)
      (I.hexForwardQ V off j2 j3 Q) := by
  unfold PAMassIntegrator.hexForwardQ
  apply forLoop_rel3 (Lin a b) _ _ _ _ _ _ _ _ hQ
  intro j1 y1 y2 y _ hy
  apply forLoop_rel3 (Lin a b) _ _ _ _ _ _ _ _ hy
  intro k1 z1 z2 z _ hz
  exact hz.addAt _ (by rw [hV _]; ring)

lemma PAMassIntegrator.hexForwardQQ_lin_mass (I : PAMassIntegrator R) (j2 : Nat)
    {Q1 Q2 Q QQ1 QQ2 QQ : Nat → R} (hQ : Lin a b Q1 Q2 Q) (hQQ : Lin a b QQ1 QQ2 QQ) :
    Lin a b (I.hexForwardQQ j2 Q1 QQ1) (I.hexForwardQQ j2 Q2 QQ2) (I.hexForwardQQ j2 Q QQ) := by
  unfold PAMassIntegrator.hexForwardQQ
  apply forLoop_rel3 (Lin a b) _ _ _ _ _ _ _ _ hQQ
  intro k2 y1 y2 y _ hy
  apply forLoop_rel3 (Lin a b) _ _ _ _ _ _ _ _ hy
  intro k1 z1 z2 z _ hz
  exact hz.addAt _ (by rw [hQ _]; ring)

lemma PAMassIntegrator.hexForwardQQQ_lin_mass (I : PAMassIntegrator R) (j3 : Nat)
    {QQ1 QQ2 QQ A1 A2 A : Nat → R} (hQQ : Lin a b QQ1 QQ2 QQ) (hA : Lin a b A1 A2 A) :
    Lin a b (I.hexForwardQQQ j3 QQ1 A1) (I.hexForwardQQQ j3 QQ2 A2)
      (I.hexForwardQQQ j3 QQ A) := by
  unfold PAMassIntegrator.hexForwardQQQ
  apply forLoop_rel3 (Lin a b) _ _ _ _ _ _ _ _ hA
  intro k3 x1 x2 x _ hx
  apply forLoop_rel3 (Lin a b) _ _ _ _ _ _ _ _ hx
  intro k2 y1 y2 y _ hy
  apply forLoop_rel3 (Lin a b) _ _ _ _ _ _ _ _ hy
  intro k1 z1 z2 z _ hz
  exact hz.addAt _ (by rw [hQQ _]; ring)

lemma PAMassIntegrator.hexForwardJ2_rel_mass (I : PAMassIntegrator R) (hV : Lin a b V1 V2 V) (j3 j2 : Nat)
    {s1 s2 s : HexState R} (h : HexState.Rel a b W s1 s2 s) :
    HexState.Rel a b W (I.hexForwardJ2 V1 j3 j2 s1) (I.hexForwardJ2 V2 j3 j2 s2)
      (I.hexForwardJ2 V j3 j2 s) := by
  obtain ⟨h1, h2, hQ, hQQ, hQQQ, hU⟩ := h
  unfold PAMassIntegrator.hexForwardJ2
  simp only [h1, h2]
  have q := I.hexForwardQ_lin_mass hV s.offset j2 j3 (hQ.zeroFill 0 (I.shape1d.width))
  exact ⟨rfl, rfl, q, I.hexForwardQQ_lin_mass j2 q hQQ, hQQQ, hU⟩

lemma PAMassIntegrator.hexForwardJ3_rel_mass (I : PAMassIntegrator R) (hV : Lin a b V1 V2 V) (j3 : Nat)
    {s1 s2 s : HexState R} (h : HexState.Rel a b W s1 s2 s) :
    HexState.Rel a b W (I.hexForwardJ3 V1 j3 s1) (I.hexForwardJ3 V2 j3 s2)
      (I.hexForwardJ3 V j3 s) := by
  obtain ⟨h1, h2, hQ, hQQ, hQQQ, hU⟩ := h
  unfold PAMassIntegrator.hexForwardJ3
  obtain ⟨r1, r2, rQ, rQQ, rQQQ, rU⟩ := forLoop_rel3 (HexState.Rel a b W) I.shape1d.height
    (I.hexForwardJ2 V1 j3) (I.hexForwardJ2 V2 j3) (I.hexForwardJ2 V j3)
    (fun j2 _ _ _ _ h => I.hexForwardJ2_rel_mass hV j3 j2 h)
    { s1 with QQ := zeroFill 0 (I.shape1d.width * I.shape1d.width) s1.QQ }
    { s2 with QQ := zeroFill 0 (I.shape1d.width * I.shape1d.width) s2.QQ }
    { s with QQ := zeroFill 0 (I.shape1d.width * I.shape1d.width) s.QQ }
    ⟨h1, h2, hQ, hQQ.zeroFill 0 (I.shape1d.width * I.shape1d.width), hQQQ, hU⟩
  exact ⟨r1, r2, rQ, rQQ, I.hexForwardQQQ_lin_mass j3 rQQ rQQQ, rU⟩

lemma PAMassIntegrator.hexForward_rel_mass (I : PAMassIntegrator R) (hV : Lin a b V1 V2 V)
    {s1 s2 s : HexState R} (h : HexState.Rel a b W s1 s2 s) :
    HexState.Rel a b W (I.hexForward V1 s1) (I.hexForward V2 s2) (I.hexForward V s) := by
  obtain ⟨h1, h2, hQ, hQQ, hQQQ, hU⟩ := h
  unfold PAMassIntegrator.hexForward
  exact forLoop_rel3 (HexState.Rel a b W) I.shape1d.height
    (I.hexForwardJ3 V1) (I.hexForwardJ3 V2) (I.hexForwardJ3 V)
    (fun j3 _ _ _ _ h => I.hexForwardJ3_rel_mass hV j3 h) _ _ _
    ⟨h1, h2, hQ, hQQ, hQQQ.zeroFill 0 (I.shape1d.width * I.shape1d.width * I.shape1d.width), hU⟩

lemma PAMassIntegrator.hexBackwardQ_lin_mass (I : PAMassIntegrator R) (k2 k3 : Nat)
    {A1 A2 A Q1 Q2 Q : Nat → R} (hA : Lin a b A1 A2 A) (hQ : Lin a b Q1 Q2 Q) :
    Lin a b (I.hexBackwardQ k2 k3 A1 Q1) (I.hexBackwardQ k2 k3 A2 Q2)
      (I.hexBackwardQ k2 k3 A Q) := by
  unfold PAMassIntegrator.hexBackwardQ
  apply forLoop_rel3 (Lin a b) _ _ _ _ _ _ _ _ hQ
  intro k1 y1 y2 y _ hy
  apply forLoop_rel3 (Lin a b) _ _ _ _ _ _ _ _ hy
  intro i1 z1 z2 z _ hz
  exact hz.addAt _ (by rw [hA _]; ring)

lemma PAMassIntegrator.hexBackwardQQ_lin_mass (I : PAMassIntegrator R) (k2 : Nat)
    {Q1 Q2 Q QQ1 QQ2 QQ : Nat → R} (hQ : Lin a b Q1 Q2 Q) (hQQ : Lin a b QQ1 QQ2 QQ) :
    Lin a b (I.hexBackwardQQ k2 Q1 QQ1) (I.hexBackwardQQ k2 Q2 QQ2)
      (I.hexBackwardQQ k2 Q QQ) := by
  unfold PAMassIntegrator.hexBackwardQQ
  apply forLoop_rel3 (Lin a b) _ _ _ _ _ _ _ _ hQQ
  intro i2 y1 y2 y _ hy
  apply forLoop_rel3 (Lin a b) _ _ _ _ _ _ _ _ hy
  intro i1 z1 z2 z _ hz
  exact hz.addAt _ (by rw [hQ _]; ring)

lemma PAMassIntegrator.hexBackwardU_aff_mass (I : PAMassIntegrator R) (off k3 : Nat)
    {QQ1 QQ2 QQ U1 U2 U : Nat → R} (hQQ : Lin a b QQ1 QQ2 QQ) (hU : Aff a b W U1 U2 U) :
    Aff a b W (I.hexBackwardU off k3 QQ1 U1) (I.hexBackwardU off k3 QQ2 U2)
      (I.hexBackwardU off k3 QQ U) := by
  unfold PAMassIntegrator.hexBackwardU
  apply forLoop_rel3 (Aff a b W) _ _ _ _ _ _ _ _ hU
  intro i3 x1 x2 x _ hx
  apply forLoop_rel3 (Aff a b W) _ _ _ _ _ _ _ _ hx
  intro i2 y1 y2 y _ hy
  apply forLoop_rel3 (Aff a b W) _ _ _ _ _ _ _ _ hy
  intro i1 z1 z2 z _ hz
  exact hz.addAt_shift _ (by rw [hQQ _]; ring)

lemma PAMassIntegrator.hexBackwardK2_rel_mass (I : PAMassIntegrator R) (k3 k2 : Nat)
    {s1 s2 s : HexState R} (h : HexState.Rel a b W s1 s2 s) :
    HexState.Rel a b W (I.hexBackwardK2 k3 k2 s1) (I.hexBackwardK2 k3 k2 s2)
      (I.hexBackwardK2 k3 k2 s) := by
  obtain ⟨h1, h2, hQ, hQQ, hQQQ, hU⟩ := h
  unfold PAMassIntegrator.hexBackwardK2
  have q := I.hexBackwardQ_lin_mass k2 k3 hQQQ (hQ.zeroFill 0 (I.shape1d.width))
  exact ⟨h1, h2, q, I.hexBackwardQQ_lin_mass k2 q hQQ, hQQQ, hU⟩

lemma PAMassIntegrator.hexBackwardK3_rel_mass (I : PAMassIntegrator R) (k3 : Nat)
    {s1 s2 s : HexState R} (h : HexState.Rel a b W s1 s2 s) :
    HexState.Rel a b W (I.hexBackwardK3 k3 s1) (I.hexBackwardK3 k3 s2)
      (I.hexBackwardK3 k3 s) := by
  obtain ⟨h1, h2, hQ, hQQ, hQQQ, hU⟩ := h
  unfold PAMassIntegrator.hexBackwardK3
  obtain ⟨r1, r2, rQ, rQQ, rQQQ, rU⟩ := forLoop_rel3 (HexState.Rel a b W) I.shape1d.width
    (I.hexBackwardK2 k3) (I.hexBackwardK2 k3) (I.hexBackwardK2 k3)
    (fun k2 _ _ _ _ h => I.hexBackwardK2_rel_mass k3 k2 h)
    { s1 with QQ := zeroFill 0 (I.shape1d.width * I.shape1d.width) s1.QQ }
    { s2 with QQ := zeroFill 0 (I.shape1d.width * I.shape1d.width) s2.QQ }
    { s with QQ := zeroFill 0 (I.shape1d.width * I.shape1d.width) s.QQ }
    ⟨h1, h2, hQ, hQQ.zeroFill 0 (I.shape1d.width * I.shape1d.width), hQQQ, hU⟩
  simp only [r1, r2]
  exact ⟨rfl, rfl, rQ, rQQ, rQQQ, I.hexBackwardU_aff_mass _ k3 rQQ rU⟩

lemma PAMassIntegrator.hexBackward_rel_mass (I : PAMassIntegrator R)
    (s1 s2 s : HexState R) (h : HexState.Rel a b W s1 s2 s) :
    HexState.Rel a b W (I.hexBackward s1) (I.hexBackward s2) (I.hexBackward s) := by
  unfold PAMassIntegrator.hexBackward
  exact forLoop_rel3 (HexState.Rel a b W) I.shape1d.width
    I.hexBackwardK3 I.hexBackwardK3 I.hexBackwardK3
    (fun k3 _ _ _ _ h => I.hexBackwardK3_rel_mass k3 h) _ _ _ h

lemma PAMassIntegrator.MultHexUnit_rel_mass (I : PAMassIntegrator R) (hV : Lin a b V1 V2 V) (e : Nat)
    {s1 s2 s : HexState R} (h : HexState.Rel a b W s1 s2 s) :
    HexState.Rel a b W (I.MultHexUnit V1 e s1) (I.MultHexUnit V2 e s2)
      (I.MultHexUnit V e s) := by
  unfold PAMassIntegrator.MultHexUnit
  have f := I.hexForward_rel_mass hV h
  obtain ⟨g1, g2, gQ, gQQ, gQQQ, gU⟩ := I.hexBackward_rel_mass
    ({ I.hexForward V1 s1 with QQQ := forLoop I.quads (fun k data_qqq => mulAt data_qqq k (I.Dmat.GetColumn e k)) (I.hexForward V1 s1).QQQ })
    ({ I.hexForward V2 s2 with QQQ := forLoop I.quads (fun k data_qqq => mulAt data_qqq k (I.Dmat.GetColumn e k)) (I.hexForward V2 s2).QQQ })
    ({ I.hexForward V s with QQQ := forLoop I.quads (fun k data_qqq => mulAt data_qqq k (I.Dmat.GetColumn e k)) (I.hexForward V s).QQQ })
    ⟨f.1, f.2.1, f.2.2.1, f.2.2.2.1, Lin.scale f.2.2.2.2.1 I.quads (I.Dmat.GetColumn e), f.2.2.2.2.2⟩
  exact ⟨by simp only [g1], by simp only [g2], gQ, gQQ, gQQQ, gU⟩

lemma PAMassIntegrator.MultHex_aff_mass (I : PAMassIntegrator R)
    (hV : Lin a b V1 V2 V) {U1 U2 U : Nat → R} (hU : Aff a b W U1 U2 U) :
    Aff a b W (I.MultHex V1 U1) (I.MultHex V2 U2) (I.MultHex V U) := by
  unfold PAMassIntegrator.MultHex
  exact (forLoop_rel3 (HexState.Rel a b W) I.NE
    (fun e s => forLoop I.vdim (fun _ s => I.MultHexUnit V1 e s) s)
    (fun e s => forLoop I.vdim (fun _ s => I.MultHexUnit V2 e s) s)
    (fun e s => forLoop I.vdim (fun _ s => I.MultHexUnit V e s) s)
    (fun e _ _ _ _ h => forLoop_rel3 (HexState.Rel a b W) I.vdim _ _ _
      (fun _ _ _ _ _ h => I.MultHexUnit_rel_mass hV e h) _ _ _ h)
    ⟨0, fun _ => 0, fun _ => 0, fun _ => 0, U1⟩ ⟨0, fun _ => 0, fun _ => 0, fun _ => 0, U2⟩
    ⟨0, fun _ => 0, fun _ => 0, fun _ => 0, U⟩
    ⟨rfl, rfl, Lin.zero a b, Lin.zero a b, Lin.zero a b, hU⟩).2.2.2.2.2


lemma PADiffusionIntegrator.hexForwardQ_lin_diff (I : PADiffusionIntegrator R) (hV : Lin a b V1 V2 V) (off j2 j3 : Nat)
    {Q1 Q2 Q : Nat → R} (hQ : Lin a b Q1 Q2 Q) :
    Lin a b (I.hexForwardQ V1 off j2 j3 Q1) (I.hexForwardQ V2 off j2 j3 Q2)
      (I.hexForwardQ V off j2 j3 Q) := by
  unfold PADiffusionIntegrator.hexForwardQ
  apply forLoop_rel3 (Lin a b) _ _ _ _ _ _ _ _ hQ
  intro j1 y1 y2 y _ hy
  apply forLoop_rel3 (Lin a b) _ _ _ _ _ _ _ _ hy
  intro k1 z1 z2 z _ hz
  exact (hz.addAt _ (by rw [hV _]; ring)).addAt _ (by rw [hV _]; ring)

lemma PADiffusionIntegrator.hexForwardQQ_lin_diff (I : PADiffusionIntegrator R) (j2 : Nat)
    {Q1 Q2 Q QQ1 QQ2 QQ : Nat → R} (hQ : Lin a b Q1 Q2 Q) (hQQ : Lin a b QQ1 QQ2 QQ) :
    Lin a b (I.hexForwardQQ j2 Q1 QQ1) (I.hexForwardQQ j2 Q2 QQ2) (I.hexForwardQQ j2 Q QQ) := by
  unfold PADiffusionIntegrator.hexForwardQQ
  apply forLoop_rel3 (Lin a b) _ _ _ _ _ _ _ _ hQQ
  intro k2 y1 y2 y _ hy
  apply forLoop_rel3 (Lin a b) _ _ _ _ _ _ _ _ hy
  intro k1 z1 z2 z _ hz
  exact ((hz.addAt _ (by rw [hQ _]; ring)).addAt _ (by rw [hQ _]; ring)).addAt _
    (by rw [hQ _]; ring)

lemma PADiffusionIntegrator.hexForwardQQQ_lin_diff (I : PADiffusionIntegrator R) (j3 : Nat)
    {QQ1 QQ2 QQ A1 A2 A : Nat → R} (hQQ : Lin a b QQ1 QQ2 QQ) (hA : Lin a b A1 A2 A) :
    Lin a b (I.hexForwardQQQ j3 QQ1 A1) (I.hexForwardQQQ j3 QQ2 A2)
      (I.hexForwardQQQ j3 QQ A) := by
  unfold PADiffusionIntegrator.hexForwardQQQ
  apply forLoop_rel3 (Lin a b) _ _ _ _ _ _ _ _ hA
  intro k3 x1 x2 x _ hx
  apply forLoop_rel3 (Lin a b) _ _ _ _ _ _ _ _ hx
  intro k2 y1 y2 y _ hy
  apply forLoop_rel3 (Lin a b) _ _ _ _ _ _ _ _ hy
  intro k1 z1 z2 z _ hz
  exact ((hz.addAt _ (by rw [hQQ _]; ring)).addAt _ (by rw [hQQ _]; ring)).addAt _
    (by rw [hQQ _]; ring)

lemma PADiffusionIntegrator.hexForwardJ2_rel_diff (I : PADiffusionIntegrator R) (hV : Lin a b V1 V2 V) (j3 j2 : Nat)
    {s1 s2 s : HexState R} (h : HexState.Rel a b W s1 s2 s) :
    HexState.Rel a b W (I.hexForwardJ2 V1 j3 j2 s1) (I.hexForwardJ2 V2 j3 j2 s2)
      (I.hexForwardJ2 V j3 j2 s) := by
  obtain ⟨h1, h2, hQ, hQQ, hQQQ, hU⟩ := h
  unfold PADiffusionIntegrator.hexForwardJ2
  simp only [h1, h2]
  have q := I.hexForwardQ_lin_diff hV s.offset j2 j3 (hQ.zeroFill 0 (I.shape1d.width * 3))
  exact ⟨rfl, rfl, q, I.hexForwardQQ_lin_diff j2 q hQQ, hQQQ, hU⟩

lemma PADiffusionIntegrator.hexForwardJ3_rel_diff (I : PADiffusionIntegrator R) (hV : Lin a b V1 V2 V) (j3 : Nat)
    {s1 s2 s : HexState R} (h : HexState.Rel a b W s1 s2 s) :
    HexState.Rel a b W (I.hexForwardJ3 V1 j3 s1) (I.hexForwardJ3 V2 j3 s2)
      (I.hexForwardJ3 V j3 s) := by
  obtain ⟨h1, h2, hQ, hQQ, hQQQ, hU⟩ := h
  unfold PADiffusionIntegrator.hexForwardJ3
  obtain ⟨r1, r2, rQ, rQQ, rQQQ, rU⟩ := forLoop_rel3 (HexState.Rel a b W) I.shape1d.height
    (I.hexForwardJ2 V1 j3) (I.hexForwardJ2 V2 j3) (I.hexForwardJ2 V j3)
    (fun j2 _ _ _ _ h => I.hexForwardJ2_rel_diff hV j3 j2 h)
    { s1 with QQ := zeroFill 0 (I.shape1d.width * I.shape1d.width * 3) s1.QQ }
    { s2 with QQ := zeroFill 0 (I.shape1d.width * I.shape1d.width * 3) s2.QQ }
    { s with QQ := zeroFill 0 (I.shape1d.width * I.shape1d.width * 3) s.QQ }
    ⟨h1, h2, hQ, hQQ.zeroFill 0 (I.shape1d.width * I.shape1d.width * 3), hQQQ, hU⟩
  exact ⟨r1, r2, rQ, rQQ, I.hexForwardQQQ_lin_diff j3 rQQ rQQQ, rU⟩

lemma PADiffusionIntegrator.hexForward_rel_diff (I : PADiffusionIntegrator R) (hV : Lin a b V1 V2 V)
    {s1 s2 s : HexState R} (h : HexState.Rel a b W s1 s2 s) :
    HexState.Rel a b W (I.hexForward V1 s1) (I.hexForward V2 s2) (I.hexForward V s) := by
  obtain ⟨h1, h2, hQ, hQQ, hQQQ, hU⟩ := h
  unfold PADiffusionIntegrator.hexForward
  exact forLoop_rel3 (HexState.Rel a b W) I.shape1d.height
    (I.hexForwardJ3 V1) (I.hexForwardJ3 V2) (I.hexForwardJ3 V)
    (fun j3 _ _ _ _ h => I.hexForwardJ3_rel_diff hV j3 h) _ _ _
    ⟨h1, h2, hQ, hQQ, ((hQQQ.zeroFill (0 * I.quads) (I.shape1d.width * I.shape1d.width * I.shape1d.width)).zeroFill (1 * I.quads) (I.shape1d.width * I.shape1d.width * I.shape1d.width)).zeroFill (2 * I.quads) (I.shape1d.width * I.shape1d.width * I.shape1d.width), hU⟩

lemma PADiffusionIntegrator.hexBackwardQ_lin_diff (I : PADiffusionIntegrator R) (k2 k3 : Nat)
    {A1 A2 A Q1 Q2 Q : Nat → R} (hA : Lin a b A1 A2 A) (hQ : Lin a b Q1 Q2 Q) :
    Lin a b (I.hexBackwardQ k2 k3 A1 Q1) (I.hexBackwardQ k2 k3 A2 Q2)
      (I.hexBackwardQ k2 k3 A Q) := by
  unfold PADiffusionIntegrator.hexBackwardQ
  apply forLoop_rel3 (Lin a b) _ _ _ _ _ _ _ _ hQ
  intro k1 y1 y2 y _ hy
  apply forLoop_rel3 (Lin a b) _ _ _ _ _ _ _ _ hy
  intro i1 z1 z2 z _ hz
  exact ((hz.addAt _ (by rw [hA _]; ring)).addAt _ (by rw [hA _]; ring)).addAt _
    (by rw [hA _]; ring)

lemma PADiffusionIntegrator.hexBackwardQQ_lin_diff (I : PADiffusionIntegrator R) (k2 : Nat)
    {Q1 Q2 Q QQ1 QQ2 QQ : Nat → R} (hQ : Lin a b Q1 Q2 Q) (hQQ : Lin a b QQ1 QQ2 QQ) :
    Lin a b (I.hexBackwardQQ k2 Q1 QQ1) (I.hexBackwardQQ k2 Q2 QQ2)
      (I.hexBackwardQQ k2 Q QQ) := by
  unfold PADiffusionIntegrator.hexBackwardQQ
  apply forLoop_rel3 (Lin a b) _ _ _ _ _ _ _ _ hQQ
  intro i2 y1 y2 y _ hy
  apply forLoop_rel3 (Lin a b) _ _ _ _ _ _ _ _ hy
  intro i1 z1 z2 z _ hz
  exact ((hz.addAt _ (by rw [hQ _]; ring)).addAt _ (by rw [hQ _]; ring)).addAt _
    (by rw [hQ _]; ring)

lemma PADiffusionIntegrator.hexBackwardU_aff_diff (I : PADiffusionIntegrator R) (off k3 : Nat)
    {QQ1 QQ2 QQ U1 U2 U : Nat → R} (hQQ : Lin a b QQ1 QQ2 QQ) (hU : Aff a b W U1 U2 U) :
    Aff a b W (I.hexBackwardU off k3 QQ1 U1) (I.hexBackwardU off k3 QQ2 U2)
      (I.hexBackwardU off k3 QQ U) := by
  unfold PADiffusionIntegrator.hexBackwardU
  apply forLoop_rel3 (Aff a b W) _ _ _ _ _ _ _ _ hU
  intro i3 x1 x2 x _ hx
  apply forLoop_rel3 (Aff a b W) _ _ _ _ _ _ _ _ hx
  intro i2 y1 y2 y _ hy
  apply forLoop_rel3 (Aff a b W) _ _ _ _ _ _ _ _ hy
  intro i1 z1 z2 z _ hz
  exact hz.addAt_shift _ (by rw [hQQ _, hQQ _, hQQ _]; ring)

lemma PADiffusionIntegrator.hexBackwardK2_rel_diff (I : PADiffusionIntegrator R) (k3 k2 : Nat)
    {s1 s2 s : HexState R} (h : HexState.Rel a b W s1 s2 s) :
    HexState.Rel a b W (I.hexBackwardK2 k3 k2 s1) (I.hexBackwardK2 k3 k2 s2)
      (I.hexBackwardK2 k3 k2 s) := by
  obtain ⟨h1, h2, hQ, hQQ, hQQQ, hU⟩ := h
  unfold PADiffusionIntegrator.hexBackwardK2
  have q := I.hexBackwardQ_lin_diff k2 k3 hQQQ (hQ.zeroFill 0 (I.shape1d.width * 3))
  exact ⟨h1, h2, q, I.hexBackwardQQ_lin_diff k2 q hQQ, hQQQ, hU⟩

lemma PADiffusionIntegrator.hexBackwardK3_rel_diff (I : PADiffusionIntegrator R) (k3 : Nat)
    {s1 s2 s : HexState R} (h : HexState.Rel a b W s1 s2 s) :
    HexState.Rel a b W (I.hexBackwardK3 k3 s1) (I.hexBackwardK3 k3 s2)
      (I.hexBackwardK3 k3 s) := by
  obtain ⟨h1, h2, hQ, hQQ, hQQQ, hU⟩ := h
  unfold PADiffusionIntegrator.hexBackwardK3
  obtain ⟨r1, r2, rQ, rQQ, rQQQ, rU⟩ := forLoop_rel3 (HexState.Rel a b W) I.shape1d.width
    (I.hexBackwardK2 k3) (I.hexBackwardK2 k3) (I.hexBackwardK2 k3)
    (fun k2 _ _ _ _ h => I.hexBackwardK2_rel_diff k3 k2 h)
    { s1 with QQ := zeroFill 0 (I.shape1d.width * I.shape1d.width * 3) s1.QQ }
    { s2 with QQ := zeroFill 0 (I.shape1d.width * I.shape1d.width * 3) s2.QQ }
    { s with QQ := zeroFill 0 (I.shape1d.width * I.shape1d.width * 3) s.QQ }
    ⟨h1, h2, hQ, hQQ.zeroFill 0 (I.shape1d.width * I.shape1d.width * 3), hQQQ, hU⟩
  simp only [r1, r2]
  exact ⟨rfl, rfl, rQ, rQQ, rQQQ, I.hexBackwardU_aff_diff _ k3 rQQ rU⟩

lemma PADiffusionIntegrator.hexBackward_rel_diff (I : PADiffusionIntegrator R)
    (s1 s2 s : HexState R) (h : HexState.Rel a b W s1 s2 s) :
    HexState.Rel a b W (I.hexBackward s1) (I.hexBackward s2) (I.hexBackward s) := by
  unfold PADiffusionIntegrator.hexBackward
  exact forLoop_rel3 (HexState.Rel a b W) I.shape1d.width
    I.hexBackwardK3 I.hexBackwardK3 I.hexBackwardK3
    (fun k3 _ _ _ _ h => I.hexBackwardK3_rel_diff k3 h) _ _ _ h

lemma PADiffusionIntegrator.MultHexUnit_rel_diff (I : PADiffusionIntegrator R) (hV : Lin a b V1 V2 V) (e : Nat)
    {s1 s2 s : HexState R} (h : HexState.Rel a b W s1 s2 s) :
    HexState.Rel a b W (I.MultHexUnit V1 e s1) (I.MultHexUnit V2 e s2)
      (I.MultHexUnit V e s) := by
  unfold PADiffusionIntegrator.MultHexUnit
  have f := I.hexForward_rel_diff hV h
  obtain ⟨g1, g2, gQ, gQQ, gQQQ, gU⟩ := I.hexBackward_rel_diff
    ({ I.hexForward V1 s1 with QQQ := PADiffusionIntegrator.applyD3 I.quads (I.Dtensor e) (I.hexForward V1 s1).QQQ })
    ({ I.hexForward V2 s2 with QQQ := PADiffusionIntegrator.applyD3 I.quads (I.Dtensor e) (I.hexForward V2 s2).QQQ })
    ({ I.hexForward V s with QQQ := PADiffusionIntegrator.applyD3 I.quads (I.Dtensor e) (I.hexForward V s).QQQ })
    ⟨f.1, f.2.1, f.2.2.1, f.2.2.2.1, Lin.applyD3 f.2.2.2.2.1 I.quads (I.Dtensor e), f.2.2.2.2.2⟩
  exact ⟨by simp only [g1], by simp only [g2], gQ, gQQ, gQQQ, gU⟩

lemma PADiffusionIntegrator.MultHex_aff_diff (I : PADiffusionIntegrator R)
    (hV : Lin a b V1 V2 V) {U1 U2 U : Nat → R} (hU : Aff a b W U1 U2 U) :
    Aff a b W (I.MultHex V1 U1) (I.MultHex V2 U2) (I.MultHex V U) := by
  unfold PADiffusionIntegrator.MultHex
  exact (forLoop_rel3 (HexState.Rel a b W) I.NE
    (fun e s => forLoop I.vdim (fun _ s => I.MultHexUnit V1 e s) s)
    (fun e s => forLoop I.vdim (fun _ s => I.MultHexUnit V2 e s) s)
    (fun e s => forLoop I.vdim (fun _ s => I.MultHexUnit V e s) s)
    (fun e _ _ _ _ h => forLoop_rel3 (HexState.Rel a b W) I.vdim _ _ _
      (fun _ _ _ _ _ h => I.MultHexUnit_rel_diff hV e h) _ _ _ h)
    ⟨0, fun _ => 0, fun _ => 0, fun _ => 0, U1⟩ ⟨0, fun _ => 0, fun _ => 0, fun _ => 0, U2⟩
    ⟨0, fun _ => 0, fun _ => 0, fun _ => 0, U⟩
    ⟨rfl, rfl, Lin.zero a b, Lin.zero a b, Lin.zero a b, hU⟩).2.2.2.2.2

end LinearHex

section Dispatch

variable {R : Type} [CommRing R]
variable {a b : R} {W V1 V2 V : Nat → R}

/-- `PADiffusionIntegrator::AssembleVector` keeps the relation between three runs, whatever
`dim` is. -/
lemma PADiffusionIntegrator.AssembleVector_aff_diff (I : PADiffusionIntegrator R)
    (fes : FiniteElementSpace) (hV : Lin a b V1 V2 V) {U1 U2 U : Nat → R}
    (hU : Aff a b W U1 U2 U) :
    Aff a b W (I.AssembleVector fes V1 U1).vect (I.AssembleVector fes V2 U2).vect
      (I.AssembleVector fes V U).vect := by
  unfold PADiffusionIntegrator.AssembleVector
  split_ifs
  · exact I.MultSeg_aff_diff hV hU
  · exact I.MultQuad_aff_diff hV hU
  · exact I.MultHex_aff_diff hV hU
  · exact hU

/-- `PAMassIntegrator::AssembleVector` keeps the relation between three runs, whatever `dim`
is and whether or not the assertion is compiled in. -/
lemma PAMassIntegrator.AssembleVector_aff_mass (I : PAMassIntegrator R) (MFEM_DEBUG : Bool)
    (fespace : FiniteElementSpace) (hV : Lin a b V1 V2 V) {U1 U2 U : Nat → R}
    (hU : Aff a b W U1 U2 U) :
    Aff a b W (I.AssembleVector MFEM_DEBUG fespace V1 U1).vect
      (I.AssembleVector MFEM_DEBUG fespace V2 U2).vect
      (I.AssembleVector MFEM_DEBUG fespace V U).vect := by
  unfold PAMassIntegrator.AssembleVector
  split_ifs
  · exact hU
  · exact I.MultSeg_aff_mass hV hU
  · exact I.MultQuad_aff_mass hV hU
  · exact I.MultHex_aff_mass hV hU
  · exact hU

/-- Accumulation for `PADiffusionIntegrator::AssembleVector`: the output is the initial output
plus the result on a zeroed output. -/
lemma PADiffusionIntegrator.AssembleVector_add_diff (I : PADiffusionIntegrator R)
    (fes : FiniteElementSpace) (V U0 : Nat → R) (p : Nat) :
    (I.AssembleVector fes V U0).vect p =
      U0 p + (I.AssembleVector fes V (fun _ => 0)).vect p := by
  have h := I.AssembleVector_aff_diff (a := 1) (b := 0) (W := U0) (V := V) fes
    (fun q => by ring : Lin 1 0 V V V)
    (fun q => by ring : Aff 1 0 U0 (fun _ => 0) (fun _ => 0) U0) p
  rw [h]; ring

/-- Accumulation for `PAMassIntegrator::AssembleVector`. -/
lemma PAMassIntegrator.AssembleVector_add_mass (I : PAMassIntegrator R) (MFEM_DEBUG : Bool)
    (fespace : FiniteElementSpace) (V U0 : Nat → R) (p : Nat) :
    (I.AssembleVector MFEM_DEBUG fespace V U0).vect p =
      U0 p + (I.AssembleVector MFEM_DEBUG fespace V (fun _ => 0)).vect p := by
  have h := I.AssembleVector_aff_mass (a := 1) (b := 0) (W := U0) (V := V) MFEM_DEBUG fespace
    (fun q => by ring : Lin 1 0 V V V)
    (fun q => by ring : Aff 1 0 U0 (fun _ => 0) (fun _ => 0) U0) p
  rw [h]; ring

end Dispatch

section Loops2
variable {σ : Type}

/-- Loop induction with an invariant that depends on the iteration count. -/
lemma forLoop_ind (P : Nat → σ → Prop) (n : Nat) (body : Nat → σ → σ) (s : σ) (h0 : P 0 s)
    (hstep : ∀ i s, i < n → P i s → P (i + 1) (body i s)) : P n (forLoop n body s) := by
  induction n with
  | zero => exact h0
  | succ m ih =>
    exact hstep m _ (Nat.lt_succ_self m) (ih (fun i s hi => hstep i s (Nat.lt_succ_of_lt hi)))

/-- A loop whose iterations write only inside their own block leaves every entry outside all
blocks as it was. -/
lemma forLoop_outside {R : Type} (get : σ → Nat → R) (blk : Nat → Nat → Prop) (n : Nat)
    (body : Nat → σ → σ)
    (hframe : ∀ i s p, i < n → ¬ blk i p → get (body i s) p = get s p) (s : σ) (p : Nat)
    (hp : ∀ i, i < n → ¬ blk i p) : get (forLoop n body s) p = get s p := by
  induction n with
  | zero => rfl
  | succ m ih =>
    rw [forLoop_succ, hframe m _ p (Nat.lt_succ_self m) (hp m (Nat.lt_succ_self m))]
    exact ih (fun i s p hi => hframe i s p (Nat.lt_succ_of_lt hi))
      (fun i hi => hp i (Nat.lt_succ_of_lt hi))

/-- A loop whose iterations write only inside their own block, the blocks being pairwise
disjoint: an entry of block `i` holds after the loop what iteration `i` left there. -/
lemma forLoop_block {R : Type} (get : σ → Nat → R) (blk : Nat → Nat → Prop) (n : Nat)
    (body : Nat → σ → σ)
    (hdisj : ∀ i i' p, i < n → i' < n → blk i p → blk i' p → i = i')
    (hframe : ∀ i s p, i < n → ¬ blk i p → get (body i s) p = get s p) (s : σ) (i p : Nat)
    (hi : i < n) (hp : blk i p) :
    get (forLoop n body s) p = get (body i (forLoop i body s)) p := by
  induction n with
  | zero => omega
  | succ m ih =>
    rw [forLoop_succ]
    by_cases him : i = m
    · subst him; rfl
    · have hlt : i < m := by omega
      have hnot : ¬ blk m p := fun hm =>
        him (hdisj i m p hi (Nat.lt_succ_self m) hp hm)
      rw [hframe m _ p (Nat.lt_succ_self m) hnot]
      exact ih (fun a b p ha hb => hdisj a b p (Nat.lt_succ_of_lt ha) (Nat.lt_succ_of_lt hb))
        (fun a s p ha => hframe a s p (Nat.lt_succ_of_lt ha)) hlt

end Loops2

section Fill
variable {R : Type}

/-- The column loop `for i < m: data[b + i] = f i`. -/
lemma fillCol (m b : Nat) (f : Nat → R) (data : Nat → R) (p : Nat) :
    forLoop m (fun i data => setAt data (b + i) (f i)) data p =
      if b ≤ p ∧ p < b + m then f (p - b) else data p := by
  induction m with
  | zero =>
    rw [forLoop_zero, if_neg (by omega)]
  | succ n ih =>
    rw [forLoop_succ, setAt_apply, ih]
    split_ifs <;> first | rfl | (exfalso; omega) | (subst_vars; simp)

/-- The table loops `for k < n: for i < m: data[i + k*m] = f k i`. -/
lemma fillTable (m n : Nat) (f : Nat → Nat → R) (data : Nat → R) (i k : Nat) (hi : i < m)
    (hk : k < n) :
    forLoop n (fun k data => forLoop m (fun i data => setAt data (i + k * m) (f k i)) data)
      data (i + k * m) = f k i := by
  have hbody : ∀ k (d : Nat → R),
      forLoop m (fun i data => setAt data (i + k * m) (f k i)) d =
        forLoop m (fun i data => setAt data (k * m + i) (f k i)) d := by
    intro k d
    congr 1
    funext i data
    rw [Nat.add_comm]
  rw [forLoop_block (fun d => d) (fun k p => k * m ≤ p ∧ p < k * m + m) n _ _ _ data k
    (i + k * m) hk ⟨by omega, by omega⟩]
  · rw [hbody, fillCol, if_pos ⟨by omega, by omega⟩]
    congr 1
    omega
  · intro a b p _ _ ha hb
    by_contra hne
    rcases Nat.lt_or_gt_of_ne hne with h | h
    · have := Nat.mul_le_mul_right m (Nat.succ_le_of_lt h)
      rw [Nat.succ_mul] at this
      omega
    · have := Nat.mul_le_mul_right m (Nat.succ_le_of_lt h)
      rw [Nat.succ_mul] at this
      omega
  · intro a s p _ hp
    dsimp only at hp ⊢
    rw [hbody, fillCol, if_neg hp]

end Fill

section Tabulator
variable {R : Type}

/-- A loop on a pair of buffers whose body treats the two components separately is the pair
of the two loops. -/
lemma forLoop_pair {α β : Type} (n : Nat) (f : Nat → α → α) (g : Nat → β → β) (a : α) (b : β) :
    forLoop n (fun i (d : α × β) => (f i d.1, g i d.2)) (a, b) = (forLoop n f a, forLoop n g b) := by
  induction n with
  | zero => rfl
  | succ m ih => rw [forLoop_succ, ih, forLoop_succ, forLoop_succ]

lemma ComputeBasis1d_get (fe : FiniteElement) (basis1d : Poly_1D.Basis R)
    (IntRules : Int → IntegrationRule R) (ir_order : Int) (shape1d : DenseMatrix R)
    (i k : Nat) (hi : i < fe.GetOrder + 1) (hk : k < (IntRules ir_order).NPoints) :
    (ComputeBasis1d fe basis1d IntRules ir_order shape1d).get i k =
      basis1d.Eval ((IntRules ir_order).x k) i := by
  unfold ComputeBasis1d DenseMatrix.get
  exact fillTable (fe.GetOrder + 1) (IntRules ir_order).NPoints
    (fun k i => basis1d.Eval ((IntRules ir_order).x k) i) shape1d.data i k hi hk

lemma ComputeBasis1d2_data (fe : FiniteElement) (basis1d : Poly_1D.Basis R)
    (IntRules : Int → IntegrationRule R) (ir_order : Int) (shape1d dshape1d : DenseMatrix R) :
    ComputeBasis1d2 fe basis1d IntRules ir_order shape1d dshape1d =
      (⟨forLoop (IntRules ir_order).NPoints (fun k data =>
          forLoop (fe.GetOrder + 1) (fun i data =>
            setAt data (i + k * (fe.GetOrder + 1))
              ((basis1d.EvalD ((IntRules ir_order).x k)).1 i)) data) shape1d.data,
        fe.GetOrder + 1, (IntRules ir_order).NPoints⟩,
       ⟨forLoop (IntRules ir_order).NPoints (fun k data =>
          forLoop (fe.GetOrder + 1) (fun i data =>
            setAt data (i + k * (fe.GetOrder + 1))
              ((basis1d.EvalD ((IntRules ir_order).x k)).2 i)) data) dshape1d.data,
        fe.GetOrder + 1, (IntRules ir_order).NPoints⟩) := by
  unfold ComputeBasis1d2
  have hin : ∀ k (d : (Nat → R) × (Nat → R)),
      forLoop (fe.GetOrder + 1) (fun i (data : (Nat → R) × (Nat → R)) =>
        (setAt data.1 (i + k * (fe.GetOrder + 1)) ((basis1d.EvalD ((IntRules ir_order).x k)).1 i),
         setAt data.2 (i + k * (fe.GetOrder + 1))
          ((basis1d.EvalD ((IntRules ir_order).x k)).2 i))) d =
      (forLoop (fe.GetOrder + 1) (fun i data =>
          setAt data (i + k * (fe.GetOrder + 1))
            ((basis1d.EvalD ((IntRules ir_order).x k)).1 i)) d.1,
       forLoop (fe.GetOrder + 1) (fun i data =>
          setAt data (i + k * (fe.GetOrder + 1))
            ((basis1d.EvalD ((IntRules ir_order).x k)).2 i)) d.2) := by
    intro k d
    exact forLoop_pair (fe.GetOrder + 1)
      (fun i data => setAt data (i + k * (fe.GetOrder + 1))
        ((basis1d.EvalD ((IntRules ir_order).x k)).1 i))
      (fun i data => setAt data (i + k * (fe.GetOrder + 1))
        ((basis1d.EvalD ((IntRules ir_order).x k)).2 i)) d.1 d.2
  simp only [hin]
  rw [forLoop_pair (IntRules ir_order).NPoints
    (fun k d => forLoop (fe.GetOrder + 1) (fun i data =>
      setAt data (i + k * (fe.GetOrder + 1))
        ((basis1d.EvalD ((IntRules ir_order).x k)).1 i)) d)
    (fun k d => forLoop (fe.GetOrder + 1) (fun i data =>
      setAt data (i + k * (fe.GetOrder + 1))
        ((basis1d.EvalD ((IntRules ir_order).x k)).2 i)) d)]

lemma ComputeBasis1d2_get (fe : FiniteElement) (basis1d : Poly_1D.Basis R)
    (IntRules : Int → IntegrationRule R) (ir_order : Int) (shape1d dshape1d : DenseMatrix R)
    (i k : Nat) (hi : i < fe.GetOrder + 1) (hk : k < (IntRules ir_order).NPoints) :
    (ComputeBasis1d2 fe basis1d IntRules ir_order shape1d dshape1d).1.get i k =
        (basis1d.EvalD ((IntRules ir_order).x k)).1 i ∧
    (ComputeBasis1d2 fe basis1d IntRules ir_order shape1d dshape1d).2.get i k =
        (basis1d.EvalD ((IntRules ir_order).x k)).2 i := by
  rw [ComputeBasis1d2_data]
  unfold DenseMatrix.get
  exact ⟨fillTable (fe.GetOrder + 1) (IntRules ir_order).NPoints
      (fun k i => (basis1d.EvalD ((IntRules ir_order).x k)).1 i) shape1d.data i k hi hk,
    fillTable (fe.GetOrder + 1) (IntRules ir_order).NPoints
      (fun k i => (basis1d.EvalD ((IntRules ir_order).x k)).2 i) dshape1d.data i k hi hk⟩

end Tabulator

section MassSetup
variable {R : Type} [CommRing R]

lemma PAMassIntegrator.ComputePA_get_mass (I : PAMassIntegrator R) (fe : FiniteElement)
    (basis1d : Poly_1D.Basis R) (IntRules : Int → IntegrationRule R) (ir_order : Int)
    (ipw : Nat → R) (Tr : Nat → Nat → ElementTransformation R)
    (coeff : Option (Nat → Nat → R)) (e k : Nat) (he : e < I.NE) (hk : k < I.quads) :
    (I.ComputePA fe basis1d IntRules ir_order ipw Tr coeff).Dmat.get k e =
      match coeff with
      | none => ipw k * (Tr e k).Weight
      | some c => c e k * (ipw k * (Tr e k).Weight) := by
  unfold PAMassIntegrator.ComputePA DenseMatrix.get
  exact fillTable I.quads I.NE
    (fun e k => match coeff with
      | none => ipw k * (Tr e k).Weight
      | some c => c e k * (ipw k * (Tr e k).Weight)) I.Dmat.data k e hk he

end MassSetup

section Pack

lemma packStart_succ (dim j : Nat) : packStart dim (j + 1) = packStart dim j + (dim - j) := rfl

lemma packStart_mono (dim : Nat) {a b : Nat} (h : a ≤ b) : packStart dim a ≤ packStart dim b := by
  induction b with
  | zero =>
    have : a = 0 := by omega
    subst this
    exact Nat.le_refl _
  | succ n ih =>
    rcases Nat.eq_or_lt_of_le h with h1 | h1
    · subst h1; exact Nat.le_refl _
    · have := ih (by omega)
      rw [packStart_succ]
      omega

/-- The packing loop uses `dim*(dim+1)/2` slots. -/
lemma packStart_total (dim : Nat) : packStart dim dim = dim * (dim + 1) / 2 := by
  have h : ∀ j, j ≤ dim → 2 * packStart dim j + j * j = 2 * dim * j + j := by
    intro j
    induction j with
    | zero => intro _; simp [packStart]
    | succ n ih =>
      intro hn
      have := ih (by omega)
      rw [packStart_succ]
      have e1 : (n + 1) * (n + 1) = n * n + 2 * n + 1 := by ring
      have e2 : 2 * dim * (n + 1) = 2 * dim * n + 2 * dim := by ring
      rw [e1, e2]
      omega
  have h2 := h dim (Nat.le_refl _)
  have e3 : dim * (dim + 1) = dim * dim + dim := by ring
  have e4 : 2 * dim * dim = 2 * (dim * dim) := by ring
  rw [e3]
  rw [e4] at h2
  omega

/-- Every slot below the total is the slot of one pair `(i, j)` of the lower triangle. -/
lemma packIndex_surj (dim l : Nat) (hl : l < packStart dim dim) :
    ∃ i j, j ≤ i ∧ i < dim ∧ packIndex dim i j = l := by
  have h : ∀ n, n ≤ dim → l < packStart dim n → ∃ i j, j ≤ i ∧ i < dim ∧ packIndex dim i j = l := by
    intro n
    induction n with
    | zero => intro _ h0; simp [packStart] at h0
    | succ m ih =>
      intro hm hlt
      by_cases hc : l < packStart dim m
      · exact ih (by omega) hc
      · rw [packStart_succ] at hlt
        refine ⟨m + (l - packStart dim m), m, by omega, by omega, ?_⟩
        unfold packIndex
        omega
  exact h dim (Nat.le_refl _) hl

/-- The slot of a pair of the lower triangle is below the total. -/
lemma packIndex_lt (dim i j : Nat) (hji : j ≤ i) (hi : i < dim) :
    packIndex dim i j < packStart dim dim := by
  have := packStart_mono dim (show j + 1 ≤ dim by omega)
  rw [packStart_succ] at this
  unfold packIndex
  omega

/-- Distinct pairs of the lower triangle have distinct slots. -/
lemma packIndex_inj (dim i j i' j' : Nat) (hji : j ≤ i) (hi : i < dim) (hji' : j' ≤ i')
    (hi' : i' < dim) (h : packIndex dim i j = packIndex dim i' j') : i = i' ∧ j = j' := by
  unfold packIndex at h
  have key : ∀ a b x y, a < b → a ≤ x → x < dim → b ≤ y →
      packStart dim a + (x - a) < packStart dim b + (y - b) := by
    intro a b x y hab hax hx _
    have := packStart_mono dim (show a + 1 ≤ b by omega)
    rw [packStart_succ] at this
    omega
  rcases Nat.lt_trichotomy j j' with hlt | heq | hgt
  · have := key j j' i i' hlt hji hi hji'
    omega
  · subst heq
    constructor <;> omega
  · have := key j' j i' i hgt hji' hi' hji
    omega

/-- The packing loop runs its body on the triples of `packTriples`, in their order. -/
lemma packLoop_foldl {σ : Type} (dim : Nat) (body : Nat → Nat → Nat → σ → σ) (s : σ) :
    packLoop dim body s =
      (packTriples dim).foldl (fun s t => body t.1 t.2.1 t.2.2 s) s := by
  unfold packTriples packLoop
  have h := forLoop_rel
    (fun (ls : Nat × σ) (lt : Nat × List (Nat × Nat × Nat)) =>
      ls.1 = lt.1 ∧ ls.2 = lt.2.foldl (fun s t => body t.1 t.2.1 t.2.2 s) s)
    dim
    (fun j (ls : Nat × σ) =>
      forLoop (dim - j) (fun t (ls : Nat × σ) => (ls.1 + 1, body ls.1 (j + t) j ls.2)) ls)
    (fun j (lt : Nat × List (Nat × Nat × Nat)) =>
      forLoop (dim - j) (fun t (lt : Nat × List (Nat × Nat × Nat)) =>
        (lt.1 + 1, lt.2 ++ [(lt.1, j + t, j)])) lt)
    (fun j ls lt _ hrel =>
      forLoop_rel
        (fun (ls : Nat × σ) (lt : Nat × List (Nat × Nat × Nat)) =>
          ls.1 = lt.1 ∧ ls.2 = lt.2.foldl (fun s t => body t.1 t.2.1 t.2.2 s) s)
        (dim - j) _ _
        (fun t ls lt _ hrel => by
          obtain ⟨h1, h2⟩ := hrel
          refine ⟨by simp only [h1], ?_⟩
          simp only [List.foldl_append, List.foldl_cons, List.foldl_nil, h1, h2])
        ls lt hrel)
    (0, s) (0, []) ⟨rfl, rfl⟩
  exact h.2

/-- The slots of the calls of the packing loop are `0, 1, ..., dim*(dim+1)/2 - 1`, each once,
in ascending order. -/
lemma packTriples_slots (dim : Nat) :
    (packTriples dim).map (fun t => t.1) = List.range (dim * (dim + 1) / 2) := by
  rw [← packStart_total]
  unfold packTriples packLoop
  have h := forLoop_ind
    (fun j (lt : Nat × List (Nat × Nat × Nat)) =>
      lt.1 = packStart dim j ∧ lt.2.map (fun t => t.1) = List.range lt.1)
    dim
    (fun j (lt : Nat × List (Nat × Nat × Nat)) =>
      forLoop (dim - j) (fun t (lt : Nat × List (Nat × Nat × Nat)) =>
        (lt.1 + 1, lt.2 ++ [(lt.1, j + t, j)])) lt)
    (0, []) ⟨rfl, rfl⟩
    (fun j lt _ hP => by
      have hin := forLoop_ind
        (fun t (lt : Nat × List (Nat × Nat × Nat)) =>
          lt.1 = packStart dim j + t ∧ lt.2.map (fun t => t.1) = List.range lt.1)
        (dim - j)
        (fun t (lt : Nat × List (Nat × Nat × Nat)) => (lt.1 + 1, lt.2 ++ [(lt.1, j + t, j)]))
        lt ⟨by rw [hP.1]; rfl, hP.2⟩
        (fun t lt _ hQ => by
          refine ⟨by simp only [hQ.1]; omega, ?_⟩
          simp only [List.map_append, List.map_cons, List.map_nil, hQ.2, List.range_succ])
      exact ⟨by rw [hin.1, packStart_succ], hin.2⟩)
  rw [h.2, h.1]

/-- The pairs `(i, j)` of the calls of the packing loop: call number `l` is for the pair whose
slot is `l`. -/
lemma packTriples_mem (dim l i j : Nat) (h : (l, i, j) ∈ packTriples dim) :
    j ≤ i ∧ i < dim ∧ l = packIndex dim i j := by
  unfold packTriples packLoop at h
  have hall := forLoop_ind
    (fun j (lt : Nat × List (Nat × Nat × Nat)) =>
      lt.1 = packStart dim j ∧
        ∀ t ∈ lt.2, t.2.2 ≤ t.2.1 ∧ t.2.1 < dim ∧ t.1 = packIndex dim t.2.1 t.2.2)
    dim
    (fun j (lt : Nat × List (Nat × Nat × Nat)) =>
      forLoop (dim - j) (fun t (lt : Nat × List (Nat × Nat × Nat)) =>
        (lt.1 + 1, lt.2 ++ [(lt.1, j + t, j)])) lt)
    (0, []) ⟨rfl, by simp⟩
    (fun j lt _ hP => by
      have hin := forLoop_ind
        (fun t (lt : Nat × List (Nat × Nat × Nat)) =>
          lt.1 = packStart dim j + t ∧
            ∀ t ∈ lt.2, t.2.2 ≤ t.2.1 ∧ t.2.1 < dim ∧ t.1 = packIndex dim t.2.1 t.2.2)
        (dim - j)
        (fun t (lt : Nat × List (Nat × Nat × Nat)) => (lt.1 + 1, lt.2 ++ [(lt.1, j + t, j)]))
        lt ⟨by rw [hP.1]; rfl, hP.2⟩
        (fun t lt ht hQ => by
          refine ⟨by simp only [hQ.1]; omega, ?_⟩
          intro x hx
          simp only [List.mem_append, List.mem_singleton] at hx
          rcases hx with hx | hx
          · exact hQ.2 x hx
          · subst hx
            refine ⟨by simp only; omega, by simp only; omega, ?_⟩
            simp only [packIndex, hQ.1]
            omega)
      exact ⟨by rw [hin.1, packStart_succ], hin.2⟩)
  exact hall.2 (l, i, j) h

end Pack

section PackStore
variable {R : Type}

/-- Every pair of the lower triangle has its call in the packing loop. -/
lemma packTriples_has (dim i j : Nat) (hji : j ≤ i) (hi : i < dim) :
    (packIndex dim i j, i, j) ∈ packTriples dim := by
  have hlt := packIndex_lt dim i j hji hi
  rw [packStart_total] at hlt
  have hmem : packIndex dim i j ∈ (packTriples dim).map (fun t => t.1) := by
    rw [packTriples_slots]
    exact List.mem_range.2 hlt
  obtain ⟨⟨l, i', j'⟩, ht, hl⟩ := List.mem_map.1 hmem
  simp only at hl
  obtain ⟨h1, h2, h3⟩ := packTriples_mem dim l i' j' ht
  have := packIndex_inj dim i' j' i j h1 h2 hji hi (by rw [← h3, hl])
  obtain ⟨rfl, rfl⟩ := this
  rw [← hl]
  exact ht

/-- Stores made one after the other at pairwise distinct addresses: each address holds the
value of its store. -/
lemma foldl_setAt_mem (addr : Nat → Nat) (haddr : Function.Injective addr)
    (val : Nat × Nat × Nat → R) (L : List (Nat × Nat × Nat))
    (hnd : (L.map (fun t => t.1)).Nodup) (D0 : Nat → R) (t : Nat × Nat × Nat) (ht : t ∈ L) :
    L.foldl (fun D t => setAt D (addr t.1) (val t)) D0 (addr t.1) = val t := by
  induction L using List.reverseRecOn with
  | nil => simp at ht
  | append_singleton L x ih =>
    rw [List.foldl_append, List.foldl_cons, List.foldl_nil, setAt_apply]
    rw [List.map_append, List.nodup_append] at hnd
    obtain ⟨hndL, _, hdisj⟩ := hnd
    rcases List.mem_append.1 ht with h | h
    · have hne : t.1 ≠ x.1 := by
        intro heq
        exact hdisj (List.mem_map.2 ⟨t, h, rfl⟩) (by simp [heq])
      rw [if_neg (fun hc => hne (haddr hc))]
      exact ih hndL h
    · rw [List.mem_singleton] at h
      subst h
      rw [if_pos rfl]

/-- Stores leave every other address as it was. -/
lemma foldl_setAt_out (addr : Nat → Nat) (val : Nat × Nat × Nat → R)
    (L : List (Nat × Nat × Nat)) (D0 : Nat → R) (p : Nat)
    (hp : ∀ t ∈ L, p ≠ addr t.1) :
    L.foldl (fun D t => setAt D (addr t.1) (val t)) D0 p = D0 p := by
  induction L using List.reverseRecOn with
  | nil => rfl
  | append_singleton L x ih =>
    rw [List.foldl_append, List.foldl_cons, List.foldl_nil, setAt_apply,
      if_neg (hp x (by simp))]
    exact ih (fun t ht => hp t (List.mem_append_left _ ht))

/-- The packing loop with the store `D[addr l] = val i j` as body: the address of the slot of
`(i, j)` holds `val i j`. -/
lemma packLoop_store_in (dim : Nat) (addr : Nat → Nat) (haddr : Function.Injective addr)
    (val : Nat → Nat → R) (D0 : Nat → R) (i j : Nat) (hji : j ≤ i) (hi : i < dim) :
    packLoop dim (fun l i j D => setAt D (addr l) (val i j)) D0 (addr (packIndex dim i j)) =
      val i j := by
  rw [packLoop_foldl]
  have hnd : ((packTriples dim).map (fun t => t.1)).Nodup := by
    rw [packTriples_slots]
    exact List.nodup_range _
  exact foldl_setAt_mem addr haddr (fun t => val t.2.1 t.2.2) (packTriples dim) hnd D0
    (packIndex dim i j, i, j) (packTriples_has dim i j hji hi)

/-- The packing loop with the store `D[addr l] = val i j` as body leaves every address that
is not the one of a slot `l < dim*(dim+1)/2` as it was. -/
lemma packLoop_store_out (dim : Nat) (addr : Nat → Nat) (val : Nat → Nat → R) (D0 : Nat → R)
    (p : Nat) (hp : ∀ l, l < dim * (dim + 1) / 2 → p ≠ addr l) :
    packLoop dim (fun l i j D => setAt D (addr l) (val i j)) D0 p = D0 p := by
  rw [packLoop_foldl]
  apply foldl_setAt_out addr (fun t => val t.2.1 t.2.2)
  intro t ht
  apply hp
  have : t.1 ∈ (packTriples dim).map (fun t => t.1) := List.mem_map.2 ⟨t, ht, rfl⟩
  rw [packTriples_slots] at this
  exact List.mem_range.1 this

end PackStore

section DiffusionSetup
variable {K : Type} [Field K]

/-- Blocks `[b + n*B, b + n*B + B)` with distinct `n` are disjoint. -/
lemma block_disj (B b n n' p : Nat) (h1 : b + n * B ≤ p) (h2 : p < b + n * B + B)
    (h3 : b + n' * B ≤ p) (h4 : p < b + n' * B + B) : n = n' := by
  by_contra hne
  rcases Nat.lt_or_gt_of_ne hne with h | h
  · have := Nat.mul_le_mul_right B (Nat.succ_le_of_lt h)
    rw [Nat.succ_mul] at this
    omega
  · have := Nat.mul_le_mul_right B (Nat.succ_le_of_lt h)
    rw [Nat.succ_mul] at this
    omega

/-- Entry `(i, j)` of the matrix `mat` of a quadrature point: `(∑ c, A(i,c)·A(j,c)) · (w / W)`
for the `dim × dim` adjugate `A`, the point weight `w` and the cell weight `W`. -/
lemma PADiffusionIntegrator.pointMat_get (dim : Nat) (w : K) (Tr : ElementTransformation K)
    (mat : Nat → K) (hh : Tr.AdjugateJacobian.height = dim)
    (hw : Tr.AdjugateJacobian.width = dim) (i j : Nat) (hi : i < dim) (hj : j < dim) :
    (PADiffusionIntegrator.pointMat dim w Tr mat).get i j =
      (∑ c in range dim, Tr.AdjugateJacobian.get i c * Tr.AdjugateJacobian.get j c) *
        (w / Tr.Weight) := by
  unfold PADiffusionIntegrator.pointMat DenseMatrix.scale
  simp only [DenseMatrix.get]
  rw [if_pos (flat_lt dim dim i j hi hj)]
  have := MultABt_get Tr.AdjugateJacobian Tr.AdjugateJacobian mat 0 i j (by omega) (by omega)
  rw [Nat.zero_add, hh, hw] at this
  rw [this]
  simp only [DenseMatrix.get, hh]

/-- The matrix `mat` of a quadrature point is symmetric. -/
lemma PADiffusionIntegrator.pointMat_symm (dim : Nat) (w : K) (Tr : ElementTransformation K)
    (mat : Nat → K) (hh : Tr.AdjugateJacobian.height = dim)
    (hw : Tr.AdjugateJacobian.width = dim) (i j : Nat) (hi : i < dim) (hj : j < dim) :
    (PADiffusionIntegrator.pointMat dim w Tr mat).get i j =
      (PADiffusionIntegrator.pointMat dim w Tr mat).get j i := by
  rw [PADiffusionIntegrator.pointMat_get dim w Tr mat hh hw i j hi hj,
    PADiffusionIntegrator.pointMat_get dim w Tr mat hh hw j i hj hi]
  congr 1
  apply Finset.sum_congr rfl
  intro c _
  ring

/-- What the body of the point loop stores in the slot of the pair `(i, j)`. -/
lemma PADiffusionIntegrator.ComputePAPoint_in (dim entries quads : Nat) (ipw : Nat → K)
    (Tr : Nat → Nat → ElementTransformation K) (coeff : Option (Nat → Nat → K))
    (mcoeff : Option (Nat → Nat → DenseMatrix K)) (e k : Nat) (s : PAState K) (i j : Nat)
    (hji : j ≤ i) (hi : i < dim) :
    (PADiffusionIntegrator.ComputePAPoint dim entries quads ipw Tr coeff mcoeff e k s).tdata
        (e * (entries * quads) + (packIndex dim i j + k * entries)) =
      match coeff with
      | some cf => cf e k * (PADiffusionIntegrator.pointMat dim (ipw k) (Tr e k) s.mat).get i j
      | none =>
        match mcoeff with
        | some mc =>
          (mc e k).get i j * (PADiffusionIntegrator.pointMat dim (ipw k) (Tr e k) s.mat).get i j
        | none => (PADiffusionIntegrator.pointMat dim (ipw k) (Tr e k) s.mat).get i j := by
  have haddr : Function.Injective (fun l => e * (entries * quads) + (l + k * entries)) := by
    intro a b hab
    simp only at hab
    omega
  unfold PADiffusionIntegrator.ComputePAPoint
  cases coeff with
  | some cf =>
    exact packLoop_store_in dim (fun l => e * (entries * quads) + (l + k * entries)) haddr
      (fun i j => cf e k * (PADiffusionIntegrator.pointMat dim (ipw k) (Tr e k) s.mat).get i j)
      s.tdata i j hji hi
  | none =>
    cases mcoeff with
    | some mc =>
      exact packLoop_store_in dim (fun l => e * (entries * quads) + (l + k * entries)) haddr
        (fun i j => (mc e k).get i j *
          (PADiffusionIntegrator.pointMat dim (ipw k) (Tr e k) s.mat).get i j)
        s.tdata i j hji hi
    | none =>
      exact packLoop_store_in dim (fun l => e * (entries * quads) + (l + k * entries)) haddr
        (fun i j => (PADiffusionIntegrator.pointMat dim (ipw k) (Tr e k) s.mat).get i j)
        s.tdata i j hji hi

/-- The body of the point loop writes only the `dim*(dim+1)/2` slots of its point. -/
lemma PADiffusionIntegrator.ComputePAPoint_out (dim quads : Nat) (ipw : Nat → K)
    (Tr : Nat → Nat → ElementTransformation K) (coeff : Option (Nat → Nat → K))
    (mcoeff : Option (Nat → Nat → DenseMatrix K)) (e k : Nat) (s : PAState K) (p : Nat)
    (hp : ¬ (e * (dim * (dim + 1) / 2 * quads) + k * (dim * (dim + 1) / 2) ≤ p ∧
      p < e * (dim * (dim + 1) / 2 * quads) + k * (dim * (dim + 1) / 2) +
        dim * (dim + 1) / 2)) :
    (PADiffusionIntegrator.ComputePAPoint dim (dim * (dim + 1) / 2) quads ipw Tr coeff mcoeff
      e k s).tdata p = s.tdata p := by
  have hne : ∀ l, l < dim * (dim + 1) / 2 →
      p ≠ (fun l => e * (dim * (dim + 1) / 2 * quads) + (l + k * (dim * (dim + 1) / 2))) l := by
    intro l hl heq
    simp only at heq
    apply hp
    omega
  unfold PADiffusionIntegrator.ComputePAPoint
  cases coeff with
  | some cf =>
    exact packLoop_store_out dim
      (fun l => e * (dim * (dim + 1) / 2 * quads) + (l + k * (dim * (dim + 1) / 2)))
      (fun i j => cf e k * (PADiffusionIntegrator.pointMat dim (ipw k) (Tr e k) s.mat).get i j)
      s.tdata p hne
  | none =>
    cases mcoeff with
    | some mc =>
      exact packLoop_store_out dim
        (fun l => e * (dim * (dim + 1) / 2 * quads) + (l + k * (dim * (dim + 1) / 2)))
        (fun i j => (mc e k).get i j *
          (PADiffusionIntegrator.pointMat dim (ipw k) (Tr e k) s.mat).get i j)
        s.tdata p hne
    | none =>
      exact packLoop_store_out dim
        (fun l => e * (dim * (dim + 1) / 2 * quads) + (l + k * (dim * (dim + 1) / 2)))
        (fun i j => (PADiffusionIntegrator.pointMat dim (ipw k) (Tr e k) s.mat).get i j)
        s.tdata p hne

/-- The loop over the points of element `e` writes only the slab of element `e`. -/
lemma PADiffusionIntegrator.ComputePAElem_out (dim quads : Nat) (ipw : Nat → K)
    (Tr : Nat → Nat → ElementTransformation K) (coeff : Option (Nat → Nat → K))
    (mcoeff : Option (Nat → Nat → DenseMatrix K)) (e n : Nat) (hn : n ≤ quads) (s : PAState K)
    (p : Nat)
    (hp : ¬ (e * (dim * (dim + 1) / 2 * quads) ≤ p ∧
      p < e * (dim * (dim + 1) / 2 * quads) + dim * (dim + 1) / 2 * quads)) :
    (forLoop n (fun k s => PADiffusionIntegrator.ComputePAPoint dim (dim * (dim + 1) / 2) quads
      ipw Tr coeff mcoeff e k s) s).tdata p = s.tdata p := by
  apply forLoop_outside PAState.tdata
    (fun k p => e * (dim * (dim + 1) / 2 * quads) + k * (dim * (dim + 1) / 2) ≤ p ∧
      p < e * (dim * (dim + 1) / 2 * quads) + k * (dim * (dim + 1) / 2) + dim * (dim + 1) / 2)
  · intro k s p _ hnp
    exact PADiffusionIntegrator.ComputePAPoint_out dim quads ipw Tr coeff mcoeff e k s p hnp
  · intro k hk hin
    apply hp
    have := Nat.mul_le_mul_right (dim * (dim + 1) / 2) (Nat.succ_le_of_lt (Nat.lt_of_lt_of_le hk hn))
    rw [Nat.succ_mul, Nat.mul_comm quads] at this
    omega

/-- The scratch matrix after the body of the point loop does not depend on the coefficient. -/
lemma PADiffusionIntegrator.ComputePAPoint_mat (dim entries quads : Nat) (ipw : Nat → K)
    (Tr : Nat → Nat → ElementTransformation K) (coeff : Option (Nat → Nat → K))
    (mcoeff : Option (Nat → Nat → DenseMatrix K)) (e k : Nat) (s : PAState K) :
    (PADiffusionIntegrator.ComputePAPoint dim entries quads ipw Tr coeff mcoeff e k s).mat =
      (PADiffusionIntegrator.pointMat dim (ipw k) (Tr e k) s.mat).data := by
  unfold PADiffusionIntegrator.ComputePAPoint
  cases coeff with
  | some cf => rfl
  | none =>
    cases mcoeff with
    | some mc => rfl
    | none => rfl

/-- The content of the scratch matrix when the body of the point loop starts for point `k` of
element `e` is the same for every coefficient and every initial buffer of `Dtensor`. -/
lemma PADiffusionIntegrator.ComputePA_mat_before (dim entries quads : Nat) (ipw : Nat → K)
    (Tr : Nat → Nat → ElementTransformation K) (coeff : Option (Nat → Nat → K))
    (mcoeff : Option (Nat → Nat → DenseMatrix K)) (tdata0 : Nat → K) (e k : Nat) :
    (forLoop k (fun k s => PADiffusionIntegrator.ComputePAPoint dim entries quads ipw Tr
        coeff mcoeff e k s)
      (forLoop e (fun e s => forLoop quads (fun k s =>
        PADiffusionIntegrator.ComputePAPoint dim entries quads ipw Tr coeff mcoeff e k s) s)
        { mat := fun _ => 0, tdata := tdata0 })).mat =
    (forLoop k (fun k s => PADiffusionIntegrator.ComputePAPoint dim entries quads ipw Tr
        none none e k s)
      (forLoop e (fun e s => forLoop quads (fun k s =>
        PADiffusionIntegrator.ComputePAPoint dim entries quads ipw Tr none none e k s) s)
        { mat := fun _ => 0, tdata := fun _ => 0 })).mat := by
  have hinner : ∀ (n e : Nat) (s s' : PAState K), s.mat = s'.mat →
      (forLoop n (fun k s => PADiffusionIntegrator.ComputePAPoint dim entries quads ipw Tr
        coeff mcoeff e k s) s).mat =
      (forLoop n (fun k s => PADiffusionIntegrator.ComputePAPoint dim entries quads ipw Tr
        none none e k s) s').mat := by
    intro n e s s' hs
    exact forLoop_rel (fun (s s' : PAState K) => s.mat = s'.mat) n _ _
      (fun k s s' _ hrel => by
        dsimp only at hrel ⊢
        rw [PADiffusionIntegrator.ComputePAPoint_mat, PADiffusionIntegrator.ComputePAPoint_mat,
          hrel]) s s' hs
  apply hinner
  exact forLoop_rel (fun (s s' : PAState K) => s.mat = s'.mat) e _ _
    (fun e s s' _ hrel => hinner quads e s s' hrel) _ _ rfl

/-- The entry that `ComputePA` leaves in the slot of the pair `(i, j)`, `j ≤ i`, at point `k`
of element `e`: with `M` the entry `(i, j)` of the matrix `mat` of the point, computed on a
scratch content `m` that is the same for every coefficient, it is `c·M` with a scalar
coefficient, else `C(i,j)·M` with a matrix coefficient, else `M`. -/
lemma PADiffusionIntegrator.ComputeDtensor_get_raw (I : PADiffusionIntegrator K)
    (fe : FiniteElement) (ipw : Nat → K) (Tr : Nat → Nat → ElementTransformation K)
    (e k : Nat) (he : e < I.NE) (hk : k < I.quads) :
    ∃ m : Nat → K, ∀ (coeff : Option (Nat → Nat → K))
      (mcoeff : Option (Nat → Nat → DenseMatrix K)) (tdata0 : Nat → K) (i j : Nat),
      j ≤ i → i < fe.GetDim →
      (I.ComputeDtensor fe ipw Tr coeff mcoeff tdata0).get (packIndex fe.GetDim i j) k e =
        match coeff with
        | some cf =>
          cf e k * (PADiffusionIntegrator.pointMat fe.GetDim (ipw k) (Tr e k) m).get i j
        | none =>
          match mcoeff with
          | some mc => (mc e k).get i j *
              (PADiffusionIntegrator.pointMat fe.GetDim (ipw k) (Tr e k) m).get i j
          | none => (PADiffusionIntegrator.pointMat fe.GetDim (ipw k) (Tr e k) m).get i j := by
  refine ⟨(forLoop k (fun k s => PADiffusionIntegrator.ComputePAPoint fe.GetDim
        (fe.GetDim * (fe.GetDim + 1) / 2) I.quads ipw Tr none none e k s)
      (forLoop e (fun e s => forLoop I.quads (fun k s =>
        PADiffusionIntegrator.ComputePAPoint fe.GetDim (fe.GetDim * (fe.GetDim + 1) / 2)
          I.quads ipw Tr none none e k s) s)
        { mat := fun _ => 0, tdata := fun _ => 0 })).mat, ?_⟩
  intro coeff mcoeff tdata0 i j hji hi
  have hl := packIndex_lt fe.GetDim i j hji hi
  rw [packStart_total] at hl
  have hflat := flat_lt _ _ _ _ hl hk
  unfold PADiffusionIntegrator.ComputeDtensor DenseTensor.get
  simp only
  have hidx : packIndex fe.GetDim i j + fe.GetDim * (fe.GetDim + 1) / 2 * (k + I.quads * e) =
      e * (fe.GetDim * (fe.GetDim + 1) / 2 * I.quads) +
        (packIndex fe.GetDim i j + k * (fe.GetDim * (fe.GetDim + 1) / 2)) := by ring
  rw [hidx]
  rw [forLoop_block PAState.tdata
    (fun e p => e * (fe.GetDim * (fe.GetDim + 1) / 2 * I.quads) ≤ p ∧
      p < e * (fe.GetDim * (fe.GetDim + 1) / 2 * I.quads) +
        fe.GetDim * (fe.GetDim + 1) / 2 * I.quads) I.NE _ _ _ _ e _ he ⟨by omega, by omega⟩]
  · rw [forLoop_block PAState.tdata
      (fun k p => e * (fe.GetDim * (fe.GetDim + 1) / 2 * I.quads) +
          k * (fe.GetDim * (fe.GetDim + 1) / 2) ≤ p ∧
        p < e * (fe.GetDim * (fe.GetDim + 1) / 2 * I.quads) +
          k * (fe.GetDim * (fe.GetDim + 1) / 2) + fe.GetDim * (fe.GetDim + 1) / 2)
      I.quads _ _ _ _ k _ hk ⟨by omega, by omega⟩]
    · rw [PADiffusionIntegrator.ComputePAPoint_in _ _ _ _ _ _ _ _ _ _ i j hji hi,
        PADiffusionIntegrator.ComputePA_mat_before]
    · intro a b p _ _ ha hb
      exact block_disj _ _ a b p ha.1 ha.2 hb.1 hb.2
    · intro a s p _ hnp
      exact PADiffusionIntegrator.ComputePAPoint_out fe.GetDim I.quads ipw Tr coeff mcoeff e a s
        p hnp
  · intro a b p _ _ ha hb
    refine block_disj (fe.GetDim * (fe.GetDim + 1) / 2 * I.quads) 0 a b p ?_ ?_ ?_ ?_ <;> omega
  · intro a s p _ hnp
    exact PADiffusionIntegrator.ComputePAElem_out fe.GetDim I.quads ipw Tr coeff mcoeff a
      I.quads (Nat.le_refl _) s p hnp

/-- The entry that `ComputePA` leaves in the slot of the pair `(i, j)`, `j ≤ i`, at point `k`
of element `e`, for a `dim × dim` adjugate `A`: with `M = (∑ c, A(i,c)·A(j,c)) · (w / W)`, it
is `c·M` with a scalar coefficient, else `C(i,j)·M` with a matrix coefficient, else `M`. -/
lemma PADiffusionIntegrator.ComputeDtensor_get (I : PADiffusionIntegrator K)
    (fe : FiniteElement) (ipw : Nat → K) (Tr : Nat → Nat → ElementTransformation K)
    (coeff : Option (Nat → Nat → K)) (mcoeff : Option (Nat → Nat → DenseMatrix K))
    (tdata0 : Nat → K) (e k i j : Nat) (he : e < I.NE) (hk : k < I.quads)
    (hh : (Tr e k).AdjugateJacobian.height = fe.GetDim)
    (hw : (Tr e k).AdjugateJacobian.width = fe.GetDim) (hji : j ≤ i) (hi : i < fe.GetDim) :
    (I.ComputeDtensor fe ipw Tr coeff mcoeff tdata0).get (packIndex fe.GetDim i j) k e =
      match coeff with
      | some cf =>
        cf e k * ((∑ c in range fe.GetDim, (Tr e k).AdjugateJacobian.get i c *
          (Tr e k).AdjugateJacobian.get j c) * (ipw k / (Tr e k).Weight))
      | none =>
        match mcoeff with
        | some mc =>
          (mc e k).get i j * ((∑ c in range fe.GetDim, (Tr e k).AdjugateJacobian.get i c *
            (Tr e k).AdjugateJacobian.get j c) * (ipw k / (Tr e k).Weight))
        | none =>
          (∑ c in range fe.GetDim, (Tr e k).AdjugateJacobian.get i c *
            (Tr e k).AdjugateJacobian.get j c) * (ipw k / (Tr e k).Weight) := by
  obtain ⟨m, hm⟩ := I.ComputeDtensor_get_raw fe ipw Tr e k he hk
  rw [hm coeff mcoeff tdata0 i j hji hi,
    PADiffusionIntegrator.pointMat_get fe.GetDim (ipw k) (Tr e k) m hh hw i j hi (by omega)]

/-- `ComputePA` leaves every entry of the buffer from `entries*quads*elems` on as it was. -/
lemma PADiffusionIntegrator.ComputeDtensor_out (I : PADiffusionIntegrator K)
    (fe : FiniteElement) (ipw : Nat → K) (Tr : Nat → Nat → ElementTransformation K)
    (coeff : Option (Nat → Nat → K)) (mcoeff : Option (Nat → Nat → DenseMatrix K))
    (tdata0 : Nat → K) (p : Nat)
    (hp : fe.GetDim * (fe.GetDim + 1) / 2 * I.quads * I.NE ≤ p) :
    (I.ComputeDtensor fe ipw Tr coeff mcoeff tdata0).tdata p = tdata0 p := by
  unfold PADiffusionIntegrator.ComputeDtensor
  simp only
  apply forLoop_outside PAState.tdata
    (fun e p => e * (fe.GetDim * (fe.GetDim + 1) / 2 * I.quads) ≤ p ∧
      p < e * (fe.GetDim * (fe.GetDim + 1) / 2 * I.quads) +
        fe.GetDim * (fe.GetDim + 1) / 2 * I.quads)
  · intro a s p _ hnp
    exact PADiffusionIntegrator.ComputePAElem_out fe.GetDim I.quads ipw Tr coeff mcoeff a
      I.quads (Nat.le_refl _) s p hnp
  · intro e he hin
    have := Nat.mul_le_mul_right (fe.GetDim * (fe.GetDim + 1) / 2 * I.quads)
      (Nat.succ_le_of_lt he)
    rw [Nat.succ_mul, Nat.mul_comm I.NE] at this
    omega

/-- The member `Dtensor` after `ComputePA`: entry `l + k*entries` of the data of slab `e` is
`Dtensor(l, k, e)`. -/
lemma PADiffusionIntegrator.ComputePA_Dtensor_get (I : PADiffusionIntegrator K)
    (fe : FiniteElement) (basis1d : Poly_1D.Basis K) (IntRules : Int → IntegrationRule K)
    (ir_order : Int) (ipw : Nat → K) (Tr : Nat → Nat → ElementTransformation K)
    (coeff : Option (Nat → Nat → K)) (mcoeff : Option (Nat → Nat → DenseMatrix K))
    (tdata0 : Nat → K) (l k e : Nat) :
    (I.ComputePA fe basis1d IntRules ir_order ipw Tr coeff mcoeff tdata0).Dtensor e
        (l + k * (fe.GetDim * (fe.GetDim + 1) / 2)) =
      (I.ComputeDtensor fe ipw Tr coeff mcoeff tdata0).get l k e := by
  unfold PADiffusionIntegrator.ComputePA DenseTensor.slab DenseTensor.get
  simp only
  congr 1
  have h1 : (I.ComputeDtensor fe ipw Tr coeff mcoeff tdata0).SizeI =
      fe.GetDim * (fe.GetDim + 1) / 2 := rfl
  have h2 : (I.ComputeDtensor fe ipw Tr coeff mcoeff tdata0).SizeJ = I.quads := rfl
  rw [h1, h2]
  ring

end DiffusionSetup

section DsymCongr
variable {R : Type}

namespace Dense

/-- The symmetric matrix of a point reads the six stored entries of that point. -/
lemma Dsym_congr (D D' : Nat → Nat → R) (c d k : Nat) (h : ∀ l, l < 6 → D l k = D' l k) :
    Dsym D c d k = Dsym D' c d k := by
  unfold Dsym
  split <;> exact h _ (by omega)

end Dense

end DsymCongr

section DenseCongr
variable {R : Type} [CommRing R]

namespace Dense

/-- The 1D operator reads `D` at the points `k < quads1d` and `V` at the dofs `j < dofs1d`. -/
lemma seg_congr (d q : Nat) (T : Nat → Nat → R) (D D' V V' : Nat → R) (i : Nat)
    (hD : ∀ k, k < q → D k = D' k) (hV : ∀ j, j < d → V j = V' j) :
    seg d q T D V i = seg d q T D' V' i := by
  unfold seg
  apply Finset.sum_congr rfl
  intro k hk
  rw [hD k (Finset.mem_range.1 hk)]
  congr 1
  apply Finset.sum_congr rfl
  intro j hj
  rw [hV j (Finset.mem_range.1 hj)]

/-- The 2D mass operator reads `D` at the points `k < quads1d²` and `V` at the dofs
`(j1, j2)`, `j1, j2 < dofs1d`. -/
lemma massQuad_congr (d q : Nat) (shape : Nat → Nat → R) (D D' : Nat → R)
    (V V' : Nat → Nat → R) (i1 i2 : Nat) (hD : ∀ k, k < q * q → D k = D' k)
    (hV : ∀ j1 j2, j1 < d → j2 < d → V j1 j2 = V' j1 j2) :
    massQuad d q shape D V i1 i2 = massQuad d q shape D' V' i1 i2 := by
  unfold massQuad
  apply Finset.sum_congr rfl
  intro k1 hk1
  apply Finset.sum_congr rfl
  intro k2 hk2
  rw [Finset.mem_range] at hk1 hk2
  have hk : k1 + q * k2 < q * q := by
    have := flat_lt q q k1 k2 hk1 hk2
    rw [Nat.mul_comm k2 q] at this
    exact this
  rw [hD _ hk]
  congr 1
  apply Finset.sum_congr rfl
  intro j1 hj1
  apply Finset.sum_congr rfl
  intro j2 hj2
  rw [hV j1 j2 (Finset.mem_range.1 hj1) (Finset.mem_range.1 hj2)]

/-- The 2D diffusion operator reads the three stored entries at the points `k < quads1d²` and
`V` at the dofs `(j1, j2)`, `j1, j2 < dofs1d`. -/
lemma diffusionQuad_congr (d q : Nat) (shape dshape : Nat → Nat → R)
    (D00 D01 D11 D00' D01' D11' : Nat → R) (V V' : Nat → Nat → R) (i1 i2 : Nat)
    (h00 : ∀ k, k < q * q → D00 k = D00' k) (h01 : ∀ k, k < q * q → D01 k = D01' k)
    (h11 : ∀ k, k < q * q → D11 k = D11' k)
    (hV : ∀ j1 j2, j1 < d → j2 < d → V j1 j2 = V' j1 j2) :
    diffusionQuad d q shape dshape D00 D01 D11 V i1 i2 =
      diffusionQuad d q shape dshape D00' D01' D11' V' i1 i2 := by
  unfold diffusionQuad
  simp only
  have hg0 : ∀ k1 k2,
      ∑ j1 in range d, ∑ j2 in range d, V j1 j2 * dshape j1 k1 * shape j2 k2 =
      ∑ j1 in range d, ∑ j2 in range d, V' j1 j2 * dshape j1 k1 * shape j2 k2 := by
    intro k1 k2
    apply Finset.sum_congr rfl
    intro j1 hj1
    apply Finset.sum_congr rfl
    intro j2 hj2
    rw [hV j1 j2 (Finset.mem_range.1 hj1) (Finset.mem_range.1 hj2)]
  have hg1 : ∀ k1 k2,
      ∑ j1 in range d, ∑ j2 in range d, V j1 j2 * shape j1 k1 * dshape j2 k2 =
      ∑ j1 in range d, ∑ j2 in range d, V' j1 j2 * shape j1 k1 * dshape j2 k2 := by
    intro k1 k2
    apply Finset.sum_congr rfl
    intro j1 hj1
    apply Finset.sum_congr rfl
    intro j2 hj2
    rw [hV j1 j2 (Finset.mem_range.1 hj1) (Finset.mem_range.1 hj2)]
  apply Finset.sum_congr rfl
  intro k1 hk1
  apply Finset.sum_congr rfl
  intro k2 hk2
  rw [Finset.mem_range] at hk1 hk2
  have hk : k1 + q * k2 < q * q := by
    have := flat_lt q q k1 k2 hk1 hk2
    rw [Nat.mul_comm k2 q] at this
    exact this
  rw [h00 _ hk, h01 _ hk, h11 _ hk, hg0, hg1]

/-- The 3D diffusion operator reads the six stored entries at the points `k < quads1d³` and
`V` at the dofs `(j1, j2, j3)`, `j1, j2, j3 < dofs1d`. -/
lemma diffusionHex_congr (d q : Nat) (shape dshape : Nat → Nat → R) (D D' : Nat → Nat → R)
    (V V' : Nat → Nat → Nat → R) (i1 i2 i3 : Nat)
    (hD : ∀ l k, l < 6 → k < q * q * q → D l k = D' l k)
    (hV : ∀ j1 j2 j3, j1 < d → j2 < d → j3 < d → V j1 j2 j3 = V' j1 j2 j3) :
    diffusionHex d q shape dshape D V i1 i2 i3 = diffusionHex d q shape dshape D' V' i1 i2 i3 := by
  unfold diffusionHex
  simp only
  have hg : ∀ c k1 k2 k3,
      ∑ j1 in range d, ∑ j2 in range d, ∑ j3 in range d,
        G3 shape dshape c j1 j2 j3 k1 k2 k3 * V j1 j2 j3 =
      ∑ j1 in range d, ∑ j2 in range d, ∑ j3 in range d,
        G3 shape dshape c j1 j2 j3 k1 k2 k3 * V' j1 j2 j3 := by
    intro c k1 k2 k3
    apply Finset.sum_congr rfl
    intro j1 hj1
    apply Finset.sum_congr rfl
    intro j2 hj2
    apply Finset.sum_congr rfl
    intro j3 hj3
    rw [hV j1 j2 j3 (Finset.mem_range.1 hj1) (Finset.mem_range.1 hj2) (Finset.mem_range.1 hj3)]
  apply Finset.sum_congr rfl
  intro k1 hk1
  apply Finset.sum_congr rfl
  intro k2 hk2
  apply Finset.sum_congr rfl
  intro k3 hk3
  rw [Finset.mem_range] at hk1 hk2 hk3
  have hk : k1 + q * (k2 + q * k3) < q * q * q := flat_lt3 q k1 k2 k3 hk1 hk2 hk3
  apply Finset.sum_congr rfl
  intro c _
  congr 1
  apply Finset.sum_congr rfl
  intro c' _
  rw [Dsym_congr D D' c c' _ (fun l hl => hD l _ hl hk), hg]

/-- The 3D mass operator reads `D` at the points `k < quads1d³` and `V` at the dofs
`(j1, j2, j3)`, `j1, j2, j3 < dofs1d`. -/
lemma massHex_congr (d q : Nat) (shape : Nat → Nat → R) (D D' : Nat → R)
    (V V' : Nat → Nat → Nat → R) (i1 i2 i3 : Nat) (hD : ∀ k, k < q * q * q → D k = D' k)
    (hV : ∀ j1 j2 j3, j1 < d → j2 < d → j3 < d → V j1 j2 j3 = V' j1 j2 j3) :
    massHex d q shape D V i1 i2 i3 = massHex d q shape D' V' i1 i2 i3 := by
  unfold massHex
  apply Finset.sum_congr rfl
  intro k1 hk1
  apply Finset.sum_congr rfl
  intro k2 hk2
  apply Finset.sum_congr rfl
  intro k3 hk3
  rw [Finset.mem_range] at hk1 hk2 hk3
  have hk : k1 + q * (k2 + q * k3) < q * q * q := flat_lt3 q k1 k2 k3 hk1 hk2 hk3
  rw [hD _ hk]
  congr 1
  apply Finset.sum_congr rfl
  intro j1 hj1
  apply Finset.sum_congr rfl
  intro j2 hj2
  apply Finset.sum_congr rfl
  intro j3 hj3
  rw [hV j1 j2 j3 (Finset.mem_range.1 hj1) (Finset.mem_range.1 hj2) (Finset.mem_range.1 hj3)]

end Dense

end DenseCongr

section Frame
variable {R : Type} [CommRing R]

/-- Slices of distinct units of work are disjoint. -/
lemma inSlice_disjoint (vdim dofs e vd e' vd' p : Nat) (hvd : vd < vdim) (hvd' : vd' < vdim)
    (h : inSlice vdim dofs e vd p) (h' : inSlice vdim dofs e' vd' p) : e = e' ∧ vd = vd' := by
  unfold inSlice at h h'
  rw [add_one_mul] at h h'
  have hpos : p - (e * vdim + vd) * dofs < dofs := by omega
  have := (slice_iff vdim dofs e vd e' vd' (p - (e * vdim + vd) * dofs) hpos hvd hvd').1
    ⟨by omega, by omega⟩
  exact ⟨this.1.symm, this.2.symm⟩

/-- The frame contract of a kernel whose unit of work adds, inside `[offset, offset + step)`,
an increment `F V e offset p` that reads `V` only on that range. -/
lemma frame_of_units {σ : Type} (off : σ → Nat) (out : σ → Nat → R)
    (step NE NE' vdim e vd : Nat) (unit unit' : (Nat → R) → Nat → σ → σ)
    (init : (Nat → R) → σ) (F F' : (Nat → R) → Nat → Nat → Nat → R)
    (h0 : ∀ U, off (init U) = 0) (h0' : ∀ U, out (init U) = U)
    (hoff : ∀ V e s, off (unit V e s) = off s + step)
    (hoff' : ∀ V e s, off (unit' V e s) = off s + step)
    (hU : ∀ V e s p, out (unit V e s) p = out s p +
      if off s ≤ p ∧ p < off s + step then F V e (off s) p else 0)
    (hU' : ∀ V e s p, out (unit' V e s) p = out s p +
      if off s ≤ p ∧ p < off s + step then F' V e (off s) p else 0)
    (hF : ∀ V V' o p, AgreeOn o (o + step) V V' → o ≤ p → p < o + step →
      F V e o p = F' V' e o p)
    (he : e < NE) (he' : e < NE') (hvd : vd < vdim) :
    FrameContract off out NE vdim step e vd (fun V => unit V e) (fun V => unit' V e)
      (fun V U => out (forLoop NE (fun e s => forLoop vdim (fun _ s => unit V e s) s) (init U)))
      (fun V U => out (forLoop NE' (fun e s => forLoop vdim (fun _ s => unit' V e s) s)
        (init U))) := by
  have hslice : ∀ (n : Nat) (u : (Nat → R) → Nat → σ → σ) (G : (Nat → R) → Nat → Nat → Nat → R),
      (∀ V e s, off (u V e s) = off s + step) →
      (∀ V e s p, out (u V e s) p = out s p +
        if off s ≤ p ∧ p < off s + step then G V e (off s) p else 0) → e < n →
      ∀ V U p, (e * vdim + vd) * step ≤ p → p < (e * vdim + vd + 1) * step →
        out (forLoop n (fun e s => forLoop vdim (fun _ s => u V e s) s) (init U)) p =
          U p + G V e ((e * vdim + vd) * step) p := by
    intro n u G hou hUu hen V U p hlo hhi
    have h := (unitLoops off out step
      (fun e o p => if o ≤ p ∧ p < o + step then G V e o p else 0)
      (fun e s => u V e s) n vdim (fun e s _ => hou V e s) (fun e s p _ => hUu V e s p)
      (init U)).2 p
    rw [h, h0, h0']
    simp only [zero_add]
    rw [add_one_mul] at hhi
    have hp : p = (e * vdim + vd) * step + (p - (e * vdim + vd) * step) := by omega
    have hi : p - (e * vdim + vd) * step < step := by omega
    congr 1
    have := sum_units n vdim step e vd (p - (e * vdim + vd) * step) hen hvd hi
      (fun e' o => G V e' o p)
    rw [← hp] at this
    exact this
  refine ⟨?_, ?_, ?_, ?_⟩
  · intro V s p hp
    rw [hU, if_neg hp, add_zero]
  · intro V V' s s' hs hV hout p hlo hhi
    rw [hU, hU', hs, if_pos ⟨hlo, hhi⟩, if_pos ⟨hlo, hhi⟩, hout p hlo hhi,
      hF V V' (off s) p hV hlo hhi]
  · intro V V' U U' hV hUU p hlo hhi
    simp only
    rw [hslice NE unit F hoff hU he V U p hlo hhi,
      hslice NE' unit' F' hoff' hU' he' V' U' p hlo hhi, hUU p hlo hhi]
    congr 1
    apply hF V V' _ p _ hlo
    · rw [add_one_mul] at hhi
      exact hhi
    · intro x hx1 hx2
      apply hV x hx1
      rw [add_one_mul]
      exact hx2
  · intro V U p hp
    simp only
    have h := (unitLoops off out step
      (fun e o p => if o ≤ p ∧ p < o + step then F V e o p else 0)
      (fun e s => unit V e s) NE vdim (fun e s _ => hoff V e s) (fun e s p _ => hU V e s p)
      (init U)).2 p
    rw [h, h0, h0']
    simp only [zero_add]
    rw [Finset.sum_eq_zero, add_zero]
    intro e' he'
    apply Finset.sum_eq_zero
    intro vd' hvd'
    rw [Finset.mem_range] at he' hvd'
    rw [if_neg]
    intro hc
    have h1 : e' * vdim + vd' + 1 ≤ NE * vdim := by
      have := Nat.mul_le_mul_right vdim (Nat.succ_le_of_lt he')
      rw [Nat.succ_mul] at this
      omega
    have h2 := Nat.mul_le_mul_right step h1
    rw [add_one_mul] at h2
    omega

end Frame

section KernelFrames
variable {R : Type} [CommRing R]

lemma PADiffusionIntegrator.MultSeg_frame_diff (I : PADiffusionIntegrator R) (NE' : Nat)
    (D' : Nat → Nat → R) (e vd : Nat) (hh : I.dshape1d.height = I.shape1d.height)
    (hw : I.dshape1d.width = I.shape1d.width) (he : e < I.NE) (he' : e < NE')
    (hvd : vd < I.vdim) (hD : ∀ k, k < I.shape1d.width → D' e k = I.Dtensor e k) :
    FrameContract SegState.offset SegState.U I.NE I.vdim I.shape1d.height e vd
      (fun V => I.MultSegUnit V e)
      (fun V => ({ I with NE := NE', Dtensor := D' } : PADiffusionIntegrator R).MultSegUnit V e)
      I.MultSeg ({ I with NE := NE', Dtensor := D' } : PADiffusionIntegrator R).MultSeg :=
  frame_of_units SegState.offset SegState.U I.shape1d.height I.NE NE' I.vdim e vd
    (fun V e s => I.MultSegUnit V e s)
    (fun V e s => ({ I with NE := NE', Dtensor := D' } : PADiffusionIntegrator R).MultSegUnit
      V e s)
    (fun U => { offset := 0, Q := fun _ => 0, U := U })
    (fun V e o p => Dense.seg I.dshape1d.height I.dshape1d.width I.dshape1d.get (I.Dtensor e)
      (fun j => V (o + j)) (p - o))
    (fun V e o p => Dense.seg I.dshape1d.height I.dshape1d.width I.dshape1d.get (D' e)
      (fun j => V (o + j)) (p - o))
    (fun _ => rfl) (fun _ => rfl) (fun _ _ _ => rfl) (fun _ _ _ => rfl)
    (fun V e s p => by rw [← hh]; exact I.MultSegUnit_U_diff V e s hw p)
    (fun V e s p => by
      rw [← hh]
      exact ({ I with NE := NE', Dtensor := D' } : PADiffusionIntegrator R).MultSegUnit_U_diff
        V e s hw p)
    (fun V V' o p hV hlo hhi => Dense.seg_congr _ _ _ _ _ _ _ _
      (fun k hk => (hD k (hw ▸ hk)).symm)
      (fun j hj => hV (o + j) (by omega) (by rw [hh] at hj; omega)))
    he he' hvd

lemma PAMassIntegrator.MultSeg_frame_mass (I : PAMassIntegrator R) (NE' : Nat)
    (D' : DenseMatrix R) (e vd : Nat) (he : e < I.NE) (he' : e < NE') (hvd : vd < I.vdim)
    (hD : ∀ k, k < I.shape1d.width → D'.get k e = I.Dmat.get k e) :
    FrameContract SegState.offset SegState.U I.NE I.vdim I.shape1d.height e vd
      (fun V => I.MultSegUnit V e)
      (fun V => ({ I with NE := NE', Dmat := D' } : PAMassIntegrator R).MultSegUnit V e)
      I.MultSeg ({ I with NE := NE', Dmat := D' } : PAMassIntegrator R).MultSeg :=
  frame_of_units SegState.offset SegState.U I.shape1d.height I.NE NE' I.vdim e vd
    (fun V e s => I.MultSegUnit V e s)
    (fun V e s => ({ I with NE := NE', Dmat := D' } : PAMassIntegrator R).MultSegUnit V e s)
    (fun U => { offset := 0, Q := fun _ => 0, U := U })
    (fun V e o p => Dense.seg I.shape1d.height I.shape1d.width I.shape1d.get
      (fun k => I.Dmat.get k e) (fun j => V (o + j)) (p - o))
    (fun V e o p => Dense.seg I.shape1d.height I.shape1d.width I.shape1d.get
      (fun k => D'.get k e) (fun j => V (o + j)) (p - o))
    (fun _ => rfl) (fun _ => rfl) (fun _ _ _ => rfl) (fun _ _ _ => rfl)
    (fun V e s p => I.MultSegUnit_U_mass V e s p)
    (fun V e s p =>
      ({ I with NE := NE', Dmat := D' } : PAMassIntegrator R).MultSegUnit_U_mass V e s p)
    (fun V V' o p hV hlo hhi => Dense.seg_congr _ _ _ _ _ _ _ _
      (fun k hk => (hD k hk).symm)
      (fun j hj => hV (o + j) (by omega) (by omega)))
    he he' hvd

lemma PADiffusionIntegrator.MultQuad_frame_diff (I : PADiffusionIntegrator R) (NE' : Nat)
    (D' : Nat → Nat → R) (e vd : Nat) (hh : I.dshape1d.height = I.shape1d.height)
    (hw : I.dshape1d.width = I.shape1d.width) (hd : I.dofs = I.shape1d.height ^ 2)
    (hq : I.quads = I.shape1d.width ^ 2) (he : e < I.NE) (he' : e < NE') (hvd : vd < I.vdim)
    (hD : ∀ p, p < 3 * I.quads → D' e p = I.Dtensor e p) :
    FrameContract QuadState.offset QuadState.U I.NE I.vdim I.dofs e vd
      (fun V => I.MultQuadUnit V e)
      (fun V => ({ I with NE := NE', Dtensor := D' } : PADiffusionIntegrator R).MultQuadUnit
        V e)
      I.MultQuad ({ I with NE := NE', Dtensor := D' } : PADiffusionIntegrator R).MultQuad := by
  rw [sq_eq] at hd hq
  have hk3 : ∀ k c, c < 3 → k < I.shape1d.width * I.shape1d.width → 3 * k + c < 3 * I.quads := by
    intro k c hc hk
    rw [hq]
    omega
  exact frame_of_units QuadState.offset QuadState.U I.dofs I.NE NE' I.vdim e vd
    (fun V e s => I.MultQuadUnit V e s)
    (fun V e s => ({ I with NE := NE', Dtensor := D' } : PADiffusionIntegrator R).MultQuadUnit
      V e s)
    (fun U => { offset := 0, QQ := fun _ => 0, DQ := fun _ => 0, U := U })
    (fun V e o p => Dense.diffusionQuad I.shape1d.height I.shape1d.width I.shape1d.get
      I.dshape1d.get (fun k => I.Dtensor e (3 * k + 0)) (fun k => I.Dtensor e (3 * k + 1))
      (fun k => I.Dtensor e (3 * k + 2))
      (fun j1 j2 => V (o + (j1 + j2 * I.shape1d.height)))
      ((p - o) % I.shape1d.height) ((p - o) / I.shape1d.height))
    (fun V e o p => Dense.diffusionQuad I.shape1d.height I.shape1d.width I.shape1d.get
      I.dshape1d.get (fun k => D' e (3 * k + 0)) (fun k => D' e (3 * k + 1))
      (fun k => D' e (3 * k + 2))
      (fun j1 j2 => V (o + (j1 + j2 * I.shape1d.height)))
      ((p - o) % I.shape1d.height) ((p - o) / I.shape1d.height))
    (fun _ => rfl) (fun _ => rfl) (fun _ _ _ => rfl) (fun _ _ _ => rfl)
    (fun V e s p => by rw [hd]; exact I.MultQuadUnit_U_diff V e s hh hw hq p)
    (fun V e s p => by
      rw [hd]
      exact ({ I with NE := NE', Dtensor := D' } : PADiffusionIntegrator R).MultQuadUnit_U_diff
        V e s hh hw hq p)
    (fun V V' o p hV hlo hhi => Dense.diffusionQuad_congr _ _ _ _ _ _ _ _ _ _ _ _ _ _
      (fun k hk => (hD _ (hk3 k 0 (by omega) hk)).symm)
      (fun k hk => (hD _ (hk3 k 1 (by omega) hk)).symm)
      (fun k hk => (hD _ (hk3 k 2 (by omega) hk)).symm)
      (fun j1 j2 h1 h2 => hV _ (by omega) (by
        have := flat_lt _ _ j1 j2 h1 h2
        rw [hd]
        omega)))
    he he' hvd

lemma PAMassIntegrator.MultQuad_frame_mass (I : PAMassIntegrator R) (NE' : Nat)
    (D' : DenseMatrix R) (e vd : Nat) (hd : I.dofs = I.shape1d.height ^ 2)
    (hq : I.quads = I.shape1d.width ^ 2) (he : e < I.NE) (he' : e < NE') (hvd : vd < I.vdim)
    (hD : ∀ k, k < I.quads → D'.get k e = I.Dmat.get k e) :
    FrameContract QuadState.offset QuadState.U I.NE I.vdim I.dofs e vd
      (fun V => I.MultQuadUnit V e)
      (fun V => ({ I with NE := NE', Dmat := D' } : PAMassIntegrator R).MultQuadUnit V e)
      I.MultQuad ({ I with NE := NE', Dmat := D' } : PAMassIntegrator R).MultQuad := by
  rw [sq_eq] at hd hq
  exact frame_of_units QuadState.offset QuadState.U I.dofs I.NE NE' I.vdim e vd
    (fun V e s => I.MultQuadUnit V e s)
    (fun V e s => ({ I with NE := NE', Dmat := D' } : PAMassIntegrator R).MultQuadUnit V e s)
    (fun U => { offset := 0, QQ := fun _ => 0, DQ := fun _ => 0, U := U })
    (fun V e o p => Dense.massQuad I.shape1d.height I.shape1d.width I.shape1d.get
      (fun k => I.Dmat.get k e) (fun j1 j2 => V (o + (j1 + j2 * I.shape1d.height)))
      ((p - o) % I.shape1d.height) ((p - o) / I.shape1d.height))
    (fun V e o p => Dense.massQuad I.shape1d.height I.shape1d.width I.shape1d.get
      (fun k => D'.get k e) (fun j1 j2 => V (o + (j1 + j2 * I.shape1d.height)))
      ((p - o) % I.shape1d.height) ((p - o) / I.shape1d.height))
    (fun _ => rfl) (fun _ => rfl) (fun _ _ _ => rfl) (fun _ _ _ => rfl)
    (fun V e s p => by rw [hd]; exact I.MultQuadUnit_U_mass V e s hq p)
    (fun V e s p => by
      rw [hd]
      exact ({ I with NE := NE', Dmat := D' } : PAMassIntegrator R).MultQuadUnit_U_mass
        V e s hq p)
    (fun V V' o p hV hlo hhi => Dense.massQuad_congr _ _ _ _ _ _ _ _ _
      (fun k hk => (hD k (hq ▸ hk)).symm)
      (fun j1 j2 h1 h2 => hV _ (by omega) (by
        have := flat_lt _ _ j1 j2 h1 h2
        rw [hd]
        omega)))
    he he' hvd

lemma PADiffusionIntegrator.MultHex_frame_diff (I : PADiffusionIntegrator R) (NE' : Nat)
    (D' : Nat → Nat → R) (e vd : Nat) (hdq : I.shape1d.height ≤ I.shape1d.width)
    (hd : I.dofs = I.shape1d.height ^ 3) (hq : I.quads = I.shape1d.width ^ 3)
    (he : e < I.NE) (he' : e < NE') (hvd : vd < I.vdim)
    (hD : ∀ p, p < 6 * I.quads → D' e p = I.Dtensor e p) :
    FrameContract HexState.offset HexState.U I.NE I.vdim I.dofs e vd
      (fun V => I.MultHexUnit V e)
      (fun V => ({ I with NE := NE', Dtensor := D' } : PADiffusionIntegrator R).MultHexUnit
        V e)
      I.MultHex ({ I with NE := NE', Dtensor := D' } : PADiffusionIntegrator R).MultHex := by
  rw [cube_eq] at hd hq
  exact frame_of_units HexState.offset HexState.U I.dofs I.NE NE' I.vdim e vd
    (fun V e s => I.MultHexUnit V e s)
    (fun V e s => ({ I with NE := NE', Dtensor := D' } : PADiffusionIntegrator R).MultHexUnit
      V e s)
    (fun U => { offset := 0, Q := fun _ => 0, QQ := fun _ => 0, QQQ := fun _ => 0, U := U })
    (fun V e o p => Dense.diffusionHex I.shape1d.height I.shape1d.width I.shape1d.get
      I.dshape1d.get (fun l k => I.Dtensor e (6 * k + l))
      (fun j1 j2 j3 => V (o + (j1 + I.shape1d.height * (j2 + I.shape1d.height * j3))))
      ((p - o) % I.shape1d.height) ((p - o) / I.shape1d.height % I.shape1d.height)
      ((p - o) / I.shape1d.height / I.shape1d.height))
    (fun V e o p => Dense.diffusionHex I.shape1d.height I.shape1d.width I.shape1d.get
      I.dshape1d.get (fun l k => D' e (6 * k + l))
      (fun j1 j2 j3 => V (o + (j1 + I.shape1d.height * (j2 + I.shape1d.height * j3))))
      ((p - o) % I.shape1d.height) ((p - o) / I.shape1d.height % I.shape1d.height)
      ((p - o) / I.shape1d.height / I.shape1d.height))
    (fun _ => rfl) (fun _ => rfl)
    (fun V e s => I.MultHexUnit_offset_diff V e s hdq hq)
    (fun V e s =>
      ({ I with NE := NE', Dtensor := D' } : PADiffusionIntegrator R).MultHexUnit_offset_diff
        V e s hdq hq)
    (fun V e s p => by rw [hd]; exact I.MultHexUnit_U_diff V e s hdq hq p)
    (fun V e s p => by
      rw [hd]
      exact ({ I with NE := NE', Dtensor := D' } : PADiffusionIntegrator R).MultHexUnit_U_diff
        V e s hdq hq p)
    (fun V V' o p hV hlo hhi => Dense.diffusionHex_congr _ _ _ _ _ _ _ _ _ _ _
      (fun l k hl hk => (hD _ (by rw [hq]; omega)).symm)
      (fun j1 j2 j3 h1 h2 h3 => hV _ (by omega) (by
        have := flat_lt3 _ j1 j2 j3 h1 h2 h3
        rw [hd]
        omega)))
    he he' hvd

lemma PAMassIntegrator.MultHex_frame_mass (I : PAMassIntegrator R) (NE' : Nat)
    (D' : DenseMatrix R) (e vd : Nat) (hdq : I.shape1d.height ≤ I.shape1d.width)
    (hd : I.dofs = I.shape1d.height ^ 3) (hq : I.quads = I.shape1d.width ^ 3)
    (he : e < I.NE) (he' : e < NE') (hvd : vd < I.vdim)
    (hD : ∀ k, k < I.quads → D'.get k e = I.Dmat.get k e) :
    FrameContract HexState.offset HexState.U I.NE I.vdim I.dofs e vd
      (fun V => I.MultHexUnit V e)
      (fun V => ({ I with NE := NE', Dmat := D' } : PAMassIntegrator R).MultHexUnit V e)
      I.MultHex ({ I with NE := NE', Dmat := D' } : PAMassIntegrator R).MultHex := by
  rw [cube_eq] at hd hq
  exact frame_of_units HexState.offset HexState.U I.dofs I.NE NE' I.vdim e vd
    (fun V e s => I.MultHexUnit V e s)
    (fun V e s => ({ I with NE := NE', Dmat := D' } : PAMassIntegrator R).MultHexUnit V e s)
    (fun U => { offset := 0, Q := fun _ => 0, QQ := fun _ => 0, QQQ := fun _ => 0, U := U })
    (fun V e o p => Dense.massHex I.shape1d.height I.shape1d.width I.shape1d.get
      (fun k => I.Dmat.get k e)
      (fun j1 j2 j3 => V (o + (j1 + I.shape1d.height * (j2 + I.shape1d.height * j3))))
      ((p - o) % I.shape1d.height) ((p - o) / I.shape1d.height % I.shape1d.height)
      ((p - o) / I.shape1d.height / I.shape1d.height))
    (fun V e o p => Dense.massHex I.shape1d.height I.shape1d.width I.shape1d.get
      (fun k => D'.get k e)
      (fun j1 j2 j3 => V (o + (j1 + I.shape1d.height * (j2 + I.shape1d.height * j3))))
      ((p - o) % I.shape1d.height) ((p - o) / I.shape1d.height % I.shape1d.height)
      ((p - o) / I.shape1d.height / I.shape1d.height))
    (fun _ => rfl) (fun _ => rfl)
    (fun V e s => I.MultHexUnit_offset_mass V e s hdq)
    (fun V e s =>
      ({ I with NE := NE', Dmat := D' } : PAMassIntegrator R).MultHexUnit_offset_mass V e s hdq)
    (fun V e s p => by rw [hd]; exact I.MultHexUnit_U_mass V e s hdq hq p)
    (fun V e s p => by
      rw [hd]
      exact ({ I with NE := NE', Dmat := D' } : PAMassIntegrator R).MultHexUnit_U_mass
        V e s hdq hq p)
    (fun V V' o p hV hlo hhi => Dense.massHex_congr _ _ _ _ _ _ _ _ _ _
      (fun k hk => (hD k (hq ▸ hk)).symm)
      (fun j1 j2 j3 h1 h2 h3 => hV _ (by omega) (by
        have := flat_lt3 _ j1 j2 j3 h1 h2 h3
        rw [hd]
        omega)))
    he he' hvd

end KernelFrames

section WrapLemmas

/-- A counted loop is the left fold of its body over `0, 1, ..., n-1`. -/
lemma forLoop_eq_foldl {σ : Type} (n : Nat) (body : Nat → σ → σ) (s : σ) :
    forLoop n body s = (List.range n).foldl (fun s k => body k s) s := by
  induction n with
  | zero => rfl
  | succ m ih =>
    rw [forLoop_succ, ih, List.range_succ, List.foldl_append, List.foldl_cons, List.foldl_nil]

end WrapLemmas

section MassConstant
variable {R : Type} [CommRing R]

/-- The 2D mass operator on the constant field 1, for a table whose columns sum to one. -/
lemma Dense.massQuad_one (d q : Nat) (shape : Nat → Nat → R) (D : Nat → R) (i1 i2 : Nat)
    (hcol : ∀ k, k < q → ∑ j in range d, shape j k = 1) :
    Dense.massQuad d q shape D (fun _ _ => 1) i1 i2 =
      ∑ k1 in range q, ∑ k2 in range q, shape i1 k1 * shape i2 k2 * D (k1 + q * k2) := by
  unfold Dense.massQuad
  apply Finset.sum_congr rfl
  intro k1 hk1
  apply Finset.sum_congr rfl
  intro k2 hk2
  have h : ∑ j1 in range d, ∑ j2 in range d, 1 * shape j1 k1 * shape j2 k2 =
      (∑ j1 in range d, shape j1 k1) * ∑ j2 in range d, shape j2 k2 := by
    rw [Finset.sum_mul_sum]
    apply Finset.sum_congr rfl
    intro j1 _
    apply Finset.sum_congr rfl
    intro j2 _
    ring
  rw [h, hcol k1 (Finset.mem_range.1 hk1), hcol k2 (Finset.mem_range.1 hk2)]
  ring

end MassConstant

section BlockLemmas

/-- The search loop over non-decreasing offsets: started at a block whose offset is at most
`iglobal`, with `iglobal` below the last offset, it stops at a block that contains `iglobal`. -/
lemma BlockMatrix.scanBlocks_spec (offsets : Nat → Int) (iglobal : Int) (n : Nat) :
    ∀ (left iblock : Nat), iblock + left = n → offsets iblock ≤ iglobal →
      iglobal < offsets n →
      BlockMatrix.scanBlocks offsets iglobal left iblock < n ∧
      offsets (BlockMatrix.scanBlocks offsets iglobal left iblock) ≤ iglobal ∧
      iglobal < offsets (BlockMatrix.scanBlocks offsets iglobal left iblock + 1) := by
  intro left
  induction left with
  | zero =>
    intro iblock hn hlo hhi
    simp only [Nat.add_zero] at hn
    subst hn
    omega
  | succ l ih =>
    intro iblock hn hlo hhi
    unfold BlockMatrix.scanBlocks
    by_cases hc : offsets (iblock + 1) > iglobal
    · rw [if_pos hc]
      exact ⟨by omega, hlo, hc⟩
    · rw [if_neg hc]
      exact ih (iblock + 1) (by omega) (by omega) hhi

/-- Over non-decreasing offsets at most one block contains a given index. -/
lemma BlockMatrix.block_unique (offsets : Nat → Int) (n : Nat)
    (hmono : ∀ b, b < n → offsets b ≤ offsets (b + 1)) (iglobal : Int) (a b : Nat)
    (ha : a < n) (hb : b < n) (ha1 : offsets a ≤ iglobal) (ha2 : iglobal < offsets (a + 1))
    (hb1 : offsets b ≤ iglobal) (hb2 : iglobal < offsets (b + 1)) : a = b := by
  have hle : ∀ (t x : Nat), x + t ≤ n → offsets x ≤ offsets (x + t) := by
    intro t
    induction t with
    | zero => intro x _; exact le_refl _
    | succ t ih =>
      intro x hx
      have h1 := ih x (by omega)
      have h2 := hmono (x + t) (by omega)
      rw [← Nat.add_assoc]
      exact le_trans h1 h2
  rcases Nat.lt_trichotomy a b with h | h | h
  · exfalso
    have := hle (b - (a + 1)) (a + 1) (by omega)
    rw [show a + 1 + (b - (a + 1)) = b by omega] at this
    omega
  · exact h
  · exfalso
    have := hle (a - (b + 1)) (b + 1) (by omega)
    rw [show b + 1 + (a - (b + 1)) = a by omega] at this
    omega

end BlockLemmas

section SlotLemmas

variable {K : Type} [Field K]

/-- With no coefficient, the entry that `ComputePA` stores in the slot of the pair `j ≤ i` at
point `k` of element `e` is the entry `(i, j)` of the point matrix `mat`, whatever the scratch
content `m` the matrix is computed over. -/
lemma PADiffusionIntegrator.ComputePA_entry (I : PADiffusionIntegrator K) (fe : FiniteElement)
    (basis1d : Poly_1D.Basis K) (IntRules : Int → IntegrationRule K) (ir_order : Int)
    (ipw : Nat → K) (Tr : Nat → Nat → ElementTransformation K) (tdata0 m : Nat → K)
    (e k i j : Nat) (he : e < I.NE) (hk : k < I.quads)
    (hh : (Tr e k).AdjugateJacobian.height = fe.GetDim)
    (hw : (Tr e k).AdjugateJacobian.width = fe.GetDim) (hji : j ≤ i) (hi : i < fe.GetDim) :
    (I.ComputePA fe basis1d IntRules ir_order ipw Tr none none tdata0).Dtensor e
        (packIndex fe.GetDim i j + k * (fe.GetDim * (fe.GetDim + 1) / 2)) =
      (PADiffusionIntegrator.pointMat fe.GetDim (ipw k) (Tr e k) m).get i j := by
  rw [PADiffusionIntegrator.ComputePA_Dtensor_get,
    PADiffusionIntegrator.ComputeDtensor_get I fe ipw Tr none none tdata0 e k i j he hk hh hw
      hji hi,
    PADiffusionIntegrator.pointMat_get fe.GetDim (ipw k) (Tr e k) m hh hw i j hi
      (lt_of_le_of_lt hji hi)]

/-- The three slots of a point in 2D hold `mat(0,0)`, `mat(1,0)`, `mat(1,1)`. -/
lemma PADiffusionIntegrator.ComputePA_slots2 (I : PADiffusionIntegrator K) (fe : FiniteElement)
    (basis1d : Poly_1D.Basis K) (IntRules : Int → IntegrationRule K) (ir_order : Int)
    (ipw : Nat → K) (Tr : Nat → Nat → ElementTransformation K) (tdata0 m : Nat → K)
    (e k : Nat) (he : e < I.NE) (hk : k < I.quads) (hdim : fe.GetDim = 2)
    (hh : (Tr e k).AdjugateJacobian.height = fe.GetDim)
    (hw : (Tr e k).AdjugateJacobian.width = fe.GetDim) :
    (I.ComputePA fe basis1d IntRules ir_order ipw Tr none none tdata0).Dtensor e (3 * k + 0) =
      (PADiffusionIntegrator.pointMat 2 (ipw k) (Tr e k) m).get 0 0 ∧
    (I.ComputePA fe basis1d IntRules ir_order ipw Tr none none tdata0).Dtensor e (3 * k + 1) =
      (PADiffusionIntegrator.pointMat 2 (ipw k) (Tr e k) m).get 1 0 ∧
    (I.ComputePA fe basis1d IntRules ir_order ipw Tr none none tdata0).Dtensor e (3 * k + 2) =
      (PADiffusionIntegrator.pointMat 2 (ipw k) (Tr e k) m).get 1 1 := by
  have h := fun i j (hji : j ≤ i) (hi : i < fe.GetDim) =>
    PADiffusionIntegrator.ComputePA_entry I fe basis1d IntRules ir_order ipw Tr tdata0 m e k i j
      he hk hh hw hji hi
  rw [hdim] at h
  have e0 : packIndex 2 0 0 + k * (2 * (2 + 1) / 2) = 3 * k + 0 := by
    rw [show packIndex 2 0 0 = 0 by decide]; omega
  have e1 : packIndex 2 1 0 + k * (2 * (2 + 1) / 2) = 3 * k + 1 := by
    rw [show packIndex 2 1 0 = 1 by decide]; omega
  have e2 : packIndex 2 1 1 + k * (2 * (2 + 1) / 2) = 3 * k + 2 := by
    rw [show packIndex 2 1 1 = 2 by decide]; omega
  have h0 := h 0 0 (by omega) (by omega)
  have h1 := h 1 0 (by omega) (by omega)
  have h2 := h 1 1 (by omega) (by omega)
  rw [e0] at h0
  rw [e1] at h1
  rw [e2] at h2
  exact ⟨h0, h1, h2⟩

/-- The six slots of a point in 3D hold `mat(0,0)`, `mat(1,0)`, `mat(2,0)`, `mat(1,1)`,
`mat(2,1)`, `mat(2,2)`. -/
lemma PADiffusionIntegrator.ComputePA_slots3 (I : PADiffusionIntegrator K) (fe : FiniteElement)
    (basis1d : Poly_1D.Basis K) (IntRules : Int → IntegrationRule K) (ir_order : Int)
    (ipw : Nat → K) (Tr : Nat → Nat → ElementTransformation K) (tdata0 m : Nat → K)
    (e k : Nat) (he : e < I.NE) (hk : k < I.quads) (hdim : fe.GetDim = 3)
    (hh : (Tr e k).AdjugateJacobian.height = fe.GetDim)
    (hw : (Tr e k).AdjugateJacobian.width = fe.GetDim) :
    (I.ComputePA fe basis1d IntRules ir_order ipw Tr none none tdata0).Dtensor e (6 * k + 0) =
      (PADiffusionIntegrator.pointMat 3 (ipw k) (Tr e k) m).get 0 0 ∧
    (I.ComputePA fe basis1d IntRules ir_order ipw Tr none none tdata0).Dtensor e (6 * k + 1) =
      (PADiffusionIntegrator.pointMat 3 (ipw k) (Tr e k) m).get 1 0 ∧
    (I.ComputePA fe basis1d IntRules ir_order ipw Tr none none tdata0).Dtensor e (6 * k + 2) =
      (PADiffusionIntegrator.pointMat 3 (ipw k) (Tr e k) m).get 2 0 ∧
    (I.ComputePA fe basis1d IntRules ir_order ipw Tr none none tdata0).Dtensor e (6 * k + 3) =
      (PADiffusionIntegrator.pointMat 3 (ipw k) (Tr e k) m).get 1 1 ∧
    (I.ComputePA fe basis1d IntRules ir_order ipw Tr none none tdata0).Dtensor e (6 * k + 4) =
      (PADiffusionIntegrator.pointMat 3 (ipw k) (Tr e k) m).get 2 1 ∧
    (I.ComputePA fe basis1d IntRules ir_order ipw Tr none none tdata0).Dtensor e (6 * k + 5) =
      (PADiffusionIntegrator.pointMat 3 (ipw k) (Tr e k) m).get 2 2 := by
  have h := fun i j (hji : j ≤ i) (hi : i < fe.GetDim) =>
    PADiffusionIntegrator.ComputePA_entry I fe basis1d IntRules ir_order ipw Tr tdata0 m e k i j
      he hk hh hw hji hi
  rw [hdim] at h
  have e0 : packIndex 3 0 0 + k * (3 * (3 + 1) / 2) = 6 * k + 0 := by
    rw [show packIndex 3 0 0 = 0 by decide]; omega
  have e1 : packIndex 3 1 0 + k * (3 * (3 + 1) / 2) = 6 * k + 1 := by
    rw [show packIndex 3 1 0 = 1 by decide]; omega
  have e2 : packIndex 3 2 0 + k * (3 * (3 + 1) / 2) = 6 * k + 2 := by
    rw [show packIndex 3 2 0 = 2 by decide]; omega
  have e3 : packIndex 3 1 1 + k * (3 * (3 + 1) / 2) = 6 * k + 3 := by
    rw [show packIndex 3 1 1 = 3 by decide]; omega
  have e4 : packIndex 3 2 1 + k * (3 * (3 + 1) / 2) = 6 * k + 4 := by
    rw [show packIndex 3 2 1 = 4 by decide]; omega
  have e5 : packIndex 3 2 2 + k * (3 * (3 + 1) / 2) = 6 * k + 5 := by
    rw [show packIndex 3 2 2 = 5 by decide]; omega
  have h0 := h 0 0 (by omega) (by omega)
  have h1 := h 1 0 (by omega) (by omega)
  have h2 := h 2 0 (by omega) (by omega)
  have h3 := h 1 1 (by omega) (by omega)
  have h4 := h 2 1 (by omega) (by omega)
  have h5 := h 2 2 (by omega) (by omega)
  rw [e0] at h0
  rw [e1] at h1
  rw [e2] at h2
  rw [e3] at h3
  rw [e4] at h4
  rw [e5] at h5
  exact ⟨h0, h1, h2, h3, h4, h5⟩

end SlotLemmas

section ExtentLemmas

variable {R : Type}

/-- A loop whose body adds the constant `c` adds `n * c`. -/
lemma forLoop_count (n c s : Nat) : forLoop n (fun _ x => x + c) s = s + n * c := by
  induction n with
  | zero => simp [forLoop]
  | succ m ih => rw [forLoop_succ, ih]; ring

/-- The operation count of one unit of the 3D diffusion kernel in closed form. -/
lemma PADiffusionIntegrator.MultHexUnitOps_closed (I : PADiffusionIntegrator R) :
    I.MultHexUnitOps =
      5 * I.shape1d.height ^ 3 * I.shape1d.width +
        6 * I.shape1d.height ^ 2 * I.shape1d.width ^ 2 +
        6 * I.shape1d.height * I.shape1d.width ^ 3 + 9 * I.quads := by
  unfold PADiffusionIntegrator.MultHexUnitOps
  simp only [forLoop_count, Nat.add_assoc]
  ring

end ExtentLemmas

section LSolveLemmas

variable {R : Type} [CommRing R]

@[simp] lemma pivotPerm_zero (ipiv : Nat → Nat) (r : Nat) : pivotPerm 0 ipiv r = r := rfl

lemma pivotPerm_succ (n : Nat) (ipiv : Nat → Nat) (r : Nat) :
    pivotPerm (n + 1) ipiv r =
      pivotPerm n ipiv (if r = n then ipiv n else if r = ipiv n then n else r) := rfl

/-- The permutation of the first `n` interchanges reads `ipiv` below `n` only. -/
lemma pivotPerm_congr (n : Nat) (ipiv ipiv' : Nat → Nat) (h : ∀ i, i < n → ipiv i = ipiv' i)
    (r : Nat) : pivotPerm n ipiv r = pivotPerm n ipiv' r := by
  induction n generalizing r with
  | zero => rfl
  | succ k ih =>
    rw [pivotPerm_succ, pivotPerm_succ, h k (Nat.lt_succ_self k)]
    exact ih (fun i hi => h i (Nat.lt_succ_of_lt hi)) _

/-- With pivots below `m`, the interchanges map rows below `m` to rows below `m`. -/
lemma pivotPerm_lt (m n : Nat) (ipiv : Nat → Nat) (hn : n ≤ m) (h : ∀ i, i < n → ipiv i < m)
    (r : Nat) (hr : r < m) : pivotPerm n ipiv r < m := by
  induction n generalizing r with
  | zero => exact hr
  | succ k ih =>
    rw [pivotPerm_succ]
    apply ih (by omega) (fun i hi => h i (Nat.lt_succ_of_lt hi))
    have := h k (Nat.lt_succ_self k)
    split_ifs <;> omega

/-- With pivots below `m`, the interchanges fix every row from `m` on. -/
lemma pivotPerm_ge (m n : Nat) (ipiv : Nat → Nat) (hn : n ≤ m) (h : ∀ i, i < n → ipiv i < m)
    (r : Nat) (hr : m ≤ r) : pivotPerm n ipiv r = r := by
  induction n with
  | zero => rfl
  | succ k ih =>
    have := h k (Nat.lt_succ_self k)
    rw [pivotPerm_succ, if_neg (by omega), if_neg (by omega)]
    exact ih (by omega) (fun i hi => h i (Nat.lt_succ_of_lt hi))

/-- The interchanges form an injective map of the rows. -/
lemma pivotPerm_inj (n : Nat) (ipiv : Nat → Nat) (r r' : Nat)
    (h : pivotPerm n ipiv r = pivotPerm n ipiv r') : r = r' := by
  induction n generalizing r r' with
  | zero => exact h
  | succ k ih =>
    rw [pivotPerm_succ, pivotPerm_succ] at h
    have := ih _ _ h
    split_ifs at this <;> omega

omit [CommRing R] in
/-- The interchange loop of `kLSolve`: entry `r` of the column holds the old entry
`pivotPerm m ipiv r`, and nothing before the column changes. -/
lemma kLSolveSwaps_spec (m : Nat) (ipiv : Nat → Nat) (base : Nat) (x : Nat → R) :
    (∀ r, kLSolveSwaps m ipiv base x (base + r) = x (base + pivotPerm m ipiv r)) ∧
    (∀ p, p < base → kLSolveSwaps m ipiv base x p = x p) := by
  induction m with
  | zero => exact ⟨fun r => rfl, fun p _ => rfl⟩
  | succ n ih =>
    obtain ⟨ih1, ih2⟩ := ih
    unfold kLSolveSwaps at ih1 ih2 ⊢
    constructor
    · intro r
      rw [forLoop_succ, pivotPerm_succ]
      simp only [setAt_apply]
      by_cases h1 : r = ipiv n
      · rw [if_pos (by omega), ih1]
        by_cases h2 : r = n
        · rw [if_pos h2, ← h1, h2]
        · rw [if_neg h2, if_pos h1]
      · rw [if_neg (by omega)]
        by_cases h2 : r = n
        · rw [if_pos (by omega), ih1, if_pos h2]
        · rw [if_neg (by omega), ih1, if_neg h2, if_neg h1]
    · intro p hp
      rw [forLoop_succ]
      simp only [setAt_apply]
      rw [if_neg (by omega), if_neg (by omega)]
      exact ih2 p hp

/-- The inner loop of the forward substitution: `mx[i] -= data[i+j*m] * c` for the first `n`
indices `i` after `j`. -/
lemma kLSolve_inner (m j base : Nat) (data : Nat → R) (c : R) (n : Nat) (x : Nat → R)
    (p : Nat) :
    forLoop n (fun t x =>
      let i := j + 1 + t
      setAt x (base + i) (x (base + i) - data (i + j * m) * c)) x p =
      if base + j + 1 ≤ p ∧ p < base + j + 1 + n then x p - data (p - base + j * m) * c
      else x p := by
  induction n generalizing p with
  | zero => rw [forLoop_zero, if_neg (by omega)]
  | succ k ih =>
    rw [forLoop_succ]
    dsimp only at ih ⊢
    rw [setAt_apply]
    by_cases hp : p = base + (j + 1 + k)
    · rw [if_pos hp, if_pos (by omega), ih, if_neg (by omega), hp,
        show base + (j + 1 + k) - base = j + 1 + k by omega]
    · rw [if_neg hp, ih]
      by_cases h2 : base + j + 1 ≤ p ∧ p < base + j + 1 + k
      · rw [if_pos h2, if_pos (by omega)]
      · rw [if_neg h2, if_neg (by omega)]

/-- The forward substitution of `kLSolve` on one column: the new column `y` satisfies
`y(r) + ∑ c < r, data(r,c)·y(c) = x(r)`, and nothing outside the column changes. -/
lemma kLSolveForward_spec (m : Nat) (data : Nat → R) (base : Nat) (x : Nat → R) :
    (∀ r, r < m → kLSolveForward m data base x (base + r) +
        ∑ c in range r, data (r + c * m) * kLSolveForward m data base x (base + c) =
      x (base + r)) ∧
    (∀ p, p < base ∨ base + m ≤ p → kLSolveForward m data base x p = x p) := by
  unfold kLSolveForward
  have key := forLoop_ind
    (fun j (y : Nat → R) =>
      (∀ r, r < m → y (base + r) + ∑ c in range (min j r), data (r + c * m) * y (base + c) =
        x (base + r)) ∧
      (∀ p, p < base ∨ base + m ≤ p → y p = x p))
    m (fun j x =>
      let mx_j := x (base + j)
      forLoop (m - (j + 1)) (fun t x =>
        let i := j + 1 + t
        setAt x (base + i) (x (base + i) - data (i + j * m) * mx_j)) x) x
    ⟨fun r _ => by simp, fun p _ => rfl⟩
    (by
      intro j y hj ⟨h1, h2⟩
      dsimp only
      have hin := kLSolve_inner m j base data (y (base + j)) (m - (j + 1)) y
      constructor
      · intro r hr
        by_cases hrj : r ≤ j
        · rw [hin, if_neg (by omega), show min (j + 1) r = min j r by omega, ← h1 r hr]
          congr 1
          apply Finset.sum_congr rfl
          intro c hc
          rw [Finset.mem_range] at hc
          rw [hin, if_neg (by omega)]
        · rw [hin, if_pos (by omega), show min (j + 1) r = j + 1 by omega,
            Finset.sum_range_succ, hin, if_neg (by omega), ← h1 r hr,
            show min j r = j by omega, show base + r - base = r by omega]
          have hs : ∑ c in range j, data (r + c * m) *
              (forLoop (m - (j + 1)) (fun t x =>
                let i := j + 1 + t
                setAt x (base + i) (x (base + i) - data (i + j * m) * y (base + j))) y)
                (base + c) = ∑ c in range j, data (r + c * m) * y (base + c) := by
            apply Finset.sum_congr rfl
            intro c hc
            rw [Finset.mem_range] at hc
            rw [hin, if_neg (by omega)]
          rw [hs]
          ring
      · intro p hp
        rw [hin, if_neg (by omega)]
        exact h2 p hp)
  obtain ⟨k1, k2⟩ := key
  refine ⟨fun r hr => ?_, k2⟩
  have := k1 r hr
  rw [show min m r = r by omega] at this
  exact this

/-- Row `r` of the product of the unit lower triangular factor with a column. -/
lemma unitLower_mulVec (m : Nat) (data y : Nat → R) (r : Nat) (hr : r < m) :
    ∑ c in range m, unitLower m data r c * y c =
      y r + ∑ c in range r, data (r + c * m) * y c := by
  have h : ∀ n, ∑ c in range n, unitLower m data r c * y c =
      (if r < n then y r else 0) + ∑ c in range (min n r), data (r + c * m) * y c := by
    intro n
    induction n with
    | zero => simp
    | succ k ih =>
      rw [Finset.sum_range_succ, ih]
      unfold unitLower
      by_cases h1 : k < r
      · rw [if_pos h1, if_neg (by omega), if_neg (by omega), show min (k + 1) r = k + 1 by omega,
          show min k r = k by omega, Finset.sum_range_succ]
        ring
      · by_cases h2 : k = r
        · subst h2
          rw [if_neg h1, if_pos rfl, if_neg (by omega), if_pos (by omega),
            show min (k + 1) k = min k k by omega]
          ring
        · rw [if_neg h1, if_neg h2, if_pos (by omega), if_pos (by omega),
            show min (k + 1) r = min k r by omega]
          ring
  rw [h m, if_pos hr, show min m r = r by omega]

/-- The whole kernel `kLSolve`, column by column. -/
lemma kLSolve_spec (m n : Nat) (data : Nat → R) (ipiv : Nat → Nat) (x : Nat → R)
    (hpiv : ∀ i, i < m → ipiv i < m) :
    (∀ k, k < n → ∀ r, r < m →
      kLSolve m n data ipiv x (k * m + r) +
          ∑ c in range r, data (r + c * m) * kLSolve m n data ipiv x (k * m + c) =
        x (k * m + pivotPerm m ipiv r)) ∧
    (∀ p, n * m ≤ p → kLSolve m n data ipiv x p = x p) := by
  unfold kLSolve MFEM_FORALL
  induction n with
  | zero => exact ⟨fun k hk => by omega, fun p _ => rfl⟩
  | succ n ih =>
    obtain ⟨ih1, ih2⟩ := ih
    rw [forLoop_succ]
    dsimp only
    generalize forLoop n (fun k x =>
      let mx := k * m
      let x := kLSolveSwaps m ipiv mx x
      kLSolveForward m data mx x) x = xn at ih1 ih2 ⊢
    obtain ⟨f1, f2⟩ := kLSolveForward_spec m data (n * m) (kLSolveSwaps m ipiv (n * m) xn)
    obtain ⟨s1, s2⟩ := kLSolveSwaps_spec m ipiv (n * m) xn
    have hout : ∀ p, p < n * m ∨ (n + 1) * m ≤ p →
        kLSolveForward m data (n * m) (kLSolveSwaps m ipiv (n * m) xn) p = xn p := by
      intro p hp
      rw [f2 p (by rw [add_one_mul] at hp; omega)]
      rcases hp with hp | hp
      · exact s2 p hp
      · rw [add_one_mul] at hp
        have := s1 (p - n * m)
        rw [pivotPerm_ge m m ipiv (le_refl _) hpiv _ (by omega),
          show n * m + (p - n * m) = p by omega] at this
        exact this
    constructor
    · intro k hk r hr
      by_cases hkn : k = n
      · subst hkn
        rw [f1 r hr, s1, ih2 _ (by omega)]
      · have hlt : k < n := by omega
        have hb : (k + 1) * m ≤ n * m := Nat.mul_le_mul_right m hlt
        rw [add_one_mul] at hb
        rw [hout _ (by omega), ← ih1 k hlt r hr]
        congr 1
        apply Finset.sum_congr rfl
        intro c hc
        rw [Finset.mem_range] at hc
        rw [hout _ (by omega)]
    · intro p hp
      rw [hout p (Or.inr hp)]
      exact ih2 p (by rw [add_one_mul] at hp; omega)

end LSolveLemmas

section FactorLemmas

variable {K : Type} [LinearOrderedField K]

/-- Column-major indices `r + c*m` with `r < m` determine `r` and `c`. -/
lemma flat_eq (m r c r' c' : Nat) (hr : r < m) (hr' : r' < m) :
    r + c * m = r' + c' * m ↔ r = r' ∧ c = c' := by
  rw [Nat.mul_comm c m, Nat.mul_comm c' m]
  exact flat_inj m r r' c c' hr hr'

/-- The pivot found at step `i < m` is a row from `i` to `m-1`. -/
lemma kFactorPivot_range (m i : Nat) (data : Nat → K) (hi : i < m) :
    i ≤ (kFactorPivot m i data).2 ∧ (kFactorPivot m i data).2 < m := by
  unfold kFactorPivot
  apply forLoop_inv (fun (ap : K × Nat) => i ≤ ap.2 ∧ ap.2 < m)
  · intro t ap ht hap
    dsimp only
    split_ifs
    · exact ⟨by omega, by omega⟩
    · exact hap
  · exact ⟨le_refl _, hi⟩

omit [LinearOrderedField K] in
/-- The row interchange of `kFactor`: row `r` of the result is row `r` of the argument with
`i` and `piv` exchanged. -/
lemma kFactorSwap_get (m i piv : Nat) (data : Nat → K) (hi : i < m) (hp : piv < m)
    (r c : Nat) (hr : r < m) (hc : c < m) :
    kFactorSwap m i piv data (r + c * m) =
      data ((if r = i then piv else if r = piv then i else r) + c * m) := by
  unfold kFactorSwap
  by_cases hpi : piv = i
  · rw [if_neg (by simpa using hpi)]
    subst hpi
    split_ifs <;> simp_all
  · rw [if_pos hpi]
    have key := forLoop_ind
      (fun t (d : Nat → K) => ∀ r c, r < m → c < m →
        d (r + c * m) = if c < t then
          data ((if r = i then piv else if r = piv then i else r) + c * m)
          else data (r + c * m))
      m (fun j data =>
        let tmp := data (i + j * m)
        let data := setAt data (i + j * m) (data (piv + j * m))
        setAt data (piv + j * m) tmp) data
      (fun r c _ _ => by rw [if_neg (by omega)])
      (by
        intro j d hj hd r c hr hc
        dsimp only
        rw [setAt_apply, setAt_apply]
        simp only [flat_eq m r c piv j hr hp, flat_eq m r c i j hr hi]
        rw [hd i j hi hj, hd piv j hp hj, hd r c hr hc]
        simp only [lt_irrefl, if_false]
        by_cases hcj : c = j
        · subst hcj
          simp only [and_true, Nat.lt_succ_self, if_true, lt_irrefl, if_false]
          split_ifs <;> first | rfl | (exfalso; omega)
        · simp only [hcj, and_false, if_false, show (c < j + 1) ↔ c < j from by omega])
    rw [key r c hr hc, if_pos hc]

/-- The scaling loop of the elimination, entry by entry. -/
lemma kFactor_scale_get (m i : Nat) (v : K) (n : Nat) (hn : i + 1 + n ≤ m) (data : Nat → K)
    (r c : Nat) (hr : r < m) :
    forLoop n (fun t data =>
      let j := i + 1 + t
      mulAt data (j + i * m) v) data (r + c * m) =
      if i < r ∧ r < i + 1 + n ∧ c = i then data (r + c * m) * v else data (r + c * m) := by
  induction n with
  | zero => rw [forLoop_zero, if_neg (by omega)]
  | succ k ih =>
    rw [forLoop_succ]
    dsimp only at ih ⊢
    rw [mulAt_apply]
    simp only [flat_eq m r c (i + 1 + k) i hr (by omega)]
    rw [ih (by omega)]
    split_ifs <;> first | rfl | (exfalso; omega)

/-- The inner loop of the trailing update for column `k`, entry by entry; the multiplier
column `i ≠ k` is not written. -/
lemma kFactor_inner_get (m i k : Nat) (a : K) (hik : i ≠ k) (n : Nat) (hn : i + 1 + n ≤ m)
    (data : Nat → K) (r c : Nat) (hr : r < m) :
    forLoop n (fun t data =>
      let j := i + 1 + t
      setAt data (j + k * m) (data (j + k * m) - a * data (j + i * m))) data (r + c * m) =
      if i < r ∧ r < i + 1 + n ∧ c = k then data (r + c * m) - a * data (r + i * m)
      else data (r + c * m) := by
  induction n generalizing r c with
  | zero => rw [forLoop_zero, if_neg (by omega)]
  | succ t ih =>
    rw [forLoop_succ]
    dsimp only at ih ⊢
    rw [setAt_apply]
    simp only [flat_eq m r c (i + 1 + t) k hr (by omega)]
    rw [ih (by omega) r c hr,
      ih (by omega) (i + 1 + t) k (by omega), ih (by omega) (i + 1 + t) i (by omega),
      if_neg (show ¬ (i < i + 1 + t ∧ i + 1 + t < i + 1 + t ∧ k = k) by omega),
      if_neg (show ¬ (i < i + 1 + t ∧ i + 1 + t < i + 1 + t ∧ i = k) by omega)]
    by_cases h1 : r = i + 1 + t ∧ c = k
    · obtain ⟨rfl, rfl⟩ := h1
      rw [if_pos ⟨rfl, rfl⟩, if_pos ⟨by omega, by omega, rfl⟩]
    · rw [if_neg h1]
      split_ifs <;> first | rfl | (exfalso; omega)

/-- The trailing update of the elimination, entry by entry. -/
lemma kFactor_update_get (m i : Nat) (n : Nat) (hn : i + 1 + n ≤ m) (data : Nat → K)
    (r c : Nat) (hr : r < m) :
    forLoop n (fun t data =>
      let k := i + 1 + t
      let a_ik := data (i + k * m)
      forLoop (m - (i + 1)) (fun t data =>
        let j := i + 1 + t
        setAt data (j + k * m) (data (j + k * m) - a_ik * data (j + i * m))) data) data
        (r + c * m) =
      if i < r ∧ i < c ∧ c < i + 1 + n then
        data (r + c * m) - data (i + c * m) * data (r + i * m)
      else data (r + c * m) := by
  induction n generalizing r c with
  | zero => rw [forLoop_zero, if_neg (by omega)]
  | succ t ih =>
    rw [forLoop_succ]
    dsimp only at ih ⊢
    rw [kFactor_inner_get m i (i + 1 + t) _ (by omega) (m - (i + 1)) (by omega) _ r c hr,
      ih (by omega) r c hr, ih (by omega) i (i + 1 + t) (by omega), ih (by omega) r i hr,
      if_neg (show ¬ (i < i ∧ i < i + 1 + t ∧ i + 1 + t < i + 1 + t) by omega),
      if_neg (show ¬ (i < r ∧ i < i ∧ i < i + 1 + t) by omega)]
    by_cases h1 : i < r ∧ r < i + 1 + (m - (i + 1)) ∧ c = i + 1 + t
    · obtain ⟨h1, h2, rfl⟩ := h1
      rw [if_pos ⟨h1, h2, rfl⟩, if_neg (show ¬ (i < r ∧ i < i + 1 + t ∧ i + 1 + t < i + 1 + t)
        by omega), if_pos ⟨h1, by omega, by omega⟩]
    · rw [if_neg h1]
      split_ifs <;> first | rfl | (exfalso; omega)

/-- The elimination of step `i`, entry by entry: the multipliers below the diagonal of column
`i`, the updated trailing block, everything else unchanged. -/
lemma kFactorEliminate_get (m i : Nat) (data : Nat → K) (hi : i < m) (r c : Nat) (hr : r < m) :
    kFactorEliminate m i data (r + c * m) =
      if i < r ∧ c = i then data (r + i * m) * (1 / data (i + i * m))
      else if i < r ∧ i < c ∧ c < m then
        data (r + c * m) - data (i + c * m) * (data (r + i * m) * (1 / data (i + i * m)))
      else data (r + c * m) := by
  unfold kFactorEliminate
  dsimp only
  rw [kFactor_update_get m i (m - (i + 1)) (by omega) _ r c hr]
  have hs := fun r c (hr : r < m) =>
    kFactor_scale_get m i (1 / data (i + i * m)) (m - (i + 1)) (by omega) data r c hr
  dsimp only at hs
  rw [hs r c hr, hs i c hi, hs r i hr,
    if_neg (show ¬ (i < i ∧ i < i + 1 + (m - (i + 1)) ∧ c = i) by omega)]
  by_cases h1 : i < r ∧ c = i
  · obtain ⟨h1, h2⟩ := h1
    rw [h2, if_pos (show i < r ∧ i = i from ⟨h1, rfl⟩),
      if_neg (show ¬ (i < r ∧ i < i ∧ i < i + 1 + (m - (i + 1))) by omega),
      if_pos (show i < r ∧ r < i + 1 + (m - (i + 1)) ∧ i = i by omega)]
  · rw [if_neg h1]
    by_cases h2 : i < r ∧ i < c ∧ c < m
    · rw [if_pos h2, if_pos (show i < r ∧ i < c ∧ c < i + 1 + (m - (i + 1)) by omega),
        if_neg (show ¬ (i < r ∧ r < i + 1 + (m - (i + 1)) ∧ c = i) by omega),
        if_pos (show i < r ∧ r < i + 1 + (m - (i + 1)) ∧ i = i by omega)]
    · rw [if_neg h2, if_neg (show ¬ (i < r ∧ i < c ∧ c < i + 1 + (m - (i + 1))) by omega),
        if_neg (show ¬ (i < r ∧ r < i + 1 + (m - (i + 1)) ∧ c = i) by omega)]

end FactorLemmas

section FactorInvariant

variable {K : Type} [LinearOrderedField K]

/-- One step of `kFactor` with a non-zero pivot returns a state and re-establishes the
invariant; it records a pivot row between `n` and `m-1` and keeps the earlier pivots. -/
lemma kFactorStep_inv (m n : Nat) (A : Nat → K) (s : LUState K) (hn : n < m)
    (hinv : LUInvariant m A n s) (hd : kFactorDiag m n s ≠ 0) :
    ∃ s', kFactorStep m n s = some s' ∧ LUInvariant m A (n + 1) s' ∧
      (∀ i, i < n → s'.ipiv i = s.ipiv i) ∧ n ≤ s'.ipiv n ∧ s'.ipiv n < m := by
  obtain ⟨hp1, hp2⟩ := kFactorPivot_range m n s.data hn
  unfold kFactorDiag at hd
  unfold kFactorStep
  dsimp only
  rw [if_neg hd]
  generalize (kFactorPivot m n s.data).2 = piv at hp1 hp2 hd ⊢
  refine ⟨_, rfl, ?_, fun i hi => by simp only [setAt_apply]; rw [if_neg (by omega)],
    (show n ≤ setAt s.ipiv n piv n by
      rw [show setAt s.ipiv n piv n = piv from if_pos rfl]; exact hp1),
    (show setAt s.ipiv n piv n < m by
      rw [show setAt s.ipiv n piv n = piv from if_pos rfl]; exact hp2)⟩
  -- the state after the interchange
  have hsw := fun r c (hr : r < m) (hc : c < m) =>
    kFactorSwap_get m n piv s.data hn hp2 r c hr hc
  generalize kFactorSwap m n piv s.data = D at hd hsw ⊢
  have hel := fun r c (hr : r < m) => kFactorEliminate_get m n D hn r c hr
  generalize kFactorEliminate m n D = E at hel ⊢
  -- the invariant for the interchanged rows
  have hmid : ∀ r c, r < m → c < m →
      A (pivotPerm (n + 1) (setAt s.ipiv n piv) r + c * m) =
        ∑ j in range (min (min n r) (c + 1)), D (r + j * m) * D (j + c * m) +
          (if min n r ≤ c then D (r + c * m) else 0) := by
    intro r c hr hc
    have hσ : (if r = n then piv else if r = piv then n else r) < m := by
      split_ifs <;> omega
    have hmin : min n (if r = n then piv else if r = piv then n else r) = min n r := by
      split_ifs <;> omega
    rw [pivotPerm_succ, show setAt s.ipiv n piv n = piv from if_pos rfl,
      pivotPerm_congr n (setAt s.ipiv n piv) s.ipiv
        (fun i hi => by simp only [setAt_apply]; rw [if_neg (by omega)]),
      hinv _ c hσ hc, hmin, hsw r c hr hc]
    congr 1
    apply Finset.sum_congr rfl
    intro j hj
    rw [Finset.mem_range, lt_min_iff, lt_min_iff] at hj
    rw [hsw r j hr (by omega), hsw j c (by omega) hc, if_neg (show ¬ j = n by omega),
      if_neg (show ¬ j = piv by omega)]
  intro r c hr hc
  show A (pivotPerm (n + 1) (setAt s.ipiv n piv) r + c * m) =
    ∑ j in range (min (min (n + 1) r) (c + 1)), E (r + j * m) * E (j + c * m) +
      (if min (n + 1) r ≤ c then E (r + c * m) else 0)
  rw [hmid r c hr hc]
  by_cases hrn : r ≤ n
  · -- rows up to `n` are final
    rw [show min (n + 1) r = min n r by omega, hel r c hr,
      if_neg (show ¬ (n < r ∧ c = n) by omega),
      if_neg (show ¬ (n < r ∧ n < c ∧ c < m) by omega)]
    congr 1
    apply Finset.sum_congr rfl
    intro j hj
    rw [Finset.mem_range, lt_min_iff, lt_min_iff] at hj
    rw [hel r j hr, hel j c (by omega), if_neg (show ¬ (n < r ∧ j = n) by omega),
      if_neg (show ¬ (n < r ∧ n < j ∧ j < m) by omega),
      if_neg (show ¬ (n < j ∧ c = n) by omega),
      if_neg (show ¬ (n < j ∧ n < c ∧ c < m) by omega)]
  · have hrn' : n < r := by omega
    have hsum : ∀ k, k ≤ n →
        ∑ j in range k, E (r + j * m) * E (j + c * m) =
          ∑ j in range k, D (r + j * m) * D (j + c * m) := by
      intro k hk
      apply Finset.sum_congr rfl
      intro j hj
      rw [Finset.mem_range] at hj
      rw [hel r j hr, hel j c (by omega), if_neg (show ¬ (n < r ∧ j = n) by omega),
        if_neg (show ¬ (n < r ∧ n < j ∧ j < m) by omega),
        if_neg (show ¬ (n < j ∧ c = n) by omega),
        if_neg (show ¬ (n < j ∧ n < c ∧ c < m) by omega)]
    rw [show min n r = n by omega, show min (n + 1) r = n + 1 by omega]
    rcases Nat.lt_trichotomy c n with hcn | hcn | hcn
    · rw [show min n (c + 1) = c + 1 by omega, show min (n + 1) (c + 1) = c + 1 by omega,
        hsum (c + 1) (by omega), if_neg (by omega), if_neg (by omega)]
    · subst hcn
      rw [show min c (c + 1) = c by omega, show min (c + 1) (c + 1) = c + 1 by omega,
        Finset.sum_range_succ, hsum c (le_refl _), if_pos (le_refl _), if_neg (by omega),
        hel r c hr, if_pos ⟨hrn', rfl⟩, hel c c hc,
        if_neg (show ¬ (c < c ∧ c = c) by omega),
        if_neg (show ¬ (c < c ∧ c < c ∧ c < m) by omega)]
      field_simp
    · rw [show min n (c + 1) = n by omega, show min (n + 1) (c + 1) = n + 1 by omega,
        Finset.sum_range_succ, hsum n (le_refl _), if_pos (by omega), if_pos (by omega),
        hel r c hr, if_neg (show ¬ (n < r ∧ c = n) by omega),
        if_pos (show n < r ∧ n < c ∧ c < m by omega), hel r n hr, if_pos ⟨hrn', rfl⟩,
        hel n c hn, if_neg (show ¬ (n < n ∧ c = n) by omega),
        if_neg (show ¬ (n < n ∧ n < c ∧ c < m) by omega)]
      ring

/-- The invariant before the first step. -/
lemma LUInvariant_zero (m : Nat) (A : Nat → K) (ipiv : Nat → Nat) :
    LUInvariant m A 0 ⟨ipiv, A⟩ := by
  intro r c _ _
  simp

/-- A run of `n ≤ m` steps whose pivots are all non-zero returns a state that satisfies the
invariant, with recorded pivots `i ≤ ipiv[i] < m`. -/
lemma kFactorSteps_inv (m : Nat) (A : Nat → K) (ipiv : Nat → Nat) (n : Nat) (hn : n ≤ m)
    (hpiv : ∀ i, i < n → ∀ s, kFactorSteps m i ⟨ipiv, A⟩ = some s → kFactorDiag m i s ≠ 0) :
    ∃ s, kFactorSteps m n ⟨ipiv, A⟩ = some s ∧ LUInvariant m A n s ∧
      ∀ i, i < n → i ≤ s.ipiv i ∧ s.ipiv i < m := by
  induction n with
  | zero => exact ⟨⟨ipiv, A⟩, rfl, LUInvariant_zero m A ipiv, fun i hi => by omega⟩
  | succ k ih =>
    obtain ⟨s, hs, hinv, hrange⟩ := ih (by omega) (fun i hi => hpiv i (Nat.lt_succ_of_lt hi))
    obtain ⟨s', hs', hinv', hkeep, h1, h2⟩ :=
      kFactorStep_inv m k A s (by omega) hinv (hpiv k (Nat.lt_succ_self k) s hs)
    refine ⟨s', ?_, hinv', ?_⟩
    · unfold kFactorSteps MFEM_FORALL at hs ⊢
      rw [forLoop_succ, hs]
      exact hs'
    · intro i hi
      by_cases hik : i = k
      · subst hik; exact ⟨h1, h2⟩
      · rw [hkeep i (by omega)]
        exact hrange i (by omega)

/-- At the end of the run the invariant is the factorisation `L · U = P · A`. -/
lemma LUInvariant_final (m : Nat) (A : Nat → K) (s : LUState K) (h : LUInvariant m A m s)
    (r c : Nat) (hr : r < m) (hc : c < m) :
    ∑ j in range m, unitLower m s.data r j * upperPart m s.data j c =
      A (pivotPerm m s.ipiv r + c * m) := by
  have e1 : ∀ k, ∑ j in range k, s.data (r + j * m) * upperPart m s.data j c =
      ∑ j in range (min k (c + 1)), s.data (r + j * m) * s.data (j + c * m) := by
    intro k
    induction k with
    | zero => simp
    | succ k ih =>
      rw [Finset.sum_range_succ, ih]
      unfold upperPart
      by_cases hkc : k ≤ c
      · rw [if_pos hkc, show min (k + 1) (c + 1) = k + 1 by omega,
          show min k (c + 1) = k by omega, Finset.sum_range_succ]
      · rw [if_neg hkc, mul_zero, add_zero, show min (k + 1) (c + 1) = min k (c + 1) by omega]
  rw [h r c hr hc, unitLower_mulVec m s.data (fun j => upperPart m s.data j c) r hr, e1 r,
    show min m r = r by omega, add_comm]
  rfl

end FactorInvariant

section SumLemmas

variable {R : Type} [CommRing R]

/-- A sum over the `n*m` flat indices `a + n*b` as a double sum. -/
lemma sum_range_flat (n m : Nat) (f : Nat → R) :
    ∑ p in range (n * m), f p = ∑ b in range m, ∑ a in range n, f (a + n * b) := by
  induction m with
  | zero => simp
  | succ k ih =>
    rw [Nat.mul_succ, Finset.sum_range_add, ih, Finset.sum_range_succ]
    congr 1
    apply Finset.sum_congr rfl
    intro a _
    rw [Nat.add_comm]

/-- A sum over the `d³` flat indices `i1 + d*(i2 + d*i3)` as a triple sum. -/
lemma sum_range_flat3 (d : Nat) (f : Nat → R) :
    ∑ p in range (d * d * d), f p =
      ∑ i3 in range d, ∑ i2 in range d, ∑ i1 in range d, f (i1 + d * (i2 + d * i3)) := by
  rw [Nat.mul_assoc, sum_range_flat d (d * d), sum_range_flat d d]

/-- A sum over an E-vector of `NE*vdim` slices of length `dofs`, slice by slice. -/
lemma sum_range_units (NE vdim dofs : Nat) (f : Nat → R) :
    ∑ p in range (NE * vdim * dofs), f p =
      ∑ e in range NE, ∑ vd in range vdim, ∑ i in range dofs,
        f ((e * vdim + vd) * dofs + i) := by
  rw [Nat.mul_comm (NE * vdim) dofs, sum_range_flat dofs (NE * vdim), Nat.mul_comm NE vdim,
    sum_range_flat vdim NE]
  apply Finset.sum_congr rfl
  intro e _
  apply Finset.sum_congr rfl
  intro vd _
  apply Finset.sum_congr rfl
  intro i _
  congr 1
  ring

/-- The adjoint identity `⟨W, Gᵀ S⟩ = ⟨G W, S⟩` over finite index sets. -/
lemma sum_adjoint {ι κ : Type} (si : Finset ι) (sk : Finset κ) (G : ι → κ → R) (S : κ → R)
    (W : ι → R) :
    ∑ i in si, W i * ∑ k in sk, G i k * S k = ∑ k in sk, (∑ i in si, G i k * W i) * S k := by
  simp only [Finset.mul_sum, Finset.sum_mul]
  rw [Finset.sum_comm]
  apply Finset.sum_congr rfl
  intro k _
  apply Finset.sum_congr rfl
  intro i _
  ring

/-- The adjoint identity with double sums on both sides. -/
lemma sum_adjoint2 (d q : Nat) (G : Nat → Nat → Nat → Nat → R) (S : Nat → Nat → R)
    (W : Nat → Nat → R) :
    ∑ i2 in range d, ∑ i1 in range d, W i1 i2 *
        ∑ k1 in range q, ∑ k2 in range q, G i1 i2 k1 k2 * S k1 k2 =
      ∑ k1 in range q, ∑ k2 in range q,
        (∑ i1 in range d, ∑ i2 in range d, G i1 i2 k1 k2 * W i1 i2) * S k1 k2 := by
  have h := sum_adjoint (range d ×ˢ range d) (range q ×ˢ range q)
    (fun (i : Nat × Nat) (k : Nat × Nat) => G i.1 i.2 k.1 k.2) (fun k => S k.1 k.2)
    (fun i => W i.1 i.2)
  simp only [Finset.sum_product] at h
  rw [Finset.sum_comm]
  exact h

/-- The adjoint identity with triple sums on both sides. -/
lemma sum_adjoint3 (d q : Nat) (G : Nat → Nat → Nat → Nat → Nat → Nat → R)
    (S : Nat → Nat → Nat → R) (W : Nat → Nat → Nat → R) :
    ∑ i3 in range d, ∑ i2 in range d, ∑ i1 in range d, W i1 i2 i3 *
        ∑ k1 in range q, ∑ k2 in range q, ∑ k3 in range q, G i1 i2 i3 k1 k2 k3 * S k1 k2 k3 =
      ∑ k1 in range q, ∑ k2 in range q, ∑ k3 in range q,
        (∑ i1 in range d, ∑ i2 in range d, ∑ i3 in range d, G i1 i2 i3 k1 k2 k3 * W i1 i2 i3) *
          S k1 k2 k3 := by
  have h := sum_adjoint (range d ×ˢ range d ×ˢ range d) (range q ×ˢ range q ×ˢ range q)
    (fun (i : Nat × Nat × Nat) (k : Nat × Nat × Nat) => G i.1 i.2.1 i.2.2 k.1 k.2.1 k.2.2)
    (fun k => S k.1 k.2.1 k.2.2) (fun i => W i.1 i.2.1 i.2.2)
  simp only [Finset.sum_product] at h
  rw [sum_comm3]
  exact h

end SumLemmas

section HexAdjoint

variable {R : Type} [CommRing R]

/-- The backward contraction in the form `∑ k, G(i,k) * Q(k)`. -/
lemma contract3_back (n : Nat) (a : Nat → Nat → Nat → R) (b c e : Nat → R) :
    ∑ k3 in range n, e k3 * ∑ k2 in range n, (∑ k1 in range n, a k1 k2 k3 * b k1) * c k2 =
      ∑ k1 in range n, ∑ k2 in range n, ∑ k3 in range n, b k1 * c k2 * e k3 * a k1 k2 k3 := by
  rw [← contract3]
  apply Finset.sum_congr rfl
  intro k3 _
  rw [mul_comm]

/-- The increment that the backward pass of the 3D mass kernel adds at dof `(i1, i2, i3)`. -/
lemma PAMassIntegrator.hexBackward_incr_mass (I : PAMassIntegrator R) (s : HexState R)
    (hdq : I.shape1d.height ≤ I.shape1d.width) (i1 i2 i3 : Nat) (h1 : i1 < I.shape1d.height)
    (h2 : i2 < I.shape1d.height) (h3 : i3 < I.shape1d.height) :
    (I.hexBackward s).U (s.offset + (i1 + I.shape1d.height * (i2 + I.shape1d.height * i3))) -
        s.U (s.offset + (i1 + I.shape1d.height * (i2 + I.shape1d.height * i3))) =
      ∑ k1 in range I.shape1d.width, ∑ k2 in range I.shape1d.width,
        ∑ k3 in range I.shape1d.width,
          I.shape1d.get i1 k1 * I.shape1d.get i2 k2 * I.shape1d.get i3 k3 *
            s.QQQ (k1 + I.shape1d.width * (k2 + I.shape1d.width * k3)) := by
  rw [(I.hexBackward_spec_mass s hdq).2, add_sub_cancel_left]
  simp only [fun k3 => scatter3_in I.shape1d.height s.offset i1 i2 i3 h1 h2 h3
    (fun j1 j2 j3 => I.shape1d.get j3 k3 * ∑ k2 in range I.shape1d.width,
      (∑ k1 in range I.shape1d.width,
        s.QQQ (k1 + I.shape1d.width * (k2 + I.shape1d.width * k3)) * I.shape1d.get j1 k1) *
          I.shape1d.get j2 k2)]
  exact contract3_back I.shape1d.width
    (fun k1 k2 k3 => s.QQQ (k1 + I.shape1d.width * (k2 + I.shape1d.width * k3)))
    (fun k1 => I.shape1d.get i1 k1) (fun k2 => I.shape1d.get i2 k2)
    (fun k3 => I.shape1d.get i3 k3)

/-- The forward pass of the 3D mass kernel at point `(k1, k2, k3)`, as `∑ j, G(j,k) * V(j)`. -/
lemma PAMassIntegrator.hexForward_get_mass (I : PAMassIntegrator R) (V : Nat → R)
    (s : HexState R) (k1 k2 k3 : Nat) (h1 : k1 < I.shape1d.width) (h2 : k2 < I.shape1d.width)
    (h3 : k3 < I.shape1d.width) :
    (I.hexForward V s).QQQ (k1 + I.shape1d.width * (k2 + I.shape1d.width * k3)) =
      ∑ j1 in range I.shape1d.height, ∑ j2 in range I.shape1d.height,
        ∑ j3 in range I.shape1d.height,
          I.shape1d.get j1 k1 * I.shape1d.get j2 k2 * I.shape1d.get j3 k3 *
            V (s.offset + (j1 + I.shape1d.height * (j2 + I.shape1d.height * j3))) := by
  rw [(I.hexForward_spec_mass V s).2.2 k1 k2 k3 h1 h2 h3]
  exact contract3 I.shape1d.height
    (fun j1 j2 j3 => V (s.offset + (j1 + I.shape1d.height * (j2 + I.shape1d.height * j3))))
    (fun j1 => I.shape1d.get j1 k1) (fun j2 => I.shape1d.get j2 k2)
    (fun j3 => I.shape1d.get j3 k3)

/-- The backward pass of the 3D mass kernel is the adjoint of its forward pass. -/
lemma PAMassIntegrator.hex_adjoint_mass (I : PAMassIntegrator R) (V Q : Nat → R)
    (s : HexState R) (hdq : I.shape1d.height ≤ I.shape1d.width) :
    ∑ i in range (I.shape1d.height * I.shape1d.height * I.shape1d.height),
        ((I.hexBackward { s with QQQ := Q }).U (s.offset + i) - s.U (s.offset + i)) *
          V (s.offset + i) =
      ∑ k in range (I.shape1d.width * I.shape1d.width * I.shape1d.width),
        Q k * (I.hexForward V s).QQQ k := by
  rw [sum_range_flat3, sum_range_flat3]
  have hL : ∀ i3 ∈ range I.shape1d.height, ∀ i2 ∈ range I.shape1d.height,
      ∀ i1 ∈ range I.shape1d.height,
      ((I.hexBackward { s with QQQ := Q }).U
          (s.offset + (i1 + I.shape1d.height * (i2 + I.shape1d.height * i3))) -
        s.U (s.offset + (i1 + I.shape1d.height * (i2 + I.shape1d.height * i3)))) *
        V (s.offset + (i1 + I.shape1d.height * (i2 + I.shape1d.height * i3))) =
      V (s.offset + (i1 + I.shape1d.height * (i2 + I.shape1d.height * i3))) *
        ∑ k1 in range I.shape1d.width, ∑ k2 in range I.shape1d.width,
          ∑ k3 in range I.shape1d.width,
            I.shape1d.get i1 k1 * I.shape1d.get i2 k2 * I.shape1d.get i3 k3 *
              Q (k1 + I.shape1d.width * (k2 + I.shape1d.width * k3)) := by
    intro i3 h3 i2 h2 i1 h1
    rw [Finset.mem_range] at h1 h2 h3
    rw [← I.hexBackward_incr_mass { s with QQQ := Q } hdq i1 i2 i3 h1 h2 h3, mul_comm]
  rw [Finset.sum_congr rfl (fun i3 h3 => Finset.sum_congr rfl (fun i2 h2 =>
    Finset.sum_congr rfl (fun i1 h1 => hL i3 h3 i2 h2 i1 h1)))]
  rw [sum_adjoint3 I.shape1d.height I.shape1d.width
    (fun i1 i2 i3 k1 k2 k3 => I.shape1d.get i1 k1 * I.shape1d.get i2 k2 * I.shape1d.get i3 k3)
    (fun k1 k2 k3 => Q (k1 + I.shape1d.width * (k2 + I.shape1d.width * k3)))
    (fun i1 i2 i3 => V (s.offset + (i1 + I.shape1d.height * (i2 + I.shape1d.height * i3)))),
    sum_comm3]
  apply Finset.sum_congr rfl
  intro k3 h3
  apply Finset.sum_congr rfl
  intro k2 h2
  apply Finset.sum_congr rfl
  intro k1 h1
  rw [Finset.mem_range] at h1 h2 h3
  rw [I.hexForward_get_mass V s k1 k2 k3 h1 h2 h3, mul_comm]

end HexAdjoint

section HexAdjointDiff

variable {R : Type} [CommRing R]

/-- A sum over a fourth index pulled out of a triple sum. -/
lemma sum_pull3 (n m : Nat) (f : Nat → Nat → Nat → Nat → R) :
    ∑ a in range n, ∑ b in range n, ∑ c in range n, ∑ x in range m, f a b c x =
      ∑ x in range m, ∑ a in range n, ∑ b in range n, ∑ c in range n, f a b c x := by
  have h1 : ∀ a b, ∑ c in range n, ∑ x in range m, f a b c x =
      ∑ x in range m, ∑ c in range n, f a b c x := fun a b => Finset.sum_comm
  have h2 : ∀ a, ∑ b in range n, ∑ x in range m, ∑ c in range n, f a b c x =
      ∑ x in range m, ∑ b in range n, ∑ c in range n, f a b c x := fun a => Finset.sum_comm
  simp only [h1, h2]
  exact Finset.sum_comm

/-- The increment that the backward pass of the 3D diffusion kernel adds at dof
`(i1, i2, i3)`. -/
lemma PADiffusionIntegrator.hexBackward_incr_diff (I : PADiffusionIntegrator R)
    (s : HexState R) (hdq : I.shape1d.height ≤ I.shape1d.width) (i1 i2 i3 : Nat)
    (h1 : i1 < I.shape1d.height) (h2 : i2 < I.shape1d.height) (h3 : i3 < I.shape1d.height) :
    (I.hexBackward s).U (s.offset + (i1 + I.shape1d.height * (i2 + I.shape1d.height * i3))) -
        s.U (s.offset + (i1 + I.shape1d.height * (i2 + I.shape1d.height * i3))) =
      ∑ c in range 3, ∑ k1 in range I.shape1d.width, ∑ k2 in range I.shape1d.width,
        ∑ k3 in range I.shape1d.width,
          Dense.G3 I.shape1d.get I.dshape1d.get c i1 i2 i3 k1 k2 k3 *
            s.QQQ (c * I.quads + (k1 + I.shape1d.width * (k2 + I.shape1d.width * k3))) := by
  rw [(I.hexBackward_spec_diff s hdq).2, add_sub_cancel_left]
  simp only [fun k3 => scatter3_in I.shape1d.height s.offset i1 i2 i3 h1 h2 h3
    (fun j1 j2 j3 =>
      (∑ k2 in range I.shape1d.width, (∑ k1 in range I.shape1d.width,
        s.QQQ (0 * I.quads + (k1 + I.shape1d.width * (k2 + I.shape1d.width * k3))) *
          I.dshape1d.get j1 k1) * I.shape1d.get j2 k2) * I.shape1d.get j3 k3 +
      (∑ k2 in range I.shape1d.width, (∑ k1 in range I.shape1d.width,
        s.QQQ (1 * I.quads + (k1 + I.shape1d.width * (k2 + I.shape1d.width * k3))) *
          I.shape1d.get j1 k1) * I.dshape1d.get j2 k2) * I.shape1d.get j3 k3 +
      (∑ k2 in range I.shape1d.width, (∑ k1 in range I.shape1d.width,
        s.QQQ (2 * I.quads + (k1 + I.shape1d.width * (k2 + I.shape1d.width * k3))) *
          I.shape1d.get j1 k1) * I.shape1d.get j2 k2) * I.dshape1d.get j3 k3)]
  rw [Finset.sum_add_distrib, Finset.sum_add_distrib, sum_range_three,
    contract3 I.shape1d.width
      (fun k1 k2 k3 =>
        s.QQQ (0 * I.quads + (k1 + I.shape1d.width * (k2 + I.shape1d.width * k3))))
      (fun k1 => I.dshape1d.get i1 k1) (fun k2 => I.shape1d.get i2 k2)
      (fun k3 => I.shape1d.get i3 k3),
    contract3 I.shape1d.width
      (fun k1 k2 k3 =>
        s.QQQ (1 * I.quads + (k1 + I.shape1d.width * (k2 + I.shape1d.width * k3))))
      (fun k1 => I.shape1d.get i1 k1) (fun k2 => I.dshape1d.get i2 k2)
      (fun k3 => I.shape1d.get i3 k3),
    contract3 I.shape1d.width
      (fun k1 k2 k3 =>
        s.QQQ (2 * I.quads + (k1 + I.shape1d.width * (k2 + I.shape1d.width * k3))))
      (fun k1 => I.shape1d.get i1 k1) (fun k2 => I.shape1d.get i2 k2)
      (fun k3 => I.dshape1d.get i3 k3)]
  rfl

/-- The forward pass of the 3D diffusion kernel: tensor `c` at point `(k1, k2, k3)`, as
`∑ j, G_c(j,k) * V(j)`. -/
lemma PADiffusionIntegrator.hexForward_get_diff (I : PADiffusionIntegrator R) (V : Nat → R)
    (s : HexState R) (hq : I.quads = I.shape1d.width * I.shape1d.width * I.shape1d.width)
    (c k1 k2 k3 : Nat) (hc : c < 3) (h1 : k1 < I.shape1d.width) (h2 : k2 < I.shape1d.width)
    (h3 : k3 < I.shape1d.width) :
    (I.hexForward V s).QQQ
        (c * I.quads + (k1 + I.shape1d.width * (k2 + I.shape1d.width * k3))) =
      ∑ j1 in range I.shape1d.height, ∑ j2 in range I.shape1d.height,
        ∑ j3 in range I.shape1d.height,
          Dense.G3 I.shape1d.get I.dshape1d.get c j1 j2 j3 k1 k2 k3 *
            V (s.offset + (j1 + I.shape1d.height * (j2 + I.shape1d.height * j3))) := by
  obtain ⟨f0, f1, f2⟩ := (I.hexForward_spec_diff V s hq).2.2 k1 k2 k3 h1 h2 h3
  have e : ∀ c : Nat, c * I.quads + (k1 + I.shape1d.width * (k2 + I.shape1d.width * k3)) =
      k1 + I.shape1d.width * (k2 + I.shape1d.width * (k3 + I.shape1d.width * c)) := by
    intro c; rw [hq]; ring
  rw [e]
  have hc3 : c = 0 ∨ c = 1 ∨ c = 2 := by omega
  rcases hc3 with rfl | rfl | rfl
  · rw [f0]
    exact contract3 I.shape1d.height
      (fun j1 j2 j3 => V (s.offset + (j1 + I.shape1d.height * (j2 + I.shape1d.height * j3))))
      (fun j1 => I.dshape1d.get j1 k1) (fun j2 => I.shape1d.get j2 k2)
      (fun j3 => I.shape1d.get j3 k3)
  · rw [f1]
    exact contract3 I.shape1d.height
      (fun j1 j2 j3 => V (s.offset + (j1 + I.shape1d.height * (j2 + I.shape1d.height * j3))))
      (fun j1 => I.shape1d.get j1 k1) (fun j2 => I.dshape1d.get j2 k2)
      (fun j3 => I.shape1d.get j3 k3)
  · rw [f2]
    exact contract3 I.shape1d.height
      (fun j1 j2 j3 => V (s.offset + (j1 + I.shape1d.height * (j2 + I.shape1d.height * j3))))
      (fun j1 => I.shape1d.get j1 k1) (fun j2 => I.shape1d.get j2 k2)
      (fun j3 => I.dshape1d.get j3 k3)

/-- The backward pass of the 3D diffusion kernel is the adjoint of its forward pass. -/
lemma PADiffusionIntegrator.hex_adjoint_diff (I : PADiffusionIntegrator R) (V Q : Nat → R)
    (s : HexState R) (hdq : I.shape1d.height ≤ I.shape1d.width)
    (hq : I.quads = I.shape1d.width * I.shape1d.width * I.shape1d.width) :
    ∑ i in range (I.shape1d.height * I.shape1d.height * I.shape1d.height),
        ((I.hexBackward { s with QQQ := Q }).U (s.offset + i) - s.U (s.offset + i)) *
          V (s.offset + i) =
      ∑ c in range 3, ∑ k in range (I.shape1d.width * I.shape1d.width * I.shape1d.width),
        Q (c * I.quads + k) * (I.hexForward V s).QQQ (c * I.quads + k) := by
  rw [sum_range_flat3]
  have hL : ∀ i3 ∈ range I.shape1d.height, ∀ i2 ∈ range I.shape1d.height,
      ∀ i1 ∈ range I.shape1d.height,
      ((I.hexBackward { s with QQQ := Q }).U
          (s.offset + (i1 + I.shape1d.height * (i2 + I.shape1d.height * i3))) -
        s.U (s.offset + (i1 + I.shape1d.height * (i2 + I.shape1d.height * i3)))) *
        V (s.offset + (i1 + I.shape1d.height * (i2 + I.shape1d.height * i3))) =
      ∑ c in range 3, V (s.offset + (i1 + I.shape1d.height * (i2 + I.shape1d.height * i3))) *
        ∑ k1 in range I.shape1d.width, ∑ k2 in range I.shape1d.width,
          ∑ k3 in range I.shape1d.width,
            Dense.G3 I.shape1d.get I.dshape1d.get c i1 i2 i3 k1 k2 k3 *
              Q (c * I.quads + (k1 + I.shape1d.width * (k2 + I.shape1d.width * k3))) := by
    intro i3 h3 i2 h2 i1 h1
    rw [Finset.mem_range] at h1 h2 h3
    rw [← Finset.mul_sum, ← I.hexBackward_incr_diff { s with QQQ := Q } hdq i1 i2 i3 h1 h2 h3,
      mul_comm]
  rw [Finset.sum_congr rfl (fun i3 h3 => Finset.sum_congr rfl (fun i2 h2 =>
    Finset.sum_congr rfl (fun i1 h1 => hL i3 h3 i2 h2 i1 h1))),
    sum_pull3 I.shape1d.height 3
      (fun i3 i2 i1 c =>
        V (s.offset + (i1 + I.shape1d.height * (i2 + I.shape1d.height * i3))) *
        ∑ k1 in range I.shape1d.width, ∑ k2 in range I.shape1d.width,
          ∑ k3 in range I.shape1d.width,
            Dense.G3 I.shape1d.get I.dshape1d.get c i1 i2 i3 k1 k2 k3 *
              Q (c * I.quads + (k1 + I.shape1d.width * (k2 + I.shape1d.width * k3))))]
  apply Finset.sum_congr rfl
  intro c hc
  rw [Finset.mem_range] at hc
  rw [sum_range_flat3,
    sum_adjoint3 I.shape1d.height I.shape1d.width
      (fun i1 i2 i3 k1 k2 k3 => Dense.G3 I.shape1d.get I.dshape1d.get c i1 i2 i3 k1 k2 k3)
      (fun k1 k2 k3 =>
        Q (c * I.quads + (k1 + I.shape1d.width * (k2 + I.shape1d.width * k3))))
      (fun i1 i2 i3 => V (s.offset + (i1 + I.shape1d.height * (i2 + I.shape1d.height * i3)))),
    sum_comm3]
  apply Finset.sum_congr rfl
  intro k3 h3
  apply Finset.sum_congr rfl
  intro k2 h2
  apply Finset.sum_congr rfl
  intro k1 h1
  rw [Finset.mem_range] at h1 h2 h3
  rw [I.hexForward_get_diff V s hq c k1 k2 k3 hc h1 h2 h3, mul_comm]

end HexAdjointDiff

namespace Dense

section PairLemmas

variable {R : Type} [CommRing R]

/-- The bilinear form of the 1D operator: `⟨W, T·diag(D)·Tᵀ·V⟩ = ∑ k, D(k)·g_W(k)·g_V(k)`. -/
lemma seg_pair (d q : Nat) (T : Nat → Nat → R) (D V W : Nat → R) :
    ∑ i in range d, W i * seg d q T D V i =
      ∑ k in range q, D k * gSeg d T W k * gSeg d T V k := by
  have e : ∀ i, seg d q T D V i = ∑ k in range q, T i k * (D k * gSeg d T V k) := by
    intro i
    unfold seg gSeg
    apply Finset.sum_congr rfl
    intro k _
    ring
  simp only [e]
  rw [sum_adjoint (range d) (range q) T (fun k => D k * gSeg d T V k) W]
  apply Finset.sum_congr rfl
  intro k _
  unfold gSeg
  ring

/-- The bilinear form of the 2D mass operator. -/
lemma massQuad_pair (d q : Nat) (shape : Nat → Nat → R) (D : Nat → R) (V W : Nat → Nat → R) :
    ∑ i2 in range d, ∑ i1 in range d, W i1 i2 * massQuad d q shape D V i1 i2 =
      ∑ k1 in range q, ∑ k2 in range q,
        D (k1 + q * k2) * gQuad d shape shape W k1 k2 * gQuad d shape shape V k1 k2 := by
  have e : ∀ i1 i2, massQuad d q shape D V i1 i2 = ∑ k1 in range q, ∑ k2 in range q,
      (shape i1 k1 * shape i2 k2) * (D (k1 + q * k2) * gQuad d shape shape V k1 k2) := by
    intro i1 i2
    unfold massQuad gQuad
    apply Finset.sum_congr rfl
    intro k1 _
    apply Finset.sum_congr rfl
    intro k2 _
    ring
  simp only [e]
  rw [sum_adjoint2 d q (fun i1 i2 k1 k2 => shape i1 k1 * shape i2 k2)
    (fun k1 k2 => D (k1 + q * k2) * gQuad d shape shape V k1 k2) W]
  apply Finset.sum_congr rfl
  intro k1 _
  apply Finset.sum_congr rfl
  intro k2 _
  have g : ∑ i1 in range d, ∑ i2 in range d, shape i1 k1 * shape i2 k2 * W i1 i2 =
      gQuad d shape shape W k1 k2 := by
    unfold gQuad
    apply Finset.sum_congr rfl
    intro i1 _
    apply Finset.sum_congr rfl
    intro i2 _
    ring
  rw [g]
  ring

/-- The bilinear form of the 3D mass operator. -/
lemma massHex_pair (d q : Nat) (shape : Nat → Nat → R) (D : Nat → R)
    (V W : Nat → Nat → Nat → R) :
    ∑ i3 in range d, ∑ i2 in range d, ∑ i1 in range d,
        W i1 i2 i3 * massHex d q shape D V i1 i2 i3 =
      ∑ k1 in range q, ∑ k2 in range q, ∑ k3 in range q,
        D (k1 + q * (k2 + q * k3)) * gHex d shape W k1 k2 k3 * gHex d shape V k1 k2 k3 := by
  have e : ∀ i1 i2 i3, massHex d q shape D V i1 i2 i3 =
      ∑ k1 in range q, ∑ k2 in range q, ∑ k3 in range q,
        (shape i1 k1 * shape i2 k2 * shape i3 k3) *
          (D (k1 + q * (k2 + q * k3)) * gHex d shape V k1 k2 k3) := by
    intro i1 i2 i3
    unfold massHex gHex
    apply Finset.sum_congr rfl
    intro k1 _
    apply Finset.sum_congr rfl
    intro k2 _
    apply Finset.sum_congr rfl
    intro k3 _
    ring
  simp only [e]
  rw [sum_adjoint3 d q (fun i1 i2 i3 k1 k2 k3 => shape i1 k1 * shape i2 k2 * shape i3 k3)
    (fun k1 k2 k3 => D (k1 + q * (k2 + q * k3)) * gHex d shape V k1 k2 k3) W]
  apply Finset.sum_congr rfl
  intro k1 _
  apply Finset.sum_congr rfl
  intro k2 _
  apply Finset.sum_congr rfl
  intro k3 _
  have g : ∑ i1 in range d, ∑ i2 in range d, ∑ i3 in range d,
      shape i1 k1 * shape i2 k2 * shape i3 k3 * W i1 i2 i3 = gHex d shape W k1 k2 k3 := by
    unfold gHex
    apply Finset.sum_congr rfl
    intro i1 _
    apply Finset.sum_congr rfl
    intro i2 _
    apply Finset.sum_congr rfl
    intro i3 _
    ring
  rw [g]
  ring

/-- The bilinear form of the 2D diffusion operator:
`∑ k, g0_W·(D00·g0_V + D01·g1_V) + g1_W·(D01·g0_V + D11·g1_V)`. -/
lemma diffusionQuad_pair (d q : Nat) (shape dshape : Nat → Nat → R) (D00 D01 D11 : Nat → R)
    (V W : Nat → Nat → R) :
    ∑ i2 in range d, ∑ i1 in range d,
        W i1 i2 * diffusionQuad d q shape dshape D00 D01 D11 V i1 i2 =
      ∑ k1 in range q, ∑ k2 in range q,
        (gQuad d dshape shape W k1 k2 *
            (D00 (k1 + q * k2) * gQuad d dshape shape V k1 k2 +
              D01 (k1 + q * k2) * gQuad d shape dshape V k1 k2) +
          gQuad d shape dshape W k1 k2 *
            (D01 (k1 + q * k2) * gQuad d dshape shape V k1 k2 +
              D11 (k1 + q * k2) * gQuad d shape dshape V k1 k2)) := by
  have e : ∀ i1 i2, diffusionQuad d q shape dshape D00 D01 D11 V i1 i2 =
      ∑ k1 in range q, ∑ k2 in range q,
        (dshape i1 k1 * shape i2 k2) *
          (D00 (k1 + q * k2) * gQuad d dshape shape V k1 k2 +
            D01 (k1 + q * k2) * gQuad d shape dshape V k1 k2) +
      ∑ k1 in range q, ∑ k2 in range q,
        (shape i1 k1 * dshape i2 k2) *
          (D01 (k1 + q * k2) * gQuad d dshape shape V k1 k2 +
            D11 (k1 + q * k2) * gQuad d shape dshape V k1 k2) := by
    intro i1 i2
    unfold diffusionQuad gQuad
    simp only [← Finset.sum_add_distrib]
  have split : ∀ (A B : Nat → Nat → R),
      ∑ i2 in range d, ∑ i1 in range d, W i1 i2 * (A i1 i2 + B i1 i2) =
        ∑ i2 in range d, ∑ i1 in range d, W i1 i2 * A i1 i2 +
          ∑ i2 in range d, ∑ i1 in range d, W i1 i2 * B i1 i2 := by
    intro A B
    simp only [mul_add, Finset.sum_add_distrib]
  simp only [e]
  rw [split, sum_adjoint2 d q (fun i1 i2 k1 k2 => dshape i1 k1 * shape i2 k2)
      (fun k1 k2 => D00 (k1 + q * k2) * gQuad d dshape shape V k1 k2 +
        D01 (k1 + q * k2) * gQuad d shape dshape V k1 k2) W,
    sum_adjoint2 d q (fun i1 i2 k1 k2 => shape i1 k1 * dshape i2 k2)
      (fun k1 k2 => D01 (k1 + q * k2) * gQuad d dshape shape V k1 k2 +
        D11 (k1 + q * k2) * gQuad d shape dshape V k1 k2) W]
  have g : ∀ (T1 T2 : Nat → Nat → R) (k1 k2 : Nat),
      ∑ i1 in range d, ∑ i2 in range d, T1 i1 k1 * T2 i2 k2 * W i1 i2 =
        gQuad d T1 T2 W k1 k2 := by
    intro T1 T2 k1 k2
    unfold gQuad
    apply Finset.sum_congr rfl
    intro i1 _
    apply Finset.sum_congr rfl
    intro i2 _
    ring
  simp only [g, ← Finset.sum_add_distrib]

end PairLemmas

end Dense

namespace Dense

section PairHex

variable {R : Type} [CommRing R]

/-- The bilinear form of the 3D diffusion operator:
`∑ k, ∑ c, g_c(W)(k) · ∑ d, Dsym(c,d,k) · g_d(V)(k)`. -/
lemma diffusionHex_pair (d q : Nat) (shape dshape : Nat → Nat → R) (D : Nat → Nat → R)
    (V W : Nat → Nat → Nat → R) :
    ∑ i3 in range d, ∑ i2 in range d, ∑ i1 in range d,
        W i1 i2 i3 * diffusionHex d q shape dshape D V i1 i2 i3 =
      ∑ k1 in range q, ∑ k2 in range q, ∑ k3 in range q, ∑ c in range 3,
        gGrad d shape dshape W c k1 k2 k3 *
          ∑ d' in range 3, Dsym D c d' (k1 + q * (k2 + q * k3)) *
            gGrad d shape dshape V d' k1 k2 k3 := by
  have e : ∀ i1 i2 i3, W i1 i2 i3 * diffusionHex d q shape dshape D V i1 i2 i3 =
      ∑ c in range 3, W i1 i2 i3 * ∑ k1 in range q, ∑ k2 in range q, ∑ k3 in range q,
        G3 shape dshape c i1 i2 i3 k1 k2 k3 *
          ∑ d' in range 3, Dsym D c d' (k1 + q * (k2 + q * k3)) *
            gGrad d shape dshape V d' k1 k2 k3 := by
    intro i1 i2 i3
    rw [← Finset.mul_sum]
    congr 1
    exact sum_pull3 q 3 (fun k1 k2 k3 c => G3 shape dshape c i1 i2 i3 k1 k2 k3 *
      ∑ d' in range 3, Dsym D c d' (k1 + q * (k2 + q * k3)) *
        gGrad d shape dshape V d' k1 k2 k3)
  simp only [e]
  rw [sum_pull3 d 3 (fun i3 i2 i1 c =>
      W i1 i2 i3 * ∑ k1 in range q, ∑ k2 in range q, ∑ k3 in range q,
        G3 shape dshape c i1 i2 i3 k1 k2 k3 *
          ∑ d' in range 3, Dsym D c d' (k1 + q * (k2 + q * k3)) *
            gGrad d shape dshape V d' k1 k2 k3),
    sum_pull3 q 3 (fun k1 k2 k3 c => gGrad d shape dshape W c k1 k2 k3 *
      ∑ d' in range 3, Dsym D c d' (k1 + q * (k2 + q * k3)) *
        gGrad d shape dshape V d' k1 k2 k3)]
  apply Finset.sum_congr rfl
  intro c _
  rw [sum_adjoint3 d q (fun i1 i2 i3 k1 k2 k3 => G3 shape dshape c i1 i2 i3 k1 k2 k3)
    (fun k1 k2 k3 => ∑ d' in range 3, Dsym D c d' (k1 + q * (k2 + q * k3)) *
      gGrad d shape dshape V d' k1 k2 k3) W]
  rfl

omit [CommRing R] in
/-- The stored symmetric matrix is symmetric. -/
lemma Dsym_symm (D : Nat → Nat → R) (c d k : Nat) (hc : c < 3) (hd : d < 3) :
    Dsym D c d k = Dsym D d c k := by
  have hc3 : c = 0 ∨ c = 1 ∨ c = 2 := by omega
  have hd3 : d = 0 ∨ d = 1 ∨ d = 2 := by omega
  rcases hc3 with rfl | rfl | rfl <;> rcases hd3 with rfl | rfl | rfl <;> rfl

/-- The symmetric bilinear form with a symmetric 3 × 3 matrix. -/
lemma sym3_form (S : Nat → Nat → R) (hS : ∀ c d, c < 3 → d < 3 → S c d = S d c)
    (a b : Nat → R) :
    ∑ c in range 3, a c * ∑ d in range 3, S c d * b d =
      ∑ c in range 3, b c * ∑ d in range 3, S c d * a d := by
  simp only [sum_range_three]
  rw [hS 1 0 (by omega) (by omega), hS 2 0 (by omega) (by omega), hS 2 1 (by omega) (by omega)]
  ring

end PairHex

end Dense

section KernelPairings

variable {R : Type} [CommRing R]

/-- The pairing `∑ p, W(p) · MultSeg(V)(p)` of the 1D diffusion kernel run on a zero output,
unit by unit. -/
lemma PADiffusionIntegrator.MultSeg_pair_diff (I : PADiffusionIntegrator R) (V W : Nat → R)
    (hh : I.dshape1d.height = I.shape1d.height) (hw : I.dshape1d.width = I.shape1d.width) :
    ∑ p in range (I.NE * I.vdim * I.shape1d.height), W p * I.MultSeg V (fun _ => 0) p =
      ∑ e in range I.NE, ∑ vd in range I.vdim, ∑ k in range I.shape1d.width,
        I.Dtensor e k *
          Dense.gSeg I.shape1d.height I.dshape1d.get
            (fun j => W ((e * I.vdim + vd) * I.shape1d.height + j)) k *
          Dense.gSeg I.shape1d.height I.dshape1d.get
            (fun j => V ((e * I.vdim + vd) * I.shape1d.height + j)) k := by
  rw [sum_range_units]
  apply Finset.sum_congr rfl
  intro e he
  apply Finset.sum_congr rfl
  intro vd hvd
  rw [Finset.mem_range] at he hvd
  rw [← Dense.seg_pair]
  apply Finset.sum_congr rfl
  intro i hi
  rw [Finset.mem_range] at hi
  rw [I.MultSeg_closed_diff V (fun _ => 0) hh hw e vd i he hvd hi, zero_add]

/-- The pairing of the 1D mass kernel run on a zero output, unit by unit. -/
lemma PAMassIntegrator.MultSeg_pair_mass (I : PAMassIntegrator R) (V W : Nat → R) :
    ∑ p in range (I.NE * I.vdim * I.shape1d.height), W p * I.MultSeg V (fun _ => 0) p =
      ∑ e in range I.NE, ∑ vd in range I.vdim, ∑ k in range I.shape1d.width,
        I.Dmat.get k e *
          Dense.gSeg I.shape1d.height I.shape1d.get
            (fun j => W ((e * I.vdim + vd) * I.shape1d.height + j)) k *
          Dense.gSeg I.shape1d.height I.shape1d.get
            (fun j => V ((e * I.vdim + vd) * I.shape1d.height + j)) k := by
  rw [sum_range_units]
  apply Finset.sum_congr rfl
  intro e he
  apply Finset.sum_congr rfl
  intro vd hvd
  rw [Finset.mem_range] at he hvd
  rw [← Dense.seg_pair]
  apply Finset.sum_congr rfl
  intro i hi
  rw [Finset.mem_range] at hi
  rw [I.MultSeg_closed_mass V (fun _ => 0) e vd i he hvd hi, zero_add]

/-- A sum over a slice of `h²` entries as a double sum over `(i1, i2)`, flat index
`i1 + i2*h`. -/
lemma sum_slice2 (h : Nat) (f : Nat → R) :
    ∑ i in range (h ^ 2), f i = ∑ i2 in range h, ∑ i1 in range h, f (i1 + i2 * h) := by
  rw [sq, sum_range_flat]
  apply Finset.sum_congr rfl
  intro i2 _
  apply Finset.sum_congr rfl
  intro i1 _
  rw [Nat.mul_comm]

/-- A sum over a slice of `h³` entries as a triple sum over `(i1, i2, i3)`. -/
lemma sum_slice3 (h : Nat) (f : Nat → R) :
    ∑ i in range (h ^ 3), f i =
      ∑ i3 in range h, ∑ i2 in range h, ∑ i1 in range h, f (i1 + h * (i2 + h * i3)) := by
  rw [cube_eq, sum_range_flat3]

/-- The pairing of the 2D diffusion kernel run on a zero output, unit by unit. -/
lemma PADiffusionIntegrator.MultQuad_pair_diff (I : PADiffusionIntegrator R) (V W : Nat → R)
    (hh : I.dshape1d.height = I.shape1d.height) (hw : I.dshape1d.width = I.shape1d.width)
    (hd : I.dofs = I.shape1d.height ^ 2) (hq : I.quads = I.shape1d.width ^ 2) :
    ∑ p in range (I.NE * I.vdim * I.dofs), W p * I.MultQuad V (fun _ => 0) p =
      ∑ e in range I.NE, ∑ vd in range I.vdim,
        ∑ i2 in range I.shape1d.height, ∑ i1 in range I.shape1d.height,
          W ((e * I.vdim + vd) * I.dofs + (i1 + i2 * I.shape1d.height)) *
            Dense.diffusionQuad I.shape1d.height I.shape1d.width I.shape1d.get I.dshape1d.get
              (fun k => I.Dtensor e (3 * k + 0)) (fun k => I.Dtensor e (3 * k + 1))
              (fun k => I.Dtensor e (3 * k + 2))
              (fun j1 j2 => V ((e * I.vdim + vd) * I.dofs + (j1 + j2 * I.shape1d.height)))
              i1 i2 := by
  rw [sum_range_units]
  apply Finset.sum_congr rfl
  intro e he
  apply Finset.sum_congr rfl
  intro vd hvd
  rw [Finset.mem_range] at he hvd
  conv_lhs => rw [hd]
  rw [sum_slice2]
  apply Finset.sum_congr rfl
  intro i2 h2
  apply Finset.sum_congr rfl
  intro i1 h1
  rw [Finset.mem_range] at h1 h2
  rw [← hd, I.MultQuad_closed_diff V (fun _ => 0) hh hw hd hq e vd i1 i2 he hvd h1 h2, zero_add]

/-- The pairing of the 2D mass kernel run on a zero output, unit by unit. -/
lemma PAMassIntegrator.MultQuad_pair_mass (I : PAMassIntegrator R) (V W : Nat → R)
    (hd : I.dofs = I.shape1d.height ^ 2) (hq : I.quads = I.shape1d.width ^ 2) :
    ∑ p in range (I.NE * I.vdim * I.dofs), W p * I.MultQuad V (fun _ => 0) p =
      ∑ e in range I.NE, ∑ vd in range I.vdim,
        ∑ i2 in range I.shape1d.height, ∑ i1 in range I.shape1d.height,
          W ((e * I.vdim + vd) * I.dofs + (i1 + i2 * I.shape1d.height)) *
            Dense.massQuad I.shape1d.height I.shape1d.width I.shape1d.get
              (fun k => I.Dmat.get k e)
              (fun j1 j2 => V ((e * I.vdim + vd) * I.dofs + (j1 + j2 * I.shape1d.height)))
              i1 i2 := by
  rw [sum_range_units]
  apply Finset.sum_congr rfl
  intro e he
  apply Finset.sum_congr rfl
  intro vd hvd
  rw [Finset.mem_range] at he hvd
  conv_lhs => rw [hd]
  rw [sum_slice2]
  apply Finset.sum_congr rfl
  intro i2 h2
  apply Finset.sum_congr rfl
  intro i1 h1
  rw [Finset.mem_range] at h1 h2
  rw [← hd, I.MultQuad_closed_mass V (fun _ => 0) hd hq e vd i1 i2 he hvd h1 h2, zero_add]

/-- The pairing of the 3D diffusion kernel run on a zero output, unit by unit. -/
lemma PADiffusionIntegrator.MultHex_pair_diff (I : PADiffusionIntegrator R) (V W : Nat → R)
    (hdq : I.shape1d.height ≤ I.shape1d.width)
    (hd : I.dofs = I.shape1d.height ^ 3) (hq : I.quads = I.shape1d.width ^ 3) :
    ∑ p in range (I.NE * I.vdim * I.dofs), W p * I.MultHex V (fun _ => 0) p =
      ∑ e in range I.NE, ∑ vd in range I.vdim,
        ∑ i3 in range I.shape1d.height, ∑ i2 in range I.shape1d.height,
          ∑ i1 in range I.shape1d.height,
            W ((e * I.vdim + vd) * I.dofs +
                (i1 + I.shape1d.height * (i2 + I.shape1d.height * i3))) *
              Dense.diffusionHex I.shape1d.height I.shape1d.width I.shape1d.get
                I.dshape1d.get (fun l k => I.Dtensor e (6 * k + l))
                (fun j1 j2 j3 => V ((e * I.vdim + vd) * I.dofs +
                  (j1 + I.shape1d.height * (j2 + I.shape1d.height * j3)))) i1 i2 i3 := by
  rw [sum_range_units]
  apply Finset.sum_congr rfl
  intro e he
  apply Finset.sum_congr rfl
  intro vd hvd
  rw [Finset.mem_range] at he hvd
  conv_lhs => rw [hd]
  rw [sum_slice3]
  apply Finset.sum_congr rfl
  intro i3 h3
  apply Finset.sum_congr rfl
  intro i2 h2
  apply Finset.sum_congr rfl
  intro i1 h1
  rw [Finset.mem_range] at h1 h2 h3
  rw [← hd, I.MultHex_closed_diff V (fun _ => 0) hdq hd hq e vd i1 i2 i3 he hvd h1 h2 h3,
    zero_add]

/-- The pairing of the 3D mass kernel run on a zero output, unit by unit. -/
lemma PAMassIntegrator.MultHex_pair_mass (I : PAMassIntegrator R) (V W : Nat → R)
    (hdq : I.shape1d.height ≤ I.shape1d.width)
    (hd : I.dofs = I.shape1d.height ^ 3) (hq : I.quads = I.shape1d.width ^ 3) :
    ∑ p in range (I.NE * I.vdim * I.dofs), W p * I.MultHex V (fun _ => 0) p =
      ∑ e in range I.NE, ∑ vd in range I.vdim,
        ∑ i3 in range I.shape1d.height, ∑ i2 in range I.shape1d.height,
          ∑ i1 in range I.shape1d.height,
            W ((e * I.vdim + vd) * I.dofs +
                (i1 + I.shape1d.height * (i2 + I.shape1d.height * i3))) *
              Dense.massHex I.shape1d.height I.shape1d.width I.shape1d.get
                (fun k => I.Dmat.get k e)
                (fun j1 j2 j3 => V ((e * I.vdim + vd) * I.dofs +
                  (j1 + I.shape1d.height * (j2 + I.shape1d.height * j3)))) i1 i2 i3 := by
  rw [sum_range_units]
  apply Finset.sum_congr rfl
  intro e he
  apply Finset.sum_congr rfl
  intro vd hvd
  rw [Finset.mem_range] at he hvd
  conv_lhs => rw [hd]
  rw [sum_slice3]
  apply Finset.sum_congr rfl
  intro i3 h3
  apply Finset.sum_congr rfl
  intro i2 h2
  apply Finset.sum_congr rfl
  intro i1 h1
  rw [Finset.mem_range] at h1 h2 h3
  rw [← hd, I.MultHex_closed_mass V (fun _ => 0) hdq hd hq e vd i1 i2 i3 he hvd h1 h2 h3,
    zero_add]

end KernelPairings

section TransposeLemmas

variable {R : Type} [CommRing R]

omit [CommRing R] in
/-- The inner loop of `DenseMatrixTranspose` for row `i`, entry by entry. -/
lemma DenseMatrixTranspose_row (height i : Nat) (hi : i < height) (mdata : Nat → R) (n : Nat)
    (data : Nat → R) (r c : Nat) (hr : r < height) :
    forLoop n (fun j data => setAt data (i + j * height) (mdata (j + i * height))) data
        (r + c * height) =
      if r = i ∧ c < n then mdata (c + i * height) else data (r + c * height) := by
  induction n with
  | zero => rw [forLoop_zero, if_neg (by omega)]
  | succ k ih =>
    rw [forLoop_succ, setAt_apply]
    simp only [flat_eq height r c i k hr hi]
    rw [ih]
    by_cases h1 : r = i ∧ c = k
    · obtain ⟨rfl, rfl⟩ := h1
      rw [if_pos ⟨rfl, rfl⟩, if_pos ⟨rfl, by omega⟩]
    · rw [if_neg h1]
      by_cases h2 : r = i ∧ c < k
      · rw [if_pos h2, if_pos ⟨h2.1, by omega⟩]
      · rw [if_neg h2, if_neg (by omega)]

omit [CommRing R] in
/-- What `DenseMatrixTranspose` stores: entry `(i, j)` of the destination, read with leading
dimension `height`, is the source entry at `j + i*height`. -/
lemma DenseMatrixTranspose_get (height width : Nat) (data mdata : Nat → R) (i j : Nat)
    (hi : i < height) (hj : j < width) :
    DenseMatrixTranspose height width data mdata (i + j * height) = mdata (j + i * height) := by
  unfold DenseMatrixTranspose MFEM_FORALL
  have key := forLoop_ind
    (fun t (d : Nat → R) => ∀ r c, r < height → c < width →
      d (r + c * height) = if r < t then mdata (c + r * height) else data (r + c * height))
    height
    (fun i data =>
      forLoop width (fun j data => setAt data (i + j * height) (mdata (j + i * height))) data)
    data (fun r c _ _ => by rw [if_neg (by omega)])
    (by
      intro t d ht hd r c hr hc
      dsimp only
      rw [DenseMatrixTranspose_row height t ht mdata width d r c hr, hd r c hr hc]
      by_cases h1 : r = t
      · subst h1
        rw [if_pos ⟨rfl, hc⟩, if_pos (by omega)]
      · rw [if_neg (by tauto)]
        by_cases h2 : r < t
        · rw [if_pos h2, if_pos (by omega)]
        · rw [if_neg h2, if_neg (by omega)])
  rw [key i j hi hj, if_pos hi]

/-- The source indices read by `DenseMatrixTranspose` are the `j + i*height` with
`i < height`, `j < width`. -/
lemma DenseMatrixTransposeReads_mem (height width p : Nat) :
    p ∈ DenseMatrixTransposeReads height width ↔
      ∃ i j, i < height ∧ j < width ∧ p = j + i * height := by
  unfold DenseMatrixTransposeReads MFEM_FORALL
  have inner : ∀ (i n : Nat) (l : List Nat),
      p ∈ forLoop n (fun j (reads : List Nat) => reads ++ [j + i * height]) l ↔
        p ∈ l ∨ ∃ j, j < n ∧ p = j + i * height := by
    intro i n l
    induction n with
    | zero => simp
    | succ k ih =>
      rw [forLoop_succ, List.mem_append, ih, List.mem_singleton]
      constructor
      · rintro ((h | ⟨j, hj, rfl⟩) | rfl)
        · exact Or.inl h
        · exact Or.inr ⟨j, by omega, rfl⟩
        · exact Or.inr ⟨k, by omega, rfl⟩
      · rintro (h | ⟨j, hj, rfl⟩)
        · exact Or.inl (Or.inl h)
        · by_cases hjk : j = k
          · subst hjk; exact Or.inr rfl
          · exact Or.inl (Or.inr ⟨j, by omega, rfl⟩)
  have outer : ∀ n : Nat,
      p ∈ forLoop n (fun i (reads : List Nat) =>
        forLoop width (fun j reads => reads ++ [j + i * height]) reads) [] ↔
        ∃ i j, i < n ∧ j < width ∧ p = j + i * height := by
    intro n
    induction n with
    | zero => simp
    | succ k ih =>
      rw [forLoop_succ, inner, ih]
      constructor
      · rintro (⟨i, j, hi, hj, rfl⟩ | ⟨j, hj, rfl⟩)
        · exact ⟨i, j, by omega, hj, rfl⟩
        · exact ⟨k, j, by omega, hj, rfl⟩
      · rintro ⟨i, j, hi, hj, rfl⟩
        by_cases hik : i = k
        · subst hik; exact Or.inr ⟨j, hj, rfl⟩
        · exact Or.inl ⟨i, j, by omega, hj, rfl⟩
  exact outer height

end TransposeLemmas

section BlockLemmas2

/-- The search loop runs to the end when no offset exceeds the index. -/
lemma BlockMatrix.scanBlocks_none (offsets : Nat → Int) (iglobal : Int) :
    ∀ (left iblock : Nat), (∀ b, iblock ≤ b → b < iblock + left → offsets (b + 1) ≤ iglobal) →
      BlockMatrix.scanBlocks offsets iglobal left iblock = iblock + left := by
  intro left
  induction left with
  | zero => intro iblock _; rfl
  | succ l ih =>
    intro iblock h
    unfold BlockMatrix.scanBlocks
    rw [if_neg (by have := h iblock (le_refl _) (by omega); omega),
      ih (iblock + 1) (fun b hb1 hb2 => h b (by omega) (by omega))]
    omega

/-- Non-decreasing offsets are bounded by the last one. -/
lemma BlockMatrix.offsets_le_last (offsets : Nat → Int) (n : Nat)
    (hmono : ∀ b, b < n → offsets b ≤ offsets (b + 1)) :
    ∀ t b, b + t = n → offsets b ≤ offsets n := by
  intro t
  induction t with
  | zero => intro b hb; rw [Nat.add_zero] at hb; rw [hb]
  | succ t ih =>
    intro b hb
    exact le_trans (hmono b (by omega)) (ih (b + 1) (by omega))

end BlockLemmas2

section USolveLemmas

variable {K : Type} [Field K]

/-- A sum over the indices from `j` on splits off its first term. -/
lemma sum_from_split {M : Type} [AddCommMonoid M] (m j : Nat) (hj : j < m) (f : Nat → M) :
    ∑ c in range m, (if j ≤ c then f c else 0) =
      f j + ∑ c in range m, (if j + 1 ≤ c then f c else 0) := by
  have e : ∀ c, c ∈ range m → (if j ≤ c then f c else 0) =
      (if c = j then f c else 0) + (if j + 1 ≤ c then f c else 0) := by
    intro c _
    by_cases h1 : c = j
    · rw [if_pos (by omega), if_pos h1, if_neg (by omega), add_zero]
    · by_cases h2 : j ≤ c
      · rw [if_pos h2, if_neg h1, if_pos (by omega), zero_add]
      · rw [if_neg h2, if_neg h1, if_neg (by omega), add_zero]
  rw [Finset.sum_congr rfl e, Finset.sum_add_distrib, Finset.sum_ite_eq',
    if_pos (Finset.mem_range.2 hj)]

/-- The inner loop of the back substitution: `mx[i] -= data[i+j*m] * c` for `i < n`. -/
lemma kUSolve_inner (m j base : Nat) (data : Nat → K) (c : K) (n : Nat) (x : Nat → K)
    (p : Nat) :
    forLoop n (fun i x => setAt x (base + i) (x (base + i) - data (i + j * m) * c)) x p =
      if base ≤ p ∧ p < base + n then x p - data (p - base + j * m) * c else x p := by
  induction n generalizing p with
  | zero => rw [forLoop_zero, if_neg (by omega)]
  | succ k ih =>
    rw [forLoop_succ, setAt_apply]
    by_cases hp : p = base + k
    · rw [if_pos hp, if_pos (by omega), ih, if_neg (by omega), hp,
        show base + k - base = k by omega]
    · rw [if_neg hp, ih]
      by_cases h2 : base ≤ p ∧ p < base + k
      · rw [if_pos h2, if_pos (by omega)]
      · rw [if_neg h2, if_neg (by omega)]

/-- One step `j` of the back substitution keeps the triangular equations: the rows below `j`
are solved, the rows above carry the partially reduced right-hand side. -/
lemma kUSolve_step_inv (m j base : Nat) (hj : j < m) (data : Nat → K)
    (hdj : data (j + j * m) ≠ 0) (x y z : Nat → K)
    (hA : ∀ i, i < j → z (base + i) =
      y (base + i) - data (i + j * m) * (y (base + j) / data (j + j * m)))
    (hB : z (base + j) = y (base + j) / data (j + j * m))
    (hC : ∀ i, j < i → z (base + i) = y (base + i))
    (h1 : ∀ r, r < j + 1 → y (base + r) +
      ∑ c in range m, (if j + 1 ≤ c then data (r + c * m) * y (base + c) else 0) =
        x (base + r))
    (h2 : ∀ r, r < m → j + 1 ≤ r →
      ∑ c in range m, (if r ≤ c then data (r + c * m) * y (base + c) else 0) = x (base + r)) :
    (∀ r, r < j → z (base + r) +
      ∑ c in range m, (if j ≤ c then data (r + c * m) * z (base + c) else 0) =
        x (base + r)) ∧
    (∀ r, r < m → j ≤ r →
      ∑ c in range m, (if r ≤ c then data (r + c * m) * z (base + c) else 0) =
        x (base + r)) := by
  have hs : ∀ r, ∑ c in range m, (if j + 1 ≤ c then data (r + c * m) * z (base + c) else 0) =
      ∑ c in range m, (if j + 1 ≤ c then data (r + c * m) * y (base + c) else 0) := by
    intro r
    apply Finset.sum_congr rfl
    intro c _
    by_cases h : j + 1 ≤ c
    · rw [if_pos h, if_pos h, hC c (by omega)]
    · rw [if_neg h, if_neg h]
  constructor
  · intro r hr
    have e := sum_from_split m j hj (fun c => data (r + c * m) * z (base + c))
    rw [e, hs, hB, hA r hr, ← h1 r (by omega)]
    ring
  · intro r hr hjr
    by_cases hrj : r = j
    · subst hrj
      have e := sum_from_split m r hj (fun c => data (r + c * m) * z (base + c))
      rw [e, hs, hB, ← h1 r (by omega), mul_div_cancel₀ _ hdj]
    · rw [← h2 r hr (by omega)]
      apply Finset.sum_congr rfl
      intro c _
      by_cases h : r ≤ c
      · rw [if_pos h, if_pos h, hC c (by omega)]
      · rw [if_neg h, if_neg h]

/-- The back substitution of `kUSolve` on one column: the new column solves the upper
triangular system, and nothing outside the column changes. -/
lemma kUSolveColumn_spec (m : Nat) (data : Nat → K) (hd : ∀ j, j < m → data (j + j * m) ≠ 0)
    (base : Nat) (x : Nat → K) :
    (∀ r, r < m →
      ∑ c in range m,
        (if r ≤ c then data (r + c * m) * kUSolveColumn m data base x (base + c) else 0) =
        x (base + r)) ∧
    (∀ p, p < base ∨ base + m ≤ p → kUSolveColumn m data base x p = x p) := by
  unfold kUSolveColumn
  have key := forLoop_ind
    (fun t (y : Nat → K) =>
      (∀ r, r < m - t → y (base + r) +
        ∑ c in range m, (if m - t ≤ c then data (r + c * m) * y (base + c) else 0) =
          x (base + r)) ∧
      (∀ r, r < m → m - t ≤ r →
        ∑ c in range m, (if r ≤ c then data (r + c * m) * y (base + c) else 0) =
          x (base + r)) ∧
      (∀ p, p < base ∨ base + m ≤ p → y p = x p))
    m (fun t x =>
      let j := m - 1 - t
      let x := setAt x (base + j) (x (base + j) / data (j + j * m))
      let x_j := x (base + j)
      forLoop j (fun i x => setAt x (base + i) (x (base + i) - data (i + j * m) * x_j)) x) x
    ⟨fun r hr => by
        rw [Finset.sum_eq_zero, add_zero]
        intro c hc
        rw [Finset.mem_range] at hc
        rw [if_neg (by omega)],
      fun r hr hr2 => by omega, fun p _ => rfl⟩
    (by
      intro t y ht ⟨h1, h2, h3⟩
      dsimp only
      have hin := kUSolve_inner m (m - 1 - t) base data
        (setAt y (base + (m - 1 - t)) (y (base + (m - 1 - t)) /
          data (m - 1 - t + (m - 1 - t) * m)) (base + (m - 1 - t))) (m - 1 - t)
        (setAt y (base + (m - 1 - t)) (y (base + (m - 1 - t)) /
          data (m - 1 - t + (m - 1 - t) * m)))
      have e1 : m - t = m - 1 - t + 1 := by omega
      have e2 : m - (t + 1) = m - 1 - t := by omega
      rw [e1] at h1 h2
      rw [e2]
      generalize m - 1 - t = j at hin h1 h2 e1 e2 ⊢
      have hj : j < m := by omega
      have hq : setAt y (base + j) (y (base + j) / data (j + j * m)) (base + j) =
          y (base + j) / data (j + j * m) := by
        rw [setAt_apply, if_pos rfl]
      rw [hq] at hin ⊢
      have hstep := kUSolve_step_inv m j base hj data (hd j hj) x y
        (forLoop j (fun i x => setAt x (base + i)
          (x (base + i) - data (i + j * m) * (y (base + j) / data (j + j * m))))
          (setAt y (base + j) (y (base + j) / data (j + j * m))))
        (fun i hi => by
          rw [hin, if_pos (by omega), setAt_apply, if_neg (by omega),
            show base + i - base = i by omega])
        (by rw [hin, if_neg (by omega), setAt_apply, if_pos rfl])
        (fun i hi => by rw [hin, if_neg (by omega), setAt_apply, if_neg (by omega)])
        h1 h2
      refine ⟨hstep.1, hstep.2, fun p hp => ?_⟩
      rw [hin, if_neg (by omega), setAt_apply, if_neg (by omega)]
      exact h3 p hp)
  obtain ⟨_, k2, k3⟩ := key
  exact ⟨fun r hr => k2 r hr (by omega), k3⟩

/-- The whole kernel `kUSolve`, column by column. -/
lemma kUSolve_spec (m n : Nat) (data : Nat → K) (hd : ∀ j, j < m → data (j + j * m) ≠ 0)
    (x : Nat → K) :
    (∀ k, k < n → ∀ r, r < m →
      ∑ c in range m,
        (if r ≤ c then data (r + c * m) * kUSolve m n data x (k * m + c) else 0) =
        x (k * m + r)) ∧
    (∀ p, n * m ≤ p → kUSolve m n data x p = x p) := by
  unfold kUSolve MFEM_FORALL
  induction n with
  | zero => exact ⟨fun k hk => by omega, fun p _ => rfl⟩
  | succ n ih =>
    obtain ⟨ih1, ih2⟩ := ih
    rw [forLoop_succ]
    dsimp only
    generalize forLoop n (fun k x =>
      let mx := k * m
      kUSolveColumn m data mx x) x = xn at ih1 ih2 ⊢
    obtain ⟨f1, f2⟩ := kUSolveColumn_spec m data hd (n * m) xn
    constructor
    · intro k hk r hr
      by_cases hkn : k = n
      · subst hkn
        rw [f1 r hr, ih2 _ (by omega)]
      · have hlt : k < n := by omega
        have hb : (k + 1) * m ≤ n * m := Nat.mul_le_mul_right m hlt
        rw [add_one_mul] at hb
        rw [← ih1 k hlt r hr]
        apply Finset.sum_congr rfl
        intro c hc
        rw [Finset.mem_range] at hc
        rw [f2 _ (by omega)]
    · intro p hp
      rw [add_one_mul] at hp
      rw [f2 p (by omega)]
      exact ih2 p (by omega)

/-- An upper triangular system with non-zero diagonal has at most one solution. -/
lemma upper_solution_unique (m : Nat) (data : Nat → K)
    (hd : ∀ j, j < m → data (j + j * m) ≠ 0) (b z w : Nat → K)
    (hz : ∀ r, r < m → ∑ c in range m, (if r ≤ c then data (r + c * m) * z c else 0) = b r)
    (hw : ∀ r, r < m → ∑ c in range m, (if r ≤ c then data (r + c * m) * w c else 0) = b r) :
    ∀ r, r < m → z r = w r := by
  have h : ∀ t r, r < m → m - t ≤ r → z r = w r := by
    intro t
    induction t with
    | zero => intro r hr h; omega
    | succ t ih =>
      intro r hr hle
      by_cases hlt : m - t ≤ r
      · exact ih r hr hlt
      · have e1 := sum_from_split m r hr (fun c => data (r + c * m) * z c)
        have e2 := sum_from_split m r hr (fun c => data (r + c * m) * w c)
        have hs : ∑ c in range m, (if r + 1 ≤ c then data (r + c * m) * z c else 0) =
            ∑ c in range m, (if r + 1 ≤ c then data (r + c * m) * w c else 0) := by
          apply Finset.sum_congr rfl
          intro c hc
          rw [Finset.mem_range] at hc
          by_cases h : r + 1 ≤ c
          · rw [if_pos h, if_pos h, ih c hc (by omega)]
          · rw [if_neg h, if_neg h]
        have hzr := hz r hr
        have hwr := hw r hr
        rw [e1, hs] at hzr
        rw [e2, ← hzr] at hwr
        exact (mul_left_cancel₀ (hd r hr) (add_right_cancel hwr)).symm
  intro r hr
  exact h m r hr (by omega)

/-- The back substitution reads `data` only on and above the diagonal. -/
lemma kUSolve_upper_only (m n : Nat) (data other : Nat → K)
    (h : ∀ r c, r ≤ c → c < m → other (r + c * m) = data (r + c * m)) (x : Nat → K) :
    kUSolve m n other x = kUSolve m n data x := by
  unfold kUSolve MFEM_FORALL
  apply forLoop_congr
  intro k y _
  dsimp only
  unfold kUSolveColumn
  apply forLoop_congr
  intro t y ht
  dsimp only
  rw [h (m - 1 - t) (m - 1 - t) (le_refl _) (by omega)]
  apply forLoop_congr
  intro i y hi
  rw [h i (m - 1 - t) (by omega) (by omega)]

end USolveLemmas

section PivotLemmas

variable {K : Type} [LinearOrderedField K]

/-- The pivot search of `kFactor` returns the first row from `i` on that attains the largest
magnitude of column `i`. -/
lemma kFactorPivot_max (m i : Nat) (data : Nat → K) (hi : i < m) :
    i ≤ (kFactorPivot m i data).2 ∧ (kFactorPivot m i data).2 < m ∧
    (∀ j, i ≤ j → j < m →
      |data (j + i * m)| ≤ |data ((kFactorPivot m i data).2 + i * m)|) ∧
    (∀ j, i ≤ j → j < (kFactorPivot m i data).2 →
      |data (j + i * m)| < |data ((kFactorPivot m i data).2 + i * m)|) := by
  have key := forLoop_ind
    (fun t (ap : K × Nat) =>
      ap.1 = |data (ap.2 + i * m)| ∧ i ≤ ap.2 ∧ ap.2 < i + 1 + t ∧
      (∀ j, i ≤ j → j < i + 1 + t → |data (j + i * m)| ≤ ap.1) ∧
      (∀ j, i ≤ j → j < ap.2 → |data (j + i * m)| < ap.1))
    (m - (i + 1)) (fun t (ap : K × Nat) =>
      let j := i + 1 + t
      let b := |data (j + i * m)|
      if b > ap.1 then (b, j) else ap) (|data (i + i * m)|, i)
    ⟨rfl, le_refl _, by omega,
      fun j h1 h2 => by rw [show j = i by omega],
      fun j h1 h2 => by dsimp only at h2; omega⟩
    (by
      intro t ap ht ⟨h1, h2, h3, h4, h5⟩
      dsimp only
      by_cases hb : |data (i + 1 + t + i * m)| > ap.1
      · rw [if_pos hb]
        refine ⟨rfl, by dsimp only; omega, by dsimp only; omega, fun j hj1 hj2 => ?_,
          fun j hj1 hj2 => ?_⟩
        · by_cases hj : j = i + 1 + t
          · rw [hj]
          · exact le_of_lt (lt_of_le_of_lt (h4 j hj1 (by omega)) hb)
        · dsimp only at hj2 ⊢
          exact lt_of_le_of_lt (h4 j hj1 hj2) hb
      · rw [if_neg hb]
        refine ⟨h1, h2, by omega, fun j hj1 hj2 => ?_, h5⟩
        by_cases hj : j = i + 1 + t
        · rw [hj]
          exact not_lt.1 hb
        · exact h4 j hj1 (by omega))
  have e : kFactorPivot m i data = forLoop (m - (i + 1)) (fun t (ap : K × Nat) =>
      let j := i + 1 + t
      let b := |data (j + i * m)|
      if b > ap.1 then (b, j) else ap) (|data (i + i * m)|, i) := rfl
  rw [← e] at key
  obtain ⟨h1, h2, h3, h4, h5⟩ := key
  refine ⟨h2, by omega, fun j hj1 hj2 => ?_, fun j hj1 hj2 => ?_⟩
  · rw [← h1]
    exact h4 j hj1 (by omega)
  · rw [← h1]
    exact h5 j hj1 hj2

/-- One step of `kFactor` with a non-zero pivot records the row found by the pivot search and
keeps all multipliers at magnitude at most 1. -/
lemma kFactorStep_pivoting (m n : Nat) (s : LUState K) (hn : n < m)
    (hd : kFactorDiag m n s ≠ 0)
    (hmul : ∀ r c, c < n → c < r → r < m → |s.data (r + c * m)| ≤ 1) :
    ∃ s', kFactorStep m n s = some s' ∧ (∀ i, i < n → s'.ipiv i = s.ipiv i) ∧
      s'.ipiv n = (kFactorPivot m n s.data).2 ∧
      (∀ r c, c < n + 1 → c < r → r < m → |s'.data (r + c * m)| ≤ 1) := by
  obtain ⟨hp1, hp2, hmax, _⟩ := kFactorPivot_max m n s.data hn
  unfold kFactorDiag at hd
  unfold kFactorStep
  dsimp only
  rw [if_neg hd]
  generalize (kFactorPivot m n s.data).2 = piv at hp1 hp2 hmax hd ⊢
  refine ⟨_, rfl, fun i hi => by simp only [setAt_apply]; rw [if_neg (by omega)],
    (show setAt s.ipiv n piv n = piv from if_pos rfl), ?_⟩
  have hsw := fun r c (hr : r < m) (hc : c < m) =>
    kFactorSwap_get m n piv s.data hn hp2 r c hr hc
  generalize kFactorSwap m n piv s.data = D at hd hsw ⊢
  have hel := fun r c (hr : r < m) => kFactorEliminate_get m n D hn r c hr
  generalize kFactorEliminate m n D = E at hel ⊢
  intro r c hc hcr hr
  show |E (r + c * m)| ≤ 1
  rw [hel r c hr]
  by_cases hcn : c = n
  · rw [if_pos ⟨by omega, hcn⟩]
    have hle : |D (r + n * m)| ≤ |D (n + n * m)| := by
      rw [hsw r n hr hn, hsw n n hn hn, if_pos rfl, if_neg (show ¬ r = n by omega)]
      apply hmax
      · split_ifs <;> omega
      · split_ifs <;> omega
    rw [mul_one_div, abs_div]
    exact (div_le_one (abs_pos.2 hd)).2 hle
  · rw [if_neg (show ¬ (n < r ∧ c = n) from fun h => hcn h.2),
      if_neg (show ¬ (n < r ∧ n < c ∧ c < m) by omega), hsw r c hr (by omega)]
    apply hmul
    · omega
    · split_ifs <;> omega
    · split_ifs <;> omega

/-- A run of `n ≤ m` steps of `kFactor` whose pivots are all non-zero: every recorded pivot is
the row found by the pivot search in the state before its step, and all multipliers have
magnitude at most 1. -/
lemma kFactorSteps_pivoting (m : Nat) (A : Nat → K) (ipiv : Nat → Nat) (n : Nat) (hn : n ≤ m)
    (hpiv : ∀ i, i < n → ∀ s, kFactorSteps m i ⟨ipiv, A⟩ = some s → kFactorDiag m i s ≠ 0) :
    ∃ s, kFactorSteps m n ⟨ipiv, A⟩ = some s ∧
      (∀ i, i < n → ∃ si, kFactorSteps m i ⟨ipiv, A⟩ = some si ∧
        s.ipiv i = (kFactorPivot m i si.data).2) ∧
      (∀ r c, c < n → c < r → r < m → |s.data (r + c * m)| ≤ 1) := by
  induction n with
  | zero => exact ⟨⟨ipiv, A⟩, rfl, fun i hi => by omega, fun r c hc => by omega⟩
  | succ k ih =>
    obtain ⟨s, hs, hrec, hmul⟩ := ih (by omega) (fun i hi => hpiv i (Nat.lt_succ_of_lt hi))
    obtain ⟨s', hs', hkeep, hnew, hmul'⟩ :=
      kFactorStep_pivoting m k s (by omega) (hpiv k (Nat.lt_succ_self k) s hs) hmul
    refine ⟨s', ?_, ?_, hmul'⟩
    · unfold kFactorSteps MFEM_FORALL at hs ⊢
      rw [forLoop_succ, hs]
      exact hs'
    · intro i hi
      by_cases hik : i = k
      · rw [hik]
        exact ⟨s, hs, hnew⟩
      · obtain ⟨si, h1, h2⟩ := hrec i (by omega)
        exact ⟨si, h1, by rw [hkeep i (by omega), h2]⟩

end PivotLemmas

section SetupStoreLemmas

variable {K : Type} [Field K]

/-- A log that grows by one entry per element of a list is the image of the list. -/
lemma foldl_log {α β : Type} (f : α → β) (L : List α) (init : List β) :
    L.foldl (fun st t => st ++ [f t]) init = init ++ L.map f := by
  induction L generalizing init with
  | nil => simp
  | cons a L ih => rw [List.foldl_cons, ih, List.map_cons, List.append_assoc]; rfl

/-- The stores of the packing loop go to the slots `0, ..., dim*(dim+1)/2 - 1`, in this
order. -/
lemma packLoop_log (dim : Nat) (addr : Nat → Nat) :
    packLoop dim (fun l _ _ stores => stores ++ [addr l]) [] =
      (List.range (dim * (dim + 1) / 2)).map addr := by
  rw [packLoop_foldl, foldl_log (fun t : Nat × Nat × Nat => addr t.1), List.nil_append,
    ← packTriples_slots, List.map_map]
  rfl

omit [Field K] in
/-- The stores of the body of the point loop, in every coefficient branch. -/
lemma PADiffusionIntegrator.ComputePAPointStores_eq (dim entries quads : Nat)
    (coeff : Option (Nat → Nat → K)) (mcoeff : Option (Nat → Nat → DenseMatrix K))
    (e k : Nat) :
    PADiffusionIntegrator.ComputePAPointStores dim entries quads coeff mcoeff e k =
      (List.range (dim * (dim + 1) / 2)).map
        (fun l => e * (entries * quads) + (l + k * entries)) := by
  unfold PADiffusionIntegrator.ComputePAPointStores
  cases coeff with
  | some cf => exact packLoop_log dim (fun l => e * (entries * quads) + (l + k * entries))
  | none =>
    cases mcoeff with
    | some mc => exact packLoop_log dim (fun l => e * (entries * quads) + (l + k * entries))
    | none => exact packLoop_log dim (fun l => e * (entries * quads) + (l + k * entries))

/-- The body of the point loop is the replay of its stores: one store per call of the packing
loop, with the value of the branch. -/
lemma PADiffusionIntegrator.ComputePAPoint_replay (dim entries quads : Nat) (ipw : Nat → K)
    (Tr : Nat → Nat → ElementTransformation K) (coeff : Option (Nat → Nat → K))
    (mcoeff : Option (Nat → Nat → DenseMatrix K)) (e k : Nat) (s : PAState K) :
    (PADiffusionIntegrator.ComputePAPoint dim entries quads ipw Tr coeff mcoeff e k s).tdata =
      (packTriples dim).foldl (fun D t =>
        setAt D (e * (entries * quads) + (t.1 + k * entries))
          (match coeff with
            | some cf =>
              cf e k *
                (PADiffusionIntegrator.pointMat dim (ipw k) (Tr e k) s.mat).get t.2.1 t.2.2
            | none =>
              match mcoeff with
              | some mc => (mc e k).get t.2.1 t.2.2 *
                  (PADiffusionIntegrator.pointMat dim (ipw k) (Tr e k) s.mat).get t.2.1 t.2.2
              | none =>
                (PADiffusionIntegrator.pointMat dim (ipw k) (Tr e k) s.mat).get t.2.1 t.2.2))
        s.tdata := by
  unfold PADiffusionIntegrator.ComputePAPoint
  cases coeff with
  | some cf =>
    exact packLoop_foldl dim (fun l i j D =>
      setAt D (e * (entries * quads) + (l + k * entries))
        (cf e k * (PADiffusionIntegrator.pointMat dim (ipw k) (Tr e k) s.mat).get i j))
      s.tdata
  | none =>
    cases mcoeff with
    | some mc =>
      exact packLoop_foldl dim (fun l i j D =>
        setAt D (e * (entries * quads) + (l + k * entries))
          ((mc e k).get i j *
            (PADiffusionIntegrator.pointMat dim (ipw k) (Tr e k) s.mat).get i j))
        s.tdata
    | none =>
      exact packLoop_foldl dim (fun l i j D =>
        setAt D (e * (entries * quads) + (l + k * entries))
          ((PADiffusionIntegrator.pointMat dim (ipw k) (Tr e k) s.mat).get i j))
        s.tdata

end SetupStoreLemmas

/-! ## The claims -/

section Claims

variable {R : Type} [CommRing R]

/-- C1: `PADiffusionIntegrator::MultQuad` adds to entry `U(i1,i2)` of the slice of every
(element `e`, component `vd`) exactly the brute-force dense operator `Gᵀ D G` applied to the
same slice of `V`, with `D00, D01, D11` the three stored entries at point
`k = k1 + quads1d*k2`, for tables of equal size, `dofs = dofs1d²` and `quads = quads1d²`. -/
theorem C1_diffusion_MultQuad_eq_dense (I : PADiffusionIntegrator R) (V U : Nat → R)
    (hh : I.dshape1d.height = I.shape1d.height) (hw : I.dshape1d.width = I.shape1d.width)
    (hd : I.dofs = I.shape1d.height ^ 2) (hq : I.quads = I.shape1d.width ^ 2)
    (e vd i1 i2 : Nat) (he : e < I.NE) (hvd : vd < I.vdim) (h1 : i1 < I.shape1d.height)
    (h2 : i2 < I.shape1d.height) :
    I.MultQuad V U ((e * I.vdim + vd) * I.dofs + (i1 + i2 * I.shape1d.height)) =
      U ((e * I.vdim + vd) * I.dofs + (i1 + i2 * I.shape1d.height)) +
      Dense.diffusionQuad I.shape1d.height I.shape1d.width I.shape1d.get I.dshape1d.get
        (fun k => I.Dtensor e (3 * k + 0)) (fun k => I.Dtensor e (3 * k + 1))
        (fun k => I.Dtensor e (3 * k + 2))
        (fun j1 j2 => V ((e * I.vdim + vd) * I.dofs + (j1 + j2 * I.shape1d.height))) i1 i2 :=
  I.MultQuad_closed_diff V U hh hw hd hq e vd i1 i2 he hvd h1 h2

/-- Witness of C1 on `exDiffQuad`: element 1, component 1, entry `(1, 0)`. -/
theorem C1_diffusion_MultQuad_eq_dense_witness :
    (exDiffQuad.dshape1d.height = exDiffQuad.shape1d.height ∧
      exDiffQuad.dshape1d.width = exDiffQuad.shape1d.width ∧
      exDiffQuad.dofs = exDiffQuad.shape1d.height ^ 2 ∧
      exDiffQuad.quads = exDiffQuad.shape1d.width ^ 2 ∧
      1 < exDiffQuad.NE ∧ 1 < exDiffQuad.vdim ∧ 1 < exDiffQuad.shape1d.height ∧
      0 < exDiffQuad.shape1d.height) ∧
    exDiffQuad.MultQuad exV exU
        ((1 * exDiffQuad.vdim + 1) * exDiffQuad.dofs + (1 + 0 * exDiffQuad.shape1d.height)) =
      exU ((1 * exDiffQuad.vdim + 1) * exDiffQuad.dofs + (1 + 0 * exDiffQuad.shape1d.height)) +
      Dense.diffusionQuad exDiffQuad.shape1d.height exDiffQuad.shape1d.width
        exDiffQuad.shape1d.get exDiffQuad.dshape1d.get
        (fun k => exDiffQuad.Dtensor 1 (3 * k + 0)) (fun k => exDiffQuad.Dtensor 1 (3 * k + 1))
        (fun k => exDiffQuad.Dtensor 1 (3 * k + 2))
        (fun j1 j2 => exV ((1 * exDiffQuad.vdim + 1) * exDiffQuad.dofs +
          (j1 + j2 * exDiffQuad.shape1d.height))) 1 0 :=
  ⟨by decide, C1_diffusion_MultQuad_eq_dense exDiffQuad exV exU (by decide) (by decide)
    (by decide) (by decide) 1 1 1 0 (by decide) (by decide) (by decide) (by decide)⟩

/-- C2: for `dofs1d ≤ quads1d`, `dofs = dofs1d³` and `quads = quads1d³`,
`PADiffusionIntegrator::MultHex` adds to entry `U(i1,i2,i3)` of the slice of every (element `e`,
component `vd`) exactly `∑ k, ∑ c, G_c(i,k) * (∑ d, Dsym(c,d,k) * g_d(k))`, the dense operator
`Gᵀ D G` applied to the same slice of `V`, with the six stored entries
`D00, D01, D02, D11, D12, D22` at point `k = k1 + quads1d*(k2 + quads1d*k3)`. -/
theorem C2_diffusion_MultHex_eq_dense (I : PADiffusionIntegrator R) (V U : Nat → R)
    (hdq : I.shape1d.height ≤ I.shape1d.width)
    (hd : I.dofs = I.shape1d.height ^ 3) (hq : I.quads = I.shape1d.width ^ 3)
    (e vd i1 i2 i3 : Nat) (he : e < I.NE) (hvd : vd < I.vdim) (h1 : i1 < I.shape1d.height)
    (h2 : i2 < I.shape1d.height) (h3 : i3 < I.shape1d.height) :
    I.MultHex V U ((e * I.vdim + vd) * I.dofs +
        (i1 + I.shape1d.height * (i2 + I.shape1d.height * i3))) =
      U ((e * I.vdim + vd) * I.dofs + (i1 + I.shape1d.height * (i2 + I.shape1d.height * i3))) +
      Dense.diffusionHex I.shape1d.height I.shape1d.width I.shape1d.get I.dshape1d.get
        (fun l k => I.Dtensor e (6 * k + l))
        (fun j1 j2 j3 => V ((e * I.vdim + vd) * I.dofs +
          (j1 + I.shape1d.height * (j2 + I.shape1d.height * j3)))) i1 i2 i3 :=
  I.MultHex_closed_diff V U hdq hd hq e vd i1 i2 i3 he hvd h1 h2 h3

/-- Witness of C2 on `exDiffHex`: element 1, component 0, entry `(1, 0, 1)`. -/
theorem C2_diffusion_MultHex_eq_dense_witness :
    (exDiffHex.shape1d.height ≤ exDiffHex.shape1d.width ∧
      exDiffHex.dofs = exDiffHex.shape1d.height ^ 3 ∧
      exDiffHex.quads = exDiffHex.shape1d.width ^ 3 ∧
      1 < exDiffHex.NE ∧ 0 < exDiffHex.vdim ∧ 1 < exDiffHex.shape1d.height ∧
      0 < exDiffHex.shape1d.height) ∧
    exDiffHex.MultHex exV exU ((1 * exDiffHex.vdim + 0) * exDiffHex.dofs +
        (1 + exDiffHex.shape1d.height * (0 + exDiffHex.shape1d.height * 1))) =
      exU ((1 * exDiffHex.vdim + 0) * exDiffHex.dofs +
        (1 + exDiffHex.shape1d.height * (0 + exDiffHex.shape1d.height * 1))) +
      Dense.diffusionHex exDiffHex.shape1d.height exDiffHex.shape1d.width exDiffHex.shape1d.get
        exDiffHex.dshape1d.get (fun l k => exDiffHex.Dtensor 1 (6 * k + l))
        (fun j1 j2 j3 => exV ((1 * exDiffHex.vdim + 0) * exDiffHex.dofs +
          (j1 + exDiffHex.shape1d.height * (j2 + exDiffHex.shape1d.height * j3)))) 1 0 1 :=
  ⟨by decide, C2_diffusion_MultHex_eq_dense exDiffHex exV exU (by decide) (by decide)
    (by decide) 1 0 1 0 1 (by decide) (by decide) (by decide) (by decide) (by decide)⟩

/-- C3: `PADiffusionIntegrator::MultSeg` leaves in the slice of every (element `e`,
component `vd`) `U(i) = U0(i) + ∑ k, dshape(i,k) * D(e,k) * (∑ j, dshape(j,k) * V(j))`, that is
`U += dshape · diag(D) · dshapeᵀ · V`, for tables of equal size. -/
theorem C3_diffusion_MultSeg_eq_dense (I : PADiffusionIntegrator R) (V U : Nat → R)
    (hh : I.dshape1d.height = I.shape1d.height) (hw : I.dshape1d.width = I.shape1d.width)
    (e vd i : Nat) (he : e < I.NE) (hvd : vd < I.vdim) (hi : i < I.shape1d.height) :
    I.MultSeg V U ((e * I.vdim + vd) * I.shape1d.height + i) =
      U ((e * I.vdim + vd) * I.shape1d.height + i) +
      Dense.seg I.shape1d.height I.shape1d.width I.dshape1d.get (I.Dtensor e)
        (fun j => V ((e * I.vdim + vd) * I.shape1d.height + j)) i :=
  I.MultSeg_closed_diff V U hh hw e vd i he hvd hi

/-- Witness of C3 on `exDiffSeg`: element 1, component 1, entry 1. -/
theorem C3_diffusion_MultSeg_eq_dense_witness :
    (exDiffSeg.dshape1d.height = exDiffSeg.shape1d.height ∧
      exDiffSeg.dshape1d.width = exDiffSeg.shape1d.width ∧
      1 < exDiffSeg.NE ∧ 1 < exDiffSeg.vdim ∧ 1 < exDiffSeg.shape1d.height) ∧
    exDiffSeg.MultSeg exV exU ((1 * exDiffSeg.vdim + 1) * exDiffSeg.shape1d.height + 1) =
      exU ((1 * exDiffSeg.vdim + 1) * exDiffSeg.shape1d.height + 1) +
      Dense.seg exDiffSeg.shape1d.height exDiffSeg.shape1d.width exDiffSeg.dshape1d.get
        (exDiffSeg.Dtensor 1)
        (fun j => exV ((1 * exDiffSeg.vdim + 1) * exDiffSeg.shape1d.height + j)) 1 :=
  ⟨by decide, C3_diffusion_MultSeg_eq_dense exDiffSeg exV exU (by decide) (by decide)
    1 1 1 (by decide) (by decide) (by decide)⟩

/-- C4: with `dofs = dofs1d²` and `quads = quads1d²`, `PAMassIntegrator::MultQuad` adds to
entry `U(i1,i2)` of the slice of every (element `e`, component `vd`) exactly
`∑ (k1,k2), shape(i1,k1)*shape(i2,k2)*D(k1,k2) * (∑ (j1,j2), V(j1,j2)*shape(j1,k1)*shape(j2,k2))`,
the dense mass matrix `Bᵀ diag(D) B` applied to the same slice of `V`, where `D` is column `e`
of `Dmat` read at point `k = k1 + quads1d*k2`. -/
theorem C4_mass_MultQuad_eq_dense (I : PAMassIntegrator R) (V U : Nat → R)
    (hd : I.dofs = I.shape1d.height ^ 2) (hq : I.quads = I.shape1d.width ^ 2)
    (e vd i1 i2 : Nat) (he : e < I.NE) (hvd : vd < I.vdim) (h1 : i1 < I.shape1d.height)
    (h2 : i2 < I.shape1d.height) :
    I.MultQuad V U ((e * I.vdim + vd) * I.dofs + (i1 + i2 * I.shape1d.height)) =
      U ((e * I.vdim + vd) * I.dofs + (i1 + i2 * I.shape1d.height)) +
      Dense.massQuad I.shape1d.height I.shape1d.width I.shape1d.get (fun k => I.Dmat.get k e)
        (fun j1 j2 => V ((e * I.vdim + vd) * I.dofs + (j1 + j2 * I.shape1d.height))) i1 i2 :=
  I.MultQuad_closed_mass V U hd hq e vd i1 i2 he hvd h1 h2

/-- Witness of C4 on `exMassQuad`: element 0, component 1, entry `(0, 1)`. -/
theorem C4_mass_MultQuad_eq_dense_witness :
    (exMassQuad.dofs = exMassQuad.shape1d.height ^ 2 ∧
      exMassQuad.quads = exMassQuad.shape1d.width ^ 2 ∧
      0 < exMassQuad.NE ∧ 1 < exMassQuad.vdim ∧ 0 < exMassQuad.shape1d.height ∧
      1 < exMassQuad.shape1d.height) ∧
    exMassQuad.MultQuad exV exU
        ((0 * exMassQuad.vdim + 1) * exMassQuad.dofs + (0 + 1 * exMassQuad.shape1d.height)) =
      exU ((0 * exMassQuad.vdim + 1) * exMassQuad.dofs + (0 + 1 * exMassQuad.shape1d.height)) +
      Dense.massQuad exMassQuad.shape1d.height exMassQuad.shape1d.width exMassQuad.shape1d.get
        (fun k => exMassQuad.Dmat.get k 0)
        (fun j1 j2 => exV ((0 * exMassQuad.vdim + 1) * exMassQuad.dofs +
          (j1 + j2 * exMassQuad.shape1d.height))) 0 1 :=
  ⟨by decide, C4_mass_MultQuad_eq_dense exMassQuad exV exU (by decide) (by decide)
    0 1 0 1 (by decide) (by decide) (by decide) (by decide)⟩

/-- C5: for `dofs1d ≤ quads1d`, `dofs = dofs1d³` and `quads = quads1d³`,
`PAMassIntegrator::MultHex` adds to entry `U(i1,i2,i3)` of the slice of every (element `e`,
component `vd`) exactly `∑ (k1,k2,k3), shape(i1,k1)*shape(i2,k2)*shape(i3,k3)*D(k) *
(∑ (j1,j2,j3), V(j1,j2,j3)*shape(j1,k1)*shape(j2,k2)*shape(j3,k3))`, the dense element mass
matrix applied to the same slice of `V`. -/
theorem C5_mass_MultHex_eq_dense (I : PAMassIntegrator R) (V U : Nat → R)
    (hdq : I.shape1d.height ≤ I.shape1d.width)
    (hd : I.dofs = I.shape1d.height ^ 3) (hq : I.quads = I.shape1d.width ^ 3)
    (e vd i1 i2 i3 : Nat) (he : e < I.NE) (hvd : vd < I.vdim) (h1 : i1 < I.shape1d.height)
    (h2 : i2 < I.shape1d.height) (h3 : i3 < I.shape1d.height) :
    I.MultHex V U ((e * I.vdim + vd) * I.dofs +
        (i1 + I.shape1d.height * (i2 + I.shape1d.height * i3))) =
      U ((e * I.vdim + vd) * I.dofs + (i1 + I.shape1d.height * (i2 + I.shape1d.height * i3))) +
      Dense.massHex I.shape1d.height I.shape1d.width I.shape1d.get (fun k => I.Dmat.get k e)
        (fun j1 j2 j3 => V ((e * I.vdim + vd) * I.dofs +
          (j1 + I.shape1d.height * (j2 + I.shape1d.height * j3)))) i1 i2 i3 :=
  I.MultHex_closed_mass V U hdq hd hq e vd i1 i2 i3 he hvd h1 h2 h3

/-- Witness of C5 on `exMassHex`: element 1, component 1, entry `(0, 1, 1)`. -/
theorem C5_mass_MultHex_eq_dense_witness :
    (exMassHex.shape1d.height ≤ exMassHex.shape1d.width ∧
      exMassHex.dofs = exMassHex.shape1d.height ^ 3 ∧
      exMassHex.quads = exMassHex.shape1d.width ^ 3 ∧
      1 < exMassHex.NE ∧ 1 < exMassHex.vdim ∧ 0 < exMassHex.shape1d.height ∧
      1 < exMassHex.shape1d.height) ∧
    exMassHex.MultHex exV exU ((1 * exMassHex.vdim + 1) * exMassHex.dofs +
        (0 + exMassHex.shape1d.height * (1 + exMassHex.shape1d.height * 1))) =
      exU ((1 * exMassHex.vdim + 1) * exMassHex.dofs +
        (0 + exMassHex.shape1d.height * (1 + exMassHex.shape1d.height * 1))) +
      Dense.massHex exMassHex.shape1d.height exMassHex.shape1d.width exMassHex.shape1d.get
        (fun k => exMassHex.Dmat.get k 1)
        (fun j1 j2 j3 => exV ((1 * exMassHex.vdim + 1) * exMassHex.dofs +
          (j1 + exMassHex.shape1d.height * (j2 + exMassHex.shape1d.height * j3)))) 0 1 1 :=
  ⟨by decide, C5_mass_MultHex_eq_dense exMassHex exV exU (by decide) (by decide)
    (by decide) 1 1 0 1 1 (by decide) (by decide) (by decide) (by decide) (by decide)⟩

/-- C6: `PAMassIntegrator::MultSeg` leaves in the slice of every (element `e`, component
`vd`) `U(i) = U0(i) + ∑ k, shape(i,k) * Dmat(k,e) * (∑ j, shape(j,k) * V(j))`. -/
theorem C6_mass_MultSeg_eq_dense (I : PAMassIntegrator R) (V U : Nat → R)
    (e vd i : Nat) (he : e < I.NE) (hvd : vd < I.vdim) (hi : i < I.shape1d.height) :
    I.MultSeg V U ((e * I.vdim + vd) * I.shape1d.height + i) =
      U ((e * I.vdim + vd) * I.shape1d.height + i) +
      Dense.seg I.shape1d.height I.shape1d.width I.shape1d.get (fun k => I.Dmat.get k e)
        (fun j => V ((e * I.vdim + vd) * I.shape1d.height + j)) i :=
  I.MultSeg_closed_mass V U e vd i he hvd hi

/-- Witness of C6 on `exMassSeg`: element 1, component 0, entry 1. -/
theorem C6_mass_MultSeg_eq_dense_witness :
    (1 < exMassSeg.NE ∧ 0 < exMassSeg.vdim ∧ 1 < exMassSeg.shape1d.height) ∧
    exMassSeg.MultSeg exV exU ((1 * exMassSeg.vdim + 0) * exMassSeg.shape1d.height + 1) =
      exU ((1 * exMassSeg.vdim + 0) * exMassSeg.shape1d.height + 1) +
      Dense.seg exMassSeg.shape1d.height exMassSeg.shape1d.width exMassSeg.shape1d.get
        (fun k => exMassSeg.Dmat.get k 1)
        (fun j => exV ((1 * exMassSeg.vdim + 0) * exMassSeg.shape1d.height + j)) 1 :=
  ⟨by decide, C6_mass_MultSeg_eq_dense exMassSeg exV exU 1 0 1 (by decide) (by decide)
    (by decide)⟩

/-- C7: linearity of the operator action. With `Apply(V)` the output of `AssembleVector` on
input `V` and a zero-initialised output, `Apply(a·V1 + b·V2) = a·Apply(V1) + b·Apply(V2)`
entrywise, for the diffusion and for the mass integrator, for every `dim` (in particular 1, 2
and 3, where the kernels `MultSeg`, `MultQuad`, `MultHex` run), all E-vectors and all scalars. -/
theorem C7_AssembleVector_linear (a b : R) (V1 V2 : Nat → R) :
    (∀ (I : PADiffusionIntegrator R) (fes : FiniteElementSpace) (p : Nat),
      (I.AssembleVector fes (fun i => a * V1 i + b * V2 i) (fun _ => 0)).vect p =
        a * (I.AssembleVector fes V1 (fun _ => 0)).vect p +
        b * (I.AssembleVector fes V2 (fun _ => 0)).vect p) ∧
    (∀ (I : PAMassIntegrator R) (MFEM_DEBUG : Bool) (fespace : FiniteElementSpace) (p : Nat),
      (I.AssembleVector MFEM_DEBUG fespace (fun i => a * V1 i + b * V2 i) (fun _ => 0)).vect p =
        a * (I.AssembleVector MFEM_DEBUG fespace V1 (fun _ => 0)).vect p +
        b * (I.AssembleVector MFEM_DEBUG fespace V2 (fun _ => 0)).vect p) := by
  have hV : Lin a b V1 V2 (fun i => a * V1 i + b * V2 i) := fun _ => rfl
  have hU : Aff a b (fun _ => (0 : R)) (fun _ => 0) (fun _ => 0) (fun _ => 0) := by
    intro p; simp
  constructor
  · intro I fes p
    rw [I.AssembleVector_aff_diff fes hV hU p, add_zero]
  · intro I dbg fespace p
    rw [I.AssembleVector_aff_mass dbg fespace hV hU p, add_zero]

/-- C8: the operator action accumulates and never overwrites. For the diffusion and for the
mass integrator, every `dim`, every input `V` and every initial output `U0`,
`AssembleVector(V, U0) = U0 + AssembleVector(V, 0)` entrywise; hence two calls with the same `V`
into the same initially zero buffer give twice the result of one call. -/
theorem C8_AssembleVector_accumulates (V U0 : Nat → R) :
    (∀ (I : PADiffusionIntegrator R) (fes : FiniteElementSpace) (p : Nat),
      (I.AssembleVector fes V U0).vect p =
        U0 p + (I.AssembleVector fes V (fun _ => 0)).vect p ∧
      (I.AssembleVector fes V (I.AssembleVector fes V (fun _ => 0)).vect).vect p =
        2 * (I.AssembleVector fes V (fun _ => 0)).vect p) ∧
    (∀ (I : PAMassIntegrator R) (MFEM_DEBUG : Bool) (fespace : FiniteElementSpace) (p : Nat),
      (I.AssembleVector MFEM_DEBUG fespace V U0).vect p =
        U0 p + (I.AssembleVector MFEM_DEBUG fespace V (fun _ => 0)).vect p ∧
      (I.AssembleVector MFEM_DEBUG fespace V
          (I.AssembleVector MFEM_DEBUG fespace V (fun _ => 0)).vect).vect p =
        2 * (I.AssembleVector MFEM_DEBUG fespace V (fun _ => 0)).vect p) := by
  constructor
  · intro I fes p
    refine ⟨I.AssembleVector_add_diff fes V U0 p, ?_⟩
    rw [I.AssembleVector_add_diff fes V _ p]; ring
  · intro I dbg fespace p
    refine ⟨I.AssembleVector_add_mass dbg fespace V U0 p, ?_⟩
    rw [I.AssembleVector_add_mass dbg fespace V _ p]; ring

/-- C9: `AssembleVector` reports the unsupported-dimension error ("Not yet supported") if and
only if `dim` is not 1, 2 or 3; when it reports it the output E-vector is exactly as it was; and
no other outcome than success or that error exists. This holds for every call of
`PADiffusionIntegrator::AssembleVector`, and for every call of
`PAMassIntegrator::AssembleVector` whose assertion `fespace.GetFE(0)->GetDim() == dim` holds
or is compiled out. -/
theorem C9_AssembleVector_unsupported_dim :
    (∀ (I : PADiffusionIntegrator R) (fes : FiniteElementSpace) (fn vect : Nat → R),
      ((I.AssembleVector fes fn vect).error = some "Not yet supported" ↔
        ¬ (I.dim = 1 ∨ I.dim = 2 ∨ I.dim = 3)) ∧
      ((I.AssembleVector fes fn vect).error = some "Not yet supported" →
        (I.AssembleVector fes fn vect).vect = vect) ∧
      ((I.AssembleVector fes fn vect).error = none ∨
        (I.AssembleVector fes fn vect).error = some "Not yet supported")) ∧
    (∀ (I : PAMassIntegrator R) (MFEM_DEBUG : Bool) (fespace : FiniteElementSpace)
      (fn vect : Nat → R), (MFEM_DEBUG = true → fespace.feDim = I.dim) →
      ((I.AssembleVector MFEM_DEBUG fespace fn vect).error = some "Not yet supported" ↔
        ¬ (I.dim = 1 ∨ I.dim = 2 ∨ I.dim = 3)) ∧
      ((I.AssembleVector MFEM_DEBUG fespace fn vect).error = some "Not yet supported" →
        (I.AssembleVector MFEM_DEBUG fespace fn vect).vect = vect) ∧
      ((I.AssembleVector MFEM_DEBUG fespace fn vect).error = none ∨
        (I.AssembleVector MFEM_DEBUG fespace fn vect).error = some "Not yet supported")) := by
  constructor
  · intro I fes fn vect
    unfold PADiffusionIntegrator.AssembleVector
    split_ifs <;> simp_all
  · intro I dbg fespace fn vect hassert
    unfold PAMassIntegrator.AssembleVector
    have h0 : ¬ (dbg = true ∧ ¬ fespace.feDim = I.dim) := fun h => h.2 (hassert h.1)
    rw [if_neg h0]
    split_ifs <;> simp_all

/-- Witness of C9 on `exMassBad` (`dim = 4`) with the assertion compiled in and satisfied: the
error is reported and the output is untouched. -/
theorem C9_AssembleVector_unsupported_dim_witness :
    ((true = true → (⟨4⟩ : FiniteElementSpace).feDim = exMassBad.dim) ∧
      ¬ (exMassBad.dim = 1 ∨ exMassBad.dim = 2 ∨ exMassBad.dim = 3)) ∧
    (exMassBad.AssembleVector true ⟨4⟩ exV exU).error = some "Not yet supported" ∧
    (exMassBad.AssembleVector true ⟨4⟩ exV exU).vect = exU :=
  ⟨by decide,
    ((C9_AssembleVector_unsupported_dim.2 exMassBad true ⟨4⟩ exV exU (by decide)).1).2
      (by decide),
    (C9_AssembleVector_unsupported_dim.2 exMassBad true ⟨4⟩ exV exU (by decide)).2.1
      (((C9_AssembleVector_unsupported_dim.2 exMassBad true ⟨4⟩ exV exU (by decide)).1).2
        (by decide))⟩

/-- C10: dimension dispatch. For `dim = 1`, `2`, `3` the call `AssembleVector(fun, vect)` ends
without error and its output is exactly the output of `MultSeg(fun, vect)`,
`MultQuad(fun, vect)`, `MultHex(fun, vect)` of the same integrator, for every input and initial
output; for `PAMassIntegrator` this is for every call whose assertion
`fespace.GetFE(0)->GetDim() == dim` holds or is compiled out. -/
theorem C10_AssembleVector_dispatch :
    (∀ (I : PADiffusionIntegrator R) (fes : FiniteElementSpace) (fn vect : Nat → R),
      (I.dim = 1 → I.AssembleVector fes fn vect = ⟨none, I.MultSeg fn vect⟩) ∧
      (I.dim = 2 → I.AssembleVector fes fn vect = ⟨none, I.MultQuad fn vect⟩) ∧
      (I.dim = 3 → I.AssembleVector fes fn vect = ⟨none, I.MultHex fn vect⟩)) ∧
    (∀ (I : PAMassIntegrator R) (MFEM_DEBUG : Bool) (fespace : FiniteElementSpace)
      (fn vect : Nat → R), (MFEM_DEBUG = true → fespace.feDim = I.dim) →
      (I.dim = 1 → I.AssembleVector MFEM_DEBUG fespace fn vect = ⟨none, I.MultSeg fn vect⟩) ∧
      (I.dim = 2 → I.AssembleVector MFEM_DEBUG fespace fn vect = ⟨none, I.MultQuad fn vect⟩) ∧
      (I.dim = 3 → I.AssembleVector MFEM_DEBUG fespace fn vect = ⟨none, I.MultHex fn vect⟩)) := by
  constructor
  · intro I fes fn vect
    unfold PADiffusionIntegrator.AssembleVector
    refine ⟨fun h => ?_, fun h => ?_, fun h => ?_⟩ <;> simp [h]
  · intro I dbg fespace fn vect hassert
    unfold PAMassIntegrator.AssembleVector
    have h0 : ¬ (dbg = true ∧ ¬ fespace.feDim = I.dim) := fun h => h.2 (hassert h.1)
    rw [if_neg h0]
    refine ⟨fun h => ?_, fun h => ?_, fun h => ?_⟩ <;> simp [h]

/-- Witness of C10 on `exMassHex` (`dim = 3`) with the assertion compiled in and satisfied. -/
theorem C10_AssembleVector_dispatch_witness :
    ((true = true → (⟨3⟩ : FiniteElementSpace).feDim = exMassHex.dim) ∧ exMassHex.dim = 3) ∧
    exMassHex.AssembleVector true ⟨3⟩ exV exU = ⟨none, exMassHex.MultHex exV exU⟩ :=
  ⟨by decide,
    (C10_AssembleVector_dispatch.2 exMassHex true ⟨3⟩ exV exU (by decide)).2.2 (by decide)⟩

end Claims


section SetupClaims

variable {R : Type} [CommRing R] {K : Type} [Field K]

/-- C11, as the code has it: for every element `e` and quadrature point `k` whose Jacobian
`J` is invertible, with `AdjugateJacobian = adj(J)` and `Weight = det J`, and no coefficient,
the symmetric matrix whose packed entries `ComputePA` stores at `(e, k)` is
`w(k)/det J · adj(J)·adj(J)ᵀ`, which is `w(k) · det J · J⁻¹·J⁻ᵀ` (the claim's factor `w/|J|`
goes with the adjugate, not with the inverse). -/
theorem C11_ComputePA_stores_scaled_inverse_product (I : PADiffusionIntegrator K)
    (fe : FiniteElement) (ipw : Nat → K) (Tr : Nat → Nat → ElementTransformation K)
    (tdata0 : Nat → K) (e k : Nat) (he : e < I.NE) (hk : k < I.quads)
    (J : Matrix (Fin fe.GetDim) (Fin fe.GetDim) K) (hdet : J.det ≠ 0)
    (hh : (Tr e k).AdjugateJacobian.height = fe.GetDim)
    (hw : (Tr e k).AdjugateJacobian.width = fe.GetDim)
    (hadj : ∀ i j : Fin fe.GetDim, (Tr e k).AdjugateJacobian.get i j = J.adjugate i j)
    (hW : (Tr e k).Weight = J.det) (i j : Fin fe.GetDim) :
    (I.ComputeDtensor fe ipw Tr none none tdata0).sym fe.GetDim k e i j =
        ((ipw k / J.det) • (J.adjugate * J.adjugate.transpose)) i j ∧
    (I.ComputeDtensor fe ipw Tr none none tdata0).sym fe.GetDim k e i j =
        ((ipw k * J.det) • (J⁻¹ * J⁻¹.transpose)) i j := by
  have hsum : ∀ a b : Fin fe.GetDim,
      ∑ c in range fe.GetDim, (Tr e k).AdjugateJacobian.get a c *
        (Tr e k).AdjugateJacobian.get b c = (J.adjugate * J.adjugate.transpose) a b := by
    intro a b
    rw [Matrix.mul_apply, Finset.sum_range]
    apply Finset.sum_congr rfl
    intro c _
    rw [hadj, hadj, Matrix.transpose_apply]
  have hsymm : (J.adjugate * J.adjugate.transpose) j i =
      (J.adjugate * J.adjugate.transpose) i j := by
    rw [Matrix.mul_apply, Matrix.mul_apply]
    apply Finset.sum_congr rfl
    intro c _
    rw [Matrix.transpose_apply, Matrix.transpose_apply, mul_comm]
  have hval : (I.ComputeDtensor fe ipw Tr none none tdata0).sym fe.GetDim k e i j =
      (J.adjugate * J.adjugate.transpose) i j * (ipw k / J.det) := by
    unfold DenseTensor.sym
    rcases Nat.le_total (j : Nat) (i : Nat) with h | h
    · rw [max_eq_left h, min_eq_right h,
        I.ComputeDtensor_get fe ipw Tr none none tdata0 e k i j he hk hh hw h i.2]
      simp only
      rw [hsum i j, hW]
    · rw [max_eq_right h, min_eq_left h,
        I.ComputeDtensor_get fe ipw Tr none none tdata0 e k j i he hk hh hw h j.2]
      simp only
      rw [hsum j i, hW, hsymm]
  constructor
  · rw [hval, Matrix.smul_apply, smul_eq_mul, mul_comm]
  · rw [hval, Matrix.inv_def, Ring.inverse_eq_inv', Matrix.transpose_smul, Matrix.smul_mul,
      Matrix.mul_smul, smul_smul, smul_smul, Matrix.smul_apply, smul_eq_mul]
    field_simp
    ring

/-- C11 as stated fails on a segment of length 2: `J = (2)`, `adj(J) = (1)`, `det J = 2`,
`w = 1`. `ComputePA` stores `1/2 = w/det J · adj·adjᵀ`, whereas
`w/det J · J⁻¹·J⁻ᵀ = 1/8`. -/
theorem C11_ComputePA_stores_scaled_inverse_product_counterexample :
    exJ.det ≠ 0 ∧
    (∀ i j : Fin 1, (exTrSeg 0 0).AdjugateJacobian.get i j = exJ.adjugate i j) ∧
    (exTrSeg 0 0).Weight = exJ.det ∧
    (exSetupSeg.ComputeDtensor exFE1 (fun _ => 1) exTrSeg none none (fun _ => 0)).sym 1 0 0
        0 0 = 1 / 2 ∧
    (((1 : ℚ) / exJ.det) • (exJ⁻¹ * exJ⁻¹.transpose)) 0 0 = 1 / 8 ∧
    (exSetupSeg.ComputeDtensor exFE1 (fun _ => 1) exTrSeg none none (fun _ => 0)).sym 1 0 0
        0 0 ≠ (((1 : ℚ) / exJ.det) • (exJ⁻¹ * exJ⁻¹.transpose)) 0 0 := by
  have hd : exJ.det = 2 := by simp [exJ, Matrix.det_fin_one]
  have key : (exSetupSeg.ComputeDtensor exFE1 (fun _ => 1) exTrSeg none none
        (fun _ => 0)).sym 1 0 0 0 0 = 1 / 2 ∧
      (((1 : ℚ) / exJ.det) • (exJ⁻¹ * exJ⁻¹.transpose)) 0 0 = 1 / 8 := by
    refine ⟨?_, ?_⟩
    · have h := exSetupSeg.ComputeDtensor_get exFE1 (fun _ => 1) exTrSeg none none
        (fun _ => 0) 0 0 0 0 (by decide) (by decide) rfl rfl (Nat.le_refl _) (by decide)
      simp only [DenseTensor.sym, Nat.max_self, Nat.min_self]
      refine h.trans ?_
      simp [exFE1, exTrSeg, DenseMatrix.get]
    · rw [Matrix.inv_def, hd]
      simp [exJ, Matrix.mul_apply, Matrix.adjugate_fin_one]
      norm_num
  refine ⟨by rw [hd]; norm_num, ?_, by rw [hd]; rfl, key.1, key.2, ?_⟩
  · intro i j
    rw [Matrix.adjugate_fin_one, Matrix.one_apply, if_pos (Subsingleton.elim i j)]
    rfl
  · rw [key.1, key.2]
    norm_num

/-- Witness of C11 on the segment of length 2: the stored entry is
`w · det J · J⁻¹·J⁻ᵀ = 1·2·(1/4)`. -/
theorem C11_ComputePA_stores_scaled_inverse_product_witness :
    (0 < exSetupSeg.NE ∧ 0 < exSetupSeg.quads ∧
      (exTrSeg 0 0).AdjugateJacobian.height = exFE1.GetDim ∧
      (exTrSeg 0 0).AdjugateJacobian.width = exFE1.GetDim ∧ exJ.det ≠ 0 ∧
      (∀ i j : Fin 1, (exTrSeg 0 0).AdjugateJacobian.get i j = exJ.adjugate i j) ∧
      (exTrSeg 0 0).Weight = exJ.det) ∧
    (exSetupSeg.ComputeDtensor exFE1 (fun _ => 1) exTrSeg none none (fun _ => 0)).sym 1 0 0
        0 0 = (((1 : ℚ) * exJ.det) • (exJ⁻¹ * exJ⁻¹.transpose)) 0 0 := by
  have hd : exJ.det = 2 := by simp [exJ, Matrix.det_fin_one]
  have hne : exJ.det ≠ 0 := by rw [hd]; norm_num
  have hadj : ∀ i j : Fin 1, (exTrSeg 0 0).AdjugateJacobian.get i j = exJ.adjugate i j := by
    intro i j
    rw [Matrix.adjugate_fin_one, Matrix.one_apply, if_pos (Subsingleton.elim i j)]
    rfl
  have hW : (exTrSeg 0 0).Weight = exJ.det := by rw [hd]; rfl
  exact ⟨⟨by decide, by decide, rfl, rfl, hne, hadj, hW⟩,
    (C11_ComputePA_stores_scaled_inverse_product exSetupSeg exFE1 (fun _ => 1) exTrSeg
      (fun _ => 0) 0 0 (by decide) (by decide) exJ hne rfl rfl hadj hW
      (0 : Fin 1) (0 : Fin 1)).2⟩

/-- C12: `PAMassIntegrator::ComputePA` gives `Dmat` exactly `quads` rows and one column per
element, and stores `Dmat(k, e) = w(k) · Weight(e, k)` without coefficient and
`Dmat(k, e) = c(e, k) · w(k) · Weight(e, k)` with a scalar coefficient `c`. -/
theorem C12_mass_ComputePA_Dmat (I : PAMassIntegrator R) (fe : FiniteElement)
    (basis1d : Poly_1D.Basis R) (IntRules : Int → IntegrationRule R) (ir_order : Int)
    (ipw : Nat → R) (Tr : Nat → Nat → ElementTransformation R) (c : Nat → Nat → R) :
    ((I.ComputePA fe basis1d IntRules ir_order ipw Tr none).Dmat.height = I.quads ∧
      (I.ComputePA fe basis1d IntRules ir_order ipw Tr none).Dmat.width = I.NE ∧
      (I.ComputePA fe basis1d IntRules ir_order ipw Tr (some c)).Dmat.height = I.quads ∧
      (I.ComputePA fe basis1d IntRules ir_order ipw Tr (some c)).Dmat.width = I.NE) ∧
    ∀ e k, e < I.NE → k < I.quads →
      (I.ComputePA fe basis1d IntRules ir_order ipw Tr none).Dmat.get k e =
        ipw k * (Tr e k).Weight ∧
      (I.ComputePA fe basis1d IntRules ir_order ipw Tr (some c)).Dmat.get k e =
        c e k * ipw k * (Tr e k).Weight := by
  refine ⟨⟨rfl, rfl, rfl, rfl⟩, fun e k he hk => ⟨?_, ?_⟩⟩
  · exact I.ComputePA_get_mass fe basis1d IntRules ir_order ipw Tr none e k he hk
  · rw [I.ComputePA_get_mass fe basis1d IntRules ir_order ipw Tr (some c) e k he hk]
    simp only
    ring

/-- Witness of C12 on `exMassSeg`, element `1`, point `1`, coefficient `c(e, k) = 7`: -/
theorem C12_mass_ComputePA_Dmat_witness :
    (1 < exMassSeg.NE ∧ 1 < exMassSeg.quads) ∧
    (exMassSeg.ComputePA exFE1 exBasis exIntRules 2 (fun k => (k : Int) + 1) exTrMass
        none).Dmat.get 1 1 = ((1 : Nat) + 1 : Int) * (exTrMass 1 1).Weight ∧
    (exMassSeg.ComputePA exFE1 exBasis exIntRules 2 (fun k => (k : Int) + 1) exTrMass
        (some (fun _ _ => 7))).Dmat.get 1 1 = 7 * ((1 : Nat) + 1 : Int) * (exTrMass 1 1).Weight :=
  ⟨by decide,
    (C12_mass_ComputePA_Dmat exMassSeg exFE1 exBasis exIntRules 2 (fun k => (k : Int) + 1)
      exTrMass (fun _ _ => 7)).2 1 1 (by decide) (by decide)⟩

/-- C13: for every dimension, element `e`, point `k` and `dim × dim` adjugate `A`, the full
matrix `mat = (w/W) · A·Aᵀ` computed in `ComputePA` is symmetric, so the symmetric matrix read
back from the stored entries is `mat` in every entry without coefficient, and `c · mat` in every
entry with a scalar coefficient `c`. -/
theorem C13_ComputePA_packing_lossless (I : PADiffusionIntegrator K) (fe : FiniteElement)
    (ipw : Nat → K) (Tr : Nat → Nat → ElementTransformation K) (c : Nat → Nat → K)
    (mcoeff : Option (Nat → Nat → DenseMatrix K)) (tdata0 m0 : Nat → K) (e k : Nat)
    (he : e < I.NE) (hk : k < I.quads)
    (hh : (Tr e k).AdjugateJacobian.height = fe.GetDim)
    (hw : (Tr e k).AdjugateJacobian.width = fe.GetDim) (i j : Nat) (hi : i < fe.GetDim)
    (hj : j < fe.GetDim) :
    (PADiffusionIntegrator.pointMat fe.GetDim (ipw k) (Tr e k) m0).get i j =
      (∑ a in range fe.GetDim, (Tr e k).AdjugateJacobian.get i a *
        (Tr e k).AdjugateJacobian.get j a) * (ipw k / (Tr e k).Weight) ∧
    (PADiffusionIntegrator.pointMat fe.GetDim (ipw k) (Tr e k) m0).get i j =
      (PADiffusionIntegrator.pointMat fe.GetDim (ipw k) (Tr e k) m0).get j i ∧
    (I.ComputeDtensor fe ipw Tr none none tdata0).sym fe.GetDim k e i j =
      (PADiffusionIntegrator.pointMat fe.GetDim (ipw k) (Tr e k) m0).get i j ∧
    (I.ComputeDtensor fe ipw Tr (some c) mcoeff tdata0).sym fe.GetDim k e i j =
      c e k * (PADiffusionIntegrator.pointMat fe.GetDim (ipw k) (Tr e k) m0).get i j := by
  have hsym := PADiffusionIntegrator.pointMat_symm fe.GetDim (ipw k) (Tr e k) m0 hh hw i j hi hj
  refine ⟨PADiffusionIntegrator.pointMat_get fe.GetDim (ipw k) (Tr e k) m0 hh hw i j hi hj,
    hsym, ?_, ?_⟩
  · unfold DenseTensor.sym
    rcases Nat.le_total j i with h | h
    · rw [max_eq_left h, min_eq_right h,
        I.ComputeDtensor_get fe ipw Tr none none tdata0 e k i j he hk hh hw h hi,
        PADiffusionIntegrator.pointMat_get fe.GetDim (ipw k) (Tr e k) m0 hh hw i j hi hj]
    · rw [max_eq_right h, min_eq_left h,
        I.ComputeDtensor_get fe ipw Tr none none tdata0 e k j i he hk hh hw h hj, hsym,
        PADiffusionIntegrator.pointMat_get fe.GetDim (ipw k) (Tr e k) m0 hh hw j i hj hi]
  · unfold DenseTensor.sym
    rcases Nat.le_total j i with h | h
    · rw [max_eq_left h, min_eq_right h,
        I.ComputeDtensor_get fe ipw Tr (some c) mcoeff tdata0 e k i j he hk hh hw h hi,
        PADiffusionIntegrator.pointMat_get fe.GetDim (ipw k) (Tr e k) m0 hh hw i j hi hj]
    · rw [max_eq_right h, min_eq_left h,
        I.ComputeDtensor_get fe ipw Tr (some c) mcoeff tdata0 e k j i he hk hh hw h hj, hsym,
        PADiffusionIntegrator.pointMat_get fe.GetDim (ipw k) (Tr e k) m0 hh hw j i hj hi]

/-- Witness of C13 on `exSetupQuad` with the adjugate `(1 1; 0 1)`, entry `(0, 1)`, scalar
coefficient `3`. -/
theorem C13_ComputePA_packing_lossless_witness :
    (0 < exSetupQuad.NE ∧ 0 < exSetupQuad.quads ∧
      (exTrQuad 0 0).AdjugateJacobian.height = exFE2.GetDim ∧
      (exTrQuad 0 0).AdjugateJacobian.width = exFE2.GetDim ∧ 0 < exFE2.GetDim ∧
      1 < exFE2.GetDim) ∧
    (exSetupQuad.ComputeDtensor exFE2 (fun _ => 1) exTrQuad none none (fun _ => 0)).sym
        exFE2.GetDim 0 0 0 1 =
      (PADiffusionIntegrator.pointMat exFE2.GetDim 1 (exTrQuad 0 0) (fun _ => 0)).get 0 1 ∧
    (exSetupQuad.ComputeDtensor exFE2 (fun _ => 1) exTrQuad (some (fun _ _ => 3)) (some exC)
        (fun _ => 0)).sym exFE2.GetDim 0 0 0 1 =
      3 * (PADiffusionIntegrator.pointMat exFE2.GetDim 1 (exTrQuad 0 0) (fun _ => 0)).get 0 1 :=
  ⟨by decide,
    (C13_ComputePA_packing_lossless exSetupQuad exFE2 (fun _ => 1) exTrQuad (fun _ _ => 3)
      (some exC) (fun _ => 0) (fun _ => 0) 0 0 (by decide) (by decide) rfl rfl 0 1 (by decide)
      (by decide)).2.2⟩

/-- C14, as the code has it: with a matrix coefficient the stored entries of a quadrature
point depend only on the lower triangle of the coefficient matrix, the entries `C(i,j)` with
row index `i ≥ j` column index: two coefficients that agree there at the point give identical
stored entries at the point. -/
theorem C14_ComputePA_reads_lower_triangle (I : PADiffusionIntegrator K) (fe : FiniteElement)
    (ipw : Nat → K) (Tr : Nat → Nat → ElementTransformation K)
    (C C' : Nat → Nat → DenseMatrix K) (tdata0 tdata0' : Nat → K) (e k : Nat) (he : e < I.NE)
    (hk : k < I.quads)
    (hlow : ∀ i j, j ≤ i → i < fe.GetDim → (C e k).get i j = (C' e k).get i j) (l : Nat)
    (hl : l < fe.GetDim * (fe.GetDim + 1) / 2) :
    (I.ComputeDtensor fe ipw Tr none (some C) tdata0).get l k e =
      (I.ComputeDtensor fe ipw Tr none (some C') tdata0').get l k e := by
  rw [← packStart_total] at hl
  obtain ⟨i, j, hji, hi, rfl⟩ := packIndex_surj fe.GetDim l hl
  obtain ⟨m, hm⟩ := I.ComputeDtensor_get_raw fe ipw Tr e k he hk
  rw [hm none (some C) tdata0 i j hji hi, hm none (some C') tdata0' i j hji hi]
  simp only
  rw [hlow i j hji hi]

/-- C14 as stated fails: `exC` and `exC'` have the same upper triangle (`C(i,j) = C'(i,j)`
whenever `i ≤ j`) at every point, yet the stored entry of slot 1, which is
`C(1,0) · mat(1,0)`, is `1` for `exC` and `5` for `exC'`. -/
theorem C14_ComputePA_reads_lower_triangle_counterexample :
    (∀ e k i j, i ≤ j → (exC e k).get i j = (exC' e k).get i j) ∧
    (exSetupQuad.ComputeDtensor exFE2 (fun _ => 1) exTrQuad none (some exC)
      (fun _ => 0)).get 1 0 0 = 1 ∧
    (exSetupQuad.ComputeDtensor exFE2 (fun _ => 1) exTrQuad none (some exC')
      (fun _ => 0)).get 1 0 0 = 5 ∧
    (exSetupQuad.ComputeDtensor exFE2 (fun _ => 1) exTrQuad none (some exC)
      (fun _ => 0)).get 1 0 0 ≠
    (exSetupQuad.ComputeDtensor exFE2 (fun _ => 1) exTrQuad none (some exC')
      (fun _ => 0)).get 1 0 0 := by
  have hp : packIndex exFE2.GetDim 1 0 = 1 := by decide
  have h1 : (exSetupQuad.ComputeDtensor exFE2 (fun _ => 1) exTrQuad none (some exC)
      (fun _ => 0)).get 1 0 0 = 1 := by
    have h := exSetupQuad.ComputeDtensor_get exFE2 (fun _ => 1) exTrQuad none (some exC)
      (fun _ => 0) 0 0 1 0 (by decide) (by decide) rfl rfl (by decide) (by decide)
    rw [hp] at h
    rw [h]
    simp [exFE2, exTrQuad, exC, DenseMatrix.get, Finset.sum_range_succ]
  have h2 : (exSetupQuad.ComputeDtensor exFE2 (fun _ => 1) exTrQuad none (some exC')
      (fun _ => 0)).get 1 0 0 = 5 := by
    have h := exSetupQuad.ComputeDtensor_get exFE2 (fun _ => 1) exTrQuad none (some exC')
      (fun _ => 0) 0 0 1 0 (by decide) (by decide) rfl rfl (by decide) (by decide)
    rw [hp] at h
    rw [h]
    simp [exFE2, exTrQuad, exC', DenseMatrix.get, Finset.sum_range_succ]
  refine ⟨?_, h1, h2, by rw [h1, h2]; norm_num⟩
  intro e k i j hij
  have hne : i + j * 2 ≠ 1 := by omega
  simp [exC, exC', DenseMatrix.get, hne]

/-- Witness of C14 on `exSetupQuad`: `exC` and the coefficient with all entries `1` except
`C(0,1) = 9` agree on the lower triangle, and slot 1 is stored the same for both. -/
theorem C14_ComputePA_reads_lower_triangle_witness :
    (0 < exSetupQuad.NE ∧ 0 < exSetupQuad.quads ∧
      1 < exFE2.GetDim * (exFE2.GetDim + 1) / 2) ∧
    (∀ i j, j ≤ i → i < exFE2.GetDim → (exC 0 0).get i j =
      ((fun _ _ => ⟨fun p => if p = 2 then 9 else 1, 2, 2⟩ :
        Nat → Nat → DenseMatrix ℚ) 0 0).get i j) ∧
    (exSetupQuad.ComputeDtensor exFE2 (fun _ => 1) exTrQuad none (some exC)
      (fun _ => 0)).get 1 0 0 =
    (exSetupQuad.ComputeDtensor exFE2 (fun _ => 1) exTrQuad none
      (some (fun _ _ => ⟨fun p => if p = 2 then 9 else 1, 2, 2⟩)) (fun _ => 0)).get 1 0 0 := by
  have hlow : ∀ i j, j ≤ i → i < exFE2.GetDim → (exC 0 0).get i j =
      ((fun _ _ => ⟨fun p => if p = 2 then 9 else 1, 2, 2⟩ :
        Nat → Nat → DenseMatrix ℚ) 0 0).get i j := by
    intro i j hji hi
    have hi2 : i < 2 := hi
    have hne : i + j * 2 ≠ 2 := by omega
    simp [exC, DenseMatrix.get, hne]
  exact ⟨by decide, hlow,
    C14_ComputePA_reads_lower_triangle exSetupQuad exFE2 (fun _ => 1) exTrQuad exC
      (fun _ _ => ⟨fun p => if p = 2 then 9 else 1, 2, 2⟩) (fun _ => 0) (fun _ => 0) 0 0
      (by decide) (by decide) hlow 1 (by decide)⟩

/-- C15: at every point `k` of every element `e`, each stored entry built with a scalar
coefficient is `c(e,k)` times the entry built with no coefficient, and the entry built with a
matrix coefficient in the slot of the pair `(i, j)` is the no-coefficient entry of that slot
times the single coefficient entry `C(i, j)`: an entrywise product. -/
theorem C15_ComputePA_coefficient_scaling (I : PADiffusionIntegrator K) (fe : FiniteElement)
    (ipw : Nat → K) (Tr : Nat → Nat → ElementTransformation K) (c : Nat → Nat → K)
    (C : Nat → Nat → DenseMatrix K) (mcoeff : Option (Nat → Nat → DenseMatrix K))
    (t0 t1 t2 : Nat → K) (e k : Nat) (he : e < I.NE) (hk : k < I.quads) :
    (∀ l, l < fe.GetDim * (fe.GetDim + 1) / 2 →
      (I.ComputeDtensor fe ipw Tr (some c) mcoeff t1).get l k e =
        c e k * (I.ComputeDtensor fe ipw Tr none none t0).get l k e) ∧
    (∀ i j, j ≤ i → i < fe.GetDim →
      (I.ComputeDtensor fe ipw Tr none (some C) t2).get (packIndex fe.GetDim i j) k e =
        (C e k).get i j *
          (I.ComputeDtensor fe ipw Tr none none t0).get (packIndex fe.GetDim i j) k e) := by
  obtain ⟨m, hm⟩ := I.ComputeDtensor_get_raw fe ipw Tr e k he hk
  constructor
  · intro l hl
    rw [← packStart_total] at hl
    obtain ⟨i, j, hji, hi, rfl⟩ := packIndex_surj fe.GetDim l hl
    rw [hm (some c) mcoeff t1 i j hji hi, hm none none t0 i j hji hi]
  · intro i j hji hi
    rw [hm none (some C) t2 i j hji hi, hm none none t0 i j hji hi]

/-- Witness of C15 on `exSetupQuad`: slot 1, the slot of the pair `(1, 0)`, with the scalar
coefficient `3` and with the matrix coefficient `exC'`. -/
theorem C15_ComputePA_coefficient_scaling_witness :
    (0 < exSetupQuad.NE ∧ 0 < exSetupQuad.quads ∧
      1 < exFE2.GetDim * (exFE2.GetDim + 1) / 2 ∧ 0 ≤ 1 ∧ 1 < exFE2.GetDim) ∧
    (exSetupQuad.ComputeDtensor exFE2 (fun _ => 1) exTrQuad (some (fun _ _ => 3)) none
        (fun _ => 0)).get 1 0 0 =
      3 * (exSetupQuad.ComputeDtensor exFE2 (fun _ => 1) exTrQuad none none
        (fun _ => 0)).get 1 0 0 ∧
    (exSetupQuad.ComputeDtensor exFE2 (fun _ => 1) exTrQuad none (some exC')
        (fun _ => 0)).get (packIndex exFE2.GetDim 1 0) 0 0 =
      (exC' 0 0).get 1 0 * (exSetupQuad.ComputeDtensor exFE2 (fun _ => 1) exTrQuad none none
        (fun _ => 0)).get (packIndex exFE2.GetDim 1 0) 0 0 :=
  ⟨by decide,
    (C15_ComputePA_coefficient_scaling exSetupQuad exFE2 (fun _ => 1) exTrQuad (fun _ _ => 3)
      exC' none (fun _ => 0) (fun _ => 0) (fun _ => 0) 0 0 (by decide) (by decide)).1 1
      (by decide),
    (C15_ComputePA_coefficient_scaling exSetupQuad exFE2 (fun _ => 1) exTrQuad (fun _ _ => 3)
      exC' none (fun _ => 0) (fun _ => 0) (fun _ => 0) 0 0 (by decide) (by decide)).2 1 0
      (by decide) (by decide)⟩

/-- C16: `ComputePA` sizes `Dtensor` as `dim*(dim+1)/2 × quads × elems`; the calls of the
packing loop have the slots `l = 0, 1, ..., dim*(dim+1)/2 - 1`, each exactly once (for
`dim = 1, 2, 3` the calls `(l, i, j)` are listed). For every element `e` and point `k`, in
every coefficient branch: the stores of the body of the point loop go to `Dmat(l, k)` for
`l = 0, ..., dim*(dim+1)/2 - 1` in this order, so every slot is stored to exactly once and no
other address is; the data after the body are the data before it with these stores replayed,
each with the value of the branch; every slot `l` then holds the value of the branch for its
pair `(i, j)`, whatever it held before; every other address is as before. After the whole of
`ComputePA` every slot of every point of every element holds such a value, which does not
depend on the initial content of the buffer, and the buffer is untouched from
`entries*quads*elems` on. -/
theorem C16_ComputePA_packing_slots (I : PADiffusionIntegrator K) (fe : FiniteElement)
    (ipw : Nat → K) (Tr : Nat → Nat → ElementTransformation K)
    (coeff : Option (Nat → Nat → K)) (mcoeff : Option (Nat → Nat → DenseMatrix K))
    (tdata0 : Nat → K) :
    ((I.ComputeDtensor fe ipw Tr coeff mcoeff tdata0).SizeI = fe.GetDim * (fe.GetDim + 1) / 2 ∧
      (I.ComputeDtensor fe ipw Tr coeff mcoeff tdata0).SizeJ = I.quads ∧
      (I.ComputeDtensor fe ipw Tr coeff mcoeff tdata0).SizeK = I.NE) ∧
    (packTriples fe.GetDim).map (fun t => t.1) =
      List.range (fe.GetDim * (fe.GetDim + 1) / 2) ∧
    (packTriples 1 = [(0, 0, 0)] ∧ packTriples 2 = [(0, 0, 0), (1, 1, 0), (2, 1, 1)] ∧
      packTriples 3 = [(0, 0, 0), (1, 1, 0), (2, 2, 0), (3, 1, 1), (4, 2, 1), (5, 2, 2)]) ∧
    (∀ e k,
      PADiffusionIntegrator.ComputePAPointStores fe.GetDim (fe.GetDim * (fe.GetDim + 1) / 2)
        I.quads coeff mcoeff e k =
      (List.range (fe.GetDim * (fe.GetDim + 1) / 2)).map (fun l =>
        e * (fe.GetDim * (fe.GetDim + 1) / 2 * I.quads) +
          (l + k * (fe.GetDim * (fe.GetDim + 1) / 2)))) ∧
    (∀ e k l, l < fe.GetDim * (fe.GetDim + 1) / 2 →
      (PADiffusionIntegrator.ComputePAPointStores fe.GetDim (fe.GetDim * (fe.GetDim + 1) / 2)
        I.quads coeff mcoeff e k).count
        (e * (fe.GetDim * (fe.GetDim + 1) / 2 * I.quads) +
          (l + k * (fe.GetDim * (fe.GetDim + 1) / 2))) = 1) ∧
    (∀ e k p,
      p ∈ PADiffusionIntegrator.ComputePAPointStores fe.GetDim
        (fe.GetDim * (fe.GetDim + 1) / 2) I.quads coeff mcoeff e k →
      ∃ l, l < fe.GetDim * (fe.GetDim + 1) / 2 ∧
        p = e * (fe.GetDim * (fe.GetDim + 1) / 2 * I.quads) +
          (l + k * (fe.GetDim * (fe.GetDim + 1) / 2))) ∧
    (∀ e k s,
      (PADiffusionIntegrator.ComputePAPoint fe.GetDim (fe.GetDim * (fe.GetDim + 1) / 2) I.quads
        ipw Tr coeff mcoeff e k s).tdata =
      (packTriples fe.GetDim).foldl (fun D t =>
        setAt D (e * (fe.GetDim * (fe.GetDim + 1) / 2 * I.quads) +
          (t.1 + k * (fe.GetDim * (fe.GetDim + 1) / 2)))
          (match coeff with
            | some cf =>
              cf e k *
                (PADiffusionIntegrator.pointMat fe.GetDim (ipw k) (Tr e k) s.mat).get
                  t.2.1 t.2.2
            | none =>
              match mcoeff with
              | some mc => (mc e k).get t.2.1 t.2.2 *
                  (PADiffusionIntegrator.pointMat fe.GetDim (ipw k) (Tr e k) s.mat).get
                    t.2.1 t.2.2
              | none =>
                (PADiffusionIntegrator.pointMat fe.GetDim (ipw k) (Tr e k) s.mat).get
                  t.2.1 t.2.2)) s.tdata) ∧
    (∀ e k s l, l < fe.GetDim * (fe.GetDim + 1) / 2 →
      ∃ i j, j ≤ i ∧ i < fe.GetDim ∧ packIndex fe.GetDim i j = l ∧
        (PADiffusionIntegrator.ComputePAPoint fe.GetDim (fe.GetDim * (fe.GetDim + 1) / 2)
          I.quads ipw Tr coeff mcoeff e k s).tdata
          (e * (fe.GetDim * (fe.GetDim + 1) / 2 * I.quads) +
            (l + k * (fe.GetDim * (fe.GetDim + 1) / 2))) =
        match coeff with
        | some cf =>
          cf e k * (PADiffusionIntegrator.pointMat fe.GetDim (ipw k) (Tr e k) s.mat).get i j
        | none =>
          match mcoeff with
          | some mc => (mc e k).get i j *
              (PADiffusionIntegrator.pointMat fe.GetDim (ipw k) (Tr e k) s.mat).get i j
          | none => (PADiffusionIntegrator.pointMat fe.GetDim (ipw k) (Tr e k) s.mat).get i j) ∧
    (∀ e k s p,
      (∀ l, l < fe.GetDim * (fe.GetDim + 1) / 2 →
        p ≠ e * (fe.GetDim * (fe.GetDim + 1) / 2 * I.quads) +
          (l + k * (fe.GetDim * (fe.GetDim + 1) / 2))) →
      (PADiffusionIntegrator.ComputePAPoint fe.GetDim (fe.GetDim * (fe.GetDim + 1) / 2) I.quads
        ipw Tr coeff mcoeff e k s).tdata p = s.tdata p) ∧
    (∀ e k, e < I.NE → k < I.quads → ∃ m : Nat → K, ∀ (buf : Nat → K) (i j : Nat),
      j ≤ i → i < fe.GetDim →
      (I.ComputeDtensor fe ipw Tr coeff mcoeff buf).get (packIndex fe.GetDim i j) k e =
        match coeff with
        | some cf =>
          cf e k * (PADiffusionIntegrator.pointMat fe.GetDim (ipw k) (Tr e k) m).get i j
        | none =>
          match mcoeff with
          | some mc => (mc e k).get i j *
              (PADiffusionIntegrator.pointMat fe.GetDim (ipw k) (Tr e k) m).get i j
          | none => (PADiffusionIntegrator.pointMat fe.GetDim (ipw k) (Tr e k) m).get i j) ∧
    (∀ p, fe.GetDim * (fe.GetDim + 1) / 2 * I.quads * I.NE ≤ p →
      (I.ComputeDtensor fe ipw Tr coeff mcoeff tdata0).tdata p = tdata0 p) := by
  have hst := fun e k => PADiffusionIntegrator.ComputePAPointStores_eq fe.GetDim
    (fe.GetDim * (fe.GetDim + 1) / 2) I.quads coeff mcoeff e k
  have hinj : ∀ e k, Function.Injective (fun l =>
      e * (fe.GetDim * (fe.GetDim + 1) / 2 * I.quads) +
        (l + k * (fe.GetDim * (fe.GetDim + 1) / 2))) := by
    intro e k a b hab
    simp only at hab
    omega
  refine ⟨⟨rfl, rfl, rfl⟩, packTriples_slots fe.GetDim, ⟨by decide, by decide, by decide⟩,
    hst, ?_, ?_, ?_, ?_, ?_, ?_,
    fun p hp => I.ComputeDtensor_out fe ipw Tr coeff mcoeff tdata0 p hp⟩
  · intro e k l hl
    rw [hst]
    exact List.count_eq_one_of_mem ((List.nodup_range _).map (hinj e k))
      (List.mem_map.2 ⟨l, List.mem_range.2 hl, rfl⟩)
  · intro e k p hp
    rw [hst] at hp
    obtain ⟨l, hl, rfl⟩ := List.mem_map.1 hp
    exact ⟨l, List.mem_range.1 hl, rfl⟩
  · intro e k s
    exact PADiffusionIntegrator.ComputePAPoint_replay fe.GetDim _ I.quads ipw Tr coeff mcoeff
      e k s
  · intro e k s l hl
    obtain ⟨i, j, hji, hi, hij⟩ := packIndex_surj fe.GetDim l (by rw [packStart_total]; exact hl)
    refine ⟨i, j, hji, hi, hij, ?_⟩
    rw [← hij]
    exact PADiffusionIntegrator.ComputePAPoint_in fe.GetDim _ I.quads ipw Tr coeff mcoeff e k s
      i j hji hi
  · intro e k s p hp
    apply PADiffusionIntegrator.ComputePAPoint_out
    intro hc
    exact hp (p - (e * (fe.GetDim * (fe.GetDim + 1) / 2 * I.quads) +
      k * (fe.GetDim * (fe.GetDim + 1) / 2))) (by omega) (by omega)
  · intro e k he hk
    obtain ⟨m, hm⟩ := I.ComputeDtensor_get_raw fe ipw Tr e k he hk
    exact ⟨m, fun buf i j hji hi => hm coeff mcoeff buf i j hji hi⟩

/-- Witness of C16 on `exSetupQuad` (`dim = 2`, one element, one point) with the matrix
coefficient `exC`: three entries; the stores of the point go to the slots `0, 1, 2`, slot 1
once; from a buffer holding `p + 10` the body leaves `2, 1, 1` in the three slots and `13` at
index 3; after the whole set-up entry 3 of the buffer is as it was. -/
theorem C16_ComputePA_packing_slots_witness :
    (exFE2.GetDim * (exFE2.GetDim + 1) / 2 * exSetupQuad.quads * exSetupQuad.NE ≤ 3 ∧
      1 < exFE2.GetDim * (exFE2.GetDim + 1) / 2 ∧
      ∀ l, l < exFE2.GetDim * (exFE2.GetDim + 1) / 2 →
        3 ≠ 0 * (exFE2.GetDim * (exFE2.GetDim + 1) / 2 * exSetupQuad.quads) +
          (l + 0 * (exFE2.GetDim * (exFE2.GetDim + 1) / 2))) ∧
    (exSetupQuad.ComputeDtensor exFE2 (fun _ => 1) exTrQuad none (some exC)
      (fun p => (p : ℚ))).tdata 3 = ((3 : Nat) : ℚ) ∧
    PADiffusionIntegrator.ComputePAPointStores exFE2.GetDim
      (exFE2.GetDim * (exFE2.GetDim + 1) / 2) exSetupQuad.quads (none : Option (Nat → Nat → ℚ))
      (some exC) 0 0 = [0, 1, 2] ∧
    (PADiffusionIntegrator.ComputePAPointStores exFE2.GetDim
      (exFE2.GetDim * (exFE2.GetDim + 1) / 2) exSetupQuad.quads (none : Option (Nat → Nat → ℚ))
      (some exC) 0 0).count
      (0 * (exFE2.GetDim * (exFE2.GetDim + 1) / 2 * exSetupQuad.quads) +
        (1 + 0 * (exFE2.GetDim * (exFE2.GetDim + 1) / 2))) = 1 ∧
    (PADiffusionIntegrator.ComputePAPoint exFE2.GetDim
      (exFE2.GetDim * (exFE2.GetDim + 1) / 2) exSetupQuad.quads (fun _ => 1) exTrQuad none
      (some exC) 0 0 ⟨fun _ => 0, fun p => (p : ℚ) + 10⟩).tdata 0 = 2 ∧
    (PADiffusionIntegrator.ComputePAPoint exFE2.GetDim
      (exFE2.GetDim * (exFE2.GetDim + 1) / 2) exSetupQuad.quads (fun _ => 1) exTrQuad none
      (some exC) 0 0 ⟨fun _ => 0, fun p => (p : ℚ) + 10⟩).tdata 1 = 1 ∧
    (PADiffusionIntegrator.ComputePAPoint exFE2.GetDim
      (exFE2.GetDim * (exFE2.GetDim + 1) / 2) exSetupQuad.quads (fun _ => 1) exTrQuad none
      (some exC) 0 0 ⟨fun _ => 0, fun p => (p : ℚ) + 10⟩).tdata 2 = 1 ∧
    (PADiffusionIntegrator.ComputePAPoint exFE2.GetDim
      (exFE2.GetDim * (exFE2.GetDim + 1) / 2) exSetupQuad.quads (fun _ => 1) exTrQuad none
      (some exC) 0 0 ⟨fun _ => 0, fun p => (p : ℚ) + 10⟩).tdata 3 =
      (⟨fun _ => 0, fun p => (p : ℚ) + 10⟩ : PAState ℚ).tdata 3 :=
  ⟨by decide,
    (C16_ComputePA_packing_slots exSetupQuad exFE2 (fun _ => 1) exTrQuad none (some exC)
      (fun p => (p : ℚ))).2.2.2.2.2.2.2.2.2.2 3 (by decide),
    ((C16_ComputePA_packing_slots exSetupQuad exFE2 (fun _ => 1) exTrQuad none (some exC)
      (fun p => (p : ℚ))).2.2.2.1 0 0).trans (by decide),
    (C16_ComputePA_packing_slots exSetupQuad exFE2 (fun _ => 1) exTrQuad none (some exC)
      (fun p => (p : ℚ))).2.2.2.2.1 0 0 1 (by decide),
    (congrFun ((C16_ComputePA_packing_slots exSetupQuad exFE2 (fun _ => 1) exTrQuad none
      (some exC) (fun p => (p : ℚ))).2.2.2.2.2.2.1 0 0 ⟨fun _ => 0, fun p => (p : ℚ) + 10⟩)
      0).trans (by decide!),
    (congrFun ((C16_ComputePA_packing_slots exSetupQuad exFE2 (fun _ => 1) exTrQuad none
      (some exC) (fun p => (p : ℚ))).2.2.2.2.2.2.1 0 0 ⟨fun _ => 0, fun p => (p : ℚ) + 10⟩)
      1).trans (by decide!),
    (congrFun ((C16_ComputePA_packing_slots exSetupQuad exFE2 (fun _ => 1) exTrQuad none
      (some exC) (fun p => (p : ℚ))).2.2.2.2.2.2.1 0 0 ⟨fun _ => 0, fun p => (p : ℚ) + 10⟩)
      2).trans (by decide!),
    (C16_ComputePA_packing_slots exSetupQuad exFE2 (fun _ => 1) exTrQuad none (some exC)
      (fun p => (p : ℚ))).2.2.2.2.2.2.2.2.1 0 0 ⟨fun _ => 0, fun p => (p : ℚ) + 10⟩ 3
      (by decide)⟩

/-- C17: for every order `p` and every 1D rule with `quads1d` points, both `ComputeBasis1d`
overloads give a shape table with `p + 1` rows and `quads1d` columns, the two-table overload
gives a derivative table of the same shape, and entry `(i, k)` of each table is the value
(respectively the derivative) of basis function `i` that the basis evaluation returns at the
`k`-th point of the rule. -/
theorem C17_ComputeBasis1d_tables {S : Type} (fe : FiniteElement) (basis1d : Poly_1D.Basis S)
    (IntRules : Int → IntegrationRule S) (ir_order : Int) (shape1d dshape1d : DenseMatrix S) :
    ((ComputeBasis1d fe basis1d IntRules ir_order shape1d).height = fe.GetOrder + 1 ∧
      (ComputeBasis1d fe basis1d IntRules ir_order shape1d).width =
        (IntRules ir_order).NPoints ∧
      ∀ i k, i < fe.GetOrder + 1 → k < (IntRules ir_order).NPoints →
        (ComputeBasis1d fe basis1d IntRules ir_order shape1d).get i k =
          basis1d.Eval ((IntRules ir_order).x k) i) ∧
    ((ComputeBasis1d2 fe basis1d IntRules ir_order shape1d dshape1d).1.height =
        fe.GetOrder + 1 ∧
      (ComputeBasis1d2 fe basis1d IntRules ir_order shape1d dshape1d).1.width =
        (IntRules ir_order).NPoints ∧
      (ComputeBasis1d2 fe basis1d IntRules ir_order shape1d dshape1d).2.height =
        fe.GetOrder + 1 ∧
      (ComputeBasis1d2 fe basis1d IntRules ir_order shape1d dshape1d).2.width =
        (IntRules ir_order).NPoints ∧
      ∀ i k, i < fe.GetOrder + 1 → k < (IntRules ir_order).NPoints →
        (ComputeBasis1d2 fe basis1d IntRules ir_order shape1d dshape1d).1.get i k =
          (basis1d.EvalD ((IntRules ir_order).x k)).1 i ∧
        (ComputeBasis1d2 fe basis1d IntRules ir_order shape1d dshape1d).2.get i k =
          (basis1d.EvalD ((IntRules ir_order).x k)).2 i) :=
  ⟨⟨rfl, rfl, fun i k hi hk => ComputeBasis1d_get fe basis1d IntRules ir_order shape1d i k hi hk⟩,
    ⟨rfl, rfl, rfl, rfl, fun i k hi hk =>
      ComputeBasis1d2_get fe basis1d IntRules ir_order shape1d dshape1d i k hi hk⟩⟩

/-- Witness of C17 on the order-1 element `exFE1`, the basis `exBasis` and the three-point
rule of `exIntRules`: entry `(1, 2)` of the tables. -/
theorem C17_ComputeBasis1d_tables_witness :
    (1 < exFE1.GetOrder + 1 ∧ 2 < (exIntRules 4).NPoints) ∧
    (ComputeBasis1d exFE1 exBasis exIntRules 4 exShape).get 1 2 =
      exBasis.Eval ((exIntRules 4).x 2) 1 ∧
    (ComputeBasis1d2 exFE1 exBasis exIntRules 4 exShape exDshape).1.get 1 2 =
      (exBasis.EvalD ((exIntRules 4).x 2)).1 1 ∧
    (ComputeBasis1d2 exFE1 exBasis exIntRules 4 exShape exDshape).2.get 1 2 =
      (exBasis.EvalD ((exIntRules 4).x 2)).2 1 :=
  ⟨by decide,
    (C17_ComputeBasis1d_tables exFE1 exBasis exIntRules 4 exShape exDshape).1.2.2 1 2
      (by decide) (by decide),
    (C17_ComputeBasis1d_tables exFE1 exBasis exIntRules 4 exShape exDshape).2.2.2.2.2 1 2
      (by decide) (by decide)⟩

end SetupClaims

section KernelClaims

variable {R : Type} [CommRing R] {K : Type} [Field K] [CharZero K]

/-- C18: for a shape table whose columns sum to one, `PAMassIntegrator::MultQuad` applied to the
constant input `V = 1` with a zero-initialised output leaves
`U(i1,i2) = ∑ (k1,k2), shape(i1,k1)·shape(i2,k2)·D(k1,k2)` in the slice of every unit of work;
and for order 1 (`dofs1d = 2`, nodal basis `1 - x`, `x`) on the unit square with unit
coefficient (`D(k1,k2) = w(k1)·w(k2)`) and a rule exact for first-degree integrands on `[0,1]`
(`∑ w = 1`, `∑ w·x = 1/2`) each of the four values is `1/4`. -/
theorem C18_mass_MultQuad_constant_input (I : PAMassIntegrator K) (V U : Nat → K)
    (hd : I.dofs = I.shape1d.height ^ 2) (hq : I.quads = I.shape1d.width ^ 2)
    (hcol : ∀ k, k < I.shape1d.width → ∑ j in range I.shape1d.height, I.shape1d.get j k = 1)
    (hV : ∀ p, V p = 1) (hU : ∀ p, U p = 0)
    (e vd i1 i2 : Nat) (he : e < I.NE) (hvd : vd < I.vdim) (h1 : i1 < I.shape1d.height)
    (h2 : i2 < I.shape1d.height) :
    I.MultQuad V U ((e * I.vdim + vd) * I.dofs + (i1 + i2 * I.shape1d.height)) =
      ∑ k1 in range I.shape1d.width, ∑ k2 in range I.shape1d.width,
        I.shape1d.get i1 k1 * I.shape1d.get i2 k2 * I.Dmat.get (k1 + I.shape1d.width * k2) e ∧
    ∀ x w : Nat → K, I.shape1d.height = 2 →
      (∀ k, k < I.shape1d.width → I.shape1d.get 0 k = 1 - x k ∧ I.shape1d.get 1 k = x k) →
      (∀ k1 k2, k1 < I.shape1d.width → k2 < I.shape1d.width →
        I.Dmat.get (k1 + I.shape1d.width * k2) e = w k1 * w k2) →
      ∑ k in range I.shape1d.width, w k = 1 →
      ∑ k in range I.shape1d.width, w k * x k = 1 / 2 →
      I.MultQuad V U ((e * I.vdim + vd) * I.dofs + (i1 + i2 * I.shape1d.height)) = 1 / 4 := by
  have hV' : (fun j1 j2 => V ((e * I.vdim + vd) * I.dofs + (j1 + j2 * I.shape1d.height))) =
      fun _ _ => 1 := by
    funext j1 j2
    exact hV _
  have hmain : I.MultQuad V U ((e * I.vdim + vd) * I.dofs + (i1 + i2 * I.shape1d.height)) =
      ∑ k1 in range I.shape1d.width, ∑ k2 in range I.shape1d.width,
        I.shape1d.get i1 k1 * I.shape1d.get i2 k2 *
          I.Dmat.get (k1 + I.shape1d.width * k2) e := by
    rw [I.MultQuad_closed_mass V U hd hq e vd i1 i2 he hvd h1 h2, hU, zero_add, hV',
      Dense.massQuad_one _ _ _ _ _ _ hcol]
  refine ⟨hmain, ?_⟩
  intro x w hh hshape hD hw1 hwx
  have hrow : ∀ i, i < 2 → ∑ k in range I.shape1d.width, I.shape1d.get i k * w k = 1 / 2 := by
    intro i hi
    have hi' : i = 0 ∨ i = 1 := by omega
    rcases hi' with rfl | rfl
    · have : ∑ k in range I.shape1d.width, I.shape1d.get 0 k * w k =
          ∑ k in range I.shape1d.width, w k - ∑ k in range I.shape1d.width, w k * x k := by
        rw [← Finset.sum_sub_distrib]
        apply Finset.sum_congr rfl
        intro k hk
        rw [(hshape k (Finset.mem_range.1 hk)).1]
        ring
      rw [this, hw1, hwx]
      norm_num
    · have : ∑ k in range I.shape1d.width, I.shape1d.get 1 k * w k =
          ∑ k in range I.shape1d.width, w k * x k := by
        apply Finset.sum_congr rfl
        intro k hk
        rw [(hshape k (Finset.mem_range.1 hk)).2]
        ring
      rw [this, hwx]
  have hprod : ∑ k1 in range I.shape1d.width, ∑ k2 in range I.shape1d.width,
      I.shape1d.get i1 k1 * I.shape1d.get i2 k2 * I.Dmat.get (k1 + I.shape1d.width * k2) e =
      (∑ k1 in range I.shape1d.width, I.shape1d.get i1 k1 * w k1) *
        ∑ k2 in range I.shape1d.width, I.shape1d.get i2 k2 * w k2 := by
    rw [Finset.sum_mul_sum]
    apply Finset.sum_congr rfl
    intro k1 hk1
    apply Finset.sum_congr rfl
    intro k2 hk2
    rw [hD k1 k2 (Finset.mem_range.1 hk1) (Finset.mem_range.1 hk2)]
    ring
  rw [hmain, hprod, hrow i1 (hh ▸ h1), hrow i2 (hh ▸ h2)]
  norm_num

/-- Witness of C18 on `exUnitSquare` (trapezoid rule, `x = 0, 1`, `w = 1/2, 1/2`): the value
at the corner `(1, 0)` is `1/4`. -/
theorem C18_mass_MultQuad_constant_input_witness :
    (exUnitSquare.dofs = exUnitSquare.shape1d.height ^ 2 ∧
      exUnitSquare.quads = exUnitSquare.shape1d.width ^ 2 ∧
      (∀ k, k < exUnitSquare.shape1d.width →
        ∑ j in range exUnitSquare.shape1d.height, exUnitSquare.shape1d.get j k = 1) ∧
      0 < exUnitSquare.NE ∧ 0 < exUnitSquare.vdim ∧ 1 < exUnitSquare.shape1d.height ∧
      0 < exUnitSquare.shape1d.height ∧ exUnitSquare.shape1d.height = 2) ∧
    exUnitSquare.MultQuad (fun _ => 1) (fun _ => 0)
      ((0 * exUnitSquare.vdim + 0) * exUnitSquare.dofs +
        (1 + 0 * exUnitSquare.shape1d.height)) = 1 / 4 := by
  have hcol : ∀ k, k < exUnitSquare.shape1d.width →
      ∑ j in range exUnitSquare.shape1d.height, exUnitSquare.shape1d.get j k = 1 := by
    intro k hk
    have hk2 : k < 2 := hk
    have hk' : k = 0 ∨ k = 1 := by omega
    rcases hk' with rfl | rfl <;>
      · rw [show exUnitSquare.shape1d.height = 2 from rfl, Finset.sum_range_succ,
          Finset.sum_range_one]
        simp [exUnitSquare, DenseMatrix.get]
  have hshape : ∀ k, k < exUnitSquare.shape1d.width →
      exUnitSquare.shape1d.get 0 k = 1 - (fun k : Nat => (k : ℚ)) k ∧
        exUnitSquare.shape1d.get 1 k = (fun k : Nat => (k : ℚ)) k := by
    intro k hk
    have hk2 : k < 2 := hk
    have hk' : k = 0 ∨ k = 1 := by omega
    rcases hk' with rfl | rfl <;> simp [exUnitSquare, DenseMatrix.get]
  have hD : ∀ k1 k2, k1 < exUnitSquare.shape1d.width → k2 < exUnitSquare.shape1d.width →
      exUnitSquare.Dmat.get (k1 + exUnitSquare.shape1d.width * k2) 0 =
        (fun _ : Nat => (1 / 2 : ℚ)) k1 * (fun _ : Nat => (1 / 2 : ℚ)) k2 := by
    intro k1 k2 _ _
    simp [exUnitSquare, DenseMatrix.get]
    norm_num
  exact ⟨⟨by decide, by decide, hcol, by decide, by decide, by decide, by decide, by decide⟩,
    (C18_mass_MultQuad_constant_input exUnitSquare (fun _ => 1) (fun _ => 0) (by decide)
      (by decide) hcol (fun _ => rfl) (fun _ => rfl) 0 0 1 0 (by decide) (by decide)
      (by decide) (by decide)).2 (fun k => (k : ℚ)) (fun _ => 1 / 2) (by decide) hshape hD
      (by simp [exUnitSquare, Finset.sum_range_succ])
      (by simp [exUnitSquare, Finset.sum_range_succ])⟩

/-- C19, as the code has it: for every kernel, with tables of equal size, `dofs = dofs1d^dim`,
`quads = quads1d^dim` and, for `MultHex`, `dofs1d ≤ quads1d`, the frame contract holds at every
unit of work `(e, vd)`: the unit writes only its slice
`[(e*vdim + vd)*dofs, (e*vdim + vd + 1)*dofs)`; its result there is the same in any two runs
that agree on the slice of the input and of the output, whatever else differs (the scratch
buffers, the number of elements, the D-tensor of the other elements); the final output of the
kernel on the slice is the same in any two such runs; entries from `NE*vdim*dofs` on are
unchanged; and slices of distinct units are disjoint. -/
theorem C19_kernels_slice_local :
    (∀ (I : PADiffusionIntegrator R) (NE' : Nat) (D' : Nat → Nat → R) (e vd : Nat),
      I.dshape1d.height = I.shape1d.height → I.dshape1d.width = I.shape1d.width →
      e < I.NE → e < NE' → vd < I.vdim →
      ((∀ k, k < I.shape1d.width → D' e k = I.Dtensor e k) →
        FrameContract SegState.offset SegState.U I.NE I.vdim I.shape1d.height e vd
          (fun V => I.MultSegUnit V e)
          (fun V => ({ I with NE := NE', Dtensor := D' } : PADiffusionIntegrator R).MultSegUnit
            V e)
          I.MultSeg ({ I with NE := NE', Dtensor := D' } : PADiffusionIntegrator R).MultSeg) ∧
      (I.dofs = I.shape1d.height ^ 2 → I.quads = I.shape1d.width ^ 2 →
        (∀ p, p < 3 * I.quads → D' e p = I.Dtensor e p) →
        FrameContract QuadState.offset QuadState.U I.NE I.vdim I.dofs e vd
          (fun V => I.MultQuadUnit V e)
          (fun V => ({ I with NE := NE', Dtensor := D' } : PADiffusionIntegrator R).MultQuadUnit
            V e)
          I.MultQuad ({ I with NE := NE', Dtensor := D' } : PADiffusionIntegrator R).MultQuad) ∧
      (I.shape1d.height ≤ I.shape1d.width → I.dofs = I.shape1d.height ^ 3 →
        I.quads = I.shape1d.width ^ 3 → (∀ p, p < 6 * I.quads → D' e p = I.Dtensor e p) →
        FrameContract HexState.offset HexState.U I.NE I.vdim I.dofs e vd
          (fun V => I.MultHexUnit V e)
          (fun V => ({ I with NE := NE', Dtensor := D' } : PADiffusionIntegrator R).MultHexUnit
            V e)
          I.MultHex ({ I with NE := NE', Dtensor := D' } : PADiffusionIntegrator R).MultHex)) ∧
    (∀ (I : PAMassIntegrator R) (NE' : Nat) (D' : DenseMatrix R) (e vd : Nat),
      e < I.NE → e < NE' → vd < I.vdim →
      ((∀ k, k < I.shape1d.width → D'.get k e = I.Dmat.get k e) →
        FrameContract SegState.offset SegState.U I.NE I.vdim I.shape1d.height e vd
          (fun V => I.MultSegUnit V e)
          (fun V => ({ I with NE := NE', Dmat := D' } : PAMassIntegrator R).MultSegUnit V e)
          I.MultSeg ({ I with NE := NE', Dmat := D' } : PAMassIntegrator R).MultSeg) ∧
      (I.dofs = I.shape1d.height ^ 2 → I.quads = I.shape1d.width ^ 2 →
        (∀ k, k < I.quads → D'.get k e = I.Dmat.get k e) →
        FrameContract QuadState.offset QuadState.U I.NE I.vdim I.dofs e vd
          (fun V => I.MultQuadUnit V e)
          (fun V => ({ I with NE := NE', Dmat := D' } : PAMassIntegrator R).MultQuadUnit V e)
          I.MultQuad ({ I with NE := NE', Dmat := D' } : PAMassIntegrator R).MultQuad) ∧
      (I.shape1d.height ≤ I.shape1d.width → I.dofs = I.shape1d.height ^ 3 →
        I.quads = I.shape1d.width ^ 3 → (∀ k, k < I.quads → D'.get k e = I.Dmat.get k e) →
        FrameContract HexState.offset HexState.U I.NE I.vdim I.dofs e vd
          (fun V => I.MultHexUnit V e)
          (fun V => ({ I with NE := NE', Dmat := D' } : PAMassIntegrator R).MultHexUnit V e)
          I.MultHex ({ I with NE := NE', Dmat := D' } : PAMassIntegrator R).MultHex)) ∧
    (∀ vdim dofs e vd e' vd' p, vd < vdim → vd' < vdim → inSlice vdim dofs e vd p →
      inSlice vdim dofs e' vd' p → e = e' ∧ vd = vd') := by
  refine ⟨?_, ?_, ?_⟩
  · intro I NE' D' e vd hh hw he he' hvd
    exact ⟨fun hD => I.MultSeg_frame_diff NE' D' e vd hh hw he he' hvd hD,
      fun hd hq hD => I.MultQuad_frame_diff NE' D' e vd hh hw hd hq he he' hvd hD,
      fun hdq hd hq hD => I.MultHex_frame_diff NE' D' e vd hdq hd hq he he' hvd hD⟩
  · intro I NE' D' e vd he he' hvd
    exact ⟨fun hD => I.MultSeg_frame_mass NE' D' e vd he he' hvd hD,
      fun hd hq hD => I.MultQuad_frame_mass NE' D' e vd hd hq he he' hvd hD,
      fun hdq hd hq hD => I.MultHex_frame_mass NE' D' e vd hdq hd hq he he' hvd hD⟩
  · intro vdim dofs e vd e' vd' p hvd hvd' h h'
    exact inSlice_disjoint vdim dofs e vd e' vd' p hvd hvd' h h'

/-- C19 as stated (with only `dofs = dofs1d^dim`) fails for `MultHex` when
`dofs1d > quads1d`: on `exMassHexUnder` (`dofs1d = 2`, `quads1d = 1`, one element, two
components) two inputs that agree on the slice `[8, 16)` of the unit `(0, 1)` and differ at
index 0 give different outputs at index 9 of that slice, the scratch entries indexed by dof
indices beyond `quads1d` being left over from the unit `(0, 0)`. -/
theorem C19_kernels_slice_local_counterexample :
    exMassHexUnder.dofs = exMassHexUnder.shape1d.height ^ 3 ∧
    exMassHexUnder.quads = exMassHexUnder.shape1d.width ^ 3 ∧
    AgreeOn 8 16 (fun _ => (1 : Int)) (fun p => if p = 0 then 2 else 1) ∧
    exMassHexUnder.MultHex (fun _ => 1) (fun _ => 0) 9 = 40 ∧
    exMassHexUnder.MultHex (fun p => if p = 0 then 2 else 1) (fun _ => 0) 9 = 43 ∧
    ¬ FrameContract HexState.offset HexState.U exMassHexUnder.NE exMassHexUnder.vdim
      exMassHexUnder.dofs 0 1 (fun V => exMassHexUnder.MultHexUnit V 0)
      (fun V => exMassHexUnder.MultHexUnit V 0) exMassHexUnder.MultHex
      exMassHexUnder.MultHex := by
  have hagree : AgreeOn 8 16 (fun _ => (1 : Int)) (fun p => if p = 0 then 2 else 1) := by
    intro p hlo _
    have : p ≠ 0 := by omega
    simp [this]
  have h40 : exMassHexUnder.MultHex (fun _ => 1) (fun _ => 0) 9 = 40 := by decide
  have h43 : exMassHexUnder.MultHex (fun p => if p = 0 then 2 else 1) (fun _ => 0) 9 = 43 := by
    decide
  refine ⟨by decide, by decide, hagree, h40, h43, ?_⟩
  intro h
  have := h.2.2.1 (fun _ => 1) (fun p => if p = 0 then 2 else 1) (fun _ => 0) (fun _ => 0)
    hagree (fun _ _ _ => rfl) 9 (by decide) (by decide)
  rw [h40, h43] at this
  exact absurd this (by decide)

/-- Witness of C19 on `exMassHex` (`dofs1d = quads1d = 2`), unit `(1, 0)`: the output from
index `NE*vdim*dofs = 32` on is the initial output. -/
theorem C19_kernels_slice_local_witness :
    (1 < exMassHex.NE ∧ 0 < exMassHex.vdim ∧ exMassHex.shape1d.height ≤ exMassHex.shape1d.width ∧
      exMassHex.dofs = exMassHex.shape1d.height ^ 3 ∧
      exMassHex.quads = exMassHex.shape1d.width ^ 3 ∧
      exMassHex.NE * exMassHex.vdim * exMassHex.dofs ≤ 32) ∧
    exMassHex.MultHex exV exU 32 = exU 32 :=
  ⟨by decide,
    ((C19_kernels_slice_local.2.1 exMassHex exMassHex.NE exMassHex.Dmat 1 0 (by decide)
      (by decide) (by decide)).2.2 (by decide) (by decide) (by decide)
      (fun _ _ => rfl)).2.2.2 exV exU 32 (by decide)⟩

/-- C20: on the host path `wrap(N, d_body, h_body)` is the sequential composition of
`h_body(0), h_body(1), ..., h_body(N-1)` in this order, whatever `d_body` is; the calls it makes
are exactly the `N` host calls with the indices `0, ..., N-1` ascending and no device call; the
state it returns is the one after the last call; and for `N = 0` no body runs. -/
theorem C20_wrap_host_path {σ : Type} (N : Nat) (d_body h_body : Nat → σ → σ) (s : σ) :
    wrap false N d_body h_body s = (List.range N).foldl (fun s k => h_body k s) s ∧
    wrap false N (fun k tr => tr ++ [BodyCall.device k]) (fun k tr => tr ++ [BodyCall.host k])
      [] = (List.range N).map BodyCall.host ∧
    wrap false 0 d_body h_body s = s := by
  refine ⟨?_, ?_, rfl⟩
  · unfold wrap
    simp only [Bool.false_eq_true, if_false]
    exact forLoop_eq_foldl N h_body s
  · unfold wrap
    simp only [Bool.false_eq_true, if_false]
    induction N with
    | zero => rfl
    | succ m ih => rw [forLoop_succ, ih, List.range_succ, List.map_append]; rfl

end KernelClaims

section CtorClaims

variable {K : Type} [Field K]

/-- Claim C21. `ComputePA` tests the scalar coefficient first: with a scalar coefficient set,
the result is the one obtained with no matrix coefficient, whatever the matrix coefficient is,
and every stored entry is `c(e,k)` times the entry of the point matrix `mat`; the matrix
coefficient enters only when the scalar one is absent, and with neither the entry of `mat` is
stored. The three constructors leave `coeff`/`mcoeff` as none/none, some/none and none/some, so
at most one of the two fields is set, and the D-tensor of each object is the one built from its
own two fields. -/
theorem C21_ComputePA_coefficient_precedence (I : PADiffusionIntegrator K) (fe : FiniteElement)
    (basis1d : Poly_1D.Basis K) (IntRules1d : Int → IntegrationRule K) (ir_order : Int)
    (ipw : Nat → K) (Tr : Nat → Nat → ElementTransformation K) (tdata0 : Nat → K)
    (fes : SpaceView K) (IntRules : Nat → Int → IntegrationRule K) (SEGMENT : Nat) :
    (∀ (cf : Nat → Nat → K) (mcoeff : Option (Nat → Nat → DenseMatrix K)),
      I.ComputePA fe basis1d IntRules1d ir_order ipw Tr (some cf) mcoeff tdata0 =
        I.ComputePA fe basis1d IntRules1d ir_order ipw Tr (some cf) none tdata0) ∧
    (∀ e k, e < I.NE → k < I.quads → ∃ m : Nat → K, ∀ i j, j ≤ i → i < fe.GetDim →
      (∀ (cf : Nat → Nat → K) (mcoeff : Option (Nat → Nat → DenseMatrix K)),
        (I.ComputePA fe basis1d IntRules1d ir_order ipw Tr (some cf) mcoeff tdata0).Dtensor e
            (packIndex fe.GetDim i j + k * (fe.GetDim * (fe.GetDim + 1) / 2)) =
          cf e k * (PADiffusionIntegrator.pointMat fe.GetDim (ipw k) (Tr e k) m).get i j) ∧
      (∀ mc : Nat → Nat → DenseMatrix K,
        (I.ComputePA fe basis1d IntRules1d ir_order ipw Tr none (some mc) tdata0).Dtensor e
            (packIndex fe.GetDim i j + k * (fe.GetDim * (fe.GetDim + 1) / 2)) =
          (mc e k).get i j *
            (PADiffusionIntegrator.pointMat fe.GetDim (ipw k) (Tr e k) m).get i j) ∧
      (I.ComputePA fe basis1d IntRules1d ir_order ipw Tr none none tdata0).Dtensor e
          (packIndex fe.GetDim i j + k * (fe.GetDim * (fe.GetDim + 1) / 2)) =
        (PADiffusionIntegrator.pointMat fe.GetDim (ipw k) (Tr e k) m).get i j) ∧
    ((PADiffusionIntegrator.create fes IntRules SEGMENT ir_order tdata0).coeff = none ∧
      (PADiffusionIntegrator.create fes IntRules SEGMENT ir_order tdata0).mcoeff = none) ∧
    (∀ c : Nat → Nat → K,
      (PADiffusionIntegrator.createCoeff fes IntRules SEGMENT ir_order c tdata0).coeff =
        some c ∧
      (PADiffusionIntegrator.createCoeff fes IntRules SEGMENT ir_order c tdata0).mcoeff =
        none) ∧
    (∀ mc : Nat → Nat → DenseMatrix K,
      (PADiffusionIntegrator.createMCoeff fes IntRules SEGMENT ir_order mc tdata0).coeff =
        none ∧
      (PADiffusionIntegrator.createMCoeff fes IntRules SEGMENT ir_order mc tdata0).mcoeff =
        some mc) ∧
    (∀ (c : Nat → Nat → K) (mc : Nat → Nat → DenseMatrix K) (J : PADiffusionInstance K),
      J = PADiffusionIntegrator.create fes IntRules SEGMENT ir_order tdata0 ∨
      J = PADiffusionIntegrator.createCoeff fes IntRules SEGMENT ir_order c tdata0 ∨
      J = PADiffusionIntegrator.createMCoeff fes IntRules SEGMENT ir_order mc tdata0 →
      (J.coeff = none ∨ J.mcoeff = none) ∧
      J.Dtensor = fun e => ((J.toPADiffusionIntegrator.ComputeDtensor fes.GetFE
        J.IntRule.weight fes.Tr J.coeff J.mcoeff tdata0).slab e).data) := by
  refine ⟨fun cf mcoeff => rfl, ?_, ⟨rfl, rfl⟩, fun c => ⟨rfl, rfl⟩, fun mc => ⟨rfl, rfl⟩, ?_⟩
  · intro e k he hk
    obtain ⟨m, hm⟩ := I.ComputeDtensor_get_raw fe ipw Tr e k he hk
    refine ⟨m, fun i j hji hi => ⟨fun cf mcoeff => ?_, fun mc => ?_, ?_⟩⟩
    · rw [PADiffusionIntegrator.ComputePA_Dtensor_get, hm (some cf) mcoeff tdata0 i j hji hi]
    · rw [PADiffusionIntegrator.ComputePA_Dtensor_get, hm none (some mc) tdata0 i j hji hi]
    · rw [PADiffusionIntegrator.ComputePA_Dtensor_get, hm none none tdata0 i j hji hi]
  · intro c mc J hJ
    rcases hJ with h | h | h
    · subst h; exact ⟨Or.inl rfl, rfl⟩
    · subst h; exact ⟨Or.inr rfl, rfl⟩
    · subst h; exact ⟨Or.inl rfl, rfl⟩

/-- Claim C21 on `exSetupQuad`: with the scalar coefficient `3` and the matrix coefficient
`exC'` both set, the stored entry of the pair `(1, 0)` is `3` times the entry stored with no
coefficient: the matrix coefficient plays no part. -/
theorem C21_ComputePA_coefficient_precedence_witness :
    (0 < exSetupQuad.NE ∧ 0 < exSetupQuad.quads ∧ 0 ≤ 1 ∧ 1 < exFE2.GetDim) ∧
    (exSetupQuad.ComputePA exFE2 exSpace.GetBasis1D (exRules 1) 0 (fun _ => 1) exTrQuad
        (some (fun _ _ => 3)) (some exC') (fun _ => 0)).Dtensor 0
        (packIndex exFE2.GetDim 1 0 + 0 * (exFE2.GetDim * (exFE2.GetDim + 1) / 2)) =
      3 * (exSetupQuad.ComputePA exFE2 exSpace.GetBasis1D (exRules 1) 0 (fun _ => 1) exTrQuad
        none none (fun _ => 0)).Dtensor 0
        (packIndex exFE2.GetDim 1 0 + 0 * (exFE2.GetDim * (exFE2.GetDim + 1) / 2)) := by
  obtain ⟨m, hm⟩ := (C21_ComputePA_coefficient_precedence exSetupQuad exFE2 exSpace.GetBasis1D
    (exRules 1) 0 (fun _ => 1) exTrQuad (fun _ => 0) exSpace exRules 1).2.1 0 0 (by decide)
    (by decide)
  obtain ⟨h1, _, h3⟩ := hm 1 0 (by decide) (by decide)
  exact ⟨by decide, (h1 (fun _ _ => 3) (some exC')).trans (by rw [h3])⟩

end CtorClaims

section CountClaims

variable {R : Type}

/-- Claim C22, as stated, fails: on the integrators `exThinHex q` (`dofs1d = 1`,
`quads1d = q ≥ 1`, `quads = q³`) no constant `C` bounds the operation count of one unit of
`PADiffusionIntegrator::MultHex` by `C · dofs1d⁴ · quads1d`. -/
theorem C22_MultHex_operation_count_counterexample :
    ¬ ∃ C : Nat, ∀ q : Nat, 1 ≤ q →
      (exThinHex q).MultHexUnitOps ≤
        C * (exThinHex q).shape1d.height ^ 4 * (exThinHex q).shape1d.width := by
  rintro ⟨C, h⟩
  have h1 := h (C + 1) (by omega)
  rw [PADiffusionIntegrator.MultHexUnitOps_closed] at h1
  simp only [exThinHex] at h1
  have h2 : (C + 1) * (C + 1) ≤ (C + 1) ^ 3 := by
    calc (C + 1) * (C + 1) = (C + 1) * (C + 1) * 1 := by ring
      _ ≤ (C + 1) * (C + 1) * (C + 1) := Nat.mul_le_mul_left _ (by omega)
      _ = (C + 1) ^ 3 := by ring
  have h3 : C * (C + 1) + (C + 1) = (C + 1) * (C + 1) := by ring
  have h4 : C * 1 ^ 4 * (C + 1) = C * (C + 1) := by ring
  omega

/-- Claim C22, amended. With `quads = quads1d³`, the operation count of one `(element,
component)` unit of `PADiffusionIntegrator::MultHex` is `5·d³q + 6·d²q² + 6·dq³ + 9·q³`
(`d = dofs1d`, `q = quads1d`), and for every ratio bound `c`, whenever `d, q ≥ 1` and
`q ≤ c·d`, it is at most `26·c²·d⁴·q`. -/
theorem C22_MultHex_operation_count (I : PADiffusionIntegrator R) (c : Nat)
    (hd : 1 ≤ I.shape1d.height) (hq : 1 ≤ I.shape1d.width)
    (hquads : I.quads = I.shape1d.width * I.shape1d.width * I.shape1d.width)
    (hr : I.shape1d.width ≤ c * I.shape1d.height) :
    I.MultHexUnitOps =
      5 * I.shape1d.height ^ 3 * I.shape1d.width +
        6 * I.shape1d.height ^ 2 * I.shape1d.width ^ 2 +
        6 * I.shape1d.height * I.shape1d.width ^ 3 + 9 * I.shape1d.width ^ 3 ∧
    I.MultHexUnitOps ≤ 26 * c ^ 2 * I.shape1d.height ^ 4 * I.shape1d.width := by
  have hcl := I.MultHexUnitOps_closed
  rw [hquads] at hcl
  generalize I.MultHexUnitOps = n at hcl ⊢
  generalize I.shape1d.height = d at hd hr hcl ⊢
  generalize I.shape1d.width = q at hq hr hcl ⊢
  have hc : 1 ≤ c := by
    rcases Nat.eq_zero_or_pos c with h0 | h0
    · subst h0; omega
    · exact h0
  have e : n = 5 * d ^ 3 * q + 6 * d ^ 2 * q ^ 2 + 6 * d * q ^ 3 + 9 * q ^ 3 := by
    rw [hcl]; ring
  refine ⟨e, ?_⟩
  rw [e]
  -- every monomial is at most `c²·d⁴·q`
  have hc2 : 1 ≤ c ^ 2 := Nat.one_le_pow _ _ hc
  have hd34 : d ^ 3 ≤ d ^ 4 := Nat.pow_le_pow_right hd (by omega)
  have t1 : d ^ 3 * q ≤ c ^ 2 * d ^ 4 * q := by
    calc d ^ 3 * q = 1 * d ^ 3 * q := by ring
      _ ≤ c ^ 2 * d ^ 4 * q := by gcongr
  have t3 : d * q ^ 3 ≤ c ^ 2 * d ^ 4 * q := by
    calc d * q ^ 3 = d * (q * q) * q := by ring
      _ ≤ d * ((c * d) * (c * d)) * q := by gcongr
      _ = c ^ 2 * d ^ 3 * q := by ring
      _ ≤ c ^ 2 * d ^ 4 * q := by gcongr
  have t2 : d ^ 2 * q ^ 2 ≤ c ^ 2 * d ^ 4 * q := by
    calc d ^ 2 * q ^ 2 = d ^ 2 * q * q := by ring
      _ ≤ d ^ 2 * (c * d) * q := by gcongr
      _ = c * d ^ 3 * q := by ring
      _ ≤ c ^ 2 * d ^ 4 * q := by
        have : c ≤ c ^ 2 := by
          calc c = c ^ 1 := (pow_one c).symm
            _ ≤ c ^ 2 := Nat.pow_le_pow_right hc (by omega)
        gcongr
  have t4 : q ^ 3 ≤ c ^ 2 * d ^ 4 * q := by
    calc q ^ 3 = 1 * q ^ 3 := by ring
      _ ≤ d * q ^ 3 := by gcongr
      _ ≤ c ^ 2 * d ^ 4 * q := t3
  have e1 : 5 * d ^ 3 * q = 5 * (d ^ 3 * q) := by ring
  have e2 : 6 * d ^ 2 * q ^ 2 = 6 * (d ^ 2 * q ^ 2) := by ring
  have e3 : 6 * d * q ^ 3 = 6 * (d * q ^ 3) := by ring
  have e4 : 26 * c ^ 2 * d ^ 4 * q = 26 * (c ^ 2 * d ^ 4 * q) := by ring
  rw [e1, e2, e3, e4]
  omega

/-- Claim C22 (amended) on `exDiffHex` (`dofs1d = quads1d = 2`, `quads = 8`) with `c = 1`:
the unit costs `344` operations, at most `26·2⁴·2 = 832`. -/
theorem C22_MultHex_operation_count_witness :
    (1 ≤ exDiffHex.shape1d.height ∧ 1 ≤ exDiffHex.shape1d.width ∧
      exDiffHex.quads =
        exDiffHex.shape1d.width * exDiffHex.shape1d.width * exDiffHex.shape1d.width ∧
      exDiffHex.shape1d.width ≤ 1 * exDiffHex.shape1d.height) ∧
    exDiffHex.MultHexUnitOps = 344 ∧
    exDiffHex.MultHexUnitOps ≤
      26 * 1 ^ 2 * exDiffHex.shape1d.height ^ 4 * exDiffHex.shape1d.width :=
  ⟨by decide,
    (C22_MultHex_operation_count exDiffHex 1 (by decide) (by decide) (by decide)
      (by decide)).1.trans (by decide),
    (C22_MultHex_operation_count exDiffHex 1 (by decide) (by decide) (by decide)
      (by decide)).2⟩

end CountClaims

section BlockClaims

/-- Claim C23. For a finalized `BlockMatrix` whose `row_offsets` are non-decreasing and start
at 0 (empty blocks allowed) and a global row `0 ≤ iglobal < row_offsets[nRowBlocks]`,
`findGlobalRow` returns without error the block `iblock < nRowBlocks` with
`row_offsets[iblock] ≤ iglobal < row_offsets[iblock+1]`, which is the only such block, and
`iloc = iglobal - row_offsets[iblock]`, so that `0 ≤ iloc <` the size of the block and
`row_offsets[iblock] + iloc = iglobal`; `findGlobalCol` does the same with `col_offsets`. -/
theorem C23_findGlobal_unique_block (B : BlockMatrix) (hfill : B.is_filled = true) :
    (∀ iglobal : Int, B.row_offsets 0 = 0 →
      (∀ b, b < B.nRowBlocks → B.row_offsets b ≤ B.row_offsets (b + 1)) →
      0 ≤ iglobal → iglobal < B.row_offsets B.nRowBlocks →
      ∃ (iblock : Nat) (iloc : Int), B.findGlobalRow iglobal = Except.ok (iblock, iloc) ∧
        iblock < B.nRowBlocks ∧
        B.row_offsets iblock ≤ iglobal ∧ iglobal < B.row_offsets (iblock + 1) ∧
        (∀ b, b < B.nRowBlocks → B.row_offsets b ≤ iglobal →
          iglobal < B.row_offsets (b + 1) → b = iblock) ∧
        iloc = iglobal - B.row_offsets iblock ∧
        0 ≤ iloc ∧ iloc < B.row_offsets (iblock + 1) - B.row_offsets iblock ∧
        B.row_offsets iblock + iloc = iglobal) ∧
    (∀ jglobal : Int, B.col_offsets 0 = 0 →
      (∀ b, b < B.nColBlocks → B.col_offsets b ≤ B.col_offsets (b + 1)) →
      0 ≤ jglobal → jglobal < B.col_offsets B.nColBlocks →
      ∃ (jblock : Nat) (jloc : Int), B.findGlobalCol jglobal = Except.ok (jblock, jloc) ∧
        jblock < B.nColBlocks ∧
        B.col_offsets jblock ≤ jglobal ∧ jglobal < B.col_offsets (jblock + 1) ∧
        (∀ b, b < B.nColBlocks → B.col_offsets b ≤ jglobal →
          jglobal < B.col_offsets (b + 1) → b = jblock) ∧
        jloc = jglobal - B.col_offsets jblock ∧
        0 ≤ jloc ∧ jloc < B.col_offsets (jblock + 1) - B.col_offsets jblock ∧
        B.col_offsets jblock + jloc = jglobal) := by
  constructor
  · intro iglobal h0 hmono hlo hhi
    obtain ⟨h1, h2, h3⟩ := BlockMatrix.scanBlocks_spec B.row_offsets iglobal B.nRowBlocks
      B.nRowBlocks 0 (by omega) (by omega) hhi
    refine ⟨BlockMatrix.scanBlocks B.row_offsets iglobal B.nRowBlocks 0, _, ?_, h1, h2, h3,
      ?_, rfl, by omega, by omega, by omega⟩
    · unfold BlockMatrix.findGlobalRow
      rw [if_neg]
      simp only [hfill, Bool.not_true, Bool.false_or, decide_eq_true_eq]
      omega
    · intro b hb hb1 hb2
      exact BlockMatrix.block_unique B.row_offsets B.nRowBlocks hmono iglobal b _ hb h1 hb1 hb2
        h2 h3
  · intro jglobal h0 hmono hlo hhi
    obtain ⟨h1, h2, h3⟩ := BlockMatrix.scanBlocks_spec B.col_offsets jglobal B.nColBlocks
      B.nColBlocks 0 (by omega) (by omega) hhi
    refine ⟨BlockMatrix.scanBlocks B.col_offsets jglobal B.nColBlocks 0, _, ?_, h1, h2, h3,
      ?_, rfl, by omega, by omega, by omega⟩
    · unfold BlockMatrix.findGlobalCol
      rw [if_neg]
      simp only [hfill, Bool.not_true, Bool.false_or, decide_eq_true_eq]
      omega
    · intro b hb hb1 hb2
      exact BlockMatrix.block_unique B.col_offsets B.nColBlocks hmono jglobal b _ hb h1 hb1 hb2
        h2 h3

/-- Claim C23 on `exBlock`: global row 2 lies in row block 2 (block 1 is empty) at local row 0,
and global column 4 in column block 1 at local column 0. -/
theorem C23_findGlobal_unique_block_witness :
    exBlock.findGlobalRow 2 = Except.ok (2, 0) ∧ exBlock.findGlobalCol 4 = Except.ok (1, 0) ∧
    (∃ (iblock : Nat) (iloc : Int), exBlock.findGlobalRow 2 = Except.ok (iblock, iloc) ∧
        iblock < exBlock.nRowBlocks ∧
        exBlock.row_offsets iblock ≤ 2 ∧ 2 < exBlock.row_offsets (iblock + 1) ∧
        (∀ b, b < exBlock.nRowBlocks → exBlock.row_offsets b ≤ 2 →
          2 < exBlock.row_offsets (b + 1) → b = iblock) ∧
        iloc = 2 - exBlock.row_offsets iblock ∧
        0 ≤ iloc ∧ iloc < exBlock.row_offsets (iblock + 1) - exBlock.row_offsets iblock ∧
        exBlock.row_offsets iblock + iloc = 2) :=
  ⟨rfl, rfl,
    (C23_findGlobal_unique_block exBlock rfl).1 2 (by decide) (by decide) (by decide)
      (by decide)⟩

end BlockClaims

section SlotClaims

variable {K : Type} [Field K]

/-- Claim C24. With no coefficient, at point `k` of element `e` and for `mat` the point matrix
`(w/Weight)·adj·adjᵀ` of `ComputePA`: in 2D the slots `3k, 3k+1, 3k+2` hold `mat(0,0)`,
`mat(1,0)`, `mat(1,1)` and the loop of `MultQuad` over the points maps the pair at point `k` to
`∑ d, mat(c,d)·q_d` for `c = 0, 1`; in 3D the slots `6k .. 6k+5` hold `mat(0,0)`, `mat(1,0)`,
`mat(2,0)`, `mat(1,1)`, `mat(2,1)`, `mat(2,2)` and the loop of `MultHex` maps the triple at
point `k` to `∑ d, mat(c,d)·q_d` for `c = 0, 1, 2`: the matrix applied is the full `mat`. -/
theorem C24_ComputePA_slots_match_kernels (I : PADiffusionIntegrator K) (fe : FiniteElement)
    (basis1d : Poly_1D.Basis K) (IntRules : Int → IntegrationRule K) (ir_order : Int)
    (ipw : Nat → K) (Tr : Nat → Nat → ElementTransformation K) (tdata0 m : Nat → K)
    (e k : Nat) (he : e < I.NE) (hk : k < I.quads)
    (hh : (Tr e k).AdjugateJacobian.height = fe.GetDim)
    (hw : (Tr e k).AdjugateJacobian.width = fe.GetDim) :
    (fe.GetDim = 2 →
      ((I.ComputePA fe basis1d IntRules ir_order ipw Tr none none tdata0).Dtensor e (3 * k + 0) =
          (PADiffusionIntegrator.pointMat 2 (ipw k) (Tr e k) m).get 0 0 ∧
        (I.ComputePA fe basis1d IntRules ir_order ipw Tr none none tdata0).Dtensor e
            (3 * k + 1) = (PADiffusionIntegrator.pointMat 2 (ipw k) (Tr e k) m).get 1 0 ∧
        (I.ComputePA fe basis1d IntRules ir_order ipw Tr none none tdata0).Dtensor e
            (3 * k + 2) = (PADiffusionIntegrator.pointMat 2 (ipw k) (Tr e k) m).get 1 1) ∧
      ∀ (QQ : Nat → K) (c : Nat), c < 2 →
        PADiffusionIntegrator.applyD2
            (I.ComputePA fe basis1d IntRules ir_order ipw Tr none none tdata0).quads
            ((I.ComputePA fe basis1d IntRules ir_order ipw Tr none none tdata0).Dtensor e) QQ
            (c * I.quads + k) =
          ∑ d in range 2, (PADiffusionIntegrator.pointMat 2 (ipw k) (Tr e k) m).get c d *
            QQ (d * I.quads + k)) ∧
    (fe.GetDim = 3 →
      ((I.ComputePA fe basis1d IntRules ir_order ipw Tr none none tdata0).Dtensor e (6 * k + 0) =
          (PADiffusionIntegrator.pointMat 3 (ipw k) (Tr e k) m).get 0 0 ∧
        (I.ComputePA fe basis1d IntRules ir_order ipw Tr none none tdata0).Dtensor e
            (6 * k + 1) = (PADiffusionIntegrator.pointMat 3 (ipw k) (Tr e k) m).get 1 0 ∧
        (I.ComputePA fe basis1d IntRules ir_order ipw Tr none none tdata0).Dtensor e
            (6 * k + 2) = (PADiffusionIntegrator.pointMat 3 (ipw k) (Tr e k) m).get 2 0 ∧
        (I.ComputePA fe basis1d IntRules ir_order ipw Tr none none tdata0).Dtensor e
            (6 * k + 3) = (PADiffusionIntegrator.pointMat 3 (ipw k) (Tr e k) m).get 1 1 ∧
        (I.ComputePA fe basis1d IntRules ir_order ipw Tr none none tdata0).Dtensor e
            (6 * k + 4) = (PADiffusionIntegrator.pointMat 3 (ipw k) (Tr e k) m).get 2 1 ∧
        (I.ComputePA fe basis1d IntRules ir_order ipw Tr none none tdata0).Dtensor e
            (6 * k + 5) = (PADiffusionIntegrator.pointMat 3 (ipw k) (Tr e k) m).get 2 2) ∧
      ∀ (QQQ : Nat → K) (c : Nat), c < 3 →
        PADiffusionIntegrator.applyD3
            (I.ComputePA fe basis1d IntRules ir_order ipw Tr none none tdata0).quads
            ((I.ComputePA fe basis1d IntRules ir_order ipw Tr none none tdata0).Dtensor e) QQQ
            (c * I.quads + k) =
          ∑ d in range 3, (PADiffusionIntegrator.pointMat 3 (ipw k) (Tr e k) m).get c d *
            QQQ (d * I.quads + k)) := by
  have hq : (I.ComputePA fe basis1d IntRules ir_order ipw Tr none none tdata0).quads = I.quads :=
    rfl
  constructor
  · intro hdim
    have hs := PADiffusionIntegrator.ComputePA_slots2 I fe basis1d IntRules ir_order ipw Tr
      tdata0 m e k he hk hdim hh hw
    refine ⟨hs, ?_⟩
    obtain ⟨s0, s1, s2⟩ := hs
    have hsym := PADiffusionIntegrator.pointMat_symm 2 (ipw k) (Tr e k) m (hh.trans hdim)
      (hw.trans hdim) 0 1 (by omega) (by omega)
    intro QQ c hc
    rw [hq, applyD2_apply, Finset.sum_range_succ, Finset.sum_range_one]
    have hc2 : c = 0 ∨ c = 1 := by omega
    rcases hc2 with rfl | rfl
    · rw [if_pos (by omega)]
      simp only [Nat.zero_mul, Nat.zero_add, Nat.one_mul]
      rw [s0, s1, hsym]
    · rw [if_neg (by omega), if_pos (by omega)]
      simp only [Nat.zero_mul, Nat.zero_add, Nat.one_mul]
      rw [show I.quads + k - I.quads = k by omega, s1, s2]
  · intro hdim
    have hs := PADiffusionIntegrator.ComputePA_slots3 I fe basis1d IntRules ir_order ipw Tr
      tdata0 m e k he hk hdim hh hw
    refine ⟨hs, ?_⟩
    obtain ⟨s0, s1, s2, s3, s4, s5⟩ := hs
    have hsym := fun i j (hi : i < 3) (hj : j < 3) =>
      PADiffusionIntegrator.pointMat_symm 3 (ipw k) (Tr e k) m (hh.trans hdim)
        (hw.trans hdim) i j hi hj
    intro QQQ c hc
    obtain ⟨a0, a1, a2⟩ := applyD3_get I.quads
      ((I.ComputePA fe basis1d IntRules ir_order ipw Tr none none tdata0).Dtensor e) QQQ k hk
    rw [hq, Finset.sum_range_succ, Finset.sum_range_succ, Finset.sum_range_one]
    have hc3 : c = 0 ∨ c = 1 ∨ c = 2 := by omega
    rcases hc3 with rfl | rfl | rfl
    · rw [a0, s0, s1, s2, hsym 0 1 (by omega) (by omega), hsym 0 2 (by omega) (by omega)]
    · rw [a1, s1, s3, s4, hsym 1 2 (by omega) (by omega)]
    · rw [a2, s2, s4, s5]

/-- Claim C24 on one quadrilateral and one hexahedron with one point each (`exSetupQuad` with
`exTrQuad`, `exSetupHex` with `exTrHex`). -/
theorem C24_ComputePA_slots_match_kernels_witness :
    (0 < exSetupQuad.NE ∧ 0 < exSetupQuad.quads ∧ exFE2.GetDim = 2 ∧
      (exTrQuad 0 0).AdjugateJacobian.height = 2 ∧ (exTrQuad 0 0).AdjugateJacobian.width = 2 ∧
      0 < exSetupHex.NE ∧ 0 < exSetupHex.quads ∧ exFE3.GetDim = 3 ∧
      (exTrHex 0 0).AdjugateJacobian.height = 3 ∧ (exTrHex 0 0).AdjugateJacobian.width = 3) ∧
    (exSetupQuad.ComputePA exFE2 exSpace.GetBasis1D (exRules 1) 0 (fun _ => 1) exTrQuad none
        none (fun _ => 0)).Dtensor 0 (3 * 0 + 1) =
      (PADiffusionIntegrator.pointMat 2 ((fun _ => 1) 0) (exTrQuad 0 0) (fun _ => 0)).get 1 0 ∧
    (exSetupHex.ComputePA exFE3 exSpace.GetBasis1D (exRules 1) 0 (fun _ => 1) exTrHex none
        none (fun _ => 0)).Dtensor 0 (6 * 0 + 4) =
      (PADiffusionIntegrator.pointMat 3 ((fun _ => 1) 0) (exTrHex 0 0) (fun _ => 0)).get 2 1 :=
  ⟨by decide,
    ((C24_ComputePA_slots_match_kernels exSetupQuad exFE2 exSpace.GetBasis1D (exRules 1) 0
      (fun _ => 1) exTrQuad (fun _ => 0) (fun _ => 0) 0 0 (by decide) (by decide) rfl rfl).1
      rfl).1.2.1,
    ((C24_ComputePA_slots_match_kernels exSetupHex exFE3 exSpace.GetBasis1D (exRules 1) 0
      (fun _ => 1) exTrHex (fun _ => 0) (fun _ => 0) 0 0 (by decide) (by decide) rfl rfl).2
      rfl).1.2.2.2.2.1⟩

end SlotClaims

section AdjointClaims

variable {R : Type} [CommRing R]

/-- Claim C25. For `dofs1d ≤ quads1d` the backward pass of `MultHex` is the adjoint of its
forward pass. With `F(V)` the content of `QQQ` after the forward loops run on `V` and `B(Q)`
the increment that the backward loops add to the slice of `U` when `QQQ` holds `Q`:
`∑ i, B(Q)(i) * V(i) = ∑ c, ∑ k, Q(c,k) * F(V)(c,k)`, with the three tensors
`c = 0, 1, 2` at `c*quads + k` for diffusion (`quads = quads1d³`) and one tensor for mass. -/
theorem C25_MultHex_backward_is_adjoint (I : PADiffusionIntegrator R) (M : PAMassIntegrator R)
    (V Q : Nat → R) (s : HexState R) :
    (I.shape1d.height ≤ I.shape1d.width →
      I.quads = I.shape1d.width * I.shape1d.width * I.shape1d.width →
      ∑ i in range (I.shape1d.height * I.shape1d.height * I.shape1d.height),
          ((I.hexBackward { s with QQQ := Q }).U (s.offset + i) - s.U (s.offset + i)) *
            V (s.offset + i) =
        ∑ c in range 3, ∑ k in range (I.shape1d.width * I.shape1d.width * I.shape1d.width),
          Q (c * I.quads + k) * (I.hexForward V s).QQQ (c * I.quads + k)) ∧
    (M.shape1d.height ≤ M.shape1d.width →
      ∑ i in range (M.shape1d.height * M.shape1d.height * M.shape1d.height),
          ((M.hexBackward { s with QQQ := Q }).U (s.offset + i) - s.U (s.offset + i)) *
            V (s.offset + i) =
        ∑ k in range (M.shape1d.width * M.shape1d.width * M.shape1d.width),
          Q k * (M.hexForward V s).QQQ k) :=
  ⟨fun hdq hq => I.hex_adjoint_diff V Q s hdq hq, fun hdq => M.hex_adjoint_mass V Q s hdq⟩

/-- Claim C25 on `exDiffHex` and `exMassHex` (`dofs1d = quads1d = 2`), with the input `exV`,
the point values `exU` and the state `exHexState`. -/
theorem C25_MultHex_backward_is_adjoint_witness :
    (exDiffHex.shape1d.height ≤ exDiffHex.shape1d.width ∧
      exDiffHex.quads =
        exDiffHex.shape1d.width * exDiffHex.shape1d.width * exDiffHex.shape1d.width ∧
      exMassHex.shape1d.height ≤ exMassHex.shape1d.width) ∧
    ∑ i in range (exDiffHex.shape1d.height * exDiffHex.shape1d.height *
          exDiffHex.shape1d.height),
        ((exDiffHex.hexBackward { exHexState with QQQ := exU }).U (exHexState.offset + i) -
          exHexState.U (exHexState.offset + i)) * exV (exHexState.offset + i) =
      ∑ c in range 3, ∑ k in range (exDiffHex.shape1d.width * exDiffHex.shape1d.width *
          exDiffHex.shape1d.width),
        exU (c * exDiffHex.quads + k) *
          (exDiffHex.hexForward exV exHexState).QQQ (c * exDiffHex.quads + k) ∧
    ∑ i in range (exMassHex.shape1d.height * exMassHex.shape1d.height *
          exMassHex.shape1d.height),
        ((exMassHex.hexBackward { exHexState with QQQ := exU }).U (exHexState.offset + i) -
          exHexState.U (exHexState.offset + i)) * exV (exHexState.offset + i) =
      ∑ k in range (exMassHex.shape1d.width * exMassHex.shape1d.width *
          exMassHex.shape1d.width),
        exU k * (exMassHex.hexForward exV exHexState).QQQ k :=
  ⟨by decide,
    (C25_MultHex_backward_is_adjoint exDiffHex exMassHex exV exU exHexState).1
      (by decide) (by decide),
    (C25_MultHex_backward_is_adjoint exDiffHex exMassHex exV exU exHexState).2
      (by decide)⟩

end AdjointClaims

section LSolveClaims

variable {R : Type} [CommRing R]

/-- Claim C26. For pivots `ipiv[i] < m`, with `L` the unit lower triangular factor taken from
the strictly lower part of `data` and `P` the row permutation of the interchanges
`(i ↔ ipiv[i])` applied in the order `i = 0, ..., m-1`: after `kLSolve` every column `k < n`
of `x` satisfies `L · x_new = P · x_old`; it is the only column that does (it is
`L⁻¹ · P · x_old`); `P` permutes the rows `0 .. m-1`; and `x` is unchanged beyond its `n`
columns. -/
theorem C26_kLSolve_unit_lower_solve (m n : Nat) (data : Nat → R) (ipiv : Nat → Nat)
    (x : Nat → R) (hpiv : ∀ i, i < m → ipiv i < m) :
    (∀ k, k < n → ∀ r, r < m →
      ∑ c in range m, unitLower m data r c * kLSolve m n data ipiv x (k * m + c) =
        x (k * m + pivotPerm m ipiv r)) ∧
    (∀ k, k < n → ∀ y : Nat → R,
      (∀ r, r < m → ∑ c in range m, unitLower m data r c * y c =
        x (k * m + pivotPerm m ipiv r)) →
      ∀ r, r < m → y r = kLSolve m n data ipiv x (k * m + r)) ∧
    ((∀ r, r < m → pivotPerm m ipiv r < m) ∧
      ∀ r r', pivotPerm m ipiv r = pivotPerm m ipiv r' → r = r') ∧
    (∀ p, n * m ≤ p → kLSolve m n data ipiv x p = x p) := by
  obtain ⟨h1, h2⟩ := kLSolve_spec m n data ipiv x hpiv
  refine ⟨?_, ?_, ⟨fun r hr => pivotPerm_lt m m ipiv (le_refl _) hpiv r hr,
    fun r r' h => pivotPerm_inj m ipiv r r' h⟩, h2⟩
  · intro k hk r hr
    rw [unitLower_mulVec m data (fun c => kLSolve m n data ipiv x (k * m + c)) r hr]
    exact h1 k hk r hr
  · intro k hk y hy r hr
    induction r using Nat.strong_induction_on with
    | _ r ih =>
      have e1 := hy r hr
      rw [unitLower_mulVec m data y r hr] at e1
      have e2 := h1 k hk r hr
      have hs : ∑ c in range r, data (r + c * m) * y c =
          ∑ c in range r, data (r + c * m) * kLSolve m n data ipiv x (k * m + c) := by
        apply Finset.sum_congr rfl
        intro c hc
        rw [Finset.mem_range] at hc
        rw [ih c hc (by omega)]
      rw [hs, ← e2] at e1
      exact add_right_cancel e1

/-- Claim C26 on a 3 × 3 system with two right-hand sides (`exLU`, `exPiv`, `exX`): row 2 of
`L · x_new` in column 1 is entry `pivotPerm 3 exPiv 2` of the old column. -/
theorem C26_kLSolve_unit_lower_solve_witness :
    (∀ i, i < 3 → exPiv i < 3) ∧
    ∑ c in range 3, unitLower 3 exLU 2 c * kLSolve 3 2 exLU exPiv exX (1 * 3 + c) =
      exX (1 * 3 + pivotPerm 3 exPiv 2) :=
  ⟨by decide,
    (C26_kLSolve_unit_lower_solve 3 2 exLU exPiv exX (by decide)).1 1 (by decide) 2
      (by decide)⟩

end LSolveClaims

section ExtentClaims

variable {R : Type}

end ExtentClaims

section SymmetryClaims

variable {R : Type} [CommRing R]

/-- Claim C28. The partially assembled diffusion operator is symmetric: with `A(V)` the
output of `PADiffusionIntegrator::AssembleVector` on `V` and a zero-initialised output vector,
`∑ i, W(i) * A(V)(i) = ∑ i, V(i) * A(W)(i)` over the entries of the E-vector, for `dim = 1`,
`2` and `3` (in 3D with `dofs1d ≤ quads1d`), for all tables of equal size, every packed
D-tensor and all `V`, `W`. -/
theorem C28_diffusion_operator_symmetric (I : PADiffusionIntegrator R)
    (fes : FiniteElementSpace) (V W : Nat → R) :
    (I.dim = 1 → I.dshape1d.height = I.shape1d.height →
      I.dshape1d.width = I.shape1d.width →
      ∑ i in range (I.NE * I.vdim * I.shape1d.height),
          W i * (I.AssembleVector fes V (fun _ => 0)).vect i =
        ∑ i in range (I.NE * I.vdim * I.shape1d.height),
          V i * (I.AssembleVector fes W (fun _ => 0)).vect i) ∧
    (I.dim = 2 → I.dshape1d.height = I.shape1d.height →
      I.dshape1d.width = I.shape1d.width → I.dofs = I.shape1d.height ^ 2 →
      I.quads = I.shape1d.width ^ 2 →
      ∑ i in range (I.NE * I.vdim * I.dofs),
          W i * (I.AssembleVector fes V (fun _ => 0)).vect i =
        ∑ i in range (I.NE * I.vdim * I.dofs),
          V i * (I.AssembleVector fes W (fun _ => 0)).vect i) ∧
    (I.dim = 3 → I.shape1d.height ≤ I.shape1d.width → I.dofs = I.shape1d.height ^ 3 →
      I.quads = I.shape1d.width ^ 3 →
      ∑ i in range (I.NE * I.vdim * I.dofs),
          W i * (I.AssembleVector fes V (fun _ => 0)).vect i =
        ∑ i in range (I.NE * I.vdim * I.dofs),
          V i * (I.AssembleVector fes W (fun _ => 0)).vect i) := by
  refine ⟨?_, ?_, ?_⟩
  · intro hdim hh hw
    have hA : ∀ X : Nat → R, (I.AssembleVector fes X (fun _ => 0)).vect =
        I.MultSeg X (fun _ => 0) := by
      intro X
      unfold PADiffusionIntegrator.AssembleVector
      rw [if_pos hdim]
    rw [hA, hA, I.MultSeg_pair_diff V W hh hw, I.MultSeg_pair_diff W V hh hw]
    apply Finset.sum_congr rfl
    intro e _
    apply Finset.sum_congr rfl
    intro vd _
    apply Finset.sum_congr rfl
    intro k _
    ring
  · intro hdim hh hw hd hq
    have hA : ∀ X : Nat → R, (I.AssembleVector fes X (fun _ => 0)).vect =
        I.MultQuad X (fun _ => 0) := by
      intro X
      unfold PADiffusionIntegrator.AssembleVector
      rw [if_neg (by rw [hdim]; decide), if_pos hdim]
    rw [hA, hA, I.MultQuad_pair_diff V W hh hw hd hq, I.MultQuad_pair_diff W V hh hw hd hq]
    apply Finset.sum_congr rfl
    intro e _
    apply Finset.sum_congr rfl
    intro vd _
    rw [Dense.diffusionQuad_pair, Dense.diffusionQuad_pair]
    apply Finset.sum_congr rfl
    intro k1 _
    apply Finset.sum_congr rfl
    intro k2 _
    ring
  · intro hdim hdq hd hq
    have hA : ∀ X : Nat → R, (I.AssembleVector fes X (fun _ => 0)).vect =
        I.MultHex X (fun _ => 0) := by
      intro X
      unfold PADiffusionIntegrator.AssembleVector
      rw [if_neg (by rw [hdim]; decide), if_neg (by rw [hdim]; decide), if_pos hdim]
    rw [hA, hA, I.MultHex_pair_diff V W hdq hd hq, I.MultHex_pair_diff W V hdq hd hq]
    apply Finset.sum_congr rfl
    intro e _
    apply Finset.sum_congr rfl
    intro vd _
    rw [Dense.diffusionHex_pair, Dense.diffusionHex_pair]
    apply Finset.sum_congr rfl
    intro k1 _
    apply Finset.sum_congr rfl
    intro k2 _
    apply Finset.sum_congr rfl
    intro k3 _
    exact Dense.sym3_form
      (fun c d => Dense.Dsym (fun l k => I.Dtensor e (6 * k + l)) c d
        (k1 + I.shape1d.width * (k2 + I.shape1d.width * k3)))
      (fun c d hc hd => Dense.Dsym_symm _ c d _ hc hd) _ _

/-- Claim C28 on the integrators `exDiffSeg`, `exDiffQuad`, `exDiffHex` with the E-vectors `exV`
and `exU`. -/
theorem C28_diffusion_operator_symmetric_witness :
    (exDiffSeg.dim = 1 ∧ exDiffQuad.dim = 2 ∧ exDiffHex.dim = 3 ∧
      exDiffQuad.dshape1d.height = exDiffQuad.shape1d.height ∧
      exDiffQuad.dshape1d.width = exDiffQuad.shape1d.width ∧
      exDiffQuad.dofs = exDiffQuad.shape1d.height ^ 2 ∧
      exDiffQuad.quads = exDiffQuad.shape1d.width ^ 2 ∧
      exDiffHex.shape1d.height ≤ exDiffHex.shape1d.width ∧
      exDiffHex.dofs = exDiffHex.shape1d.height ^ 3 ∧
      exDiffHex.quads = exDiffHex.shape1d.width ^ 3) ∧
    ∑ i in range (exDiffSeg.NE * exDiffSeg.vdim * exDiffSeg.shape1d.height),
        exU i * (exDiffSeg.AssembleVector ⟨1⟩ exV (fun _ => 0)).vect i =
      ∑ i in range (exDiffSeg.NE * exDiffSeg.vdim * exDiffSeg.shape1d.height),
        exV i * (exDiffSeg.AssembleVector ⟨1⟩ exU (fun _ => 0)).vect i ∧
    ∑ i in range (exDiffQuad.NE * exDiffQuad.vdim * exDiffQuad.dofs),
        exU i * (exDiffQuad.AssembleVector ⟨2⟩ exV (fun _ => 0)).vect i =
      ∑ i in range (exDiffQuad.NE * exDiffQuad.vdim * exDiffQuad.dofs),
        exV i * (exDiffQuad.AssembleVector ⟨2⟩ exU (fun _ => 0)).vect i ∧
    ∑ i in range (exDiffHex.NE * exDiffHex.vdim * exDiffHex.dofs),
        exU i * (exDiffHex.AssembleVector ⟨3⟩ exV (fun _ => 0)).vect i =
      ∑ i in range (exDiffHex.NE * exDiffHex.vdim * exDiffHex.dofs),
        exV i * (exDiffHex.AssembleVector ⟨3⟩ exU (fun _ => 0)).vect i :=
  ⟨by decide,
    (C28_diffusion_operator_symmetric exDiffSeg ⟨1⟩ exV exU).1 (by decide) (by decide)
      (by decide),
    (C28_diffusion_operator_symmetric exDiffQuad ⟨2⟩ exV exU).2.1 (by decide) (by decide)
      (by decide) (by decide) (by decide),
    (C28_diffusion_operator_symmetric exDiffHex ⟨3⟩ exV exU).2.2 (by decide) (by decide)
      (by decide) (by decide)⟩

end SymmetryClaims

section PsdClaims

variable {K : Type} [LinearOrderedField K]

/-- Claim C29. Over an ordered field such as the rationals, with all entries of `Dmat`
non-negative, the partially assembled mass operator is positive semidefinite: with `M(V)` the
output of `PAMassIntegrator::AssembleVector` on `V` and a zero-initialised output vector,
`∑ i, V(i) * M(V)(i)` equals the sum over the elements `e`, the components `vd` and the points
`k` of `Dmat(k,e) * g(k)²`, where `g` is the forward-contracted field of `V` on the slice of
`(e, vd)`, and so it is `≥ 0`; for `dim = 1`, `2` and `3` (in 3D with `dofs1d ≤ quads1d`). -/
theorem C29_mass_operator_positive_semidefinite (I : PAMassIntegrator K) (MFEM_DEBUG : Bool)
    (fespace : FiniteElementSpace) (V : Nat → K)
    (hdbg : MFEM_DEBUG = true → fespace.feDim = I.dim)
    (hD : ∀ k e, 0 ≤ I.Dmat.get k e) :
    (I.dim = 1 →
      ∑ i in range (I.NE * I.vdim * I.shape1d.height),
          V i * (I.AssembleVector MFEM_DEBUG fespace V (fun _ => 0)).vect i =
        ∑ e in range I.NE, ∑ vd in range I.vdim, ∑ k in range I.shape1d.width,
          I.Dmat.get k e * Dense.gSeg I.shape1d.height I.shape1d.get
            (fun j => V ((e * I.vdim + vd) * I.shape1d.height + j)) k ^ 2 ∧
      0 ≤ ∑ i in range (I.NE * I.vdim * I.shape1d.height),
          V i * (I.AssembleVector MFEM_DEBUG fespace V (fun _ => 0)).vect i) ∧
    (I.dim = 2 → I.dofs = I.shape1d.height ^ 2 → I.quads = I.shape1d.width ^ 2 →
      ∑ i in range (I.NE * I.vdim * I.dofs),
          V i * (I.AssembleVector MFEM_DEBUG fespace V (fun _ => 0)).vect i =
        ∑ e in range I.NE, ∑ vd in range I.vdim,
          ∑ k1 in range I.shape1d.width, ∑ k2 in range I.shape1d.width,
            I.Dmat.get (k1 + I.shape1d.width * k2) e *
              Dense.gQuad I.shape1d.height I.shape1d.get I.shape1d.get
                (fun j1 j2 => V ((e * I.vdim + vd) * I.dofs + (j1 + j2 * I.shape1d.height)))
                k1 k2 ^ 2 ∧
      0 ≤ ∑ i in range (I.NE * I.vdim * I.dofs),
          V i * (I.AssembleVector MFEM_DEBUG fespace V (fun _ => 0)).vect i) ∧
    (I.dim = 3 → I.shape1d.height ≤ I.shape1d.width → I.dofs = I.shape1d.height ^ 3 →
      I.quads = I.shape1d.width ^ 3 →
      ∑ i in range (I.NE * I.vdim * I.dofs),
          V i * (I.AssembleVector MFEM_DEBUG fespace V (fun _ => 0)).vect i =
        ∑ e in range I.NE, ∑ vd in range I.vdim,
          ∑ k1 in range I.shape1d.width, ∑ k2 in range I.shape1d.width,
            ∑ k3 in range I.shape1d.width,
              I.Dmat.get (k1 + I.shape1d.width * (k2 + I.shape1d.width * k3)) e *
                Dense.gHex I.shape1d.height I.shape1d.get
                  (fun j1 j2 j3 => V ((e * I.vdim + vd) * I.dofs +
                    (j1 + I.shape1d.height * (j2 + I.shape1d.height * j3)))) k1 k2 k3 ^ 2 ∧
      0 ≤ ∑ i in range (I.NE * I.vdim * I.dofs),
          V i * (I.AssembleVector MFEM_DEBUG fespace V (fun _ => 0)).vect i) := by
  have hchk : ¬ (MFEM_DEBUG = true ∧ ¬ (fespace.feDim = I.dim)) := fun h => h.2 (hdbg h.1)
  refine ⟨?_, ?_, ?_⟩
  · intro hdim
    have hA : (I.AssembleVector MFEM_DEBUG fespace V (fun _ => 0)).vect =
        I.MultSeg V (fun _ => 0) := by
      unfold PAMassIntegrator.AssembleVector
      rw [if_neg hchk, if_pos hdim]
    have hE : ∑ i in range (I.NE * I.vdim * I.shape1d.height),
          V i * (I.AssembleVector MFEM_DEBUG fespace V (fun _ => 0)).vect i =
        ∑ e in range I.NE, ∑ vd in range I.vdim, ∑ k in range I.shape1d.width,
          I.Dmat.get k e * Dense.gSeg I.shape1d.height I.shape1d.get
            (fun j => V ((e * I.vdim + vd) * I.shape1d.height + j)) k ^ 2 := by
      rw [hA, I.MultSeg_pair_mass V V]
      apply Finset.sum_congr rfl
      intro e _
      apply Finset.sum_congr rfl
      intro vd _
      apply Finset.sum_congr rfl
      intro k _
      ring
    refine ⟨hE, ?_⟩
    rw [hE]
    exact Finset.sum_nonneg (fun e _ => Finset.sum_nonneg (fun vd _ =>
      Finset.sum_nonneg (fun k _ => mul_nonneg (hD k e) (sq_nonneg _))))
  · intro hdim hd hq
    have hA : (I.AssembleVector MFEM_DEBUG fespace V (fun _ => 0)).vect =
        I.MultQuad V (fun _ => 0) := by
      unfold PAMassIntegrator.AssembleVector
      rw [if_neg hchk, if_neg (by rw [hdim]; decide), if_pos hdim]
    have hE : ∑ i in range (I.NE * I.vdim * I.dofs),
          V i * (I.AssembleVector MFEM_DEBUG fespace V (fun _ => 0)).vect i =
        ∑ e in range I.NE, ∑ vd in range I.vdim,
          ∑ k1 in range I.shape1d.width, ∑ k2 in range I.shape1d.width,
            I.Dmat.get (k1 + I.shape1d.width * k2) e *
              Dense.gQuad I.shape1d.height I.shape1d.get I.shape1d.get
                (fun j1 j2 => V ((e * I.vdim + vd) * I.dofs + (j1 + j2 * I.shape1d.height)))
                k1 k2 ^ 2 := by
      rw [hA, I.MultQuad_pair_mass V V hd hq]
      apply Finset.sum_congr rfl
      intro e _
      apply Finset.sum_congr rfl
      intro vd _
      rw [Dense.massQuad_pair]
      apply Finset.sum_congr rfl
      intro k1 _
      apply Finset.sum_congr rfl
      intro k2 _
      ring
    refine ⟨hE, ?_⟩
    rw [hE]
    exact Finset.sum_nonneg (fun e _ => Finset.sum_nonneg (fun vd _ =>
      Finset.sum_nonneg (fun k1 _ => Finset.sum_nonneg (fun k2 _ =>
        mul_nonneg (hD _ e) (sq_nonneg _)))))
  · intro hdim hdq hd hq
    have hA : (I.AssembleVector MFEM_DEBUG fespace V (fun _ => 0)).vect =
        I.MultHex V (fun _ => 0) := by
      unfold PAMassIntegrator.AssembleVector
      rw [if_neg hchk, if_neg (by rw [hdim]; decide), if_neg (by rw [hdim]; decide),
        if_pos hdim]
    have hE : ∑ i in range (I.NE * I.vdim * I.dofs),
          V i * (I.AssembleVector MFEM_DEBUG fespace V (fun _ => 0)).vect i =
        ∑ e in range I.NE, ∑ vd in range I.vdim,
          ∑ k1 in range I.shape1d.width, ∑ k2 in range I.shape1d.width,
            ∑ k3 in range I.shape1d.width,
              I.Dmat.get (k1 + I.shape1d.width * (k2 + I.shape1d.width * k3)) e *
                Dense.gHex I.shape1d.height I.shape1d.get
                  (fun j1 j2 j3 => V ((e * I.vdim + vd) * I.dofs +
                    (j1 + I.shape1d.height * (j2 + I.shape1d.height * j3)))) k1 k2 k3 ^ 2 := by
      rw [hA, I.MultHex_pair_mass V V hdq hd hq]
      apply Finset.sum_congr rfl
      intro e _
      apply Finset.sum_congr rfl
      intro vd _
      rw [Dense.massHex_pair]
      apply Finset.sum_congr rfl
      intro k1 _
      apply Finset.sum_congr rfl
      intro k2 _
      apply Finset.sum_congr rfl
      intro k3 _
      ring
    refine ⟨hE, ?_⟩
    rw [hE]
    exact Finset.sum_nonneg (fun e _ => Finset.sum_nonneg (fun vd _ =>
      Finset.sum_nonneg (fun k1 _ => Finset.sum_nonneg (fun k2 _ =>
        Finset.sum_nonneg (fun k3 _ => mul_nonneg (hD _ e) (sq_nonneg _))))))

/-- Claim C29 on the unit-square mass integrator `exUnitSquare` over the rationals
(`D = 1/4` at the four points), with the E-vector `V(p) = p - 1`. -/
theorem C29_mass_operator_positive_semidefinite_witness :
    (exUnitSquare.dim = 2 ∧ exUnitSquare.dofs = exUnitSquare.shape1d.height ^ 2 ∧
      exUnitSquare.quads = exUnitSquare.shape1d.width ^ 2 ∧
      ∀ k e, 0 ≤ exUnitSquare.Dmat.get k e) ∧
    0 ≤ ∑ i in range (exUnitSquare.NE * exUnitSquare.vdim * exUnitSquare.dofs),
      (fun p : Nat => (p : ℚ) - 1) i *
        (exUnitSquare.AssembleVector true ⟨2⟩ (fun p : Nat => (p : ℚ) - 1)
          (fun _ => 0)).vect i :=
  have hD : ∀ k e, 0 ≤ exUnitSquare.Dmat.get k e := fun _ _ =>
    show (0 : ℚ) ≤ 1 / 4 by norm_num
  ⟨⟨by decide, by decide, by decide, hD⟩,
    ((C29_mass_operator_positive_semidefinite exUnitSquare true ⟨2⟩
      (fun p : Nat => (p : ℚ) - 1) (fun _ => rfl) hD).2.1 (by decide) (by decide)
      (by decide)).2⟩

end PsdClaims

section FactorClaims

variable {K : Type} [LinearOrderedField K]

/-- Claim C30. When the steps `i = 0 .. m-1` of `kFactor` run one after the other on the
`m × m` column-major array `A` and the pivot met at every step is non-zero, the run returns
a final state whose `data` holds `L` (unit lower triangular, strictly lower part) and `U`
(upper part with the diagonal) with `L · U = P · A`, where `P` applies the recorded
interchanges `(i ↔ ipiv[i])` in the order `i = 0, ..., m-1`; the recorded pivots satisfy
`i ≤ ipiv[i] < m`. -/
theorem C30_kFactor_LU_factorisation (m : Nat) (ipiv : Nat → Nat) (A : Nat → K)
    (hpiv : ∀ i, i < m → ∀ s, kFactorSteps m i ⟨ipiv, A⟩ = some s → kFactorDiag m i s ≠ 0) :
    ∃ s, kFactor m ipiv A = some s ∧
      (∀ r c, r < m → c < m →
        ∑ j in range m, unitLower m s.data r j * upperPart m s.data j c =
          A (pivotPerm m s.ipiv r + c * m)) ∧
      (∀ i, i < m → i ≤ s.ipiv i ∧ s.ipiv i < m) := by
  obtain ⟨s, hs, hinv, hrange⟩ := kFactorSteps_inv m A ipiv m (le_refl _) hpiv
  exact ⟨s, hs, fun r c hr hc => LUInvariant_final m A s hinv r c hr hc, hrange⟩

/-- Claim C30 on the matrix `(1 2; 3 4)` over the rationals: both pivots met are non-zero, and
the run returns factors with `L · U = P · A`. -/
theorem C30_kFactor_LU_factorisation_witness :
    (∀ i, i < 2 → ∀ s, kFactorSteps 2 i ⟨fun _ => 0, exA2⟩ = some s →
      kFactorDiag 2 i s ≠ 0) ∧
    ∃ s, kFactor 2 (fun _ => 0) exA2 = some s ∧
      (∀ r c, r < 2 → c < 2 →
        ∑ j in range 2, unitLower 2 s.data r j * upperPart 2 s.data j c =
          exA2 (pivotPerm 2 s.ipiv r + c * 2)) ∧
      (∀ i, i < 2 → i ≤ s.ipiv i ∧ s.ipiv i < 2) :=
  have h : ∀ i, i < 2 → ∀ s, s ∈ kFactorSteps 2 i ⟨fun _ => 0, exA2⟩ →
      kFactorDiag 2 i s ≠ 0 := by decide!
  ⟨h, C30_kFactor_LU_factorisation 2 (fun _ => 0) exA2 h⟩

end FactorClaims

section PivotClaims

variable {K : Type} [LinearOrderedField K]

/-- Claim C31. Over an ordered field such as the rationals, a sequential run of `kFactor` on
an `m × m` matrix whose pivots are all non-zero returns a state in which every recorded pivot
satisfies `i ≤ ipiv[i] < m`; `ipiv[i]` attains the largest magnitude among the rows `j ≥ i` of
column `i` of the partially reduced matrix before step `i`, and every row `i ≤ j < ipiv[i]`
has a strictly smaller magnitude there; every entry below the diagonal of the result, the
multipliers, has magnitude at most 1. -/
theorem C31_kFactor_partial_pivoting (m : Nat) (ipiv : Nat → Nat) (A : Nat → K)
    (hpiv : ∀ i, i < m → ∀ s, kFactorSteps m i ⟨ipiv, A⟩ = some s → kFactorDiag m i s ≠ 0) :
    ∃ s, kFactor m ipiv A = some s ∧
      (∀ i, i < m → i ≤ s.ipiv i ∧ s.ipiv i < m) ∧
      (∀ i, i < m → ∃ si, kFactorSteps m i ⟨ipiv, A⟩ = some si ∧
        (∀ j, i ≤ j → j < m → |si.data (j + i * m)| ≤ |si.data (s.ipiv i + i * m)|) ∧
        (∀ j, i ≤ j → j < s.ipiv i →
          |si.data (j + i * m)| < |si.data (s.ipiv i + i * m)|)) ∧
      (∀ r c, c < r → r < m → |s.data (r + c * m)| ≤ 1) := by
  obtain ⟨s, hs, hrec, hmul⟩ := kFactorSteps_pivoting m A ipiv m (le_refl _) hpiv
  refine ⟨s, hs, fun i hi => ?_, fun i hi => ?_, fun r c hcr hr => hmul r c (by omega) hcr hr⟩
  · obtain ⟨si, _, h2⟩ := hrec i hi
    obtain ⟨p1, p2, _, _⟩ := kFactorPivot_max m i si.data hi
    rw [h2]
    exact ⟨p1, p2⟩
  · obtain ⟨si, h1, h2⟩ := hrec i hi
    obtain ⟨_, _, p3, p4⟩ := kFactorPivot_max m i si.data hi
    rw [h2]
    exact ⟨si, h1, p3, p4⟩

/-- Claim C31 on the matrix `(1 2; 3 4)` over the rationals: both pivots met are non-zero; the
first recorded pivot is row 1 (magnitude 3 against 1) and the multiplier is `1/3`. -/
theorem C31_kFactor_partial_pivoting_witness :
    (∀ i, i < 2 → ∀ s, kFactorSteps 2 i ⟨fun _ => 0, exA2⟩ = some s →
      kFactorDiag 2 i s ≠ 0) ∧
    (∃ s, kFactor 2 (fun _ => 0) exA2 = some s ∧
      (∀ i, i < 2 → i ≤ s.ipiv i ∧ s.ipiv i < 2) ∧
      (∀ i, i < 2 → ∃ si, kFactorSteps 2 i ⟨fun _ => 0, exA2⟩ = some si ∧
        (∀ j, i ≤ j → j < 2 → |si.data (j + i * 2)| ≤ |si.data (s.ipiv i + i * 2)|) ∧
        (∀ j, i ≤ j → j < s.ipiv i →
          |si.data (j + i * 2)| < |si.data (s.ipiv i + i * 2)|)) ∧
      (∀ r c, c < r → r < 2 → |s.data (r + c * 2)| ≤ 1)) ∧
    (kFactor 2 (fun _ => 0) exA2).map (fun s => (s.ipiv 0, s.ipiv 1, s.data 1)) =
      some (1, 1, 1 / 3) :=
  have h : ∀ i, i < 2 → ∀ s, s ∈ kFactorSteps 2 i ⟨fun _ => 0, exA2⟩ →
      kFactorDiag 2 i s ≠ 0 := by decide!
  ⟨h, C31_kFactor_partial_pivoting 2 (fun _ => 0) exA2 h, by decide!⟩

end PivotClaims

section USolveClaims

variable {K : Type} [Field K]

/-- Claim C32. In exact arithmetic (any field), for all `m`, `n`, every `m × m` column-major
`data` with non-zero diagonal and every `m × n` right-hand side `x`, `kUSolve` replaces each
column `k` of `x` by a solution of `U · x_new = x_old`, where `U` is the upper triangle of
`data` with its diagonal; every solution of that system equals the computed column; `data`
below the diagonal does not affect the result; nothing beyond the `n` columns is changed. -/
theorem C32_kUSolve_upper_triangular_solve (m n : Nat) (data x : Nat → K)
    (hd : ∀ j, j < m → data (j + j * m) ≠ 0) :
    (∀ k, k < n → ∀ r, r < m →
      ∑ c in range m, upperPart m data r c * kUSolve m n data x (k * m + c) =
        x (k * m + r)) ∧
    (∀ k, k < n → ∀ z : Nat → K,
      (∀ r, r < m → ∑ c in range m, upperPart m data r c * z c = x (k * m + r)) →
      ∀ r, r < m → z r = kUSolve m n data x (k * m + r)) ∧
    (∀ other : Nat → K,
      (∀ r c, r ≤ c → c < m → other (r + c * m) = data (r + c * m)) →
      kUSolve m n other x = kUSolve m n data x) ∧
    (∀ p, n * m ≤ p → kUSolve m n data x p = x p) := by
  obtain ⟨h1, h2⟩ := kUSolve_spec m n data hd x
  refine ⟨fun k hk r hr => ?_, fun k hk z hz r hr => ?_,
    fun other h => kUSolve_upper_only m n data other h x, h2⟩
  · simp only [upperPart, ite_mul, zero_mul]
    exact h1 k hk r hr
  · simp only [upperPart, ite_mul, zero_mul] at hz
    exact upper_solution_unique m data hd (fun r => x (k * m + r)) z
      (fun c => kUSolve m n data x (k * m + c)) hz (h1 k hk) r hr

/-- Claim C32 on `exU2` (upper triangle `2 1; 0 4`, the entry `7` below the diagonal) and the
two columns `(1, 2)` and `(3, 4)` of `exXq`: the first column becomes `(1/4, 1/2)`. -/
theorem C32_kUSolve_upper_triangular_solve_witness :
    (∀ j, j < 2 → exU2 (j + j * 2) ≠ 0) ∧
    (∑ c in range 2, upperPart 2 exU2 0 c * kUSolve 2 2 exU2 exXq (0 * 2 + c) =
      exXq (0 * 2 + 0)) ∧
    kUSolve 2 2 exU2 exXq 0 = 1 / 4 ∧ kUSolve 2 2 exU2 exXq 1 = 1 / 2 :=
  ⟨by decide!,
    (C32_kUSolve_upper_triangular_solve 2 2 exU2 exXq (by decide!)).1 0 (by decide) 0
      (by decide),
    by decide!, by decide!⟩

end USolveClaims

section TransposeClaims

/-- Claim C33, what the code does. For `i < height` and `j < width`,
`DenseMatrixTranspose(height, width, data, mdata)` leaves in `data(i, j)` the source entry
`mdata[j + i*height]` and reads that index: the source is indexed with the stride `height`,
not with its leading dimension `width`. It is the entry `M(j, i) = mdata[j + i*width]` of the
claim when the matrix is square. -/
theorem C33_DenseMatrixTranspose_source_stride {R : Type} (height width : Nat)
    (data mdata : Nat → R)
    (i j : Nat) (hi : i < height) (hj : j < width) :
    DenseMatrixTranspose height width data mdata (i + j * height) = mdata (j + i * height) ∧
    j + i * height ∈ DenseMatrixTransposeReads height width ∧
    (height = width →
      DenseMatrixTranspose height width data mdata (i + j * height) =
        mdata (j + i * width)) := by
  refine ⟨DenseMatrixTranspose_get height width data mdata i j hi hj,
    (DenseMatrixTransposeReads_mem height width _).2 ⟨i, j, hi, hj, rfl⟩, fun h => ?_⟩
  rw [DenseMatrixTranspose_get height width data mdata i j hi hj, h]

/-- Claim C33 fails on the code. For `height = 2`, `width = 3` and `mdata[p] = p`, the stored
`data(1, 0)` is `mdata[0 + 1*2] = 2`, while `M(0, 1) = mdata[0 + 1*3] = 3`; for `height = 3`,
`width = 1` the index `0 + 2*3 = 6` is read, outside the `3*1` entries of `mdata`. -/
theorem C33_DenseMatrixTranspose_source_stride_witness :
    (1 < 2 ∧ 0 < 3 ∧ 2 < 3 ∧ 0 < 1) ∧
    DenseMatrixTranspose 2 3 (fun _ => 0) exRamp (1 + 0 * 2) = exRamp (0 + 1 * 2) ∧
    exRamp (0 + 1 * 2) = 2 ∧ exRamp (0 + 1 * 3) = 3 ∧
    0 + 2 * 3 ∈ DenseMatrixTransposeReads 3 1 ∧ ¬ (0 + 2 * 3 < 3 * 1) :=
  ⟨by decide,
    (C33_DenseMatrixTranspose_source_stride 2 3 (fun _ => 0) exRamp 1 0 (by decide)
      (by decide)).1,
    by decide, by decide,
    (C33_DenseMatrixTranspose_source_stride 3 1 (fun _ => 0) exRamp 2 0 (by decide)
      (by decide)).2.1,
    by decide⟩

end TransposeClaims

section InverseClaims

variable {R : Type} [CommRing R]

/-- Claim C34. For every 3 × 3 column-major matrix `a`, every scalar `t` and every initial
content of `inva`, the matrix that `kCalcInverse3D(t, a, inva)` writes satisfies
`a · inva = inva · a = (t · kDet3(a)) · I`: entry `(r, c)` of either product is `t · kDet3(a)`
on the diagonal and `0` off it; so when `t · kDet3(a) = 1` it is the two-sided inverse of `a`.
Nothing is written beyond the nine entries. -/
theorem C34_kCalcInverse3D_adjugate (t : R) (a inva : Nat → R) (r c : Nat) (hr : r < 3)
    (hc : c < 3) :
    ∑ k in range 3, a (r + 3 * k) * kCalcInverse3D t a inva (k + 3 * c) =
      (if r = c then t * kDet3 a else 0) ∧
    ∑ k in range 3, kCalcInverse3D t a inva (r + 3 * k) * a (k + 3 * c) =
      (if r = c then t * kDet3 a else 0) ∧
    (t * kDet3 a = 1 →
      ∑ k in range 3, a (r + 3 * k) * kCalcInverse3D t a inva (k + 3 * c) =
        (if r = c then 1 else 0) ∧
      ∑ k in range 3, kCalcInverse3D t a inva (r + 3 * k) * a (k + 3 * c) =
        (if r = c then 1 else 0)) ∧
    (∀ p, 9 ≤ p → kCalcInverse3D t a inva p = inva p) := by
  have h1 : ∑ k in range 3, a (r + 3 * k) * kCalcInverse3D t a inva (k + 3 * c) =
      (if r = c then t * kDet3 a else 0) := by
    have hr3 : r = 0 ∨ r = 1 ∨ r = 2 := by omega
    have hc3 : c = 0 ∨ c = 1 ∨ c = 2 := by omega
    rcases hr3 with rfl | rfl | rfl <;> rcases hc3 with rfl | rfl | rfl <;>
      simp [kCalcInverse3D, kDet3, setAt, Finset.sum_range_succ] <;> ring
  have h2 : ∑ k in range 3, kCalcInverse3D t a inva (r + 3 * k) * a (k + 3 * c) =
      (if r = c then t * kDet3 a else 0) := by
    have hr3 : r = 0 ∨ r = 1 ∨ r = 2 := by omega
    have hc3 : c = 0 ∨ c = 1 ∨ c = 2 := by omega
    rcases hr3 with rfl | rfl | rfl <;> rcases hc3 with rfl | rfl | rfl <;>
      simp [kCalcInverse3D, kDet3, setAt, Finset.sum_range_succ] <;> ring
  refine ⟨h1, h2, fun ht => ?_, fun p hp => ?_⟩
  · rw [h1, h2, ht]
    exact ⟨rfl, rfl⟩
  · unfold kCalcInverse3D
    simp only [setAt]
    repeat rw [if_neg (by omega)]

/-- Claim C34 on the matrix `exA3` (determinant `25`) with `t = 1`, at the entries `(0, 0)` and
`(1, 2)` of `a · inva`. -/
theorem C34_kCalcInverse3D_adjugate_witness :
    ∑ k in range 3, exA3 (0 + 3 * k) * kCalcInverse3D 1 exA3 (fun _ => 0) (k + 3 * 0) = 25 ∧
    ∑ k in range 3, exA3 (1 + 3 * k) * kCalcInverse3D 1 exA3 (fun _ => 0) (k + 3 * 2) = 0 :=
  ⟨(C34_kCalcInverse3D_adjugate 1 exA3 (fun _ => 0) 0 0 (by decide) (by decide)).1.trans
      (by decide),
    (C34_kCalcInverse3D_adjugate 1 exA3 (fun _ => 0) 1 2 (by decide) (by decide)).1.trans
      (by decide)⟩

end InverseClaims

section BlockGuardClaims

/-- Claim C35, what the code does. On a finalized `BlockMatrix` the guard of `findGlobalRow`
fires exactly for `iglobal > row_offsets[nRowBlocks]`. With non-decreasing offsets that start
at 0, the index `iglobal = row_offsets[nRowBlocks]` is accepted and returns
`iblock = nRowBlocks`, `iloc = 0`, and every negative index is accepted and returns
`iblock = 0`, `iloc = iglobal < 0`: no error is reported for these invalid indices.
`findGlobalCol` behaves the same over `col_offsets`. -/
theorem C35_findGlobal_accepts_invalid_index (B : BlockMatrix) (hfill : B.is_filled = true) :
    (∀ iglobal : Int, B.findGlobalRow iglobal = Except.error "BlockMatrix::findGlobalRow" ↔
      iglobal > B.row_offsets B.nRowBlocks) ∧
    (B.row_offsets 0 = 0 →
      (∀ b, b < B.nRowBlocks → B.row_offsets b ≤ B.row_offsets (b + 1)) →
      B.findGlobalRow (B.row_offsets B.nRowBlocks) = Except.ok (B.nRowBlocks, 0) ∧
      ∀ iglobal : Int, iglobal < 0 → B.findGlobalRow iglobal = Except.ok (0, iglobal)) ∧
    (∀ jglobal : Int, B.findGlobalCol jglobal = Except.error "BlockMatrix::findGlobalCol" ↔
      jglobal > B.col_offsets B.nColBlocks) ∧
    (B.col_offsets 0 = 0 →
      (∀ b, b < B.nColBlocks → B.col_offsets b ≤ B.col_offsets (b + 1)) →
      B.findGlobalCol (B.col_offsets B.nColBlocks) = Except.ok (B.nColBlocks, 0) ∧
      ∀ jglobal : Int, jglobal < 0 → B.findGlobalCol jglobal = Except.ok (0, jglobal)) := by
  refine ⟨?_, ?_, ?_, ?_⟩
  · intro iglobal
    unfold BlockMatrix.findGlobalRow
    by_cases h : iglobal > B.row_offsets B.nRowBlocks
    · simp [hfill, h]
    · simp [hfill, h]
  · intro h0 hmono
    have hlast := BlockMatrix.offsets_le_last B.row_offsets B.nRowBlocks hmono
    constructor
    · unfold BlockMatrix.findGlobalRow
      rw [if_neg (by simp [hfill])]
      dsimp only
      rw [BlockMatrix.scanBlocks_none B.row_offsets _ B.nRowBlocks 0
        (fun b _ hb => hlast (B.nRowBlocks - (b + 1)) (b + 1) (by omega))]
      simp
    · intro iglobal hneg
      have hn := hlast B.nRowBlocks 0 (by omega)
      unfold BlockMatrix.findGlobalRow
      rw [if_neg (by simp [hfill]; omega)]
      dsimp only
      have hs : BlockMatrix.scanBlocks B.row_offsets iglobal B.nRowBlocks 0 = 0 := by
        cases hnb : B.nRowBlocks with
        | zero => rfl
        | succ k =>
          unfold BlockMatrix.scanBlocks
          have := hmono 0 (by omega)
          rw [if_pos (by omega)]
      rw [hs, h0, sub_zero]
  · intro jglobal
    unfold BlockMatrix.findGlobalCol
    by_cases h : jglobal > B.col_offsets B.nColBlocks
    · simp [hfill, h]
    · simp [hfill, h]
  · intro h0 hmono
    have hlast := BlockMatrix.offsets_le_last B.col_offsets B.nColBlocks hmono
    constructor
    · unfold BlockMatrix.findGlobalCol
      rw [if_neg (by simp [hfill])]
      dsimp only
      rw [BlockMatrix.scanBlocks_none B.col_offsets _ B.nColBlocks 0
        (fun b _ hb => hlast (B.nColBlocks - (b + 1)) (b + 1) (by omega))]
      simp
    · intro jglobal hneg
      have hn := hlast B.nColBlocks 0 (by omega)
      unfold BlockMatrix.findGlobalCol
      rw [if_neg (by simp [hfill]; omega)]
      dsimp only
      have hs : BlockMatrix.scanBlocks B.col_offsets jglobal B.nColBlocks 0 = 0 := by
        cases hnb : B.nColBlocks with
        | zero => rfl
        | succ k =>
          unfold BlockMatrix.scanBlocks
          have := hmono 0 (by omega)
          rw [if_pos (by omega)]
      rw [hs, h0, sub_zero]

/-- Claim C35 fails on the code. On the finalized `exBlock` (row offsets `0, 2, 2, 5`, column
offsets `0, 4, 5`) the invalid row `5 = row_offsets[3]` returns `iblock = 3 = nRowBlocks`
without error, the invalid row `-1` returns `iloc = -1` without error, and likewise the
columns `5` and `-1`; the first rejected row is `6`. -/
theorem C35_findGlobal_accepts_invalid_index_witness :
    (exBlock.is_filled = true ∧ exBlock.row_offsets 0 = 0 ∧ exBlock.col_offsets 0 = 0 ∧
      (∀ b, b < exBlock.nRowBlocks → exBlock.row_offsets b ≤ exBlock.row_offsets (b + 1)) ∧
      (∀ b, b < exBlock.nColBlocks → exBlock.col_offsets b ≤ exBlock.col_offsets (b + 1)) ∧
      exBlock.row_offsets exBlock.nRowBlocks = 5 ∧
      exBlock.col_offsets exBlock.nColBlocks = 5) ∧
    exBlock.findGlobalRow (exBlock.row_offsets exBlock.nRowBlocks) =
      Except.ok (exBlock.nRowBlocks, 0) ∧
    exBlock.findGlobalRow (-1) = Except.ok (0, -1) ∧
    exBlock.findGlobalCol (exBlock.col_offsets exBlock.nColBlocks) =
      Except.ok (exBlock.nColBlocks, 0) ∧
    exBlock.findGlobalCol (-1) = Except.ok (0, -1) ∧
    exBlock.findGlobalRow 6 = Except.error "BlockMatrix::findGlobalRow" :=
  ⟨by decide,
    ((C35_findGlobal_accepts_invalid_index exBlock rfl).2.1 (by decide) (by decide)).1,
    ((C35_findGlobal_accepts_invalid_index exBlock rfl).2.1 (by decide) (by decide)).2 (-1)
      (by decide),
    ((C35_findGlobal_accepts_invalid_index exBlock rfl).2.2.2 (by decide) (by decide)).1,
    ((C35_findGlobal_accepts_invalid_index exBlock rfl).2.2.2 (by decide) (by decide)).2 (-1)
      (by decide),
    rfl⟩

end BlockGuardClaims

end mfem
